import Mathlib

/-! Code-object model of `libamdhsacode/amd_hsa_code.cpp`.

A shallow embedding of `amd::hsa::code::AmdHsaCode`: the consumer side
(version-dispatched ingestion, symbol classification, `GetInfo`) and the
producer side (`InitNew`, sections, segments, symbols, `AddKernelCode`,
initializers and relocations, `Freeze`) and `PrintToFile`, together with the
properties proved about them.

Conventions of the embedding:

* A pointer into substrate-owned storage (`Segment*`, `Section*`,
  `amd::elf::Symbol*`) is the index of the entry in the image's table; `none`
  is `nullptr`.
* A `std::string` is a `String`, one `Char` per byte.
* Machine integers are `Nat`; truncating casts are written `% 2 ^ 32`.
* The destination `void* value` of `GetInfo` is a byte memory `Nat → Nat`
  indexed from the pointer; scalars are stored little-endian.
-/

namespace amd.hsa.code

/-! ## Constants of the ELF and HSA headers -/

/-- Modelled from the spec: ELF program-header type `PT_LOAD` (header not under src/). -/
def PT_LOAD : Nat := 1

/-- Modelled from the spec: start of the OS-reserved program-header range, `PT_LOOS`. -/
def PT_LOOS : Nat := 0x60000000

/-- Modelled from the spec: `PT_LOOS + AMDGPU_HSA_SEGMENT_GLOBAL_PROGRAM` of `amd_hsa_elf.h`. -/
def PT_AMDGPU_HSA_LOAD_GLOBAL_PROGRAM : Nat := PT_LOOS + 0

/-- Modelled from the spec: `PT_LOOS + AMDGPU_HSA_SEGMENT_GLOBAL_AGENT` of `amd_hsa_elf.h`. -/
def PT_AMDGPU_HSA_LOAD_GLOBAL_AGENT : Nat := PT_LOOS + 1

/-- Modelled from the spec: `PT_LOOS + AMDGPU_HSA_SEGMENT_READONLY_AGENT` of `amd_hsa_elf.h`. -/
def PT_AMDGPU_HSA_LOAD_READONLY_AGENT : Nat := PT_LOOS + 2

/-- Modelled from the spec: `PT_LOOS + AMDGPU_HSA_SEGMENT_CODE_AGENT` of `amd_hsa_elf.h`. -/
def PT_AMDGPU_HSA_LOAD_CODE_AGENT : Nat := PT_LOOS + 3

/-- Modelled from the spec: ELF section type `SHT_PROGBITS`. -/
def SHT_PROGBITS : Nat := 1

/-- Modelled from the spec: ELF section type `SHT_RELA`. -/
def SHT_RELA : Nat := 4

/-- Modelled from the spec: ELF section type `SHT_NOBITS`. -/
def SHT_NOBITS : Nat := 8

/-- Modelled from the spec: ELF section flag `SHF_WRITE`. -/
def SHF_WRITE : Nat := 0x1

/-- Modelled from the spec: ELF section flag `SHF_ALLOC`. -/
def SHF_ALLOC : Nat := 0x2

/-- Modelled from the spec: ELF section flag `SHF_EXECINSTR`, the executable bit. -/
def SHF_EXECINSTR : Nat := 0x4

/-- Modelled from the spec: AMDGPU section flag "global" of `amd_hsa_elf.h`. -/
def SHF_AMDGPU_HSA_GLOBAL : Nat := 0x00100000

/-- Modelled from the spec: AMDGPU section flag "readonly" of `amd_hsa_elf.h`. -/
def SHF_AMDGPU_HSA_READONLY : Nat := 0x00200000

/-- Modelled from the spec: AMDGPU section flag "code" of `amd_hsa_elf.h`. -/
def SHF_AMDGPU_HSA_CODE : Nat := 0x00400000

/-- Modelled from the spec: AMDGPU section flag "agent" of `amd_hsa_elf.h`. -/
def SHF_AMDGPU_HSA_AGENT : Nat := 0x00800000

/-- Modelled from the spec: ELF symbol type `STT_OBJECT`. -/
def STT_OBJECT : Nat := 1

/-- Modelled from the spec: ELF symbol type `STT_COMMON`. -/
def STT_COMMON : Nat := 5

/-- Modelled from the spec: machine-specific kernel symbol type, `STT_LOOS + 0`. -/
def STT_AMDGPU_HSA_KERNEL : Nat := 10

/-- Modelled from the spec: ELF symbol binding `STB_GLOBAL`. -/
def STB_GLOBAL : Nat := 1

/-- Modelled from the spec: the AMDGPU machine identity `EM_AMDGPU`. -/
def EM_AMDGPU : Nat := 224

/-- Modelled from the spec: note type tag of the object-version note. -/
def NT_AMDGPU_HSA_CODE_OBJECT_VERSION : Nat := 1

/-- Modelled from the spec: bit position of `IS_DYNAMIC_CALLSTACK` in `kernel_code_properties`. -/
def AMD_KERNEL_CODE_PROPERTIES_IS_DYNAMIC_CALLSTACK_SHIFT : Nat := 20

/-- Modelled from the spec: the enumeration `amdgpu_hsa_elf_segment_t` of
`amd_hsa_elf.h` without its end marker `AMDGPU_HSA_SEGMENT_LAST`: the four
segment classes that index the first dimension of `hsaSegments`. -/
inductive amdgpu_hsa_elf_segment_t where
  | AMDGPU_HSA_SEGMENT_GLOBAL_PROGRAM
  | AMDGPU_HSA_SEGMENT_GLOBAL_AGENT
  | AMDGPU_HSA_SEGMENT_READONLY_AGENT
  | AMDGPU_HSA_SEGMENT_CODE_AGENT
  deriving DecidableEq, Repr

/-- Modelled from the spec: numeric value of a segment class in `amd_hsa_elf.h`. -/
def amdgpu_hsa_elf_segment_t.toNat : amdgpu_hsa_elf_segment_t → Nat
  | .AMDGPU_HSA_SEGMENT_GLOBAL_PROGRAM => 0
  | .AMDGPU_HSA_SEGMENT_GLOBAL_AGENT => 1
  | .AMDGPU_HSA_SEGMENT_READONLY_AGENT => 2
  | .AMDGPU_HSA_SEGMENT_CODE_AGENT => 3

/-- Modelled from the spec: the enumeration `amdgpu_hsa_elf_section_t` of
`amd_hsa_elf.h` without its end marker `AMDGPU_HSA_SECTION_LAST`: the nine
well-known data-section categories that index `hsaSections`. -/
inductive amdgpu_hsa_elf_section_t where
  | AMDGPU_HSA_RODATA_GLOBAL_PROGRAM
  | AMDGPU_HSA_RODATA_GLOBAL_AGENT
  | AMDGPU_HSA_RODATA_READONLY_AGENT
  | AMDGPU_HSA_DATA_GLOBAL_PROGRAM
  | AMDGPU_HSA_DATA_GLOBAL_AGENT
  | AMDGPU_HSA_DATA_READONLY_AGENT
  | AMDGPU_HSA_BSS_GLOBAL_PROGRAM
  | AMDGPU_HSA_BSS_GLOBAL_AGENT
  | AMDGPU_HSA_BSS_READONLY_AGENT
  deriving DecidableEq, Repr

/-! ## The ELF substrate, seen through the accessors the code object uses -/

/-- The fields of `amd_kernel_code_t` that `KernelSymbol` captures. -/
structure AmdKernelCode where
  kernarg_segment_byte_size : Nat
  kernarg_segment_alignment : Nat
  workgroup_group_segment_byte_size : Nat
  workitem_private_segment_byte_size : Nat
  kernel_code_properties : Nat
  deriving DecidableEq, Repr

/-- An `amd::elf::Segment`. -/
structure Segment where
  type : Nat
  flags : Nat := 0
  deriving DecidableEq, Repr

/-- An `amd::elf::Relocation`, a record of a relocation section: type, the
referenced entry of the symbol table, byte offset and addend. -/
structure Relocation where
  type : Nat
  symbol : Nat
  offset : Nat
  addend : Nat
  deriving DecidableEq, Repr

/-- An `amd::elf::Section`. `getData off` is the substrate call
`getData(off, &akc, sizeof(amd_kernel_code_t))`: the record read at byte offset
`off`, or `none` when the read fails. `data` holds the bytes appended with
`addData` and `segment` the owning segment given to `addSection`.
`relocationSection` is the relocation section that targets this section, null
while there is none; a relocation section holds its records in `relocations`
and the section it targets in `targetSection`. -/
structure Section where
  Name : String
  type : Nat
  flags : Nat
  addr : Nat := 0
  addralign : Nat := 0
  getData : Nat → Option AmdKernelCode := fun _ => none
  data : List Nat := []
  segment : Option Nat := none
  relocationSection : Option Nat := none
  relocations : List Relocation := []
  targetSection : Option Nat := none

/-- An `amd::elf::Symbol`, an entry of the symbol table. `section_` is the
result of `section()`: the index of the section, `none` for `nullptr`. -/
structure ElfSymbol where
  name : String
  type : Nat
  binding : Nat
  value : Nat := 0
  size : Nat := 0
  section_ : Option Nat := none
  other : Nat := 0
  deriving DecidableEq, Repr

/-- One record of the note area: vendor name, type tag and payload bytes. -/
structure Note where
  name : String
  type : Nat
  desc : List Nat
  deriving DecidableEq, Repr

/-- An `amd::elf::Image`: the tables and queries ingestion reads; `output` is
the diagnostic text `output()` and `Validate` the result of `Validate()`. The
fields `type` to `e_flags` are the identity `initNew` is given besides the
machine; `frozen` is for a substrate that records `Freeze()`. -/
structure Image where
  Machine : Nat
  segments : List Segment := []
  sections : List (Option Section) := []
  symtab : List ElfSymbol := []
  notes : List Note := []
  output : String := ""
  Validate : Bool := true
  type : Nat := 0
  os_abi : Nat := 0
  abi_version : Nat := 0
  e_flags : Nat := 0
  frozen : Bool := false

/-- The call `img->segmentCount()`. -/
def Image.segmentCount (img : Image) : Nat := img.segments.length

/-- The call `img->sectionCount()`. -/
def Image.sectionCount (img : Image) : Nat := img.sections.length

/-- The call `img->section(i)`, null when the slot is empty or out of range. -/
def Image.section (img : Image) (i : Nat) : Option Section := (img.sections.get? i).join

/-- The call `img->symtab()->symbol(i)`. -/
def Image.symbol (img : Image) (i : Nat) : Option ElfSymbol := img.symtab.get? i

/-- The call `elfsym->section()` followed by the dereference of its result. -/
def Image.sectionOf (img : Image) (elfsym : ElfSymbol) : Option Section :=
  elfsym.section_.bind img.section

/-- Unsigned 64-bit subtraction `a - b`. -/
def sub64 (a b : Nat) : Nat := (a % 2 ^ 64 + 2 ^ 64 - b % 2 ^ 64) % 2 ^ 64

/-- A little-endian 32-bit field of a note payload at byte offset `off`. -/
def le32 (bs : List Nat) (off : Nat) : Nat :=
  bs.getD off 0 % 256 + 256 * (bs.getD (off + 1) 0 % 256)
    + 65536 * (bs.getD (off + 2) 0 % 256) + 16777216 * (bs.getD (off + 3) 0 % 256)

/-! ## Symbols -/

/-- The data members of `KernelSymbol` (and `KernelSymbolV2`). -/
structure KernelSymbol where
  elfsym : Nat
  kernarg_segment_size : Nat
  kernarg_segment_alignment : Nat
  group_segment_size : Nat
  private_segment_size : Nat
  is_dynamic_callstack : Bool
  deriving DecidableEq, Repr

/-- The data members of `VariableSymbol` (and `VariableSymbolV2`). -/
structure VariableSymbol where
  elfsym : Nat
  deriving DecidableEq, Repr

/-- A `Symbol*` of the code object: one of the four concrete classes; `v2` is
true for `KernelSymbolV2` / `VariableSymbolV2`. -/
inductive Symbol where
  | kernel (k : KernelSymbol) (v2 : Bool)
  | variable (v : VariableSymbol) (v2 : Bool)
  deriving DecidableEq, Repr

/-- The back-reference `elfsym` of a symbol. -/
def Symbol.elfSym : Symbol → Nat
  | .kernel k _ => k.elfsym
  | .variable v _ => v.elfsym

/-- The query `IsKernelSymbol()`. -/
def Symbol.IsKernelSymbol : Symbol → Bool
  | .kernel _ _ => true
  | .variable _ _ => false

/-- The query `IsVariableSymbol()`. -/
def Symbol.IsVariableSymbol : Symbol → Bool
  | .kernel _ _ => false
  | .variable _ _ => true

/-- The macro `AMD_HSA_BITS_GET(props, AMD_KERNEL_CODE_PROPERTIES_IS_DYNAMIC_CALLSTACK)`. -/
def isDynamicCallstackBits (props : Nat) : Nat :=
  (props &&& (1 <<< AMD_KERNEL_CODE_PROPERTIES_IS_DYNAMIC_CALLSTACK_SHIFT))
    >>> AMD_KERNEL_CODE_PROPERTIES_IS_DYNAMIC_CALLSTACK_SHIFT

/-- The constructor `KernelSymbol::KernelSymbol(elfsym_, akc)`; `akc = none` is
the null record. The shift `1 << kernarg_segment_alignment` is kept to 32 bits. -/
def KernelSymbol.construct (elfsym_ : Nat) (akc : Option AmdKernelCode) : KernelSymbol :=
  match akc with
  | none =>
    { elfsym := elfsym_, kernarg_segment_size := 0, kernarg_segment_alignment := 0,
      group_segment_size := 0, private_segment_size := 0, is_dynamic_callstack := false }
  | some a =>
    { elfsym := elfsym_,
      kernarg_segment_size := a.kernarg_segment_byte_size % 2 ^ 32,
      kernarg_segment_alignment := (1 <<< a.kernarg_segment_alignment) % 2 ^ 32,
      group_segment_size := a.workgroup_group_segment_byte_size % 2 ^ 32,
      private_segment_size := a.workitem_private_segment_byte_size % 2 ^ 32,
      is_dynamic_callstack := decide (isDynamicCallstackBits a.kernel_code_properties ≠ 0) }

/-! ## The code object -/

/-- The data members of `AmdHsaCode` that ingestion, lookup and construction use. -/
structure AmdHsaCode where
  img : Option Image
  out : String
  combineDataSegments : Bool
  dataSegments : List Nat
  dataSections : List (Option Nat)
  relocationSections : List Nat
  symbols : List Symbol
  hsatext : Option Nat
  imageInit : Option Nat
  samplerInit : Option Nat
  debugInfo : Option Nat
  debugLine : Option Nat
  debugAbbrev : Option Nat
  hsaSegments : amdgpu_hsa_elf_segment_t → Bool → Option Nat
  hsaSections : amdgpu_hsa_elf_section_t → Option Nat

/-- The constructor `AmdHsaCode::AmdHsaCode(combineDataSegments_)`: a fresh object. -/
def AmdHsaCode.construct (combineDataSegments_ : Bool) : AmdHsaCode :=
  { img := none, out := "", combineDataSegments := combineDataSegments_,
    dataSegments := [], dataSections := [], relocationSections := [], symbols := [],
    hsatext := none, imageInit := none, samplerInit := none,
    debugInfo := none, debugLine := none, debugAbbrev := none,
    hsaSegments := fun _ _ => none, hsaSections := fun _ => none }

/-- Modelled from the spec: `GetAmdNote<S>(type, &desc)`, declared in the header
that is not under src/. It yields the payload of the first note of vendor
"AMD" carrying the tag, and fails when there is none or when the payload is
shorter than `sizeofS` bytes. -/
def GetAmdNote (img : Image) (type : Nat) (sizeofS : Nat) : Option (List Nat) :=
  match img.notes.find? (fun n => n.name == "AMD" && n.type == type) with
  | none => none
  | some n => if n.desc.length < sizeofS then none else some n.desc

/-- The accessor `AmdHsaCode::GetNoteCodeObjectVersion(&major, &minor)`; `none`
is the `false` return, which leaves both outputs unwritten. -/
def AmdHsaCode.GetNoteCodeObjectVersion (img : Image) : Option (Nat × Nat) :=
  match GetAmdNote img NT_AMDGPU_HSA_CODE_OBJECT_VERSION 8 with
  | none => none
  | some desc => some (le32 desc 0, le32 desc 4)

/-! ## Version-dispatched ingestion -/

/-- The test of the segment loop of `PullElfV1`: one of the four AMDGPU HSA load types. -/
def isLoadTypeV1 (s : Segment) : Bool :=
  s.type == PT_AMDGPU_HSA_LOAD_GLOBAL_PROGRAM ||
  s.type == PT_AMDGPU_HSA_LOAD_GLOBAL_AGENT ||
  s.type == PT_AMDGPU_HSA_LOAD_READONLY_AGENT ||
  s.type == PT_AMDGPU_HSA_LOAD_CODE_AGENT

/-- The test of the segment loop of `PullElfV2`. -/
def isLoadTypeV2 (s : Segment) : Bool :=
  s.type == PT_LOAD

/-- The first test of the section loop of `PullElfV1`. -/
def isDataSectionV1 (sec : Section) : Bool :=
  (sec.type == SHT_PROGBITS || sec.type == SHT_NOBITS) &&
  (sec.flags &&& (SHF_AMDGPU_HSA_AGENT ||| SHF_AMDGPU_HSA_GLOBAL |||
      SHF_AMDGPU_HSA_READONLY ||| SHF_AMDGPU_HSA_CODE)) != 0

/-- The first test of the section loop of `PullElfV2`. -/
def isDataSectionV2 (sec : Section) : Bool :=
  (sec.type == SHT_PROGBITS || sec.type == SHT_NOBITS) &&
  !((sec.flags &&& SHF_EXECINSTR) != 0)

/-- One iteration of a segment loop: `if (test s) dataSegments.push_back(s)`. -/
def pullSegment (test : Segment → Bool) (c : AmdHsaCode) (p : Nat × Segment) : AmdHsaCode :=
  if test p.2 then { c with dataSegments := c.dataSegments ++ [p.1] } else c

/-- One iteration of a section loop, shared in shape by both dialects:
skip a null section, then push it as data section or else as relocation
section, then cache it when it carries the code-section name. -/
def pullSection (isData : Section → Bool) (textName : String) (c : AmdHsaCode)
    (p : Nat × Option Section) : AmdHsaCode :=
  match p.2 with
  | none => c
  | some sec =>
    let c1 : AmdHsaCode :=
      if isData sec then { c with dataSections := c.dataSections ++ [some p.1] }
      else if sec.type == SHT_RELA then
        { c with relocationSections := c.relocationSections ++ [p.1] }
      else c
    if sec.Name == textName then { c1 with hsatext := some p.1 } else c1

/-- Result of the `switch (elfsym->type())` body for one symbol-table entry:
an early `return false` with the text sent to `out`, no symbol, or a new symbol. -/
inductive Pulled where
  | fail (msg : String)
  | skip
  | sym (s : Symbol)
  deriving DecidableEq, Repr

/-- The switch body of `PullElfV1` for the entry `elfsym` at index `i`. -/
def pullSymbolV1 (img : Image) (i : Nat) (elfsym : ElfSymbol) : Pulled :=
  if elfsym.type = STT_AMDGPU_HSA_KERNEL then
    match img.sectionOf elfsym with
    | none => .fail ("Failed to find section for symbol " ++ elfsym.name ++ "\n")
    | some sec =>
      if sec.flags &&& (SHF_AMDGPU_HSA_AGENT ||| SHF_AMDGPU_HSA_CODE ||| SHF_EXECINSTR) = 0 then
        .fail ("Invalid code section for symbol " ++ elfsym.name ++ "\n")
      else
        match sec.getData elfsym.value with
        | none => .fail ("Failed to get AMD Kernel Code for symbol " ++ elfsym.name ++ "\n")
        | some akc => .sym (.kernel (KernelSymbol.construct i (some akc)) false)
  else if elfsym.type = STT_OBJECT ∨ elfsym.type = STT_COMMON then
    .sym (.variable { elfsym := i } false)
  else .skip

/-- The switch body of `PullElfV2` for the entry `elfsym` at index `i`. -/
def pullSymbolV2 (img : Image) (i : Nat) (elfsym : ElfSymbol) : Pulled :=
  if elfsym.type = STT_AMDGPU_HSA_KERNEL then
    match img.sectionOf elfsym with
    | none => .fail ("Failed to find section for symbol " ++ elfsym.name ++ "\n")
    | some sec =>
      if sec.flags &&& (SHF_ALLOC ||| SHF_EXECINSTR) = 0 then
        .fail ("Invalid code section for symbol " ++ elfsym.name ++ "\n")
      else
        match sec.getData (sub64 elfsym.value sec.addr) with
        | none => .fail ("Failed to get AMD Kernel Code for symbol " ++ elfsym.name ++ "\n")
        | some akc => .sym (.kernel (KernelSymbol.construct i (some akc)) true)
  else if elfsym.type = STT_OBJECT ∨ elfsym.type = STT_COMMON then
    .sym (.variable { elfsym := i } true)
  else .skip

/-- The symbol loop: entries in index order, `symbols.push_back(sym)` for each
new symbol, and `return false` at the first failing entry. -/
def pullSymbols (body : Nat → ElfSymbol → Pulled) :
    List (Nat × ElfSymbol) → AmdHsaCode → Bool × AmdHsaCode
  | [], c => (true, c)
  | p :: rest, c =>
    match body p.1 p.2 with
    | .fail msg => (false, { c with out := c.out ++ msg })
    | .skip => pullSymbols body rest c
    | .sym s => pullSymbols body rest { c with symbols := c.symbols ++ [s] }

/-- The method `AmdHsaCode::PullElfV1()`; `img` is the image `this->img` points to. -/
def AmdHsaCode.PullElfV1 (img : Image) (c : AmdHsaCode) : Bool × AmdHsaCode :=
  let c1 := img.segments.enum.foldl (pullSegment isLoadTypeV1) c
  let c2 := img.sections.enum.foldl (pullSection isDataSectionV1 ".hsatext") c1
  pullSymbols (pullSymbolV1 img) img.symtab.enum c2

/-- The method `AmdHsaCode::PullElfV2()`; `img` is the image `this->img` points to. -/
def AmdHsaCode.PullElfV2 (img : Image) (c : AmdHsaCode) : Bool × AmdHsaCode :=
  let c1 := img.segments.enum.foldl (pullSegment isLoadTypeV2) c
  let c2 := img.sections.enum.foldl (pullSection isDataSectionV2 ".text") c1
  pullSymbols (pullSymbolV2 img) img.symtab.enum c2

/-- The method `AmdHsaCode::PullElf()`; `img` is the image `this->img` points to. -/
def AmdHsaCode.PullElf (img : Image) (c : AmdHsaCode) : Bool × AmdHsaCode :=
  match AmdHsaCode.GetNoteCodeObjectVersion img with
  | none => (false, c)
  | some (majorVersion, _) =>
    if majorVersion ≥ 2 then AmdHsaCode.PullElfV2 img c else AmdHsaCode.PullElfV1 img c

/-- The method `AmdHsaCode::ElfImageError()`: `out << img->output(); return false`. -/
def AmdHsaCode.ElfImageError (img : Image) (c : AmdHsaCode) : Bool × AmdHsaCode :=
  (false, { c with out := c.out ++ img.output })

/-- Modelled from the spec: the whole-image operations of the ELF substrate
(section 6), which are not under src/. Each load mutates the image it is called
on and reports success; nothing else is assumed about them. A buffer is named
by its address. -/
structure ElfSubstrate where
  NewElf64Image : Image
  loadFromFile : Image → String → Bool × Image
  initFromBuffer : Image → Nat → Nat → Bool × Image
  initAsBuffer : Image → Nat → Nat → Bool × Image

/-- The tail shared by the three entry points once the substrate call has run:
store the image, report a substrate failure, else run `PullElf`. -/
def AmdHsaCode.attachAndPull (c : AmdHsaCode) (r : Bool × Image) : Bool × AmdHsaCode :=
  let c1 : AmdHsaCode := { c with img := some r.2 }
  if !r.1 then AmdHsaCode.ElfImageError r.2 c1
  else
    let r2 := AmdHsaCode.PullElf r.2 c1
    if !r2.1 then AmdHsaCode.ElfImageError r.2 r2.2 else (true, r2.2)

/-- The first statement of each entry point, `if (!img) { img.reset(NewElf64Image()); }`:
the image the substrate call is then made on. -/
def AmdHsaCode.imageOrNew (E : ElfSubstrate) (c : AmdHsaCode) : Image :=
  match c.img with
  | none => E.NewElf64Image
  | some i => i

/-- The method `AmdHsaCode::LoadFromFile(filename)`. -/
def AmdHsaCode.LoadFromFile (E : ElfSubstrate) (c : AmdHsaCode) (filename : String) :
    Bool × AmdHsaCode :=
  AmdHsaCode.attachAndPull c (E.loadFromFile (AmdHsaCode.imageOrNew E c) filename)

/-- The method `AmdHsaCode::InitFromBuffer(buffer, size)`. -/
def AmdHsaCode.InitFromBuffer (E : ElfSubstrate) (c : AmdHsaCode) (buffer size : Nat) :
    Bool × AmdHsaCode :=
  AmdHsaCode.attachAndPull c (E.initFromBuffer (AmdHsaCode.imageOrNew E c) buffer size)

/-- The method `AmdHsaCode::InitAsBuffer(buffer, size)`. -/
def AmdHsaCode.InitAsBuffer (E : ElfSubstrate) (c : AmdHsaCode) (buffer size : Nat) :
    Bool × AmdHsaCode :=
  AmdHsaCode.attachAndPull c (E.initAsBuffer (AmdHsaCode.imageOrNew E c) buffer size)

/-- The method `AmdHsaCode::InitAsHandle(code_object)`; handle 0 is the null pointer. -/
def AmdHsaCode.InitAsHandle (E : ElfSubstrate) (c : AmdHsaCode) (handle : Nat) :
    Bool × AmdHsaCode :=
  if handle = 0 then (false, c) else AmdHsaCode.InitAsBuffer E c handle 0

/-- The method `AmdHsaCode::Validate()`; `img` is the image `this->img` points to. -/
def AmdHsaCode.Validate (img : Image) (c : AmdHsaCode) : Bool × AmdHsaCode :=
  if !img.Validate then AmdHsaCode.ElfImageError img c
  else if img.Machine ≠ EM_AMDGPU then
    (false, { c with out := c.out ++ "ELF error: Invalid machine\n" })
  else (true, c)

/-! ## Symbol queries -/

/-- Modelled from the spec: the status codes of `hsa.h` that this file returns. -/
inductive hsa_status_t where
  | HSA_STATUS_SUCCESS
  | HSA_STATUS_ERROR
  | HSA_STATUS_ERROR_INVALID_ARGUMENT
  | HSA_STATUS_ERROR_INVALID_CODE_OBJECT
  | HSA_STATUS_ERROR_INVALID_SYMBOL_NAME
  deriving DecidableEq, Repr

/-- Modelled from the spec: the attribute enumeration `hsa_code_symbol_info_t` of `hsa.h`. -/
inductive hsa_code_symbol_info_t where
  | HSA_CODE_SYMBOL_INFO_TYPE
  | HSA_CODE_SYMBOL_INFO_NAME_LENGTH
  | HSA_CODE_SYMBOL_INFO_NAME
  | HSA_CODE_SYMBOL_INFO_MODULE_NAME_LENGTH
  | HSA_CODE_SYMBOL_INFO_MODULE_NAME
  | HSA_CODE_SYMBOL_INFO_LINKAGE
  | HSA_CODE_SYMBOL_INFO_IS_DEFINITION
  | HSA_CODE_SYMBOL_INFO_VARIABLE_ALLOCATION
  | HSA_CODE_SYMBOL_INFO_VARIABLE_SEGMENT
  | HSA_CODE_SYMBOL_INFO_VARIABLE_ALIGNMENT
  | HSA_CODE_SYMBOL_INFO_VARIABLE_SIZE
  | HSA_CODE_SYMBOL_INFO_VARIABLE_IS_CONST
  | HSA_CODE_SYMBOL_INFO_KERNEL_KERNARG_SEGMENT_SIZE
  | HSA_CODE_SYMBOL_INFO_KERNEL_KERNARG_SEGMENT_ALIGNMENT
  | HSA_CODE_SYMBOL_INFO_KERNEL_GROUP_SEGMENT_SIZE
  | HSA_CODE_SYMBOL_INFO_KERNEL_PRIVATE_SEGMENT_SIZE
  | HSA_CODE_SYMBOL_INFO_KERNEL_DYNAMIC_CALLSTACK
  | HSA_CODE_SYMBOL_INFO_INDIRECT_FUNCTION_CALL_CONVENTION
  deriving DecidableEq, Repr

/-- Modelled from the spec: `hsa_symbol_kind_t` of `hsa.h`. -/
inductive hsa_symbol_kind_t where
  | HSA_SYMBOL_KIND_VARIABLE
  | HSA_SYMBOL_KIND_KERNEL
  deriving DecidableEq, Repr

/-- Modelled from the spec: `hsa_symbol_linkage_t` of `hsa.h`. -/
inductive hsa_symbol_linkage_t where
  | HSA_SYMBOL_LINKAGE_MODULE
  | HSA_SYMBOL_LINKAGE_PROGRAM
  deriving DecidableEq, Repr

/-- Modelled from the spec: `hsa_variable_allocation_t` of `hsa.h`. -/
inductive hsa_variable_allocation_t where
  | HSA_VARIABLE_ALLOCATION_AGENT
  | HSA_VARIABLE_ALLOCATION_PROGRAM
  deriving DecidableEq, Repr

/-- Modelled from the spec: `hsa_variable_segment_t` of `hsa.h`. -/
inductive hsa_variable_segment_t where
  | HSA_VARIABLE_SEGMENT_GLOBAL
  | HSA_VARIABLE_SEGMENT_READONLY
  deriving DecidableEq, Repr

/-- Modelled from the spec: numeric value of a symbol kind in `hsa.h`. -/
def hsa_symbol_kind_t.toNat : hsa_symbol_kind_t → Nat
  | .HSA_SYMBOL_KIND_VARIABLE => 0
  | .HSA_SYMBOL_KIND_KERNEL => 1

/-- Modelled from the spec: numeric value of a linkage in `hsa.h`. -/
def hsa_symbol_linkage_t.toNat : hsa_symbol_linkage_t → Nat
  | .HSA_SYMBOL_LINKAGE_MODULE => 0
  | .HSA_SYMBOL_LINKAGE_PROGRAM => 1

/-- Modelled from the spec: numeric value of an allocation class in `hsa.h`. -/
def hsa_variable_allocation_t.toNat : hsa_variable_allocation_t → Nat
  | .HSA_VARIABLE_ALLOCATION_AGENT => 0
  | .HSA_VARIABLE_ALLOCATION_PROGRAM => 1

/-- Modelled from the spec: numeric value of a storage segment in `hsa.h`. -/
def hsa_variable_segment_t.toNat : hsa_variable_segment_t → Nat
  | .HSA_VARIABLE_SEGMENT_GLOBAL => 0
  | .HSA_VARIABLE_SEGMENT_READONLY => 1

open hsa_code_symbol_info_t hsa_status_t

/-- Why a call has no return value: an `assert` aborted, or a pointer that is
dereferenced is null or does not designate an entry of the image. -/
inductive Fault where
  | assertFailed
  | badPointer
  deriving DecidableEq, Repr

/-- The statement `assert(cond)`; it is compiled out when `asserts` is false. -/
def cAssert (asserts : Bool) (cond : Bool) : Except Fault Unit :=
  if asserts && !cond then .error .assertFailed else .ok ()

/-- The memory a destination pointer designates: the byte at each offset from it. -/
abbrev Mem := Nat → Nat

/-- The store `*((uint32_t*) value) = v`, little-endian; also used for enumerations. -/
def store32 (value : Mem) (v : Nat) : Mem :=
  fun i => if i < 4 then v / 256 ^ i % 256 else value i

/-- The store `*((bool*) value) = b`. -/
def storeBool (value : Mem) (b : Bool) : Mem :=
  fun i => if i = 0 then (if b then 1 else 0) else value i

/-- The call `memset(value, byte, n)`. -/
def memset (value : Mem) (byte n : Nat) : Mem :=
  fun i => if i < n then byte else value i

/-- The call `memcpy(value, src, n)` from the bytes `src`. -/
def memcpy (value : Mem) (src : List Nat) (n : Nat) : Mem :=
  fun i => if i < n then src.getD i 0 else value i

/-- The store `((char*) value)[k] = byte`. -/
def storeByte (value : Mem) (k byte : Nat) : Mem :=
  fun i => if i = k then byte else value i

/-- The first `n` bytes of a memory. -/
def readBytes (value : Mem) (n : Nat) : List Nat :=
  (List.range n).map value

/-- The 32-bit little-endian scalar at the start of a memory. -/
def read32 (value : Mem) : Nat :=
  value 0 % 256 + 256 * (value 1 % 256) + 65536 * (value 2 % 256) + 16777216 * (value 3 % 256)

/-- The bytes of a string. -/
def bytesOf (s : String) : List Nat := s.toList.map Char.toNat

/-- The call `name.find(":")`: `none` is `std::string::npos`. -/
def find (name : String) (ch : Char) : Option Nat :=
  if name.toList.indexOf ch < name.toList.length then some (name.toList.indexOf ch) else none

/-- The call `name.rfind(":")`: `none` is `std::string::npos`. -/
def rfind (name : String) (ch : Char) : Option Nat :=
  if name.toList.reverse.indexOf ch < name.toList.length then
    some (name.toList.length - 1 - name.toList.reverse.indexOf ch)
  else none

/-- The call `name.substr(pos + 1)` where `pos = name.rfind(":")`; for `npos`
the sum wraps to 0 and the result is the whole string. -/
def substrAfter (name : String) (pos : Option Nat) : String :=
  match pos with
  | none => name
  | some i => String.mk (name.toList.drop (i + 1))

/-- The call `name.substr(0, pos)` where `pos = name.find(":")`; for `npos`
the result is the whole string. -/
def substrBefore (name : String) (pos : Option Nat) : String :=
  match pos with
  | none => name
  | some i => String.mk (name.toList.take i)

/-- The dereference of the back-reference `elfsym` of a symbol. -/
def Symbol.elfsymOf (img : Image) (sym : Symbol) : Except Fault ElfSymbol :=
  match img.symbol sym.elfSym with
  | none => .error .badPointer
  | some e => .ok e

/-- The dereference `elfsym->section()->`. -/
def Symbol.sectionOf (img : Image) (sym : Symbol) : Except Fault Section := do
  let e ← sym.elfsymOf img
  match img.sectionOf e with
  | none => .error .badPointer
  | some sec => .ok sec

/-- Modelled from the spec: `Symbol::Name()` of the header, the name of the wrapped entry. -/
def Symbol.Name (img : Image) (sym : Symbol) : Except Fault String := do
  let e ← sym.elfsymOf img
  pure e.name

/-- Modelled from the spec: the virtual `Kind()` of the header, by variant. -/
def Symbol.Kind : Symbol → hsa_symbol_kind_t
  | .kernel _ _ => .HSA_SYMBOL_KIND_KERNEL
  | .variable _ _ => .HSA_SYMBOL_KIND_VARIABLE

/-- The query `Symbol::IsDeclaration()`. -/
def Symbol.IsDeclaration (img : Image) (sym : Symbol) : Except Fault Bool := do
  let e ← sym.elfsymOf img
  pure (e.type == STT_COMMON)

/-- The query `Symbol::IsDefinition()`. -/
def Symbol.IsDefinition (img : Image) (sym : Symbol) : Except Fault Bool := do
  let d ← sym.IsDeclaration img
  pure (!d)

/-- The query `Symbol::IsAgent()`. -/
def Symbol.IsAgent (img : Image) (sym : Symbol) : Except Fault Bool := do
  let sec ← sym.sectionOf img
  pure (sec.flags &&& SHF_AMDGPU_HSA_AGENT != 0)

/-- The query `Symbol::Linkage()`. -/
def Symbol.Linkage (img : Image) (sym : Symbol) : Except Fault hsa_symbol_linkage_t := do
  let e ← sym.elfsymOf img
  pure (if e.binding = STB_GLOBAL then .HSA_SYMBOL_LINKAGE_PROGRAM
    else .HSA_SYMBOL_LINKAGE_MODULE)

/-- The query `Symbol::Allocation()`. -/
def Symbol.Allocation (img : Image) (sym : Symbol) : Except Fault hsa_variable_allocation_t := do
  let a ← sym.IsAgent img
  pure (if a then .HSA_VARIABLE_ALLOCATION_AGENT else .HSA_VARIABLE_ALLOCATION_PROGRAM)

/-- The query `Symbol::Segment()`. -/
def Symbol.Segment (img : Image) (sym : Symbol) : Except Fault hsa_variable_segment_t := do
  let sec ← sym.sectionOf img
  pure (if sec.flags &&& SHF_AMDGPU_HSA_READONLY != 0 then .HSA_VARIABLE_SEGMENT_READONLY
    else .HSA_VARIABLE_SEGMENT_GLOBAL)

/-- The query `Symbol::Size()`. -/
def Symbol.Size (img : Image) (sym : Symbol) : Except Fault Nat := do
  let e ← sym.elfsymOf img
  pure e.size

/-- The query `Symbol::Alignment()`. -/
def Symbol.Alignment (asserts : Bool) (img : Image) (sym : Symbol) : Except Fault Nat := do
  let sec ← sym.sectionOf img
  cAssert asserts (decide (sec.addralign < 2 ^ 32 - 1))
  pure (sec.addralign % 2 ^ 32)

/-- The query `Symbol::IsConst()`. -/
def Symbol.IsConst (img : Image) (sym : Symbol) : Except Fault Bool := do
  let sec ← sym.sectionOf img
  pure (sec.flags &&& SHF_WRITE != 0)

/-- The method `Symbol::GetInfo(attribute, value)` of the base class. The
destination is non-null; the result is the returned status and the memory
behind `value` after the call. -/
def Symbol.GetInfo (asserts : Bool) (img : Image) (sym : Symbol)
    (attribute_ : hsa_code_symbol_info_t) (value : Mem) : Except Fault (hsa_status_t × Mem) := do
  let name ← sym.Name img
  match attribute_ with
  | HSA_CODE_SYMBOL_INFO_TYPE =>
    pure (HSA_STATUS_SUCCESS, store32 value sym.Kind.toNat)
  | HSA_CODE_SYMBOL_INFO_NAME_LENGTH | HSA_CODE_SYMBOL_INFO_NAME =>
    let linkage ← sym.Linkage img
    let matter ← match linkage with
      | .HSA_SYMBOL_LINKAGE_PROGRAM => do
        cAssert asserts (rfind name ':').isNone
        pure name
      | .HSA_SYMBOL_LINKAGE_MODULE => do
        cAssert asserts (rfind name ':').isSome
        pure (substrAfter name (rfind name ':'))
    if attribute_ = HSA_CODE_SYMBOL_INFO_NAME_LENGTH then
      pure (HSA_STATUS_SUCCESS, store32 value ((matter.length + 1) % 2 ^ 32))
    else
      pure (HSA_STATUS_SUCCESS,
        memcpy (memset value 0 (matter.length + 1)) (bytesOf matter) matter.length)
  | HSA_CODE_SYMBOL_INFO_MODULE_NAME_LENGTH | HSA_CODE_SYMBOL_INFO_MODULE_NAME =>
    let linkage ← sym.Linkage img
    match linkage with
    | .HSA_SYMBOL_LINKAGE_PROGRAM =>
      if attribute_ = HSA_CODE_SYMBOL_INFO_MODULE_NAME_LENGTH then
        pure (HSA_STATUS_SUCCESS, store32 value 0)
      else
        pure (HSA_STATUS_SUCCESS, value)
    | .HSA_SYMBOL_LINKAGE_MODULE => do
      cAssert asserts (find name ':').isSome
      let matter := substrBefore name (find name ':')
      if attribute_ = HSA_CODE_SYMBOL_INFO_MODULE_NAME_LENGTH then
        pure (HSA_STATUS_SUCCESS, store32 value ((matter.length + 1) % 2 ^ 32))
      else
        pure (HSA_STATUS_SUCCESS,
          storeByte
            (memcpy (memset value 0 (matter.length + 1)) (bytesOf matter) matter.length)
            (matter.length + 1) 0)
  | HSA_CODE_SYMBOL_INFO_LINKAGE =>
    let linkage ← sym.Linkage img
    pure (HSA_STATUS_SUCCESS, store32 value linkage.toNat)
  | HSA_CODE_SYMBOL_INFO_IS_DEFINITION =>
    let d ← sym.IsDefinition img
    pure (HSA_STATUS_SUCCESS, storeBool value d)
  | _ => pure (HSA_STATUS_ERROR_INVALID_ARGUMENT, value)

/-- The override `KernelSymbol::GetInfo(attribute, value)`. -/
def KernelSymbol.GetInfo (asserts : Bool) (img : Image) (k : KernelSymbol) (v2 : Bool)
    (attribute_ : hsa_code_symbol_info_t) (value : Mem) : Except Fault (hsa_status_t × Mem) :=
  match attribute_ with
  | HSA_CODE_SYMBOL_INFO_KERNEL_KERNARG_SEGMENT_SIZE =>
    pure (HSA_STATUS_SUCCESS, store32 value k.kernarg_segment_size)
  | HSA_CODE_SYMBOL_INFO_KERNEL_KERNARG_SEGMENT_ALIGNMENT =>
    pure (HSA_STATUS_SUCCESS, store32 value k.kernarg_segment_alignment)
  | HSA_CODE_SYMBOL_INFO_KERNEL_GROUP_SEGMENT_SIZE =>
    pure (HSA_STATUS_SUCCESS, store32 value k.group_segment_size)
  | HSA_CODE_SYMBOL_INFO_KERNEL_PRIVATE_SEGMENT_SIZE =>
    pure (HSA_STATUS_SUCCESS, store32 value k.private_segment_size)
  | HSA_CODE_SYMBOL_INFO_KERNEL_DYNAMIC_CALLSTACK =>
    pure (HSA_STATUS_SUCCESS, storeBool value k.is_dynamic_callstack)
  | _ => Symbol.GetInfo asserts img (.kernel k v2) attribute_ value

/-- The override `VariableSymbol::GetInfo(attribute, value)`. -/
def VariableSymbol.GetInfo (asserts : Bool) (img : Image) (v : VariableSymbol) (v2 : Bool)
    (attribute_ : hsa_code_symbol_info_t) (value : Mem) : Except Fault (hsa_status_t × Mem) :=
  match attribute_ with
  | HSA_CODE_SYMBOL_INFO_VARIABLE_ALLOCATION => do
    let a ← Symbol.Allocation img (.variable v v2)
    pure (HSA_STATUS_SUCCESS, store32 value a.toNat)
  | HSA_CODE_SYMBOL_INFO_VARIABLE_SEGMENT => do
    let s ← Symbol.Segment img (.variable v v2)
    pure (HSA_STATUS_SUCCESS, store32 value s.toNat)
  | HSA_CODE_SYMBOL_INFO_VARIABLE_ALIGNMENT => do
    let a ← Symbol.Alignment asserts img (.variable v v2)
    pure (HSA_STATUS_SUCCESS, store32 value a)
  | HSA_CODE_SYMBOL_INFO_VARIABLE_SIZE => do
    let n ← Symbol.Size img (.variable v v2)
    pure (HSA_STATUS_SUCCESS, store32 value (n % 2 ^ 32))
  | HSA_CODE_SYMBOL_INFO_VARIABLE_IS_CONST => do
    let b ← Symbol.IsConst img (.variable v v2)
    pure (HSA_STATUS_SUCCESS, storeBool value b)
  | _ => Symbol.GetInfo asserts img (.variable v v2) attribute_ value

/-- The virtual call `sym->GetInfo(attribute, value)`. -/
def Symbol.callGetInfo (asserts : Bool) (img : Image) (sym : Symbol)
    (attribute_ : hsa_code_symbol_info_t) (value : Mem) : Except Fault (hsa_status_t × Mem) :=
  match sym with
  | .kernel k v2 => KernelSymbol.GetInfo asserts img k v2 attribute_ value
  | .variable v v2 => VariableSymbol.GetInfo asserts img v v2 attribute_ value

/-- The function `AmdHsaCode::MangleSymbolName(module_name, symbol_name)`. -/
def AmdHsaCode.MangleSymbolName (module_name symbol_name : String) : String :=
  if module_name = "" then symbol_name else module_name ++ "::" ++ symbol_name

/-! ## The note-record codec -/

/-- Modelled from the spec: note type tag of the HSAIL descriptor note. -/
def NT_AMDGPU_HSA_HSAIL : Nat := 2

/-- Modelled from the spec: note type tag of the ISA identity note. -/
def NT_AMDGPU_HSA_ISA : Nat := 3

/-- Modelled from the spec: note type tag of the producer identity note. -/
def NT_AMDGPU_HSA_PRODUCER : Nat := 4

/-- Modelled from the spec: note type tag of the producer options note. -/
def NT_AMDGPU_HSA_PRODUCER_OPTIONS : Nat := 5

/-- Modelled from the spec: `sizeof(amdgpu_hsa_note_code_object_version_t)`, two
32-bit integers. -/
def sizeof_note_code_object_version_t : Nat := 8

/-- Modelled from the spec: `sizeof(amdgpu_hsa_note_hsail_t)`, two 32-bit
integers at offsets 0 and 4 and three single bytes at offsets 8, 9 and 10,
padded to a multiple of 4. -/
def sizeof_note_hsail_t : Nat := 12

/-- Modelled from the spec: `sizeof(amdgpu_hsa_note_isa_t)`: two 16-bit sizes at
offsets 0 and 2, three 32-bit integers at offsets 4, 8 and 12, and the
one-element character array at offset 16, padded to a multiple of 4. -/
def sizeof_note_isa_t : Nat := 20

/-- Modelled from the spec: offset of `vendor_and_architecture_name` in
`amdgpu_hsa_note_isa_t`. -/
def offsetof_vendor_and_architecture_name : Nat := 16

/-- Modelled from the spec: `sizeof(amdgpu_hsa_note_producer_t)`: a 16-bit size at
offset 0, two 32-bit integers at offsets 4 and 8, and the one-element character
array at offset 12, padded to a multiple of 4. -/
def sizeof_note_producer_t : Nat := 16

/-- Modelled from the spec: offset of `producer_name` in `amdgpu_hsa_note_producer_t`. -/
def offsetof_producer_name : Nat := 12

/-- Modelled from the spec: `sizeof(amdgpu_hsa_note_producer_options_t)`: a 16-bit
size at offset 0 and the one-element character array at offset 2, padded to a
multiple of 2. -/
def sizeof_note_producer_options_t : Nat := 4

/-- Modelled from the spec: offset of `producer_options` in
`amdgpu_hsa_note_producer_options_t`. -/
def offsetof_producer_options : Nat := 2

/-- A little-endian 16-bit field of a note payload at byte offset `off`. -/
def le16 (bs : List Nat) (off : Nat) : Nat :=
  bs.getD off 0 % 256 + 256 * (bs.getD (off + 1) 0 % 256)

/-- The store of a 16-bit field at byte offset `off`, little-endian. -/
def store16At (m : Mem) (off v : Nat) : Mem :=
  fun i => if off ≤ i ∧ i < off + 2 then v / 256 ^ (i - off) % 256 else m i

/-- The store of a 32-bit field at byte offset `off`, little-endian. -/
def store32At (m : Mem) (off v : Nat) : Mem :=
  fun i => if off ≤ i ∧ i < off + 4 then v / 256 ^ (i - off) % 256 else m i

/-- The call `memcpy(p + off, src, n)` from the bytes `src`. -/
def memcpyAt (m : Mem) (off : Nat) (src : List Nat) (n : Nat) : Mem :=
  fun i => if off ≤ i ∧ i < off + n then src.getD (i - off) 0 else m i

/-- The bytes `s.c_str()` points to: the string followed by a NUL. -/
def c_str (s : String) : List Nat := bytesOf s ++ [0]

/-- The string made of the given bytes. -/
def stringOfBytes (bs : List Nat) : String := String.mk (bs.map Char.ofNat)

/-- The call `std::to_string(n)` on an unsigned integer: its decimal digits. -/
def to_string (n : Nat) : String := Nat.repr n

/-- The method `AmdHsaCode::AddAmdNote(type, desc, desc_size)`. The substrate
call `addNote("AMD", type, desc, desc_size)` is modelled from the spec: it
appends a record holding the first `desc_size` bytes at `desc`. -/
def AmdHsaCode.AddAmdNote (img : Image) (type : Nat) (desc : Mem) (desc_size : Nat) : Image :=
  { img with notes := img.notes ++ [{ name := "AMD", type := type, desc := readBytes desc desc_size }] }

/-- The method `AmdHsaCode::AddNoteCodeObjectVersion(major, minor)`. -/
def AmdHsaCode.AddNoteCodeObjectVersion (img : Image) (major minor : Nat) : Image :=
  let desc : Mem := store32At (store32At (fun _ => 0) 0 major) 4 minor
  AmdHsaCode.AddAmdNote img NT_AMDGPU_HSA_CODE_OBJECT_VERSION desc
    sizeof_note_code_object_version_t

/-- The accessor `AmdHsaCode::GetNoteCodeObjectVersion(std::string& version)`;
`none` is the `false` return, which leaves `version` untouched. -/
def AmdHsaCode.GetNoteCodeObjectVersionString (img : Image) : Option String :=
  match GetAmdNote img NT_AMDGPU_HSA_CODE_OBJECT_VERSION sizeof_note_code_object_version_t with
  | none => none
  | some desc => some (to_string (le32 desc 0) ++ "." ++ to_string (le32 desc 4))

/-- The accessor `AmdHsaCode::GetNoteHsail`: on success the two version numbers,
the profile, the machine model and the default float rounding mode; `none` is
the `false` return, which leaves the five outputs untouched. -/
def AmdHsaCode.GetNoteHsail (img : Image) : Option (Nat × Nat × Nat × Nat × Nat) :=
  match GetAmdNote img NT_AMDGPU_HSA_HSAIL sizeof_note_hsail_t with
  | none => none
  | some desc =>
    some (le32 desc 0, le32 desc 4, desc.getD 8 0 % 256, desc.getD 9 0 % 256,
      desc.getD 10 0 % 256)

/-- The size `AddNoteIsa` computes for its buffer and hands to the note area. -/
def AmdHsaCode.AddNoteIsa.size (vendor_name architecture_name : String) : Nat :=
  sizeof_note_producer_t + vendor_name.length + architecture_name.length + 1

/-- The buffer `desc` of `AddNoteIsa` after its stores. `stack` is the memory
`_alloca(size)` returns together with what lies behind the allocation. -/
def AmdHsaCode.AddNoteIsa.desc (stack : Mem) (vendor_name architecture_name : String)
    (major minor stepping : Nat) : Mem :=
  let size := AmdHsaCode.AddNoteIsa.size vendor_name architecture_name
  let d0 := memset stack 0 size
  let vendor_name_size := (vendor_name.length + 1) % 2 ^ 16
  let d1 := store16At d0 0 vendor_name_size
  let d2 := store16At d1 2 ((architecture_name.length + 1) % 2 ^ 16)
  let d3 := store32At d2 4 major
  let d4 := store32At d3 8 minor
  let d5 := store32At d4 12 stepping
  let d6 := memcpyAt d5 offsetof_vendor_and_architecture_name (c_str vendor_name)
    (vendor_name.length + 1)
  memcpyAt d6 (offsetof_vendor_and_architecture_name + vendor_name_size)
    (c_str architecture_name) (architecture_name.length + 1)

/-- The method `AmdHsaCode::AddNoteIsa(vendor_name, architecture_name, major, minor, stepping)`. -/
def AmdHsaCode.AddNoteIsa (stack : Mem) (img : Image) (vendor_name architecture_name : String)
    (major minor stepping : Nat) : Image :=
  AmdHsaCode.AddAmdNote img NT_AMDGPU_HSA_ISA
    (AmdHsaCode.AddNoteIsa.desc stack vendor_name architecture_name major minor stepping)
    (AmdHsaCode.AddNoteIsa.size vendor_name architecture_name)

/-- Modelled from the spec: `amd::elf::GetNoteString(s_size, s)` of the substrate,
not under src/, where `s` is `desc + off`. It yields the `s_size` bytes at `s`
without their last byte when that byte is NUL, and the empty string for size 0.
Reading outside the payload is a fault. -/
def GetNoteString (desc : List Nat) (s_size off : Nat) : Except Fault String :=
  if s_size = 0 then .ok ""
  else if desc.length < off + s_size then .error .badPointer
  else if desc.getD (off + s_size - 1) 0 = 0 then
    .ok (stringOfBytes ((desc.drop off).take (s_size - 1)))
  else .ok (stringOfBytes ((desc.drop off).take s_size))

/-- The accessor `AmdHsaCode::GetNoteIsa(vendor_name, architecture_name,
&major_version, &minor_version, &stepping)`; `.ok none` is the `false` return,
which leaves the five outputs untouched. -/
def AmdHsaCode.GetNoteIsa (img : Image) :
    Except Fault (Option (String × String × Nat × Nat × Nat)) :=
  match GetAmdNote img NT_AMDGPU_HSA_ISA sizeof_note_isa_t with
  | none => .ok none
  | some desc => do
    let vendor_name ← GetNoteString desc (le16 desc 0) offsetof_vendor_and_architecture_name
    let architecture_name ← GetNoteString desc (le16 desc 2)
      (offsetof_vendor_and_architecture_name + vendor_name.length + 1)
    pure (some (vendor_name, architecture_name, le32 desc 4, le32 desc 8, le32 desc 12))

/-- The accessor `AmdHsaCode::GetNoteIsa(std::string& isaName)`; `.ok none` is
the `false` return, which leaves `isaName` untouched. -/
def AmdHsaCode.GetNoteIsaString (img : Image) : Except Fault (Option String) := do
  let r ← AmdHsaCode.GetNoteIsa img
  match r with
  | none => pure none
  | some (vendor_name, architecture_name, major_version, minor_version, stepping) =>
    pure (some (vendor_name ++ ":" ++ architecture_name ++ ":" ++ to_string major_version ++ ":"
      ++ to_string minor_version ++ ":" ++ to_string stepping))

/-- The accessor `AmdHsaCode::GetNoteProducer(&major, &minor, producer_name)`;
`.ok none` is the `false` return, which leaves the three outputs untouched. -/
def AmdHsaCode.GetNoteProducer (img : Image) : Except Fault (Option (Nat × Nat × String)) :=
  match GetAmdNote img NT_AMDGPU_HSA_PRODUCER sizeof_note_producer_t with
  | none => .ok none
  | some desc => do
    let producer_name ← GetNoteString desc (le16 desc 0) offsetof_producer_name
    pure (some (le32 desc 4, le32 desc 8, producer_name))

/-- The accessor `AmdHsaCode::GetNoteProducerOptions(options)`; `.ok none` is
the `false` return, which leaves `options` untouched. -/
def AmdHsaCode.GetNoteProducerOptions (img : Image) : Except Fault (Option String) :=
  match GetAmdNote img NT_AMDGPU_HSA_PRODUCER_OPTIONS sizeof_note_producer_options_t with
  | none => .ok none
  | some desc => do
    let options ← GetNoteString desc (le16 desc 0) offsetof_producer_options
    pure (some options)

/-- Modelled from the spec: the attribute enumeration `hsa_code_object_info_t` of `hsa.h`. -/
inductive hsa_code_object_info_t where
  | HSA_CODE_OBJECT_INFO_VERSION
  | HSA_CODE_OBJECT_INFO_TYPE
  | HSA_CODE_OBJECT_INFO_ISA
  | HSA_CODE_OBJECT_INFO_MACHINE_MODEL
  | HSA_CODE_OBJECT_INFO_PROFILE
  | HSA_CODE_OBJECT_INFO_DEFAULT_FLOAT_ROUNDING_MODE
  deriving DecidableEq, Repr

open hsa_code_object_info_t

/-- The statements `memset(svalue, 0x0, 64); memcpy(svalue, s.c_str(),
(std::min)(size_t(63), s.length()))` of `AmdHsaCode::GetInfo`. -/
def storeString64 (value : Mem) (s : String) : Mem :=
  memcpy (memset value 0 64) (c_str s) (min 63 s.length)

/-- The method `AmdHsaCode::GetInfo(attribute, value)` on the code object. The
destination is non-null; the result is the returned status and the memory
behind `value` after the call. -/
def AmdHsaCode.GetInfo (asserts : Bool) (img : Image) (attribute_ : hsa_code_object_info_t)
    (value : Mem) : Except Fault (hsa_status_t × Mem) :=
  match attribute_ with
  | HSA_CODE_OBJECT_INFO_VERSION =>
    match AmdHsaCode.GetNoteCodeObjectVersionString img with
    | none => pure (HSA_STATUS_ERROR_INVALID_CODE_OBJECT, value)
    | some version => pure (HSA_STATUS_SUCCESS, storeString64 value version)
  | HSA_CODE_OBJECT_INFO_ISA => do
    let r ← AmdHsaCode.GetNoteIsaString img
    match r with
    | none => pure (HSA_STATUS_ERROR_INVALID_CODE_OBJECT, value)
    | some isa => pure (HSA_STATUS_SUCCESS, storeString64 value isa)
  | HSA_CODE_OBJECT_INFO_MACHINE_MODEL =>
    match AmdHsaCode.GetNoteHsail img with
    | none => pure (HSA_STATUS_ERROR_INVALID_CODE_OBJECT, value)
    | some (_, _, _, machine_model, _) => pure (HSA_STATUS_SUCCESS, store32 value machine_model)
  | HSA_CODE_OBJECT_INFO_PROFILE =>
    match AmdHsaCode.GetNoteHsail img with
    | none => pure (HSA_STATUS_ERROR_INVALID_CODE_OBJECT, value)
    | some (_, _, profile, _, _) => pure (HSA_STATUS_SUCCESS, store32 value profile)
  | HSA_CODE_OBJECT_INFO_DEFAULT_FLOAT_ROUNDING_MODE =>
    match AmdHsaCode.GetNoteHsail img with
    | none => pure (HSA_STATUS_ERROR_INVALID_CODE_OBJECT, value)
    | some (_, _, _, _, default_float_round) =>
      pure (HSA_STATUS_SUCCESS, store32 value default_float_round)
  | HSA_CODE_OBJECT_INFO_TYPE => do
    cAssert asserts false
    pure (HSA_STATUS_ERROR_INVALID_ARGUMENT, value)

/-! ## Lookup and iteration -/

/-- The loop of `AmdHsaCode::GetSymbol` over the symbol list. A `Symbol*` held
in `symbols`, and the handle `Symbol::ToHandle` makes of it, is the position of
its slot in the list; `s` is the content of `*s` before the call. -/
def getSymbolLoop (img : Image) (mname : String) (s : Nat) :
    List (Nat × Symbol) → Except Fault (hsa_status_t × Nat)
  | [] => .ok (HSA_STATUS_ERROR_INVALID_SYMBOL_NAME, s)
  | p :: rest => do
    let n ← p.2.Name img
    if n = mname then pure (HSA_STATUS_SUCCESS, p.1) else getSymbolLoop img mname s rest

/-- The method `AmdHsaCode::GetSymbol(module_name, symbol_name, s)`; a null
`module_name` is `none`. The result is the status and the content of `*s`
after the call. -/
def AmdHsaCode.GetSymbol (img : Image) (c : AmdHsaCode) (module_name : Option String)
    (symbol_name : String) (s : Nat) : Except Fault (hsa_status_t × Nat) :=
  let mname := AmdHsaCode.MangleSymbolName
    (match module_name with
      | some m => m
      | none => "") symbol_name
  getSymbolLoop img mname s c.symbols.enum

/-- The loop of `AmdHsaCode::FindSymbol` over the symbol list; `none` is `nullptr`. -/
def findSymbolLoop (img : Image) (n : String) : List (Nat × Symbol) → Except Fault (Option Nat)
  | [] => .ok none
  | p :: rest => do
    let nm ← p.2.Name img
    if n = nm then pure (some p.1) else findSymbolLoop img n rest

/-- The method `AmdHsaCode::FindSymbol(n)`. -/
def AmdHsaCode.FindSymbol (img : Image) (c : AmdHsaCode) (n : String) :
    Except Fault (Option Nat) :=
  findSymbolLoop img n c.symbols.enum

/-- The loop of `AmdHsaCode::IterateSymbols`. The callback receives the code
object handle, the symbol handle and the state behind `data` (with whatever
else it can reach), and returns its status and the new state. -/
def iterateSymbolsLoop {σ : Type} (code_object : Nat)
    (callback : Nat → Nat → σ → hsa_status_t × σ) :
    List (Nat × Symbol) → σ → hsa_status_t × σ
  | [], data => (HSA_STATUS_SUCCESS, data)
  | p :: rest, data =>
    let status := callback code_object p.1 data
    if status.1 ≠ HSA_STATUS_SUCCESS then (status.1, status.2)
    else iterateSymbolsLoop code_object callback rest status.2

/-- The method `AmdHsaCode::IterateSymbols(code_object, callback, data)`. -/
def AmdHsaCode.IterateSymbols {σ : Type} (c : AmdHsaCode) (code_object : Nat)
    (callback : Nat → Nat → σ → hsa_status_t × σ) (data : σ) : hsa_status_t × σ :=
  iterateSymbolsLoop code_object callback c.symbols.enum data

/-! ## The code-object cache -/

/-- The data member `codeMap` of `AmdHsaCodeManager`: the code object cached
under each handle, if any. -/
structure AmdHsaCodeManager where
  codeMap : Nat → Option AmdHsaCode

/-- The method `AmdHsaCodeManager::FromHandle(c)`. `combineDataSegmentsDefault`
is the default argument of the constructor called by `new AmdHsaCode()`, which
is declared in the header that is not under src/. The result is the returned
pointer (`none` for 0), as the object it designates, and the manager after the
call. -/
def AmdHsaCodeManager.FromHandle (E : ElfSubstrate) (combineDataSegmentsDefault : Bool)
    (m : AmdHsaCodeManager) (c : Nat) : Option AmdHsaCode × AmdHsaCodeManager :=
  match m.codeMap c with
  | none =>
    let r := AmdHsaCode.InitAsBuffer E (AmdHsaCode.construct combineDataSegmentsDefault) c 0
    if !r.1 then (none, m)
    else (some r.2, { codeMap := fun h => if h = c then some r.2 else m.codeMap h })
  | some code => (some code, m)

/-- The method `AmdHsaCodeManager::Destroy(c)`. -/
def AmdHsaCodeManager.Destroy (m : AmdHsaCodeManager) (c : Nat) : Bool × AmdHsaCodeManager :=
  match m.codeMap c with
  | none => (true, m)
  | some _ => (true, { codeMap := fun h => if h = c then none else m.codeMap h })

/-! ## Construction (producer path) -/

/-- Modelled from the spec: ELF object type `ET_EXEC`. -/
def ET_EXEC : Nat := 2

/-- Modelled from the spec: `ELFOSABI_AMDGPU_HSA` of `amd_hsa_elf.h`. -/
def ELFOSABI_AMDGPU_HSA : Nat := 64

/-- Modelled from the spec: `ELFABIVERSION_AMDGPU_HSA` of `amd_hsa_elf.h`. -/
def ELFABIVERSION_AMDGPU_HSA : Nat := 0

/-- Modelled from the spec: the XNACK bit `EF_AMDGPU_XNACK` of the ELF header flags. -/
def EF_AMDGPU_XNACK : Nat := 0x1

/-- Modelled from the spec: ELF segment permission `PF_X`. -/
def PF_X : Nat := 0x1

/-- Modelled from the spec: ELF segment permission `PF_W`. -/
def PF_W : Nat := 0x2

/-- Modelled from the spec: ELF segment permission `PF_R`. -/
def PF_R : Nat := 0x4

/-- Modelled from the spec: ELF symbol type `STT_SECTION`. -/
def STT_SECTION : Nat := 3

/-- Modelled from the spec: ELF symbol binding `STB_LOCAL`. -/
def STB_LOCAL : Nat := 0

open amdgpu_hsa_elf_segment_t amdgpu_hsa_elf_section_t

/-- Modelled from the spec: `AmdHsaElfSectionSegment(sec)` of the utility header,
not under src/: the segment class a well-known section category belongs to,
as the category names it. -/
def AmdHsaElfSectionSegment : amdgpu_hsa_elf_section_t → amdgpu_hsa_elf_segment_t
  | AMDGPU_HSA_RODATA_GLOBAL_PROGRAM => AMDGPU_HSA_SEGMENT_GLOBAL_PROGRAM
  | AMDGPU_HSA_RODATA_GLOBAL_AGENT => AMDGPU_HSA_SEGMENT_GLOBAL_AGENT
  | AMDGPU_HSA_RODATA_READONLY_AGENT => AMDGPU_HSA_SEGMENT_READONLY_AGENT
  | AMDGPU_HSA_DATA_GLOBAL_PROGRAM => AMDGPU_HSA_SEGMENT_GLOBAL_PROGRAM
  | AMDGPU_HSA_DATA_GLOBAL_AGENT => AMDGPU_HSA_SEGMENT_GLOBAL_AGENT
  | AMDGPU_HSA_DATA_READONLY_AGENT => AMDGPU_HSA_SEGMENT_READONLY_AGENT
  | AMDGPU_HSA_BSS_GLOBAL_PROGRAM => AMDGPU_HSA_SEGMENT_GLOBAL_PROGRAM
  | AMDGPU_HSA_BSS_GLOBAL_AGENT => AMDGPU_HSA_SEGMENT_GLOBAL_AGENT
  | AMDGPU_HSA_BSS_READONLY_AGENT => AMDGPU_HSA_SEGMENT_READONLY_AGENT

/-- Modelled from the spec: `IsAmdHsaElfSectionROData(sec)` of the utility header,
not under src/: whether the category is one of the three read-only-data ones. -/
def IsAmdHsaElfSectionROData : amdgpu_hsa_elf_section_t → Bool
  | AMDGPU_HSA_RODATA_GLOBAL_PROGRAM => true
  | AMDGPU_HSA_RODATA_GLOBAL_AGENT => true
  | AMDGPU_HSA_RODATA_READONLY_AGENT => true
  | _ => false

/-- Modelled from the spec: the construction operations of the ELF substrate
(section 6), which are not under src/, next to its whole-image operations.
Each operation takes the image it is called on and yields the image after the
call; nothing else is assumed about them. `addSection` and `initSegment` return
the `Section*` / `Segment*` as table index, `none` for `nullptr`; `addSymbol`
returns the `amd::elf::Symbol*` as table index, an index outside the table
standing for a pointer that designates no entry. `addData`, `nextDataOffset`
and `relocationSection` are the methods of the section with the given index,
`setValue`, `setSize` those of the symbol-table entry with the given index, and
`addRelocation` that of the relocation section with the given index, called
with type, referenced symbol, offset and addend. -/
structure ElfBuilder extends ElfSubstrate where
  initNew : Image → Nat → Nat → Nat → Nat → Nat → Bool × Image
  Freeze : Image → Bool × Image
  addSection : Image → String → Nat → Nat → Nat → Option Nat → Option Nat × Image
  initSegment : Image → Nat → Nat → Option Nat × Image
  addSymbol : Image → Option Nat → String → Nat → Nat → Nat → Nat → Nat → Nat × Image
  addData : Image → Nat → List Nat → Nat → Nat × Image
  nextDataOffset : Image → Nat → Nat → Nat
  setValue : Image → Nat → Nat → Image
  setSize : Image → Nat → Nat → Image
  relocationSection : Image → Nat → Option Nat × Image
  addRelocation : Image → Nat → Nat → Nat → Nat → Nat → Image

/-- The method `AmdHsaCode::InitNew(xnack)`. -/
def AmdHsaCode.InitNew (B : ElfBuilder) (c : AmdHsaCode) (xnack : Bool) : Bool × AmdHsaCode :=
  match c.img with
  | none =>
    let flags0 : Nat := 0
    let flags := if xnack then flags0 ||| EF_AMDGPU_XNACK else flags0
    let r := B.initNew B.NewElf64Image EM_AMDGPU ET_EXEC ELFOSABI_AMDGPU_HSA
      ELFABIVERSION_AMDGPU_HSA flags
    let c1 : AmdHsaCode := { c with img := some r.2 }
    if r.1 then (true, c1) else AmdHsaCode.ElfImageError r.2 c1
  | some _ => (false, c)

/-- The method `AmdHsaCode::Freeze()`: `return img->Freeze() || ElfImageError()`. -/
def AmdHsaCode.Freeze (B : ElfBuilder) (c : AmdHsaCode) : Except Fault (Bool × AmdHsaCode) :=
  match c.img with
  | none => .error .badPointer
  | some img =>
    let r := B.Freeze img
    let c1 : AmdHsaCode := { c with img := some r.2 }
    if r.1 then .ok (true, c1) else .ok (AmdHsaCode.ElfImageError r.2 c1)

/-- Modelled from the spec: the accessor `HsaText()` of the header, the cached
code section. -/
def AmdHsaCode.HsaText (c : AmdHsaCode) : Option Nat := c.hsatext

/-- The method `AmdHsaCode::NextKernelCodeOffset()`. -/
def AmdHsaCode.NextKernelCodeOffset (B : ElfBuilder) (c : AmdHsaCode) : Except Fault Nat :=
  match c.HsaText, c.img with
  | some text, some img => .ok (B.nextDataOffset img text 256)
  | _, _ => .error .badPointer

/-- The method `AmdHsaCode::AddKernelCode(sym, code, size)`. The `KernelSymbol*`
is the position of the symbol in `symbols`, `none` for `nullptr`; `code` is
the memory behind the pointer. `setValue` and `setSize` of the symbol are
modelled from the spec (the header is not under src/): they forward to the
wrapped symbol-table entry. -/
def AmdHsaCode.AddKernelCode (asserts : Bool) (B : ElfBuilder) (c : AmdHsaCode)
    (sym : Option Nat) (code : Mem) (size : Nat) : Except Fault (Bool × AmdHsaCode) := do
  cAssert asserts sym.isSome
  match c.HsaText, c.img with
  | some text, some img =>
    let r := B.addData img text (readBytes code size) 256
    let offset := r.1
    match sym.bind (fun i => c.symbols.get? i) with
    | none => .error .badPointer
    | some s =>
      let img1 := B.setValue r.2 s.elfSym offset
      let img2 := B.setSize img1 s.elfSym size
      pure (true, { c with img := some img2 })
  | _, _ => .error .badPointer

/-- The method `AmdHsaCode::AddEmptySection()`. -/
def AmdHsaCode.AddEmptySection (c : AmdHsaCode) : Option Nat × AmdHsaCode :=
  (none, { c with dataSections := c.dataSections ++ [none] })

/-- The method `AmdHsaCode::AddCodeSection(segment)`. -/
def AmdHsaCode.AddCodeSection (B : ElfBuilder) (c : AmdHsaCode) (segment : Option Nat) :
    Option Nat × AmdHsaCode :=
  match c.img with
  | none => (none, c)
  | some img =>
    let r := B.addSection img ".hsatext" SHT_PROGBITS
      (SHF_ALLOC ||| SHF_EXECINSTR ||| SHF_WRITE ||| SHF_AMDGPU_HSA_CODE ||| SHF_AMDGPU_HSA_AGENT)
      0 segment
    (r.1, { c with img := some r.2, dataSections := c.dataSections ++ [r.1], hsatext := r.1 })

/-- The method `AmdHsaCode::AddDataSection(name, type, flags, segment)`. -/
def AmdHsaCode.AddDataSection (B : ElfBuilder) (c : AmdHsaCode) (name : String)
    (type flags : Nat) (segment : Option Nat) : Option Nat × AmdHsaCode :=
  match c.img with
  | none => (none, c)
  | some img =>
    let r := B.addSection img name type flags 0 segment
    (r.1, { c with img := some r.2, dataSections := c.dataSections ++ [r.1] })

/-- The method `AmdHsaCode::HsaSegment(segment, writable)`. -/
def AmdHsaCode.HsaSegment (c : AmdHsaCode) (segment : amdgpu_hsa_elf_segment_t)
    (writable : Bool) : Option Nat :=
  c.hsaSegments segment writable

/-- The method `AmdHsaCode::InitHsaSegment(segment, writable)`. The assertion
`segment < AMDGPU_HSA_SEGMENT_LAST` holds for each of the four classes. -/
def AmdHsaCode.InitHsaSegment (B : ElfBuilder) (c : AmdHsaCode)
    (segment : amdgpu_hsa_elf_segment_t) (writable : Bool) : Except Fault AmdHsaCode :=
  if (c.hsaSegments segment writable).isNone then
    let flags0 : Nat := PF_R
    let flags1 := if writable then flags0 ||| PF_W else flags0
    let flags := if segment = AMDGPU_HSA_SEGMENT_CODE_AGENT then flags1 ||| PF_X else flags1
    let type := PT_LOOS + segment.toNat
    match c.img with
    | none => .error .badPointer
    | some img =>
      let r := B.initSegment img type flags
      .ok { c with
        img := some r.2,
        hsaSegments := fun s w => if s = segment ∧ w = writable then r.1 else c.hsaSegments s w }
  else .ok c

/-- The method `AmdHsaCode::InitHsaSectionSegment(section, combineSegments)`. -/
def AmdHsaCode.InitHsaSectionSegment (B : ElfBuilder) (c : AmdHsaCode)
    (section_ : amdgpu_hsa_elf_section_t) (combineSegments : Bool) : Except Fault AmdHsaCode :=
  AmdHsaCode.InitHsaSegment B c (AmdHsaElfSectionSegment section_)
    (combineSegments || !IsAmdHsaElfSectionROData section_)

/-- The arguments name, type and flags of the `AddDataSection` call in each case
of the switch of `HsaDataSection`. -/
def hsaDataSectionArgs : amdgpu_hsa_elf_section_t → String × Nat × Nat
  | AMDGPU_HSA_RODATA_GLOBAL_PROGRAM =>
    (".hsarodata_global_program", SHT_PROGBITS, SHF_ALLOC ||| SHF_AMDGPU_HSA_GLOBAL)
  | AMDGPU_HSA_RODATA_GLOBAL_AGENT =>
    (".hsarodata_global_agent", SHT_PROGBITS,
      SHF_ALLOC ||| SHF_AMDGPU_HSA_GLOBAL ||| SHF_AMDGPU_HSA_AGENT)
  | AMDGPU_HSA_RODATA_READONLY_AGENT =>
    (".hsarodata_readonly_agent", SHT_PROGBITS,
      SHF_ALLOC ||| SHF_AMDGPU_HSA_READONLY ||| SHF_AMDGPU_HSA_AGENT)
  | AMDGPU_HSA_DATA_GLOBAL_PROGRAM =>
    (".hsadata_global_program", SHT_PROGBITS, SHF_ALLOC ||| SHF_WRITE ||| SHF_AMDGPU_HSA_GLOBAL)
  | AMDGPU_HSA_DATA_GLOBAL_AGENT =>
    (".hsadata_global_agent", SHT_PROGBITS,
      SHF_ALLOC ||| SHF_WRITE ||| SHF_AMDGPU_HSA_GLOBAL ||| SHF_AMDGPU_HSA_AGENT)
  | AMDGPU_HSA_DATA_READONLY_AGENT =>
    (".hsadata_readonly_agent", SHT_PROGBITS,
      SHF_ALLOC ||| SHF_WRITE ||| SHF_AMDGPU_HSA_READONLY ||| SHF_AMDGPU_HSA_AGENT)
  | AMDGPU_HSA_BSS_GLOBAL_PROGRAM =>
    (".hsabss_global_program", SHT_NOBITS, SHF_ALLOC ||| SHF_WRITE ||| SHF_AMDGPU_HSA_GLOBAL)
  | AMDGPU_HSA_BSS_GLOBAL_AGENT =>
    (".hsabss_global_agent", SHT_NOBITS,
      SHF_ALLOC ||| SHF_WRITE ||| SHF_AMDGPU_HSA_GLOBAL ||| SHF_AMDGPU_HSA_AGENT)
  | AMDGPU_HSA_BSS_READONLY_AGENT =>
    (".hsabss_readonly_agent", SHT_NOBITS,
      SHF_ALLOC ||| SHF_WRITE ||| SHF_AMDGPU_HSA_READONLY ||| SHF_AMDGPU_HSA_AGENT)

/-- The method `AmdHsaCode::HsaDataSection(sec, combineSegments)` on one of the
nine categories; the `default` case of its switch is for values outside the
enumeration. -/
def AmdHsaCode.HsaDataSection (asserts : Bool) (B : ElfBuilder) (c : AmdHsaCode)
    (sec : amdgpu_hsa_elf_section_t) (combineSegments : Bool) :
    Except Fault (Option Nat × AmdHsaCode) :=
  if (c.hsaSections sec).isNone then do
    let writable := combineSegments || !IsAmdHsaElfSectionROData sec
    let segment := c.HsaSegment (AmdHsaElfSectionSegment sec) writable
    cAssert asserts segment.isSome
    let args := hsaDataSectionArgs sec
    let r := AmdHsaCode.AddDataSection B c args.1 args.2.1 args.2.2 segment
    let c1 : AmdHsaCode :=
      { r.2 with hsaSections := fun s => if s = sec then r.1 else r.2.hsaSections s }
    pure (c1.hsaSections sec, c1)
  else pure (c.hsaSections sec, c)

/-- The method `AmdHsaCode::AddExecutableSymbol(name, type, binding, other, section)`.
The result is the returned `Symbol*`, the position of the new symbol in
`symbols`, `none` for `nullptr`. -/
def AmdHsaCode.AddExecutableSymbol (B : ElfBuilder) (c : AmdHsaCode) (name : String)
    (type binding other : Nat) (section_ : Option Nat) : Option Nat × AmdHsaCode :=
  match c.img with
  | none => (none, c)
  | some img =>
    let section1 := if section_.isNone then c.HsaText else section_
    let r := B.addSymbol img section1 name 0 0 type binding other
    (some c.symbols.length,
      { c with img := some r.2,
               symbols := c.symbols ++ [.kernel (KernelSymbol.construct r.1 none) false] })

/-- The method `AmdHsaCode::AddVariableSymbol(name, type, binding, other, section,
value, size)`. -/
def AmdHsaCode.AddVariableSymbol (B : ElfBuilder) (c : AmdHsaCode) (name : String)
    (type binding other : Nat) (section_ : Option Nat) (value size : Nat) :
    Option Nat × AmdHsaCode :=
  match c.img with
  | none => (none, c)
  | some img =>
    let r := B.addSymbol img section_ name value size type binding other
    (some c.symbols.length,
      { c with img := some r.2, symbols := c.symbols ++ [.variable { elfsym := r.1 } false] })

/-- One iteration of the loop of `AddSectionSymbols` on the entry `d` of
`dataSections`; the state is the image and the symbol list. -/
def addSectionSymbol (B : ElfBuilder) (st : Image × List Symbol) (d : Option Nat) :
    Except Fault (Image × List Symbol) :=
  match d with
  | none => .ok st
  | some i =>
    match st.1.section i with
    | none => .error .badPointer
    | some sec =>
      if sec.flags &&& SHF_ALLOC ≠ 0 then
        let r := B.addSymbol st.1 (some i) ("__hsa_section" ++ sec.Name) 0 0
          STT_SECTION STB_LOCAL 0
        .ok (r.2, st.2 ++ [.variable { elfsym := r.1 } false])
      else .ok st

/-- The loop of `AddSectionSymbols` over the entries of `dataSections`. -/
def addSectionSymbolsLoop (B : ElfBuilder) :
    List (Option Nat) → Image × List Symbol → Except Fault (Image × List Symbol)
  | [], st => .ok st
  | d :: rest, st =>
    match addSectionSymbol B st d with
    | .error f => .error f
    | .ok st1 => addSectionSymbolsLoop B rest st1

/-- The method `AmdHsaCode::AddSectionSymbols()`. -/
def AmdHsaCode.AddSectionSymbols (B : ElfBuilder) (c : AmdHsaCode) : Except Fault AmdHsaCode :=
  match c.img with
  | none => .ok c
  | some img =>
    match addSectionSymbolsLoop B c.dataSections (img, c.symbols) with
    | .error f => .error f
    | .ok st => .ok { c with img := some st.1, symbols := st.2 }

/-- Modelled from the spec: `Symbol::SectionOffset()` of the header: the value of
the wrapped entry, minus the section address for the V2 classes. -/
def Symbol.SectionOffset (img : Image) (sym : Symbol) : Except Fault Nat := do
  let e ← sym.elfsymOf img
  match sym with
  | .kernel _ false | .variable _ false => pure e.value
  | .kernel _ true | .variable _ true => do
    let sec ← sym.sectionOf img
    pure (sub64 e.value sec.addr)

/-! ## The substrate operations as the specification describes them -/

/-- The least multiple of `align` that is at least `n`. -/
def alignUp (n align : Nat) : Nat := (n + align - 1) / align * align

/-- Modelled from the spec: `initNew(machine, type, os_abi, abi_version, e_flags)`
sets up an empty image with the given identity. -/
def Image.initNew (_ : Image) (machine type os_abi abi_version e_flags : Nat) : Bool × Image :=
  (true, { Machine := machine, type := type, os_abi := os_abi, abi_version := abi_version,
           e_flags := e_flags })

/-- Modelled from the spec: `addSection(name, type, flags, alignment,
owning-segment?)` creates a section at the end of the section table. -/
def Image.addSection (img : Image) (name : String) (type flags addralign : Nat)
    (segment : Option Nat) : Option Nat × Image :=
  (some img.sections.length,
    { img with sections := img.sections ++
        [some { Name := name, type := type, flags := flags, addralign := addralign,
                segment := segment }] })

/-- Modelled from the spec: `initSegment(type, flags)` creates a segment at the
end of the segment table. -/
def Image.initSegment (img : Image) (type flags : Nat) : Option Nat × Image :=
  (some img.segments.length, { img with segments := img.segments ++ [{ type := type, flags := flags }] })

/-- Modelled from the spec: `addSymbol(section, name, value, size, type, binding,
other)` appends an entry to the symbol table. -/
def Image.addSymbol (img : Image) (section_ : Option Nat) (name : String)
    (value size type binding other : Nat) : Nat × Image :=
  (img.symtab.length,
    { img with symtab := img.symtab ++
        [{ name := name, type := type, binding := binding, value := value, size := size,
           section_ := section_, other := other }] })

/-- Modelled from the spec: `nextDataOffset(align)` of a section: the offset the
next `addData` with that alignment writes at. -/
def Image.nextDataOffset (img : Image) (sec align : Nat) : Nat :=
  match img.section sec with
  | none => 0
  | some s => alignUp s.data.length align

/-- Modelled from the spec: `addData(src, size, align)` of a section appends the
bytes at the next offset that honours the alignment, filling the gap with
zero bytes, and returns that offset. -/
def Image.addData (img : Image) (sec : Nat) (bytes : List Nat) (align : Nat) : Nat × Image :=
  match img.section sec with
  | none => (0, img)
  | some s =>
    let offset := alignUp s.data.length align
    let s1 : Section :=
      { s with data := s.data ++ List.replicate (offset - s.data.length) 0 ++ bytes }
    (offset, { img with sections := img.sections.set sec (some s1) })

/-- Modelled from the spec: `setValue(value)` of a symbol-table entry. -/
def Image.setValue (img : Image) (i value : Nat) : Image :=
  match img.symtab.get? i with
  | none => img
  | some e => { img with symtab := img.symtab.set i { e with value := value } }

/-- Modelled from the spec: `setSize(size)` of a symbol-table entry. -/
def Image.setSize (img : Image) (i size : Nat) : Image :=
  match img.symtab.get? i with
  | none => img
  | some e => { img with symtab := img.symtab.set i { e with size := size } }

/-- Modelled from the spec: `relocationSection()` of a section yields the
relocation section that targets it; a section that has none yet gets a new one
at the end of the section table. -/
def Image.relocationSection (img : Image) (sec : Nat) : Option Nat × Image :=
  match img.section sec with
  | none => (none, img)
  | some s =>
    match s.relocationSection with
    | some rel => (some rel, img)
    | none =>
      let rel := img.sections.length
      let s1 : Section := { s with relocationSection := some rel }
      let r1 : Section :=
        { Name := ".rela" ++ s.Name, type := SHT_RELA, flags := 0, targetSection := some sec }
      (some rel, { img with sections := img.sections.set sec (some s1) ++ [some r1] })

/-- Modelled from the spec: `addRelocation(type, symbol, offset, addend)` of a
relocation section appends one record to its ordered sequence of records. -/
def Image.addRelocation (img : Image) (rel type symbol offset addend : Nat) : Image :=
  match img.section rel with
  | none => img
  | some r =>
    let r1 : Section :=
      { r with relocations := r.relocations ++
          [{ type := type, symbol := symbol, offset := offset, addend := addend }] }
    { img with sections := img.sections.set rel (some r1) }

/-- Modelled from the spec: a substrate whose construction operations behave as
section 6 describes them, over the whole-image operations `E`. The layout
`Freeze()` assigns is not part of the model. -/
def specBuilder (E : ElfSubstrate) : ElfBuilder :=
  { E with
    initNew := Image.initNew,
    Freeze := fun img => (true, img),
    addSection := Image.addSection,
    initSegment := Image.initSegment,
    addSymbol := Image.addSymbol,
    addData := Image.addData,
    nextDataOffset := Image.nextDataOffset,
    setValue := Image.setValue,
    setSize := Image.setSize,
    relocationSection := Image.relocationSection,
    addRelocation := Image.addRelocation }

/-! ## Initializers and relocations (producer path) -/

/-- Modelled from the spec: relocation type `R_AMDGPU_32_LOW` of `amd_hsa_elf.h`. -/
def R_AMDGPU_32_LOW : Nat := 1

/-- Modelled from the spec: relocation type `R_AMDGPU_64` of `amd_hsa_elf.h`. -/
def R_AMDGPU_64 : Nat := 3

/-- Modelled from the spec: relocation type `R_AMDGPU_INIT_SAMPLER` of `amd_hsa_elf.h`. -/
def R_AMDGPU_INIT_SAMPLER : Nat := 4

/-- Modelled from the spec: relocation type `R_AMDGPU_INIT_IMAGE` of `amd_hsa_elf.h`. -/
def R_AMDGPU_INIT_IMAGE : Nat := 5

/-- Modelled from the spec: symbol type `STT_AMDGPU_HSA_METADATA` of `amd_hsa_elf.h`. -/
def STT_AMDGPU_HSA_METADATA : Nat := 12

/-- Modelled from the spec: ELF section flag `SHF_MERGE`. -/
def SHF_MERGE : Nat := 0x10

/-- Modelled from the spec: `sizeof(amdgpu_hsa_image_descriptor_t)`, the structure
of `amd_hsa_elf.h` with four 16- and 8-bit fields in 8 bytes and four 64-bit
extents. -/
def sizeof_image_descriptor_t : Nat := 40

/-- Modelled from the spec: `sizeof(amdgpu_hsa_sampler_descriptor_t)`, the
structure of `amd_hsa_elf.h` with 16- and 8-bit fields in 8 bytes. -/
def sizeof_sampler_descriptor_t : Nat := 8

/-- The statement shared by `AddInitVarWithAddress` and the two initializers:
`sym->elfSym()->section()->relocationSection()->addRelocation(rtype, symbol,
sym->elfSym()->value() + destOffset, addend)`, on the image the pointers lead
into. The sum is one of `uint64_t`. The entry of `sym` is read once, before
`relocationSection()` runs; C++ leaves the order of the two unspecified. -/
def addRelocationAt (B : ElfBuilder) (img : Image) (sym : Symbol)
    (rtype symbol destOffset addend : Nat) : Except Fault Image :=
  match img.symbol sym.elfSym with
  | none => .error .badPointer
  | some e =>
    match e.section_ with
    | none => .error .badPointer
    | some sec =>
      let r := B.relocationSection img sec
      match r.1 with
      | none => .error .badPointer
      | some rel =>
        .ok (B.addRelocation r.2 rel rtype symbol ((e.value + destOffset) % 2 ^ 64) addend)

/-- The method `AmdHsaCode::ImageInitSection()`. -/
def AmdHsaCode.ImageInitSection (B : ElfBuilder) (c : AmdHsaCode) :
    Except Fault (Option Nat × AmdHsaCode) :=
  if c.imageInit.isNone then
    match c.img with
    | none => .error .badPointer
    | some img =>
      let r := B.addSection img ".hsaimage_imageinit" SHT_PROGBITS SHF_MERGE
        sizeof_image_descriptor_t none
      .ok (r.1, { c with img := some r.2, imageInit := r.1 })
  else .ok (c.imageInit, c)

/-- The method `AmdHsaCode::AddImageInitializer(image, destOffset, desc)` that
takes the descriptor by reference; `image` is the position of the symbol in
`symbols`, `none` for `nullptr`, and `desc` the memory of the descriptor. -/
def AmdHsaCode.AddImageInitializer (B : ElfBuilder) (c : AmdHsaCode) (image : Option Nat)
    (destOffset : Nat) (desc : Mem) : Except Fault AmdHsaCode :=
  match AmdHsaCode.ImageInitSection B c with
  | .error f => .error f
  | .ok r1 =>
    match r1.1, r1.2.img with
    | some sec, some img =>
      let r := B.addData img sec (readBytes desc sizeof_image_descriptor_t) 8
      let offset := r.1
      match AmdHsaCode.ImageInitSection B { r1.2 with img := some r.2 } with
      | .error f => .error f
      | .ok r2 =>
        match r2.2.img, image.bind (fun i => r2.2.symbols.get? i) with
        | some img2, some s =>
          let imageInit := B.addSymbol img2 r2.1 "" offset 0 STT_AMDGPU_HSA_METADATA STB_LOCAL 0
          match addRelocationAt B imageInit.2 s R_AMDGPU_INIT_IMAGE imageInit.1 destOffset 0 with
          | .error f => .error f
          | .ok img3 => .ok { r2.2 with img := some img3 }
        | _, _ => .error .badPointer
    | _, _ => .error .badPointer

/-- The method `AmdHsaCode::SamplerInitSection()`. -/
def AmdHsaCode.SamplerInitSection (B : ElfBuilder) (c : AmdHsaCode) :
    Except Fault (Option Nat × AmdHsaCode) :=
  if c.samplerInit.isNone then
    match c.img with
    | none => .error .badPointer
    | some img =>
      let r := B.addSection img ".hsaimage_samplerinit" SHT_PROGBITS SHF_MERGE
        sizeof_sampler_descriptor_t none
      .ok (r.1, { c with img := some r.2, samplerInit := r.1 })
  else .ok (c.samplerInit, c)

/-- The method `AmdHsaCode::AddSamplerInitializer(sampler, destOffset, desc)`
that takes the descriptor by reference. -/
def AmdHsaCode.AddSamplerInitializer (B : ElfBuilder) (c : AmdHsaCode) (sampler : Option Nat)
    (destOffset : Nat) (desc : Mem) : Except Fault AmdHsaCode :=
  match AmdHsaCode.SamplerInitSection B c with
  | .error f => .error f
  | .ok r1 =>
    match r1.1, r1.2.img with
    | some sec, some img =>
      let r := B.addData img sec (readBytes desc sizeof_sampler_descriptor_t) 8
      let offset := r.1
      match AmdHsaCode.SamplerInitSection B { r1.2 with img := some r.2 } with
      | .error f => .error f
      | .ok r2 =>
        match r2.2.img, sampler.bind (fun i => r2.2.symbols.get? i) with
        | some img2, some s =>
          let samplerInit := B.addSymbol img2 r2.1 "" offset 0 STT_AMDGPU_HSA_METADATA STB_LOCAL 0
          match addRelocationAt B samplerInit.2 s R_AMDGPU_INIT_SAMPLER samplerInit.1
              destOffset 0 with
          | .error f => .error f
          | .ok img3 => .ok { r2.2 with img := some img3 }
        | _, _ => .error .badPointer
    | _, _ => .error .badPointer

/-- The method `AmdHsaCode::AddInitVarWithAddress(large, dest, destOffset, addrOf,
addrAddend)`; `dest` and `addrOf` are positions in `symbols`, `none` for
`nullptr`. -/
def AmdHsaCode.AddInitVarWithAddress (B : ElfBuilder) (c : AmdHsaCode) (large : Bool)
    (dest : Option Nat) (destOffset : Nat) (addrOf : Option Nat) (addrAddend : Nat) :
    Except Fault AmdHsaCode :=
  let rtype := if large then R_AMDGPU_64 else R_AMDGPU_32_LOW
  match c.img, dest.bind (fun i => c.symbols.get? i), addrOf.bind (fun i => c.symbols.get? i) with
  | some img, some d, some a =>
    match addRelocationAt B img d rtype a.elfSym destOffset addrAddend with
    | .error f => .error f
    | .ok img1 => .ok { c with img := some img1 }
  | _, _, _ => .error .badPointer

/-! ## Introspection -/

/-- Modelled from the spec: what `PrintToFile` uses of a `std::ofstream`: the
result of `fail()` and the text sent to the stream so far. -/
structure OStream where
  fail : Bool
  text : String := ""
  deriving DecidableEq, Repr

/-- The method `AmdHsaCode::PrintToFile(filename)`. `ofstream` is the
constructor `std::ofstream out(filename)` and `Print` the call `Print(out)`,
which writes the dump to the stream; both depend on the file system. -/
def AmdHsaCode.PrintToFile (ofstream : String → OStream) (Print : OStream → OStream)
    (filename : String) : Bool :=
  let out := ofstream filename
  if out.fail then false
  else
    let out1 := Print out
    out1.fail

/-! ## Sample images -/

/-- An object-version note with the given major and minor numbers below 256. -/
def versionNote (major minor : Nat) : Note :=
  { name := "AMD", type := NT_AMDGPU_HSA_CODE_OBJECT_VERSION,
    desc := [major, 0, 0, 0, minor, 0, 0, 0] }

/-- A kernel-code record used by the sample images. -/
def sampleAkc : AmdKernelCode :=
  { kernarg_segment_byte_size := 24, kernarg_segment_alignment := 4,
    workgroup_group_segment_byte_size := 64, workitem_private_segment_byte_size := 8,
    kernel_code_properties := 0 }

/-- A V1 image: a code segment and a foreign segment; a null section slot, the
code section, one data section and one relocation section; a kernel, a
function-type entry, and a module-linkage variable. -/
def sampleImageV1 : Image :=
  { Machine := EM_AMDGPU,
    segments := [{ type := PT_AMDGPU_HSA_LOAD_CODE_AGENT }, { type := PT_LOAD }],
    sections :=
      [none,
       some { Name := ".hsatext", type := SHT_PROGBITS,
              flags := SHF_ALLOC ||| SHF_EXECINSTR ||| SHF_AMDGPU_HSA_CODE ||| SHF_AMDGPU_HSA_AGENT,
              getData := fun off => if off = 0 then some sampleAkc else none },
       some { Name := ".hsadata_global_program", type := SHT_PROGBITS,
              flags := SHF_ALLOC ||| SHF_WRITE ||| SHF_AMDGPU_HSA_GLOBAL },
       some { Name := ".rela.hsadata_global_program", type := SHT_RELA, flags := 0 }],
    symtab :=
      [{ name := "&main", type := STT_AMDGPU_HSA_KERNEL, binding := STB_GLOBAL, section_ := some 1 },
       { name := "helper", type := 2, binding := STB_GLOBAL, section_ := some 1 },
       { name := "mod::var", type := STT_OBJECT, binding := 0, size := 4, section_ := some 2 }],
    notes := [versionNote 1 0] }

/-- A V2 image with the same shape, using `PT_LOAD` and `.text`. -/
def sampleImageV2 : Image :=
  { Machine := EM_AMDGPU,
    segments := [{ type := PT_AMDGPU_HSA_LOAD_CODE_AGENT }, { type := PT_LOAD }],
    sections :=
      [none,
       some { Name := ".text", type := SHT_PROGBITS, flags := SHF_ALLOC ||| SHF_EXECINSTR,
              addr := 256,
              getData := fun off => if off = 0 then some sampleAkc else none },
       some { Name := ".data", type := SHT_PROGBITS, flags := SHF_ALLOC ||| SHF_WRITE },
       some { Name := ".rela.data", type := SHT_RELA, flags := 0 }],
    symtab :=
      [{ name := "main", type := STT_AMDGPU_HSA_KERNEL, binding := STB_GLOBAL, value := 256,
         section_ := some 1 },
       { name := "helper", type := 2, binding := STB_GLOBAL, section_ := some 1 },
       { name := "var", type := STT_COMMON, binding := STB_GLOBAL, size := 4, section_ := some 2 }],
    notes := [versionNote 2 1] }

/-- The V1 sample followed by a kernel entry that has no section. -/
def sampleImageBadKernel : Image :=
  { sampleImageV1 with
    symtab := sampleImageV1.symtab ++
      [{ name := "&broken", type := STT_AMDGPU_HSA_KERNEL, binding := STB_GLOBAL }] }

/-- The V1 sample with machine identity `EM_NONE` instead of `EM_AMDGPU`. -/
def sampleImageNoMachine : Image :=
  { sampleImageV1 with Machine := 0 }

/-- A substrate whose load operations succeed and attach the given image. -/
def sampleSubstrate (img : Image) : ElfSubstrate :=
  { NewElf64Image := { Machine := 0 },
    loadFromFile := fun _ _ => (true, img),
    initFromBuffer := fun _ _ _ => (true, img),
    initAsBuffer := fun _ _ _ => (true, img) }

/-- A V1 image whose only kernel has a kernel-code record with
`kernarg_segment_alignment = 32`. -/
def sampleImageWideAlign : Image :=
  { Machine := EM_AMDGPU,
    sections :=
      [some { Name := ".hsatext", type := SHT_PROGBITS,
              flags := SHF_ALLOC ||| SHF_EXECINSTR ||| SHF_AMDGPU_HSA_CODE ||| SHF_AMDGPU_HSA_AGENT,
              getData := fun off =>
                if off = 0 then some { sampleAkc with kernarg_segment_alignment := 32 }
                else none }],
    symtab :=
      [{ name := "&main", type := STT_AMDGPU_HSA_KERNEL, binding := STB_GLOBAL,
         section_ := some 0 }],
    notes := [versionNote 1 0] }

/-- An image with a version note and a well-formed ISA note for vendor "AMD",
architecture "gfx900", version 9.0.0: the 16-byte header followed by both
NUL-terminated names. -/
def sampleImageIsa : Image :=
  { Machine := EM_AMDGPU,
    notes := [versionNote 2 1,
      { name := "AMD", type := NT_AMDGPU_HSA_ISA,
        desc := [4, 0, 7, 0, 9, 0, 0, 0, 0, 0, 0, 0, 0, 0, 0, 0, 65, 77, 68, 0,
          103, 102, 120, 57, 48, 48, 0] }] }

/-- A callback that records the handles it is called with and fails on the
handle `bad`. -/
def sampleCallback (bad : Nat) : Nat → Nat → List Nat → hsa_status_t × List Nat :=
  fun _ h log => (if h = bad then HSA_STATUS_ERROR else HSA_STATUS_SUCCESS, log ++ [h])

/-- A substrate whose load operations all fail. -/
def failingSubstrate : ElfSubstrate :=
  { NewElf64Image := { Machine := 0 },
    loadFromFile := fun i _ => (false, i),
    initFromBuffer := fun i _ _ => (false, i),
    initAsBuffer := fun i _ _ => (false, i) }

/-- An empty cache. -/
def emptyManager : AmdHsaCodeManager := { codeMap := fun _ => none }

/-- The substrate of section 6 for the samples; its load operations are not used. -/
def sampleBuilder : ElfBuilder := specBuilder failingSubstrate

/-- A new object: `InitNew(false)` on a fresh code object. -/
def sampleNew : AmdHsaCode :=
  (AmdHsaCode.InitNew sampleBuilder (AmdHsaCode.construct false) false).2

/-- A new object with a code section and two kernel symbols "foo" and "bar"
on it. -/
def sampleKernels : AmdHsaCode :=
  let c1 := AmdHsaCode.AddCodeSection sampleBuilder sampleNew none
  let c2 := AmdHsaCode.AddExecutableSymbol sampleBuilder c1.2 "foo" STT_AMDGPU_HSA_KERNEL
    STB_GLOBAL 0 c1.1
  (AmdHsaCode.AddExecutableSymbol sampleBuilder c2.2 "bar" STT_AMDGPU_HSA_KERNEL
    STB_GLOBAL 0 c1.1).2

/-- The code section `AddCodeSection` creates over the substrate of section 6. -/
def sampleCodeSection : Section :=
  { Name := ".hsatext", type := SHT_PROGBITS,
    flags := SHF_ALLOC ||| SHF_EXECINSTR ||| SHF_WRITE ||| SHF_AMDGPU_HSA_CODE |||
      SHF_AMDGPU_HSA_AGENT }

/-- The image of `sampleKernels`. -/
def sampleKernelsImage : Image :=
  { Machine := EM_AMDGPU, type := ET_EXEC, os_abi := ELFOSABI_AMDGPU_HSA,
    sections := [some sampleCodeSection],
    symtab :=
      [{ name := "foo", type := STT_AMDGPU_HSA_KERNEL, binding := STB_GLOBAL, section_ := some 0 },
       { name := "bar", type := STT_AMDGPU_HSA_KERNEL, binding := STB_GLOBAL, section_ := some 0 }] }

/-- The minimal object of the specification's scenario before its kernel code
is added: `InitNew(false)`, `AddCodeSection()`, `AddExecutableSymbol("foo",
STT_AMDGPU_HSA_KERNEL, STB_GLOBAL, 0, code_section)`; with the returned symbol
pointer. -/
def sampleMinimal : Option Nat × AmdHsaCode :=
  let c1 := AmdHsaCode.AddCodeSection sampleBuilder sampleNew none
  AmdHsaCode.AddExecutableSymbol sampleBuilder c1.2 "foo" STT_AMDGPU_HSA_KERNEL STB_GLOBAL 0 c1.1

/-- A substrate that records `Freeze()` and refuses every change afterwards:
on a frozen image `addSection` and `initSegment` return null, `addSymbol`
returns a pointer to no entry, `addData` returns 0, `relocationSection`
returns null, and none of them, nor `setValue`, `setSize` and `addRelocation`,
changes the image. Before `Freeze()` it behaves as the substrate of section 6. -/
def strictBuilder : ElfBuilder :=
  { sampleBuilder with
    Freeze := fun img => (true, { img with frozen := true }),
    addSection := fun img name type flags addralign segment =>
      if img.frozen then (none, img) else img.addSection name type flags addralign segment,
    initSegment := fun img type flags =>
      if img.frozen then (none, img) else img.initSegment type flags,
    addSymbol := fun img section_ name value size type binding other =>
      if img.frozen then (img.symtab.length, img)
      else img.addSymbol section_ name value size type binding other,
    addData := fun img sec bytes align =>
      if img.frozen then (0, img) else img.addData sec bytes align,
    setValue := fun img i value => if img.frozen then img else img.setValue i value,
    setSize := fun img i size => if img.frozen then img else img.setSize i size,
    relocationSection := fun img sec =>
      if img.frozen then (none, img) else img.relocationSection sec,
    addRelocation := fun img rel type symbol offset addend =>
      if img.frozen then img else img.addRelocation rel type symbol offset addend }

/-- The minimal object after a successful `Freeze()` on the strict substrate. -/
def sampleFrozen : AmdHsaCode :=
  match AmdHsaCode.Freeze strictBuilder sampleMinimal.2 with
  | .ok r => r.2
  | .error _ => sampleMinimal.2

/-- An image with one variable in a read-only data section (the flags of
`.hsarodata_global_program`, without the write flag) and one in a writable
data section. -/
def sampleImageConst : Image :=
  { Machine := EM_AMDGPU,
    sections :=
      [some { Name := ".hsarodata_global_program", type := SHT_PROGBITS,
              flags := SHF_ALLOC ||| SHF_AMDGPU_HSA_GLOBAL },
       some { Name := ".hsadata_global_program", type := SHT_PROGBITS,
              flags := SHF_ALLOC ||| SHF_WRITE ||| SHF_AMDGPU_HSA_GLOBAL }],
    symtab :=
      [{ name := "ro", type := STT_OBJECT, binding := STB_GLOBAL, size := 4, section_ := some 0 },
       { name := "rw", type := STT_OBJECT, binding := STB_GLOBAL, size := 4, section_ := some 1 }],
    notes := [versionNote 1 0] }

/-- An image with one variable whose size, 2^32 + 4, does not fit 32 bits. -/
def sampleImageBigVariable : Image :=
  { Machine := EM_AMDGPU,
    sections := [some { Name := ".hsadata_global_program", type := SHT_PROGBITS,
                        flags := SHF_ALLOC ||| SHF_WRITE ||| SHF_AMDGPU_HSA_GLOBAL }],
    symtab :=
      [{ name := "big", type := STT_OBJECT, binding := STB_GLOBAL, size := 4294967300,
         section_ := some 0 }],
    notes := [versionNote 1 0] }

/-- A file system on which every file opens; the stream starts empty. -/
def sampleOfstream : String → OStream := fun _ => { fail := false }

/-- A dump that writes its text without a stream error. -/
def samplePrint : OStream → OStream := fun out => { out with text := out.text ++ "dump\n" }

/-- A dump during which the stream fails. -/
def samplePrintFailing : OStream → OStream := fun out => { out with fail := true }

/-- A new object with a code section: `InitNew(false)` and `AddCodeSection()`. -/
def sampleCode : AmdHsaCode := (AmdHsaCode.AddCodeSection sampleBuilder sampleNew none).2

/-- The image of `sampleCode`. -/
def sampleCodeImage : Image :=
  { Machine := EM_AMDGPU, type := ET_EXEC, os_abi := ELFOSABI_AMDGPU_HSA,
    sections := [some sampleCodeSection] }

/-- The data section `AddDataSection` creates for `.hsadata_global_program` over
the substrate of section 6. -/
def sampleDataSection : Section :=
  { Name := ".hsadata_global_program", type := SHT_PROGBITS,
    flags := SHF_ALLOC ||| SHF_WRITE ||| SHF_AMDGPU_HSA_GLOBAL }

/-- A new object with one data section and two variables on it: "x" at offset 0
with 8 bytes and "y" at offset 8 with 4 bytes. -/
def sampleVariables : AmdHsaCode :=
  let c1 := AmdHsaCode.AddDataSection sampleBuilder sampleNew ".hsadata_global_program"
    SHT_PROGBITS (SHF_ALLOC ||| SHF_WRITE ||| SHF_AMDGPU_HSA_GLOBAL) none
  let c2 := AmdHsaCode.AddVariableSymbol sampleBuilder c1.2 "x" STT_OBJECT STB_GLOBAL 0 c1.1 0 8
  (AmdHsaCode.AddVariableSymbol sampleBuilder c2.2 "y" STT_OBJECT STB_GLOBAL 0 c1.1 8 4).2

/-- The image of `sampleVariables`. -/
def sampleVariablesImage : Image :=
  { Machine := EM_AMDGPU, type := ET_EXEC, os_abi := ELFOSABI_AMDGPU_HSA,
    sections := [some sampleDataSection],
    symtab :=
      [{ name := "x", type := STT_OBJECT, binding := STB_GLOBAL, value := 0, size := 8,
         section_ := some 0 },
       { name := "y", type := STT_OBJECT, binding := STB_GLOBAL, value := 8, size := 4,
         section_ := some 0 }] }

/-- The sample object with two variables after `AddImageInitializer` on "x" at
offset 0 with a descriptor of the bytes 1 to 40. -/
def sampleInitialized : AmdHsaCode :=
  match AmdHsaCode.AddImageInitializer sampleBuilder sampleVariables (some 0) 0
      (fun i => i + 1) with
  | .ok c => c
  | .error _ => sampleVariables

/-- The image of `sampleInitialized`. -/
def sampleInitializedImage : Image :=
  match sampleInitialized.img with
  | some img => img
  | none => sampleVariablesImage

/-- An image with two module-linkage variables whose raw names are mangled from
strings that hold a single ':' but not the separator "::": "a:b::c" from module
"a:b" and symbol "c", and "m::c:d" from module "m" and symbol "c:d". -/
def sampleImageColons : Image :=
  { Machine := EM_AMDGPU,
    sections := [some { Name := ".hsadata_global_program", type := SHT_PROGBITS,
                        flags := SHF_ALLOC ||| SHF_WRITE ||| SHF_AMDGPU_HSA_GLOBAL }],
    symtab :=
      [{ name := "a:b::c", type := STT_OBJECT, binding := 0, size := 4, section_ := some 0 },
       { name := "m::c:d", type := STT_OBJECT, binding := 0, size := 4, section_ := some 0 }],
    notes := [versionNote 1 0] }

/-- Modelled from the spec: an `addData(src, size, align)` that appends the bytes
at the next offset that honours the alignment, as `Image.addData` does, and
then fills the section with zero bytes up to the next alignment boundary. -/
def Image.addDataPadded (img : Image) (sec : Nat) (bytes : List Nat) (align : Nat) :
    Nat × Image :=
  match img.section sec with
  | none => (0, img)
  | some s =>
    let offset := alignUp s.data.length align
    let size := alignUp (offset + bytes.length) align
    let s1 : Section :=
      { s with data := s.data ++ List.replicate (offset - s.data.length) 0 ++ bytes ++
          List.replicate (size - (offset + bytes.length)) 0 }
    (offset, { img with sections := img.sections.set sec (some s1) })

/-- Modelled from the spec: a second substrate for section 6, as `specBuilder`
but with an `addData` that keeps the size of a section at a multiple of the
alignment by padding behind the bytes it appends. -/
def paddingBuilder (E : ElfSubstrate) : ElfBuilder :=
  { specBuilder E with addData := Image.addDataPadded }

/-! ## Specification-side vocabulary -/

/-- Indices, in increasing order, of the entries of a table that satisfy `P`. -/
def indicesWhere {α : Type} (P : α → Bool) (l : List α) : List Nat :=
  (l.enum.filter (fun p => P p.2)).map Prod.fst

/-- Lifts a test on sections to table slots: a null slot never passes. -/
def onSection (P : Section → Bool) : Option Section → Bool
  | none => false
  | some sec => P sec

/-- The symbol a switch body produced, if any. -/
def Pulled.sym? : Pulled → Option Symbol
  | .sym s => some s
  | _ => none

/-- Whether a switch body took an early `return false`. -/
def Pulled.isFail : Pulled → Bool
  | .fail _ => true
  | _ => false

/-- The text a failing switch body sent to `out`. -/
def Pulled.msg : Pulled → String
  | .fail m => m
  | _ => ""

/-- The symbol variant the specification assigns to an entry type: `some true`
for the kernel type (a kernel symbol), `some false` for the object and common
types (a variable symbol), `none` for every other type (no symbol). -/
def variantOfType (t : Nat) : Option Bool :=
  if t = STT_AMDGPU_HSA_KERNEL then some true
  else if t = STT_OBJECT ∨ t = STT_COMMON then some false
  else none

/-- A kernel-type entry that V1 ingestion rejects: it has no section, or its
section carries none of the agent, code, executable flags, or the kernel-code
record cannot be read from that section at the symbol's value. -/
def KernelRejectedV1 (img : Image) (e : ElfSymbol) : Prop :=
  e.type = STT_AMDGPU_HSA_KERNEL ∧
  (img.sectionOf e = none ∨
    ∃ sec, img.sectionOf e = some sec ∧
      ((sec.flags &&& SHF_AMDGPU_HSA_AGENT = 0 ∧ sec.flags &&& SHF_AMDGPU_HSA_CODE = 0 ∧
          sec.flags &&& SHF_EXECINSTR = 0) ∨
        sec.getData e.value = none))

/-- A kernel-type entry that V2 ingestion rejects: it has no section, or its
section carries neither the alloc nor the executable flag, or the kernel-code
record cannot be read at the symbol's value minus the section address. -/
def KernelRejectedV2 (img : Image) (e : ElfSymbol) : Prop :=
  e.type = STT_AMDGPU_HSA_KERNEL ∧
  (img.sectionOf e = none ∨
    ∃ sec, img.sectionOf e = some sec ∧
      ((sec.flags &&& SHF_ALLOC = 0 ∧ sec.flags &&& SHF_EXECINSTR = 0) ∨
        sec.getData (sub64 e.value sec.addr) = none))

/-- What a failed entry point leaves behind. `c` is the object before the call,
`r` the result of the substrate load, `c'` the object after the call. When the
load itself failed or the version note is absent the four lists and the cached
code section are unchanged; in every case each list still starts with its old
entries. -/
def FailureLeaves (c : AmdHsaCode) (r : Bool × Image) (c' : AmdHsaCode) : Prop :=
  ((r.1 = false ∨ AmdHsaCode.GetNoteCodeObjectVersion r.2 = none) →
    c'.symbols = c.symbols ∧ c'.dataSegments = c.dataSegments ∧
    c'.dataSections = c.dataSections ∧ c'.relocationSections = c.relocationSections ∧
    c'.hsatext = c.hsatext) ∧
  (∃ t, c'.symbols = c.symbols ++ t) ∧ (∃ t, c'.dataSegments = c.dataSegments ++ t) ∧
  (∃ t, c'.dataSections = c.dataSections ++ t) ∧
  (∃ t, c'.relocationSections = c.relocationSections ++ t)

/-- The code-section handle after a section loop that started with `h`. -/
def lastNamed (textName : String) (l : List (Nat × Option Section)) (h : Option Nat) : Option Nat :=
  l.foldl (fun h p => if onSection (fun sec => sec.Name == textName) p.2 then some p.1 else h) h

/-- A code object that lacks the note with type tag `t`: no record of vendor
"AMD" in the note area carries the tag. -/
def LacksNote (img : Image) (t : Nat) : Prop :=
  ∀ n ∈ img.notes, ¬ (n.name = "AMD" ∧ n.type = t)

/-- The contract of a bounded string attribute. `value` is the destination
before the call, `v` after it, `s` the string to report: the first
`min 63 s.length` bytes are those of `s`, the bytes from there up to index 63
are zero, and no byte from index 64 on is touched. -/
def IsBoundedString64 (value v : Mem) (s : String) : Prop :=
  (∀ i, i < min 63 s.length → v i = (bytesOf s).getD i 0) ∧
  (∀ i, min 63 s.length ≤ i → i < 64 → v i = 0) ∧
  (∀ i, 64 ≤ i → v i = value i)

/-- The state behind `data` after the callback has been called, once each and
in order, on the symbol handles `0, …, j - 1`. -/
def stateAfterCalls {σ : Type} (code_object : Nat)
    (callback : Nat → Nat → σ → hsa_status_t × σ) (data : σ) : Nat → σ
  | 0 => data
  | j + 1 =>
    (callback code_object j (stateAfterCalls code_object callback data j)).2

/-- The status the callback returns on its call for symbol handle `j`, when it
has been called before on the handles `0, …, j - 1`. -/
def statusOfCall {σ : Type} (code_object : Nat)
    (callback : Nat → Nat → σ → hsa_status_t × σ) (data : σ) (j : Nat) : hsa_status_t :=
  (callback code_object j (stateAfterCalls code_object callback data j)).1

/-- The state after calls on the handles `k, …, k + j - 1`, starting from `d`;
`stateAfterCalls` with the first call made first. -/
def stateFrom {σ : Type} (code_object : Nat)
    (callback : Nat → Nat → σ → hsa_status_t × σ) : Nat → σ → Nat → σ
  | _, d, 0 => d
  | k, d, j + 1 => stateFrom code_object callback (k + 1) (callback code_object k d).2 j

/-- The manager after a run of `FromHandle` calls, one per handle of `hs` in
order, with no `Destroy` between them. The substrate may change between the
calls: `E i` is the substrate at the time of call `i`. -/
def resolveAll (E : Nat → ElfSubstrate) (combineDataSegmentsDefault : Bool) :
    AmdHsaCodeManager → List Nat → AmdHsaCodeManager
  | m, [] => m
  | m, h :: hs =>
    resolveAll (fun i => E (i + 1)) combineDataSegmentsDefault
      (AmdHsaCodeManager.FromHandle (E 0) combineDataSegmentsDefault m h).2 hs

/-- The segment slots are sound over the image: a segment held in the slot of
class `s` with writability `w` is a segment of the image, of the load type of
the class, with the write permission exactly when `w` is true. -/
def SlotsSound (c : AmdHsaCode) (img : Image) : Prop :=
  ∀ s w i, c.hsaSegments s w = some i →
    ∃ seg, img.segments.get? i = some seg ∧ seg.type = PT_LOOS + s.toNat ∧
      (seg.flags &&& PF_W ≠ 0 ↔ w = true)

/-- The value of the symbol-table entry behind the symbol at position `sym`. -/
def AmdHsaCode.valueOf (c : AmdHsaCode) (sym : Nat) : Option Nat :=
  match c.img, c.symbols.get? sym with
  | some img, some s => (img.symbol s.elfSym).map (fun e => e.value)
  | _, _ => none

/-- The size of the symbol-table entry behind the symbol at position `sym`. -/
def AmdHsaCode.sizeOf (c : AmdHsaCode) (sym : Nat) : Option Nat :=
  match c.img, c.symbols.get? sym with
  | some img, some s => (img.symbol s.elfSym).map (fun e => e.size)
  | _, _ => none

/-- The bytes of the code section. -/
def AmdHsaCode.codeData (c : AmdHsaCode) : Option (List Nat) :=
  match c.img, c.hsatext with
  | some img, some t => (img.section t).map (fun s => s.data)
  | _, _ => none

/-- The size of the code section. -/
def AmdHsaCode.codeSize (c : AmdHsaCode) : Option Nat :=
  c.codeData.map List.length

/-- A sequence of `AddKernelCode` calls, each given as symbol, code pointer and
byte count: the object after the last call and, for each call in order, the
offset assigned to its symbol, read from the symbol right after the call. -/
def addKernelCodes (asserts : Bool) (B : ElfBuilder) :
    AmdHsaCode → List (Nat × Mem × Nat) → Except Fault (List (Option Nat) × AmdHsaCode)
  | c, [] => .ok ([], c)
  | c, call :: rest =>
    match AmdHsaCode.AddKernelCode asserts B c (some call.1) call.2.1 call.2.2 with
    | .error f => .error f
    | .ok r =>
      match addKernelCodes asserts B r.2 rest with
      | .error f => .error f
      | .ok rs => .ok (r.2.valueOf call.1 :: rs.1, rs.2)

/-- Running sums: the first offset is `m` and each next offset is the previous
one plus the previous byte count rounded up to a multiple of 256. -/
def roundedSums : Nat → List Nat → List Nat
  | _, [] => []
  | m, s :: rest => m :: roundedSums (m + alignUp s 256) rest

/-- The size of a section of `n` bytes after appends of the given byte counts,
each written at the next multiple of 256. -/
def sizeAfter : Nat → List Nat → Nat
  | n, [] => n
  | n, s :: rest => sizeAfter (alignUp n 256 + s) rest

/-- One call of a producer operation on an initialised code object, with its
arguments: a note, a code or data section, a segment slot, a well-known
section, an executable or variable symbol, kernel code, the section symbols. -/
inductive ProducerStep where
  | addAmdNote (type : Nat) (desc : Mem) (desc_size : Nat)
  | addCodeSection (segment : Option Nat)
  | addDataSection (name : String) (type flags : Nat) (segment : Option Nat)
  | initHsaSectionSegment (sec : amdgpu_hsa_elf_section_t) (combineSegments : Bool)
  | hsaDataSection (sec : amdgpu_hsa_elf_section_t) (combineSegments : Bool)
  | addExecutableSymbol (name : String) (type binding other : Nat) (section_ : Option Nat)
  | addVariableSymbol (name : String) (type binding other : Nat) (section_ : Option Nat)
      (value size : Nat)
  | addKernelCode (sym : Nat) (code : Mem) (size : Nat)
  | addSectionSymbols

/-- The code object after one producer call. -/
def runStep (asserts : Bool) (B : ElfBuilder) (c : AmdHsaCode) :
    ProducerStep → Except Fault AmdHsaCode
  | .addAmdNote type desc desc_size =>
    match c.img with
    | none => .error .badPointer
    | some img => .ok { c with img := some (AmdHsaCode.AddAmdNote img type desc desc_size) }
  | .addCodeSection segment => .ok (AmdHsaCode.AddCodeSection B c segment).2
  | .addDataSection name type flags segment =>
    .ok (AmdHsaCode.AddDataSection B c name type flags segment).2
  | .initHsaSectionSegment sec combineSegments =>
    AmdHsaCode.InitHsaSectionSegment B c sec combineSegments
  | .hsaDataSection sec combineSegments =>
    (AmdHsaCode.HsaDataSection asserts B c sec combineSegments).map (fun r => r.2)
  | .addExecutableSymbol name type binding other section_ =>
    .ok (AmdHsaCode.AddExecutableSymbol B c name type binding other section_).2
  | .addVariableSymbol name type binding other section_ value size =>
    .ok (AmdHsaCode.AddVariableSymbol B c name type binding other section_ value size).2
  | .addKernelCode sym code size =>
    (AmdHsaCode.AddKernelCode asserts B c (some sym) code size).map (fun r => r.2)
  | .addSectionSymbols => AmdHsaCode.AddSectionSymbols B c

/-- The code object after a sequence of producer calls. -/
def runSteps (asserts : Bool) (B : ElfBuilder) :
    AmdHsaCode → List ProducerStep → Except Fault AmdHsaCode
  | c, [] => .ok c
  | c, step :: rest =>
    match runStep asserts B c step with
    | .error f => .error f
    | .ok c1 => runSteps asserts B c1 rest

/-- The symbol types ingestion makes a symbol of: kernel, object and common. -/
def isIngestedType (t : Nat) : Bool := (variantOfType t).isSome

/-- A producer call whose symbols ingestion reads back: a symbol is added with
one of the types ingestion makes a symbol of, and no section symbols are added. -/
def ProducerStep.ReadBack : ProducerStep → Prop
  | .addExecutableSymbol _ type _ _ _ => isIngestedType type = true
  | .addVariableSymbol _ type _ _ _ _ _ => isIngestedType type = true
  | .addSectionSymbols => False
  | _ => True

/-- What serialisation and layout keep of an image: the note area and, for
every symbol-table entry, its name, type, binding and size. -/
def SameEntries (img img1 : Image) : Prop :=
  img1.notes = img.notes ∧
  img1.symtab.map (fun e => (e.name, e.type, e.binding, e.size)) =
    img.symtab.map (fun e => (e.name, e.type, e.binding, e.size))

/-- The name, linkage and size a symbol reports. -/
def Symbol.view (img : Image) (sym : Symbol) :
    Except Fault (String × hsa_symbol_linkage_t × Nat) := do
  let n ← sym.Name img
  let l ← sym.Linkage img
  let z ← sym.Size img
  pure (n, l, z)

/-- The symbols of the code object wrap exactly the symbol-table entries of the
types ingestion makes a symbol of, in table order. -/
def TracksSymtab (c : AmdHsaCode) : Prop :=
  ∃ img, c.img = some img ∧
    c.symbols.map Symbol.elfSym =
      indicesWhere isIngestedType (img.symtab.map (fun e => e.type))

/-- The producer calls of a small object: a version note 1.0, a data section,
a variable "x" in it, and the section symbols. -/
def sampleSteps : List ProducerStep :=
  [.addAmdNote NT_AMDGPU_HSA_CODE_OBJECT_VERSION (fun i => if i = 0 then 1 else 0) 8,
   .addDataSection ".hsadata_global_program" SHT_PROGBITS
      (SHF_ALLOC ||| SHF_WRITE ||| SHF_AMDGPU_HSA_GLOBAL) none,
   .addVariableSymbol "x" STT_OBJECT STB_GLOBAL 0 (some 0) 0 4,
   .addSectionSymbols]

/-- The object built by `sampleSteps` on a new object and then frozen. -/
def sampleBuilt : AmdHsaCode :=
  match runSteps true sampleBuilder sampleNew sampleSteps with
  | .ok c =>
    match AmdHsaCode.Freeze sampleBuilder c with
    | .ok r => r.2
    | .error _ => c
  | .error _ => sampleNew

/-- The image of `sampleBuilt`. -/
def sampleBuiltImage : Image :=
  match sampleBuilt.img with
  | some img => img
  | none => { Machine := 0 }

/-- The object built on a new object by the first three calls of `sampleSteps`:
the note, the data section and the variable "x". -/
def sampleRoundTrip : AmdHsaCode :=
  match runSteps true sampleBuilder sampleNew (sampleSteps.take 3) with
  | .ok c => c
  | .error _ => sampleNew

/-- The image of `sampleRoundTrip`. -/
def sampleRoundTripImage : Image :=
  match sampleRoundTrip.img with
  | some img => img
  | none => { Machine := 0 }

/-- The records of the relocation section that targets the section `sec`, in
order; there are none while the section has no relocation section. -/
def Image.relocationsOf (img : Image) (sec : Nat) : List Relocation :=
  match (img.section sec).bind (fun s => s.relocationSection) with
  | none => []
  | some rel =>
    match img.section rel with
    | none => []
    | some r => r.relocations

/-- The bytes of the section `sec`. -/
def Image.dataOf (img : Image) (sec : Nat) : Option (List Nat) :=
  (img.section sec).map (fun s => s.data)

/-- The section `s1` has the name, type, flags and bytes of `s`. -/
def Section.SameContent (s1 s : Section) : Prop :=
  s1.Name = s.Name ∧ s1.type = s.type ∧ s1.flags = s.flags ∧ s1.data = s.data

/-- Every section of `img` is a section of `img1` with the same name, type,
flags and bytes. -/
def Image.KeepsData (img img1 : Image) : Prop :=
  ∀ k s, img.section k = some s → ∃ s1, img1.section k = some s1 ∧ s1.SameContent s

/-- Every section of `img` is a section of `img1` with the same relocation
section and the same records, and the sections `img1` has besides hold no
records. -/
def Image.KeepsRelocations (img img1 : Image) : Prop :=
  (∀ k s, img.section k = some s →
    ∃ s1, img1.section k = some s1 ∧ s1.relocationSection = s.relocationSection ∧
      s1.relocations = s.relocations) ∧
  (∀ k s1, img.section k = none → img1.section k = some s1 → s1.relocations = [])

/-- The bytes of the section `sec`, none for a section that does not exist. -/
def Image.bytesOf (img : Image) (sec : Nat) : List Nat := (img.dataOf sec).getD []

/-- What one initializer call leaves in the image, `img` before the call and
`img1` after it. `cached` is the initializer section the code object had
cached before the call, null when it had none, and `t` the initializer section
after the call: the cached one, or else a new section at the end of the section
table with the given name, type `SHT_PROGBITS` and flags `SHF_MERGE`. The bytes
of `t` are the bytes it had, zero bytes up to the next multiple of 8, and the
descriptor `bytes`. The symbol table has one more entry: a local symbol of
metadata type with the empty name, on section `t`, whose value is the offset
of the descriptor. The relocation section of the section `si` has one more
record: type `rtype`, the new entry as symbol, the given offset, addend 0. -/
def InitializerAdded (img img1 : Image) (cached : Option Nat) (t : Nat) (name : String)
    (bytes : List Nat) (rtype si offset : Nat) : Prop :=
  (match cached with
    | some t0 => t = t0
    | none => t = img.sections.length) ∧
  (∃ x, img1.section t = some x ∧
    x.data = img.bytesOf t ++
      List.replicate (alignUp (img.bytesOf t).length 8 - (img.bytesOf t).length) 0 ++ bytes ∧
    (cached = none → x.Name = name ∧ x.type = SHT_PROGBITS ∧ x.flags = SHF_MERGE)) ∧
  img1.symtab = img.symtab ++
    [{ name := "", type := STT_AMDGPU_HSA_METADATA, binding := STB_LOCAL,
       value := alignUp (img.bytesOf t).length 8, size := 0, section_ := some t }] ∧
  img1.relocationsOf si = img.relocationsOf si ++
    [{ type := rtype, symbol := img.symtab.length, offset := offset, addend := 0 }]

/-- The symbol as an object of the V1 (`false`) or V2 (`true`) classes, with its
data members unchanged. -/
def Symbol.asDialect (v2 : Bool) : Symbol → Symbol
  | .kernel k _ => .kernel k v2
  | .variable v _ => .variable v v2

/-- The segment test of the dialect the major version selects. -/
def dialectLoadType (major : Nat) : Segment → Bool :=
  if major ≥ 2 then isLoadTypeV2 else isLoadTypeV1

/-- The data-section test of the dialect the major version selects. -/
def dialectDataSection (major : Nat) : Section → Bool :=
  if major ≥ 2 then isDataSectionV2 else isDataSectionV1

/-- The code-section name of the dialect the major version selects. -/
def dialectTextName (major : Nat) : String :=
  if major ≥ 2 then ".text" else ".hsatext"

/-- A kernel-type entry that the dialect the major version selects rejects. -/
def KernelRejected (major : Nat) (img : Image) (e : ElfSymbol) : Prop :=
  if major ≥ 2 then KernelRejectedV2 img e else KernelRejectedV1 img e

/-- What an ingestion that fails at a kernel symbol leaves in the object: `c`
is the object before the call, `c1` the object after it, `img` the attached
image and `major` the major number of its version note. Nothing classified is
taken back. The data-segment list is its old content followed by every segment
of the image that passes the dialect's test; the data-section and
relocation-section lists are their old content followed by every section that
passes the test for data sections, respectively every other section of type
RELA; the cached code section is the last section with the dialect's
code-section name, unchanged when there is none; and the symbol list is its
old content followed by the symbols of the entries before the first rejected
kernel entry, which stands at index `n` of the symbol table. -/
def PartialIngestion (c : AmdHsaCode) (img : Image) (major : Nat) (c1 : AmdHsaCode) : Prop :=
  c1.dataSegments = c.dataSegments ++ indicesWhere (dialectLoadType major) img.segments ∧
  c1.dataSections = c.dataSections ++
    (indicesWhere (onSection (dialectDataSection major)) img.sections).map some ∧
  c1.relocationSections = c.relocationSections ++
    indicesWhere (onSection (fun sec => !dialectDataSection major sec && sec.type == SHT_RELA))
      img.sections ∧
  c1.hsatext = lastNamed (dialectTextName major) img.sections.enum c.hsatext ∧
  ∃ n e, img.symtab.get? n = some e ∧ KernelRejected major img e ∧
    (∀ k x, k < n → img.symtab.get? k = some x → ¬ KernelRejected major img x) ∧
    c1.symbols.map (fun s => (s.elfSym, s.IsKernelSymbol)) =
      c.symbols.map (fun s => (s.elfSym, s.IsKernelSymbol)) ++
        (img.symtab.enum.take n).filterMap
          (fun p => (variantOfType p.2.type).map (fun k => (p.1, k)))

/-- What section 6 of the specification says of the data operations of a
substrate, and no more. `addData` on an existing section writes the bytes at
the least offset at or behind the end of the section that honours the
requested alignment and returns that offset; afterwards the section ends at or
behind the end of the bytes written and not behind the next alignment
boundary; the symbol table is unchanged. `nextDataOffset` is the offset the
next `addData` returns. `setValue` and `setSize` set the field of an existing
entry and leave the other entries and the sections alone. -/
def AppendsAligned (B : ElfBuilder) : Prop :=
  (∀ (img : Image) (t : Nat) (bytes : List Nat) (align : Nat) (sec : Section),
    0 < align → img.section t = some sec →
    (B.addData img t bytes align).1 = alignUp sec.data.length align ∧
    (B.addData img t bytes align).2.symtab = img.symtab ∧
    ∃ sec1, (B.addData img t bytes align).2.section t = some sec1 ∧
      alignUp sec.data.length align + bytes.length ≤ sec1.data.length ∧
      sec1.data.length ≤ alignUp (alignUp sec.data.length align + bytes.length) align) ∧
  (∀ (img : Image) (t align : Nat) (sec : Section), 0 < align → img.section t = some sec →
    B.nextDataOffset img t align = alignUp sec.data.length align) ∧
  (∀ (img : Image) (i value : Nat) (e : ElfSymbol), img.symbol i = some e →
    (B.setValue img i value).symbol i = some { e with value := value } ∧
    (∀ j, j ≠ i → (B.setValue img i value).symbol j = img.symbol j) ∧
    (B.setValue img i value).sections = img.sections) ∧
  (∀ (img : Image) (i size : Nat) (e : ElfSymbol), img.symbol i = some e →
    (B.setSize img i size).symbol i = some { e with size := size } ∧
    (∀ j, j ≠ i → (B.setSize img i size).symbol j = img.symbol j) ∧
    (B.setSize img i size).sections = img.sections)

/-- The substrate pads behind an append: after `addData` the section ends at the
alignment boundary behind the appended bytes. -/
def PadsBehind (B : ElfBuilder) : Prop :=
  ∀ (img : Image) (t : Nat) (bytes : List Nat) (align : Nat) (sec sec1 : Section),
    0 < align → img.section t = some sec →
    (B.addData img t bytes align).2.section t = some sec1 →
    sec1.data.length = alignUp (alignUp sec.data.length align + bytes.length) align

/-! # Properties -/

/-! ## Lemmas on the loops, the filters and the string operations -/

theorem foldl_pullSegment (test : Segment → Bool) (l : List (Nat × Segment)) (c : AmdHsaCode) :
    l.foldl (pullSegment test) c =
      { c with dataSegments := c.dataSegments ++ (l.filter (fun p => test p.2)).map Prod.fst } := by
  induction l generalizing c with
  | nil => simp
  | cons p rest ih =>
    rw [List.foldl_cons, ih]
    unfold pullSegment
    by_cases h : test p.2 = true
    · simp [h, List.filter_cons]
    · simp [h, List.filter_cons]

theorem foldl_pullSection (isData : Section → Bool) (textName : String)
    (l : List (Nat × Option Section)) (c : AmdHsaCode) :
    l.foldl (pullSection isData textName) c =
      { c with
        dataSections := c.dataSections ++
          ((l.filter (fun p => onSection isData p.2)).map (fun p => some p.1)),
        relocationSections := c.relocationSections ++
          ((l.filter (fun p => onSection (fun sec => !isData sec && sec.type == SHT_RELA) p.2)).map
            Prod.fst),
        hsatext := lastNamed textName l c.hsatext } := by
  induction l generalizing c with
  | nil => simp [lastNamed]
  | cons p rest ih =>
    rw [List.foldl_cons, ih]
    obtain ⟨i, o⟩ := p
    cases o with
    | none => simp [pullSection, onSection, lastNamed, List.filter_cons]
    | some sec =>
      by_cases h1 : isData sec = true <;> by_cases h2 : (sec.type == SHT_RELA) = true <;>
        by_cases h3 : (sec.Name == textName) = true <;>
        simp [pullSection, onSection, lastNamed, List.filter_cons, h1, h2, h3]

theorem pullSymbols_eq (body : Nat → ElfSymbol → Pulled) (l : List (Nat × ElfSymbol))
    (c : AmdHsaCode) :
    pullSymbols body l c =
      match l.find? (fun p => (body p.1 p.2).isFail) with
      | none =>
        (true, { c with symbols := c.symbols ++ l.filterMap (fun p => (body p.1 p.2).sym?) })
      | some p =>
        (false, { c with
          symbols := c.symbols ++
            (l.takeWhile (fun p => !(body p.1 p.2).isFail)).filterMap (fun p => (body p.1 p.2).sym?),
          out := c.out ++ (body p.1 p.2).msg }) := by
  induction l generalizing c with
  | nil => simp [pullSymbols]
  | cons p rest ih =>
    unfold pullSymbols
    cases hb : body p.1 p.2 with
    | fail m =>
      have hf : (body p.1 p.2).isFail = true := by rw [hb]; rfl
      have hm : (body p.1 p.2).msg = m := by rw [hb]; rfl
      simp [List.find?_cons, List.takeWhile_cons, hf, hm]
    | skip =>
      have hf : (body p.1 p.2).isFail = false := by rw [hb]; rfl
      have hs : (body p.1 p.2).sym? = none := by rw [hb]; rfl
      simp only [ih, List.find?_cons, List.takeWhile_cons, hf, List.filterMap_cons, hs,
        Bool.not_false, if_true]
    | sym s =>
      have hf : (body p.1 p.2).isFail = false := by rw [hb]; rfl
      have hs : (body p.1 p.2).sym? = some s := by rw [hb]; rfl
      simp only [ih, List.find?_cons, List.takeWhile_cons, hf, List.filterMap_cons, hs,
        Bool.not_false, if_true]
      cases List.find? (fun p => (body p.1 p.2).isFail) rest <;> simp

theorem lor_eq_zero (y z : Nat) : y ||| z = 0 ↔ y = 0 ∧ z = 0 := by
  constructor
  · intro h
    constructor
    · apply Nat.eq_of_testBit_eq
      intro i
      have := congrArg (fun n => Nat.testBit n i) h
      simp only [Nat.testBit_or, Nat.zero_testBit, Bool.or_eq_false_iff] at this
      simp [this.1]
    · apply Nat.eq_of_testBit_eq
      intro i
      have := congrArg (fun n => Nat.testBit n i) h
      simp only [Nat.testBit_or, Nat.zero_testBit, Bool.or_eq_false_iff] at this
      simp [this.2]
  · rintro ⟨rfl, rfl⟩
    simp

theorem land_lor_eq_zero (x a b : Nat) : x &&& (a ||| b) = 0 ↔ x &&& a = 0 ∧ x &&& b = 0 := by
  rw [Nat.and_or_distrib_left, lor_eq_zero]

theorem pullSymbols_fields (body : Nat → ElfSymbol → Pulled) (l : List (Nat × ElfSymbol))
    (c : AmdHsaCode) :
    (pullSymbols body l c).2.dataSegments = c.dataSegments ∧
    (pullSymbols body l c).2.dataSections = c.dataSections ∧
    (pullSymbols body l c).2.relocationSections = c.relocationSections ∧
    (pullSymbols body l c).2.hsatext = c.hsatext ∧
    (pullSymbols body l c).2.img = c.img := by
  rw [pullSymbols_eq]
  split <;> simp

/-- The registries after the three loops, whatever the result of the symbol loop. -/
theorem pull_registries (test : Segment → Bool) (isData : Section → Bool) (textName : String)
    (body : Nat → ElfSymbol → Pulled) (img : Image) (c : AmdHsaCode) :
    (pullSymbols body img.symtab.enum
      (img.sections.enum.foldl (pullSection isData textName)
        (img.segments.enum.foldl (pullSegment test) c))).2.dataSegments =
      c.dataSegments ++ indicesWhere test img.segments ∧
    (pullSymbols body img.symtab.enum
      (img.sections.enum.foldl (pullSection isData textName)
        (img.segments.enum.foldl (pullSegment test) c))).2.dataSections =
      c.dataSections ++ (indicesWhere (onSection isData) img.sections).map some ∧
    (pullSymbols body img.symtab.enum
      (img.sections.enum.foldl (pullSection isData textName)
        (img.segments.enum.foldl (pullSegment test) c))).2.relocationSections =
      c.relocationSections ++
        indicesWhere (onSection (fun sec => !isData sec && sec.type == SHT_RELA)) img.sections ∧
    (pullSymbols body img.symtab.enum
      (img.sections.enum.foldl (pullSection isData textName)
        (img.segments.enum.foldl (pullSegment test) c))).2.hsatext =
      lastNamed textName img.sections.enum c.hsatext := by
  simp only [foldl_pullSegment, foldl_pullSection]
  obtain ⟨h1, h2, h3, h4, -⟩ := pullSymbols_fields body img.symtab.enum
    { c with
      dataSegments := c.dataSegments ++
        (img.segments.enum.filter (fun p => test p.2)).map Prod.fst,
      dataSections := c.dataSections ++
        ((img.sections.enum.filter (fun p => onSection isData p.2)).map (fun p => some p.1)),
      relocationSections := c.relocationSections ++
        ((img.sections.enum.filter
          (fun p => onSection (fun sec => !isData sec && sec.type == SHT_RELA) p.2)).map Prod.fst),
      hsatext := lastNamed textName img.sections.enum c.hsatext }
  refine ⟨h1, ?_, h3, h4⟩
  rw [h2]
  simp [indicesWhere, List.map_map, Function.comp_def]

theorem lastNamed_none (n : String) (l : List (Nat × Option Section)) (h : Option Nat)
    (hno : ∀ p ∈ l, onSection (fun sec => sec.Name == n) p.2 = false) :
    lastNamed n l h = h := by
  induction l generalizing h with
  | nil => rfl
  | cons p rest ih =>
    have hp := hno p (List.mem_cons_self _ _)
    have hr := ih (h := h) (fun q hq => hno q (List.mem_cons_of_mem _ hq))
    simpa [lastNamed, List.foldl_cons, hp] using hr

theorem lastNamed_some (n : String) (l : List (Nat × Option Section)) (h : Option Nat)
    (hex : ∃ p ∈ l, onSection (fun sec => sec.Name == n) p.2 = true) :
    ∃ p ∈ l, onSection (fun sec => sec.Name == n) p.2 = true ∧ lastNamed n l h = some p.1 := by
  induction l generalizing h with
  | nil => obtain ⟨p, hp, -⟩ := hex; cases hp
  | cons p rest ih =>
    by_cases hr : ∃ q ∈ rest, onSection (fun sec => sec.Name == n) q.2 = true
    · obtain ⟨q, hq, hn, hl⟩ :=
        ih (h := if onSection (fun sec => sec.Name == n) p.2 then some p.1 else h) hr
      exact ⟨q, List.mem_cons_of_mem _ hq, hn, by simpa [lastNamed, List.foldl_cons] using hl⟩
    · have hno : ∀ q ∈ rest, onSection (fun sec => sec.Name == n) q.2 = false := by
        intro q hq
        by_contra hc
        exact hr ⟨q, hq, by simpa using hc⟩
      have hp : onSection (fun sec => sec.Name == n) p.2 = true := by
        obtain ⟨q, hq, hn⟩ := hex
        rcases List.mem_cons.mp hq with rfl | hq
        · exact hn
        · rw [hno q hq] at hn; cases hn
      refine ⟨p, List.mem_cons_self _ _, hp, ?_⟩
      have := lastNamed_none n rest (some p.1) hno
      simpa [lastNamed, List.foldl_cons, hp] using this

theorem mem_enum_sections (img : Image) (i : Nat) (sec : Section) :
    (i, some sec) ∈ img.sections.enum ↔ img.section i = some sec := by
  rw [List.mk_mem_enum_iff_getElem?]
  unfold Image.section
  rw [List.get?_eq_getElem?]
  cases img.sections[i]? with
  | none => simp [Option.join]
  | some o => cases o <;> simp [Option.join]

/-- When some section carries the name, the cached handle designates one that does. -/
theorem lastNamed_section (n : String) (img : Image) (h : Option Nat)
    (hex : ∃ i sec, img.section i = some sec ∧ sec.Name = n) :
    ∃ i sec, lastNamed n img.sections.enum h = some i ∧ img.section i = some sec ∧
      sec.Name = n := by
  obtain ⟨i, sec, hi, hn⟩ := hex
  have hmem := (mem_enum_sections img i sec).mpr hi
  obtain ⟨p, hp, hpn, hl⟩ := lastNamed_some n img.sections.enum h
    ⟨(i, some sec), hmem, by simp [onSection, hn]⟩
  obtain ⟨j, o⟩ := p
  cases o with
  | none => simp [onSection] at hpn
  | some sec2 =>
    refine ⟨j, sec2, hl, (mem_enum_sections img j sec2).mp hp, ?_⟩
    simpa [onSection] using hpn

theorem isLoadTypeV1_eq :
    isLoadTypeV1 = fun s => decide (s.type = PT_AMDGPU_HSA_LOAD_GLOBAL_PROGRAM ∨
      s.type = PT_AMDGPU_HSA_LOAD_GLOBAL_AGENT ∨ s.type = PT_AMDGPU_HSA_LOAD_READONLY_AGENT ∨
      s.type = PT_AMDGPU_HSA_LOAD_CODE_AGENT) := by
  funext s
  unfold isLoadTypeV1
  rw [Bool.eq_iff_iff]
  simp [or_assoc]

theorem isDataSectionV1_eq :
    isDataSectionV1 = fun sec => decide ((sec.type = SHT_PROGBITS ∨ sec.type = SHT_NOBITS) ∧
      (sec.flags &&& SHF_AMDGPU_HSA_AGENT ≠ 0 ∨ sec.flags &&& SHF_AMDGPU_HSA_GLOBAL ≠ 0 ∨
        sec.flags &&& SHF_AMDGPU_HSA_READONLY ≠ 0 ∨ sec.flags &&& SHF_AMDGPU_HSA_CODE ≠ 0)) := by
  funext sec
  have hmask : sec.flags &&& (SHF_AMDGPU_HSA_AGENT ||| SHF_AMDGPU_HSA_GLOBAL |||
      SHF_AMDGPU_HSA_READONLY ||| SHF_AMDGPU_HSA_CODE) ≠ 0 ↔
      (sec.flags &&& SHF_AMDGPU_HSA_AGENT ≠ 0 ∨ sec.flags &&& SHF_AMDGPU_HSA_GLOBAL ≠ 0 ∨
        sec.flags &&& SHF_AMDGPU_HSA_READONLY ≠ 0 ∨ sec.flags &&& SHF_AMDGPU_HSA_CODE ≠ 0) := by
    rw [Ne, land_lor_eq_zero, land_lor_eq_zero, land_lor_eq_zero]
    tauto
  unfold isDataSectionV1
  rw [Bool.eq_iff_iff]
  simp only [Bool.and_eq_true, Bool.or_eq_true, beq_iff_eq, bne_iff_ne, decide_eq_true_eq]
  rw [hmask]

theorem isDataSectionV2_eq :
    isDataSectionV2 = fun sec => decide ((sec.type = SHT_PROGBITS ∨ sec.type = SHT_NOBITS) ∧
      sec.flags &&& SHF_EXECINSTR = 0) := by
  funext sec
  unfold isDataSectionV2
  rw [Bool.eq_iff_iff]
  simp

theorem relaV1_eq :
    onSection (fun sec => !isDataSectionV1 sec && sec.type == SHT_RELA) =
      onSection (fun sec => decide (sec.type = SHT_RELA)) := by
  funext o
  cases o with
  | none => rfl
  | some sec =>
    simp only [onSection]
    by_cases h : sec.type = SHT_RELA
    · simp [isDataSectionV1, h, SHT_RELA, SHT_PROGBITS, SHT_NOBITS]
    · simp [h]

theorem pullSymbolV1_isFail (img : Image) (i : Nat) (e : ElfSymbol) :
    (pullSymbolV1 img i e).isFail = true ↔ KernelRejectedV1 img e := by
  unfold pullSymbolV1 KernelRejectedV1
  by_cases ht : e.type = STT_AMDGPU_HSA_KERNEL
  · simp only [ht, if_true, true_and]
    cases hs : img.sectionOf e with
    | none => simp [Pulled.isFail]
    | some sec =>
      by_cases hf : sec.flags &&& (SHF_AMDGPU_HSA_AGENT ||| SHF_AMDGPU_HSA_CODE ||| SHF_EXECINSTR) = 0
      · have hf2 := hf
        rw [land_lor_eq_zero, land_lor_eq_zero] at hf2
        simp [hf, Pulled.isFail, hf2.1.1, hf2.1.2, hf2.2]
      · have hf2 : ¬ (sec.flags &&& SHF_AMDGPU_HSA_AGENT = 0 ∧ sec.flags &&& SHF_AMDGPU_HSA_CODE = 0 ∧
            sec.flags &&& SHF_EXECINSTR = 0) := by
          intro h3
          apply hf
          rw [land_lor_eq_zero, land_lor_eq_zero]
          exact ⟨⟨h3.1, h3.2.1⟩, h3.2.2⟩
        cases hd : sec.getData e.value with
        | none => simp [hf, hd, Pulled.isFail]
        | some akc => simp [hf, hd, Pulled.isFail, hf2]
  · simp only [ht, if_false, false_and, iff_false]
    split <;> simp [Pulled.isFail]

theorem pullSymbolV2_isFail (img : Image) (i : Nat) (e : ElfSymbol) :
    (pullSymbolV2 img i e).isFail = true ↔ KernelRejectedV2 img e := by
  unfold pullSymbolV2 KernelRejectedV2
  by_cases ht : e.type = STT_AMDGPU_HSA_KERNEL
  · simp only [ht, if_true, true_and]
    cases hs : img.sectionOf e with
    | none => simp [Pulled.isFail]
    | some sec =>
      by_cases hf : sec.flags &&& (SHF_ALLOC ||| SHF_EXECINSTR) = 0
      · have hf2 := hf
        rw [land_lor_eq_zero] at hf2
        simp [hf, Pulled.isFail, hf2.1, hf2.2]
      · have hf2 : ¬ (sec.flags &&& SHF_ALLOC = 0 ∧ sec.flags &&& SHF_EXECINSTR = 0) := by
          intro h3
          apply hf
          rw [land_lor_eq_zero]
          exact h3
        cases hd : sec.getData (sub64 e.value sec.addr) with
        | none => simp [hf, hd, Pulled.isFail]
        | some akc => simp [hf, hd, Pulled.isFail, hf2]
  · simp only [ht, if_false, false_and, iff_false]
    split <;> simp [Pulled.isFail]

theorem pullSymbolV1_variant (img : Image) (i : Nat) (e : ElfSymbol)
    (h : (pullSymbolV1 img i e).isFail = false) :
    (pullSymbolV1 img i e).sym?.map (fun s => (s.elfSym, s.IsKernelSymbol)) =
      (variantOfType e.type).map (fun k => (i, k)) := by
  unfold pullSymbolV1 at h ⊢
  unfold variantOfType
  by_cases ht : e.type = STT_AMDGPU_HSA_KERNEL
  · simp only [ht, if_true] at h ⊢
    cases hs : img.sectionOf e with
    | none => simp [hs, Pulled.isFail] at h
    | some sec =>
      simp only [hs] at h ⊢
      by_cases hf : sec.flags &&& (SHF_AMDGPU_HSA_AGENT ||| SHF_AMDGPU_HSA_CODE ||| SHF_EXECINSTR) = 0
      · simp [hf, Pulled.isFail] at h
      · simp only [hf, if_false] at h ⊢
        cases hd : sec.getData e.value with
        | none => simp [hd, Pulled.isFail] at h
        | some akc =>
          simp [Pulled.sym?, Symbol.elfSym, Symbol.IsKernelSymbol, KernelSymbol.construct]
  · simp only [ht, if_false]
    by_cases ho : e.type = STT_OBJECT ∨ e.type = STT_COMMON
    · simp [ho, Pulled.sym?, Symbol.elfSym, Symbol.IsKernelSymbol]
    · simp [ho, Pulled.sym?]

theorem pullSymbolV2_variant (img : Image) (i : Nat) (e : ElfSymbol)
    (h : (pullSymbolV2 img i e).isFail = false) :
    (pullSymbolV2 img i e).sym?.map (fun s => (s.elfSym, s.IsKernelSymbol)) =
      (variantOfType e.type).map (fun k => (i, k)) := by
  unfold pullSymbolV2 at h ⊢
  unfold variantOfType
  by_cases ht : e.type = STT_AMDGPU_HSA_KERNEL
  · simp only [ht, if_true] at h ⊢
    cases hs : img.sectionOf e with
    | none => simp [hs, Pulled.isFail] at h
    | some sec =>
      simp only [hs] at h ⊢
      by_cases hf : sec.flags &&& (SHF_ALLOC ||| SHF_EXECINSTR) = 0
      · simp [hf, Pulled.isFail] at h
      · simp only [hf, if_false] at h ⊢
        cases hd : sec.getData (sub64 e.value sec.addr) with
        | none => simp [hd, Pulled.isFail] at h
        | some akc =>
          simp [Pulled.sym?, Symbol.elfSym, Symbol.IsKernelSymbol, KernelSymbol.construct]
  · simp only [ht, if_false]
    by_cases ho : e.type = STT_OBJECT ∨ e.type = STT_COMMON
    · simp [ho, Pulled.sym?, Symbol.elfSym, Symbol.IsKernelSymbol]
    · simp [ho, Pulled.sym?]

/-- The two ways the symbol loop ends: every entry passes and all produced
symbols are appended, or it stops at the first failing entry with the symbols
produced before it and that entry's text on `out`. -/
theorem pullSymbols_cases (body : Nat → ElfSymbol → Pulled) (l : List (Nat × ElfSymbol))
    (c : AmdHsaCode) :
    ((∀ p ∈ l, (body p.1 p.2).isFail = false) ∧
      pullSymbols body l c =
        (true, { c with symbols := c.symbols ++ l.filterMap (fun p => (body p.1 p.2).sym?) })) ∨
    (∃ pre p post, l = pre ++ p :: post ∧ (∀ q ∈ pre, (body q.1 q.2).isFail = false) ∧
      (body p.1 p.2).isFail = true ∧
      pullSymbols body l c =
        (false, { c with
          symbols := c.symbols ++ pre.filterMap (fun p => (body p.1 p.2).sym?),
          out := c.out ++ (body p.1 p.2).msg })) := by
  induction l generalizing c with
  | nil => left; simp [pullSymbols]
  | cons p rest ih =>
    cases hb : body p.1 p.2 with
    | fail m =>
      right
      refine ⟨[], p, rest, rfl, by simp, by rw [hb]; rfl, ?_⟩
      simp [pullSymbols, hb, Pulled.msg]
    | skip =>
      have hf : (body p.1 p.2).isFail = false := by rw [hb]; rfl
      have hs : (body p.1 p.2).sym? = none := by rw [hb]; rfl
      rcases ih c with ⟨hall, heq⟩ | ⟨pre, q, post, hl, hpre, hq, heq⟩
      · left
        refine ⟨?_, ?_⟩
        · intro x hx
          rcases List.mem_cons.mp hx with rfl | hx
          · exact hf
          · exact hall x hx
        · simp only [pullSymbols, hb, heq, List.filterMap_cons, Pulled.sym?]
      · right
        refine ⟨p :: pre, q, post, by rw [hl]; rfl, ?_, hq, ?_⟩
        · intro x hx
          rcases List.mem_cons.mp hx with rfl | hx
          · exact hf
          · exact hpre x hx
        · simp only [pullSymbols, hb, heq, List.filterMap_cons, Pulled.sym?]
    | sym sy =>
      have hf : (body p.1 p.2).isFail = false := by rw [hb]; rfl
      have hs : (body p.1 p.2).sym? = some sy := by rw [hb]; rfl
      rcases ih { c with symbols := c.symbols ++ [sy] } with
        ⟨hall, heq⟩ | ⟨pre, q, post, hl, hpre, hq, heq⟩
      · left
        refine ⟨?_, ?_⟩
        · intro x hx
          rcases List.mem_cons.mp hx with rfl | hx
          · exact hf
          · exact hall x hx
        · simp only [pullSymbols, hb, heq, List.filterMap_cons, Pulled.sym?]
          simp
      · right
        refine ⟨p :: pre, q, post, by rw [hl]; rfl, ?_, hq, ?_⟩
        · intro x hx
          rcases List.mem_cons.mp hx with rfl | hx
          · exact hf
          · exact hpre x hx
        · simp only [pullSymbols, hb, heq, List.filterMap_cons, Pulled.sym?]
          simp

theorem snd_mem_of_mem_enum {α : Type} (l : List α) (p : Nat × α) (h : p ∈ l.enum) :
    p.2 ∈ l := by
  have := List.mem_map_of_mem Prod.snd h
  rwa [List.enum_map_snd] at this

theorem exists_mem_enum {α : Type} (l : List α) (x : α) (h : x ∈ l) :
    ∃ p ∈ l.enum, p.2 = x := by
  rw [← List.enum_map_snd l] at h
  obtain ⟨p, hp, rfl⟩ := List.mem_map.mp h
  exact ⟨p, hp, rfl⟩

/-- The segment and section loops leave `out` and `symbols` alone. -/
theorem loops_out_symbols (test : Segment → Bool) (isData : Section → Bool) (textName : String)
    (img : Image) (c : AmdHsaCode) :
    (img.sections.enum.foldl (pullSection isData textName)
      (img.segments.enum.foldl (pullSegment test) c)).out = c.out ∧
    (img.sections.enum.foldl (pullSection isData textName)
      (img.segments.enum.foldl (pullSegment test) c)).symbols = c.symbols := by
  simp only [foldl_pullSegment, foldl_pullSection, and_self]

theorem pullSymbolV1_msg (img : Image) (i : Nat) (e : ElfSymbol)
    (h : (pullSymbolV1 img i e).isFail = true) :
    ∃ m ∈ ["Failed to find section for symbol ", "Invalid code section for symbol ",
        "Failed to get AMD Kernel Code for symbol "],
      (pullSymbolV1 img i e).msg = m ++ e.name ++ "\n" := by
  unfold pullSymbolV1 at h ⊢
  by_cases ht : e.type = STT_AMDGPU_HSA_KERNEL
  · simp only [ht, if_true] at h ⊢
    cases hs : img.sectionOf e with
    | none => exact ⟨_, by simp, rfl⟩
    | some sec =>
      simp only [hs] at h ⊢
      by_cases hf : sec.flags &&& (SHF_AMDGPU_HSA_AGENT ||| SHF_AMDGPU_HSA_CODE ||| SHF_EXECINSTR) = 0
      · simp only [hf, if_true]
        exact ⟨_, by simp, rfl⟩
      · simp only [hf, if_false] at h ⊢
        cases hd : sec.getData e.value with
        | none => exact ⟨_, by simp, rfl⟩
        | some akc => simp [hd, Pulled.isFail] at h
  · simp only [ht, if_false] at h
    split at h <;> simp [Pulled.isFail] at h

/-- The symbol list after a successful symbol loop, as (index, is-kernel) pairs. -/
theorem symbols_of_success (body : Nat → ElfSymbol → Pulled) (l : List (Nat × ElfSymbol))
    (hall : ∀ p ∈ l, (body p.1 p.2).isFail = false)
    (hvar : ∀ p : Nat × ElfSymbol, (body p.1 p.2).isFail = false →
      (body p.1 p.2).sym?.map (fun s => (s.elfSym, s.IsKernelSymbol)) =
        (variantOfType p.2.type).map (fun k => (p.1, k))) :
    (l.filterMap (fun p => (body p.1 p.2).sym?)).map (fun s => (s.elfSym, s.IsKernelSymbol)) =
      l.filterMap (fun p => (variantOfType p.2.type).map (fun k => (p.1, k))) := by
  induction l with
  | nil => rfl
  | cons p rest ih =>
    have hp := hvar p (hall p (List.mem_cons_self _ _))
    have hr := ih (fun q hq => hall q (List.mem_cons_of_mem _ hq))
    simp only [List.filterMap_cons]
    cases hb : (body p.1 p.2).sym? with
    | none =>
      rw [hb] at hp
      simp only [Option.map_none'] at hp
      rw [← hp]
      exact hr
    | some sy =>
      rw [hb] at hp
      simp only [Option.map_some'] at hp
      rw [← hp]
      simp only [List.map_cons, hr]

theorem pullSymbols_symbols_append (body : Nat → ElfSymbol → Pulled)
    (l : List (Nat × ElfSymbol)) (c : AmdHsaCode) :
    ∃ t, (pullSymbols body l c).2.symbols = c.symbols ++ t := by
  rcases pullSymbols_cases body l c with ⟨-, heq⟩ | ⟨pre, p, post, -, -, -, heq⟩
  · exact ⟨_, by rw [heq]⟩
  · exact ⟨_, by rw [heq]⟩

/-- Every list of the object after `PullElf` starts with its old entries. -/
theorem PullElf_appends (img : Image) (c : AmdHsaCode) :
    (∃ t, (AmdHsaCode.PullElf img c).2.symbols = c.symbols ++ t) ∧
    (∃ t, (AmdHsaCode.PullElf img c).2.dataSegments = c.dataSegments ++ t) ∧
    (∃ t, (AmdHsaCode.PullElf img c).2.dataSections = c.dataSections ++ t) ∧
    (∃ t, (AmdHsaCode.PullElf img c).2.relocationSections = c.relocationSections ++ t) := by
  unfold AmdHsaCode.PullElf
  cases AmdHsaCode.GetNoteCodeObjectVersion img with
  | none => exact ⟨⟨[], by simp⟩, ⟨[], by simp⟩, ⟨[], by simp⟩, ⟨[], by simp⟩⟩
  | some v =>
    obtain ⟨major, minor⟩ := v
    by_cases hm : major ≥ 2
    · simp only [hm, if_true]
      obtain ⟨h1, h2, h3, -⟩ := pull_registries isLoadTypeV2 isDataSectionV2 ".text"
        (pullSymbolV2 img) img c
      obtain ⟨t, ht⟩ := pullSymbols_symbols_append (pullSymbolV2 img) img.symtab.enum
        (img.sections.enum.foldl (pullSection isDataSectionV2 ".text")
          (img.segments.enum.foldl (pullSegment isLoadTypeV2) c))
      rw [(loops_out_symbols isLoadTypeV2 isDataSectionV2 ".text" img c).2] at ht
      exact ⟨⟨t, ht⟩, ⟨_, h1⟩, ⟨_, h2⟩, ⟨_, h3⟩⟩
    · simp only [hm, if_false]
      obtain ⟨h1, h2, h3, -⟩ := pull_registries isLoadTypeV1 isDataSectionV1 ".hsatext"
        (pullSymbolV1 img) img c
      obtain ⟨t, ht⟩ := pullSymbols_symbols_append (pullSymbolV1 img) img.symtab.enum
        (img.sections.enum.foldl (pullSection isDataSectionV1 ".hsatext")
          (img.segments.enum.foldl (pullSegment isLoadTypeV1) c))
      rw [(loops_out_symbols isLoadTypeV1 isDataSectionV1 ".hsatext" img c).2] at ht
      exact ⟨⟨t, ht⟩, ⟨_, h1⟩, ⟨_, h2⟩, ⟨_, h3⟩⟩

/-- The shared tail of the entry points leaves what `FailureLeaves` describes. -/
theorem attachAndPull_leaves (c : AmdHsaCode) (r : Bool × Image) :
    FailureLeaves c r (AmdHsaCode.attachAndPull c r).2 := by
  obtain ⟨ok, img⟩ := r
  unfold FailureLeaves AmdHsaCode.attachAndPull
  cases ok with
  | false =>
    simp only [AmdHsaCode.ElfImageError, Bool.not_false, if_true]
    exact ⟨fun _ => by simp, ⟨[], by simp⟩, ⟨[], by simp⟩, ⟨[], by simp⟩, ⟨[], by simp⟩⟩
  | true =>
    have happ := PullElf_appends img { c with img := some img }
    have hsame : ∀ x : Bool × AmdHsaCode,
        (if (!x.1) = true then AmdHsaCode.ElfImageError img x.2 else (true, x.2)).2.symbols =
            x.2.symbols ∧
        (if (!x.1) = true then AmdHsaCode.ElfImageError img x.2 else (true, x.2)).2.dataSegments =
            x.2.dataSegments ∧
        (if (!x.1) = true then AmdHsaCode.ElfImageError img x.2 else (true, x.2)).2.dataSections =
            x.2.dataSections ∧
        (if (!x.1) = true then AmdHsaCode.ElfImageError img x.2
          else (true, x.2)).2.relocationSections = x.2.relocationSections ∧
        (if (!x.1) = true then AmdHsaCode.ElfImageError img x.2 else (true, x.2)).2.hsatext =
            x.2.hsatext := by
      intro x
      cases x.1 <;> simp [AmdHsaCode.ElfImageError]
    obtain ⟨e1, e2, e3, e4, e5⟩ := hsame (AmdHsaCode.PullElf img { c with img := some img })
    simp only [Bool.not_true, Bool.false_eq_true, if_false, e1, e2, e3, e4, e5]
    refine ⟨?_, happ⟩
    rintro (h | h)
    · cases h
    · simp [AmdHsaCode.PullElf, h]

theorem readBytes_cstring (value : Mem) (bs : List Nat) :
    readBytes (memcpy (memset value 0 (bs.length + 1)) bs bs.length) (bs.length + 1) =
      bs ++ [0] := by
  unfold readBytes
  rw [List.range_succ, List.map_append]
  congr 1
  · apply List.ext_getElem
    · simp
    · intro n h1 h2
      have hn : n < bs.length := by simpa using h1
      simp [memcpy, hn, List.getD_eq_getElem]
  · simp [memcpy, memset]

theorem readBytes_storeByte (value : Mem) (n k byte : Nat) (h : n ≤ k) :
    readBytes (storeByte value k byte) n = readBytes value n := by
  unfold readBytes
  apply List.map_congr_left
  intro i hi
  have : i < n := List.mem_range.mp hi
  have hne : i ≠ k := by omega
  simp [storeByte, hne]

theorem find_mangled (m s : String) (hm : ':' ∉ m.toList) :
    find (m ++ "::" ++ s) ':' = some m.length := by
  unfold find
  have hdata : (m ++ "::" ++ s).toList = m.toList ++ (':' :: ':' :: s.toList) := by
    simp [String.toList, String.data_append]
  rw [hdata, List.indexOf_append_of_not_mem hm, List.indexOf_cons_self]
  simp only [Nat.add_zero, List.length_append, List.length_cons]
  rw [if_pos (by omega)]
  rfl

theorem rfind_mangled (m s : String) (hs : ':' ∉ s.toList) :
    rfind (m ++ "::" ++ s) ':' = some (m.length + 1) := by
  unfold rfind
  have hdata : (m ++ "::" ++ s).toList = m.toList ++ (':' :: ':' :: s.toList) := by
    simp [String.toList, String.data_append]
  have hrev : (m.toList ++ (':' :: ':' :: s.toList)).reverse =
      s.toList.reverse ++ (':' :: ':' :: m.toList.reverse) := by
    simp
  have hs2 : ':' ∉ s.toList.reverse := by simpa using hs
  rw [hdata, hrev, List.indexOf_append_of_not_mem hs2, List.indexOf_cons_self]
  simp only [List.length_reverse, List.length_append, List.length_cons, Nat.add_zero]
  have hlt : s.toList.length < m.toList.length + (s.toList.length + 1 + 1) := by omega
  rw [if_pos hlt]
  have hlen : m.length = m.toList.length := rfl
  rw [hlen]
  congr 1
  omega

theorem rfind_none (s : String) (hs : ':' ∉ s.toList) : rfind s ':' = none := by
  unfold rfind
  have hs2 : ':' ∉ s.toList.reverse := by simpa using hs
  have := List.indexOf_eq_length.mpr hs2
  rw [this]
  simp

theorem substrAfter_mangled (m s : String) :
    substrAfter (m ++ "::" ++ s) (some (m.length + 1)) = s := by
  unfold substrAfter
  have hdata : (m ++ "::" ++ s).toList = m.toList ++ (':' :: ':' :: s.toList) := by
    simp [String.toList, String.data_append]
  have hdrop : (m.toList ++ (':' :: ':' :: s.toList)).drop (m.length + 1 + 1) = s.toList := by
    have : m.length + 1 + 1 = m.toList.length + 2 := rfl
    rw [this, List.drop_append]
    rfl
  simp only [hdata, hdrop]
  rfl

theorem substrBefore_mangled (m s : String) :
    substrBefore (m ++ "::" ++ s) (some m.length) = m := by
  unfold substrBefore
  have hdata : (m ++ "::" ++ s).toList = m.toList ++ (':' :: ':' :: s.toList) := by
    simp [String.toList, String.data_append]
  have htake : (m.toList ++ (':' :: ':' :: s.toList)).take m.length = m.toList := by
    have : m.length = m.toList.length := rfl
    rw [this, List.take_left']
    rfl
  simp only [hdata, htake]
  rfl

theorem bytesOf_length (s : String) : (bytesOf s).length = s.length := by
  rw [bytesOf, List.length_map]
  rfl

theorem read32_store32 (value : Mem) (v : Nat) : read32 (store32 value v) = v % 2 ^ 32 := by
  simp only [read32, store32]
  norm_num
  omega

theorem isDynamicCallstackBits_ne_zero (p : Nat) :
    isDynamicCallstackBits p ≠ 0 ↔ p.testBit 20 = true := by
  unfold isDynamicCallstackBits AMD_KERNEL_CODE_PROPERTIES_IS_DYNAMIC_CALLSTACK_SHIFT
  constructor
  · intro h
    obtain ⟨i, hi⟩ := Nat.ne_zero_implies_bit_true h
    rw [Nat.testBit_shiftRight, Nat.testBit_and, Nat.one_shiftLeft, Nat.testBit_two_pow] at hi
    simp only [Bool.and_eq_true, decide_eq_true_eq] at hi
    have : i = 0 := by omega
    subst this
    exact hi.1
  · intro h hz
    have := congrArg (fun n => Nat.testBit n 0) hz
    simp only [Nat.testBit_shiftRight, Nat.testBit_and, Nat.one_shiftLeft, Nat.testBit_two_pow,
      Nat.zero_testBit] at this
    simp [h] at this

/-- Every symbol in the list after the symbol loop was there before or was
produced by the switch body at some entry. -/
theorem pullSymbols_mem (body : Nat → ElfSymbol → Pulled) (l : List (Nat × ElfSymbol))
    (c : AmdHsaCode) (s : Symbol) (hs : s ∈ (pullSymbols body l c).2.symbols) :
    s ∈ c.symbols ∨ ∃ p ∈ l, body p.1 p.2 = .sym s := by
  have hfm : ∀ l' : List (Nat × ElfSymbol), (∀ q ∈ l', q ∈ l) →
      s ∈ c.symbols ++ l'.filterMap (fun p => (body p.1 p.2).sym?) →
      s ∈ c.symbols ∨ ∃ p ∈ l, body p.1 p.2 = .sym s := by
    intro l' hsub hmem
    rcases List.mem_append.mp hmem with h | h
    · exact Or.inl h
    · obtain ⟨p, hp, hsym⟩ := List.mem_filterMap.mp h
      refine Or.inr ⟨p, hsub p hp, ?_⟩
      cases hb : body p.1 p.2 with
      | fail m => rw [hb] at hsym; cases hsym
      | skip => rw [hb] at hsym; cases hsym
      | sym s' => rw [hb] at hsym; cases hsym; rfl
  rcases pullSymbols_cases body l c with ⟨-, heq⟩ | ⟨pre, p, post, hl, -, -, heq⟩
  · rw [heq] at hs
    exact hfm l (fun q hq => hq) hs
  · rw [heq] at hs
    exact hfm pre (fun q hq => by rw [hl]; exact List.mem_append_left _ hq) hs

theorem pullSymbolV1_kernel (img : Image) (i : Nat) (e : ElfSymbol) (s : Symbol)
    (h : pullSymbolV1 img i e = .sym s) (hk : s.IsKernelSymbol = true) :
    ∃ sec r, img.sectionOf e = some sec ∧ sec.getData e.value = some r ∧
      s = .kernel (KernelSymbol.construct i (some r)) false := by
  unfold pullSymbolV1 at h
  by_cases ht : e.type = STT_AMDGPU_HSA_KERNEL
  · simp only [ht, if_true] at h
    cases hs : img.sectionOf e with
    | none => simp [hs] at h
    | some sec =>
      simp only [hs] at h
      by_cases hf : sec.flags &&& (SHF_AMDGPU_HSA_AGENT ||| SHF_AMDGPU_HSA_CODE ||| SHF_EXECINSTR) = 0
      · simp [hf] at h
      · simp only [hf, if_false] at h
        cases hd : sec.getData e.value with
        | none => simp [hd] at h
        | some akc =>
          simp only [hd] at h
          exact ⟨sec, akc, rfl, hd, (Pulled.sym.inj h).symm⟩
  · simp only [ht, if_false] at h
    by_cases ho : e.type = STT_OBJECT ∨ e.type = STT_COMMON
    · simp only [ho, if_true] at h
      rw [← Pulled.sym.inj h] at hk
      cases hk
    · simp [ho] at h

theorem pullSymbolV2_kernel (img : Image) (i : Nat) (e : ElfSymbol) (s : Symbol)
    (h : pullSymbolV2 img i e = .sym s) (hk : s.IsKernelSymbol = true) :
    ∃ sec r, img.sectionOf e = some sec ∧ sec.getData (sub64 e.value sec.addr) = some r ∧
      s = .kernel (KernelSymbol.construct i (some r)) true := by
  unfold pullSymbolV2 at h
  by_cases ht : e.type = STT_AMDGPU_HSA_KERNEL
  · simp only [ht, if_true] at h
    cases hs : img.sectionOf e with
    | none => simp [hs] at h
    | some sec =>
      simp only [hs] at h
      by_cases hf : sec.flags &&& (SHF_ALLOC ||| SHF_EXECINSTR) = 0
      · simp [hf] at h
      · simp only [hf, if_false] at h
        cases hd : sec.getData (sub64 e.value sec.addr) with
        | none => simp [hd] at h
        | some akc =>
          simp only [hd] at h
          exact ⟨sec, akc, rfl, hd, (Pulled.sym.inj h).symm⟩
  · simp only [ht, if_false] at h
    by_cases ho : e.type = STT_OBJECT ∨ e.type = STT_COMMON
    · simp only [ho, if_true] at h
      rw [← Pulled.sym.inj h] at hk
      cases hk
    · simp [ho] at h

theorem GetAmdNote_absent (img : Image) (t k : Nat) (h : LacksNote img t) :
    GetAmdNote img t k = none := by
  have hfind : img.notes.find? (fun n => n.name == "AMD" && n.type == t) = none := by
    rw [List.find?_eq_none]
    intro n hn hp
    apply h n hn
    simpa using hp
  simp [GetAmdNote, hfind]

theorem GetAmdNote_AddAmdNote (img : Image) (t k : Nat) (desc : Mem) (size : Nat)
    (h : LacksNote img t) (hk : k ≤ size) :
    GetAmdNote (AmdHsaCode.AddAmdNote img t desc size) t k = some (readBytes desc size) := by
  have hfind : img.notes.find? (fun n => n.name == "AMD" && n.type == t) = none := by
    rw [List.find?_eq_none]
    intro n hn hp
    apply h n hn
    simpa using hp
  have hlen : (readBytes desc size).length = size := by simp [readBytes]
  have hnot : ¬ (size < k) := by omega
  simp [GetAmdNote, AmdHsaCode.AddAmdNote, List.find?_append, hfind, hlen, hnot]

theorem storeString64_bounded (value : Mem) (s : String) :
    IsBoundedString64 value (storeString64 value s) s := by
  refine ⟨?_, ?_, ?_⟩
  · intro i hi
    have hlen : i < (bytesOf s).length := by
      rw [bytesOf_length]; omega
    have happ := List.getD_append (bytesOf s) [0] 0 i hlen
    simp only [storeString64, memcpy, hi, if_true, c_str]
    exact happ
  · intro i h1 h2
    have : ¬ (i < min 63 s.length) := by omega
    simp [storeString64, memcpy, memset, this, h2]
  · intro i hi
    have h1 : ¬ (i < min 63 s.length) := by omega
    have h2 : ¬ (i < 64) := by omega
    simp [storeString64, memcpy, memset, h1, h2]

/-- A bounded string attribute is NUL-terminated, and holds the whole string
followed by a NUL when the string has at most 63 bytes. -/
theorem IsBoundedString64.terminated (value v : Mem) (s : String)
    (h : IsBoundedString64 value v s) :
    v 63 = 0 ∧ (s.length ≤ 63 → readBytes v (s.length + 1) = bytesOf s ++ [0]) := by
  obtain ⟨h1, h2, -⟩ := h
  refine ⟨h2 63 (by omega) (by omega), ?_⟩
  intro hn
  have hmin : min 63 s.length = s.length := by omega
  unfold readBytes
  rw [List.range_succ, List.map_append]
  congr 1
  · apply List.ext_getElem
    · simp [bytesOf_length]
    · intro n hn1 hn2
      have hlt : n < s.length := by simpa using hn1
      have hb : n < (bytesOf s).length := by rw [bytesOf_length]; exact hlt
      simp only [List.getElem_map, List.getElem_range]
      rw [h1 n (by omega), List.getD_eq_getElem _ _ hb]
  · simp only [List.map_cons, List.map_nil]
    rw [h2 s.length (by omega) (by omega)]

/-- The buffer of `AddNoteIsa` is one byte shorter than the header followed by
the two NUL-terminated strings. -/
theorem AddNoteIsa_size_short (vendor_name architecture_name : String) :
    AmdHsaCode.AddNoteIsa.size vendor_name architecture_name + 1 =
      offsetof_vendor_and_architecture_name + (vendor_name.length + 1) +
        (architecture_name.length + 1) := by
  unfold AmdHsaCode.AddNoteIsa.size sizeof_note_producer_t offsetof_vendor_and_architecture_name
  omega

theorem le32_version_desc (major minor : Nat) (hM : major < 2 ^ 32) (hm : minor < 2 ^ 32) :
    le32 (readBytes (store32At (store32At (fun _ => 0) 0 major) 4 minor) 8) 0 = major ∧
    le32 (readBytes (store32At (store32At (fun _ => 0) 0 major) 4 minor) 8) 4 = minor := by
  have hlist : readBytes (store32At (store32At (fun _ => 0) 0 major) 4 minor) 8 =
      [major / 256 ^ 0 % 256, major / 256 ^ 1 % 256, major / 256 ^ 2 % 256,
        major / 256 ^ 3 % 256, minor / 256 ^ 0 % 256, minor / 256 ^ 1 % 256,
        minor / 256 ^ 2 % 256, minor / 256 ^ 3 % 256] := by
    simp [readBytes, List.range_succ, store32At]
  rw [hlist]
  constructor
  · simp only [le32, List.getD_cons_zero, List.getD_cons_succ]
    norm_num
    omega
  · simp only [le32, List.getD_cons_zero, List.getD_cons_succ]
    norm_num
    omega

/-- The two lookup loops agree: either both stop at the first slot whose symbol
has the name, or no symbol has it and both report the absence. -/
theorem symbolLoops_spec (img : Image) (mname : String) (s : Nat) (l : List Symbol) (k : Nat)
    (hres : ∀ sym ∈ l, ∃ n, sym.Name img = .ok n) :
    (∃ i sym, l[i]? = some sym ∧ sym.Name img = .ok mname ∧
      (∀ j symj, j < i → l[j]? = some symj → symj.Name img ≠ .ok mname) ∧
      getSymbolLoop img mname s (l.enumFrom k) = .ok (HSA_STATUS_SUCCESS, k + i) ∧
      findSymbolLoop img mname (l.enumFrom k) = .ok (some (k + i))) ∨
    ((∀ sym ∈ l, sym.Name img ≠ .ok mname) ∧
      getSymbolLoop img mname s (l.enumFrom k) = .ok (HSA_STATUS_ERROR_INVALID_SYMBOL_NAME, s) ∧
      findSymbolLoop img mname (l.enumFrom k) = .ok none) := by
  induction l generalizing k with
  | nil =>
    right
    refine ⟨?_, rfl, rfl⟩
    intro sym h
    cases h
  | cons sym0 rest ih =>
    obtain ⟨n0, hn0⟩ := hres sym0 (List.mem_cons_self _ _)
    have hrest : ∀ sym ∈ rest, ∃ n, sym.Name img = .ok n :=
      fun sym h => hres sym (List.mem_cons_of_mem _ h)
    by_cases h : n0 = mname
    · left
      subst h
      refine ⟨0, sym0, List.getElem?_cons_zero, hn0,
        fun j symj hj => absurd hj (Nat.not_lt_zero j), ?_, ?_⟩
      · simp [List.enumFrom_cons, getSymbolLoop, hn0, bind, Except.bind, pure, Except.pure]
      · simp [List.enumFrom_cons, findSymbolLoop, hn0, bind, Except.bind, pure, Except.pure]
    · have h' : ¬ mname = n0 := fun e => h e.symm
      have hne : sym0.Name img ≠ .ok mname := by
        rw [hn0]
        intro e
        exact h (Except.ok.inj e)
      rcases ih (k + 1) hrest with ⟨i, sym, hi, hname, hfirst, hg, hf⟩ | ⟨hnone, hg, hf⟩
      · left
        refine ⟨i + 1, sym, by simpa using hi, hname, ?_, ?_, ?_⟩
        · intro j symj hj hget
          cases j with
          | zero =>
            simp only [List.getElem?_cons_zero, Option.some.injEq] at hget
            rw [← hget]
            exact hne
          | succ j' =>
            simp only [List.getElem?_cons_succ] at hget
            exact hfirst j' symj (by omega) hget
        · simp only [List.enumFrom_cons, getSymbolLoop, hn0, bind, Except.bind, h, if_false, hg]
          congr 2
          omega
        · simp only [List.enumFrom_cons, findSymbolLoop, hn0, bind, Except.bind, h', if_false, hf]
          congr 2
          omega
      · right
        refine ⟨?_, ?_, ?_⟩
        · intro sym hsym
          rcases List.mem_cons.mp hsym with rfl | hsym
          · exact hne
          · exact hnone sym hsym
        · simp only [List.enumFrom_cons, getSymbolLoop, hn0, bind, Except.bind, h, if_false, hg]
        · simp only [List.enumFrom_cons, findSymbolLoop, hn0, bind, Except.bind, h', if_false, hf]

theorem Symbol.Name_of_resolves (img : Image) (sym : Symbol) (e : ElfSymbol)
    (h : img.symbol sym.elfSym = some e) : sym.Name img = .ok e.name := by
  simp [Symbol.Name, Symbol.elfsymOf, h, bind, Except.bind, pure, Except.pure]

theorem stateFrom_succ {σ : Type} (co : Nat) (cb : Nat → Nat → σ → hsa_status_t × σ)
    (k : Nat) (d : σ) (j : Nat) :
    stateFrom co cb k d (j + 1) = (cb co (k + j) (stateFrom co cb k d j)).2 := by
  induction j generalizing k d with
  | zero => rfl
  | succ j ih =>
    have h := ih (k + 1) (cb co k d).2
    have e : k + 1 + j = k + (j + 1) := by omega
    rw [e] at h
    exact h

theorem stateAfterCalls_eq_stateFrom {σ : Type} (co : Nat)
    (cb : Nat → Nat → σ → hsa_status_t × σ) (d : σ) (j : Nat) :
    stateAfterCalls co cb d j = stateFrom co cb 0 d j := by
  induction j with
  | zero => rfl
  | succ j ih =>
    rw [stateFrom_succ, Nat.zero_add, ← ih]
    rfl

/-- The iteration loop from slot `k` on: it stops at the first call that does
not succeed, with that status and the state after that call; without such a
call it runs through and succeeds. -/
theorem iterateSymbolsLoop_spec {σ : Type} (co : Nat)
    (cb : Nat → Nat → σ → hsa_status_t × σ) (l : List Symbol) (k : Nat) (d : σ) :
    (∀ f, f < l.length →
      (∀ j, j < f → (cb co (k + j) (stateFrom co cb k d j)).1 = HSA_STATUS_SUCCESS) →
      (cb co (k + f) (stateFrom co cb k d f)).1 ≠ HSA_STATUS_SUCCESS →
      iterateSymbolsLoop co cb (l.enumFrom k) d =
        ((cb co (k + f) (stateFrom co cb k d f)).1, stateFrom co cb k d (f + 1))) ∧
    ((∀ j, j < l.length → (cb co (k + j) (stateFrom co cb k d j)).1 = HSA_STATUS_SUCCESS) →
      iterateSymbolsLoop co cb (l.enumFrom k) d =
        (HSA_STATUS_SUCCESS, stateFrom co cb k d l.length)) := by
  induction l generalizing k d with
  | nil =>
    refine ⟨fun f hf => absurd hf (Nat.not_lt_zero f), fun _ => rfl⟩
  | cons x rest ih =>
    obtain ⟨ih1, ih2⟩ := ih (k + 1) (cb co k d).2
    constructor
    · intro f hf hbefore hfail
      cases f with
      | zero =>
        have hfail' : (cb co k d).1 ≠ HSA_STATUS_SUCCESS := hfail
        simp only [List.enumFrom_cons, iterateSymbolsLoop, hfail', ne_eq, not_false_eq_true,
          if_true]
        rfl
      | succ f' =>
        have h0 : (cb co k d).1 = HSA_STATUS_SUCCESS := hbefore 0 (Nat.succ_pos f')
        have e : ∀ j, k + (j + 1) = k + 1 + j := fun j => by omega
        have hb' : ∀ j, j < f' →
            (cb co (k + 1 + j) (stateFrom co cb (k + 1) (cb co k d).2 j)).1 =
              HSA_STATUS_SUCCESS := by
          intro j hj
          have := hbefore (j + 1) (by omega)
          rw [e j] at this
          exact this
        have hf' : (cb co (k + 1 + f') (stateFrom co cb (k + 1) (cb co k d).2 f')).1 ≠
            HSA_STATUS_SUCCESS := by
          have := hfail
          rw [e f'] at this
          exact this
        have hrest := ih1 f' (by simpa using hf) hb' hf'
        simp only [List.enumFrom_cons, iterateSymbolsLoop, h0, ne_eq, not_true_eq_false,
          if_false, hrest]
        rw [e f']
        rfl
    · intro hall
      have h0 : (cb co k d).1 = HSA_STATUS_SUCCESS := hall 0 (by simp)
      have e : ∀ j, k + (j + 1) = k + 1 + j := fun j => by omega
      have hb' : ∀ j, j < rest.length →
          (cb co (k + 1 + j) (stateFrom co cb (k + 1) (cb co k d).2 j)).1 =
            HSA_STATUS_SUCCESS := by
        intro j hj
        have := hall (j + 1) (by simpa using hj)
        rw [e j] at this
        exact this
      have hrest := ih2 hb'
      simp only [List.enumFrom_cons, iterateSymbolsLoop, h0, ne_eq, not_true_eq_false,
        if_false, hrest]
      rfl

theorem FromHandle_hit (E : ElfSubstrate) (d : Bool) (m : AmdHsaCodeManager) (h : Nat)
    (code : AmdHsaCode) (hc : m.codeMap h = some code) :
    AmdHsaCodeManager.FromHandle E d m h = (some code, m) := by
  simp only [AmdHsaCodeManager.FromHandle, hc]

/-- A resolve never removes or replaces a cached entry. -/
theorem FromHandle_keeps (E : ElfSubstrate) (d : Bool) (m : AmdHsaCodeManager) (h h' : Nat)
    (code : AmdHsaCode) (hc : m.codeMap h = some code) :
    (AmdHsaCodeManager.FromHandle E d m h').2.codeMap h = some code := by
  unfold AmdHsaCodeManager.FromHandle
  cases hm : m.codeMap h' with
  | some code' => exact hc
  | none =>
    by_cases hr : (AmdHsaCode.InitAsBuffer E (AmdHsaCode.construct d) h' 0).1 = true
    · have hne : h ≠ h' := by
        intro e
        rw [e, hm] at hc
        cases hc
      simp [hr, hne, hc]
    · simp [hr, hc]

theorem resolveAll_keeps (E : Nat → ElfSubstrate) (d : Bool) (m : AmdHsaCodeManager)
    (hs : List Nat) (h : Nat) (code : AmdHsaCode) (hc : m.codeMap h = some code) :
    (resolveAll E d m hs).codeMap h = some code := by
  induction hs generalizing m E with
  | nil => exact hc
  | cons h' hs ih =>
    exact ih (fun i => E (i + 1)) _ (FromHandle_keeps (E 0) d m h h' code hc)

theorem PullElf_img (img : Image) (c : AmdHsaCode) :
    (AmdHsaCode.PullElf img c).2.img = c.img := by
  unfold AmdHsaCode.PullElf
  cases AmdHsaCode.GetNoteCodeObjectVersion img with
  | none => rfl
  | some v =>
    obtain ⟨major, minor⟩ := v
    by_cases h : major ≥ 2
    · simp only [h, if_true, AmdHsaCode.PullElfV2]
      rw [(pullSymbols_fields _ _ _).2.2.2.2]
      simp only [foldl_pullSegment, foldl_pullSection]
    · simp only [h, if_false, AmdHsaCode.PullElfV1]
      rw [(pullSymbols_fields _ _ _).2.2.2.2]
      simp only [foldl_pullSegment, foldl_pullSection]

/-- Every entry point that reaches the substrate leaves an image attached. -/
theorem attachAndPull_img (c : AmdHsaCode) (r : Bool × Image) :
    (AmdHsaCode.attachAndPull c r).2.img = some r.2 := by
  unfold AmdHsaCode.attachAndPull
  by_cases h1 : r.1 = true
  · by_cases h2 : (AmdHsaCode.PullElf r.2 { c with img := some r.2 }).1 = true
    · simp [h1, h2, PullElf_img]
    · simp [h1, h2, AmdHsaCode.ElfImageError, PullElf_img]
  · simp [h1, AmdHsaCode.ElfImageError]

/-- `InitNew` on a fresh object, in one equation. -/
theorem InitNew_fresh (B : ElfBuilder) (c : AmdHsaCode) (xnack : Bool) (hc : c.img = none) :
    AmdHsaCode.InitNew B c xnack =
      ((B.initNew B.NewElf64Image EM_AMDGPU ET_EXEC ELFOSABI_AMDGPU_HSA
          ELFABIVERSION_AMDGPU_HSA (if xnack then 0 ||| EF_AMDGPU_XNACK else 0)).1,
        { c with
          img := some (B.initNew B.NewElf64Image EM_AMDGPU ET_EXEC ELFOSABI_AMDGPU_HSA
            ELFABIVERSION_AMDGPU_HSA (if xnack then 0 ||| EF_AMDGPU_XNACK else 0)).2,
          out := if (B.initNew B.NewElf64Image EM_AMDGPU ET_EXEC ELFOSABI_AMDGPU_HSA
              ELFABIVERSION_AMDGPU_HSA (if xnack then 0 ||| EF_AMDGPU_XNACK else 0)).1
            then c.out
            else c.out ++ (B.initNew B.NewElf64Image EM_AMDGPU ET_EXEC ELFOSABI_AMDGPU_HSA
              ELFABIVERSION_AMDGPU_HSA (if xnack then 0 ||| EF_AMDGPU_XNACK else 0)).2.output }) := by
  simp only [AmdHsaCode.InitNew, hc]
  cases h : (B.initNew B.NewElf64Image EM_AMDGPU ET_EXEC ELFOSABI_AMDGPU_HSA
    ELFABIVERSION_AMDGPU_HSA (if xnack then 0 ||| EF_AMDGPU_XNACK else 0)).1
  · simp [AmdHsaCode.ElfImageError]
  · simp

/-- A later call of `HsaDataSection`: the cached section is returned and the
object is left alone, whatever the substrate. -/
theorem HsaDataSection_cached (asserts : Bool) (B : ElfBuilder) (c : AmdHsaCode)
    (sec : amdgpu_hsa_elf_section_t) (combineSegments : Bool) (p : Nat)
    (h : c.hsaSections sec = some p) :
    AmdHsaCode.HsaDataSection asserts B c sec combineSegments = .ok (some p, c) := by
  simp [AmdHsaCode.HsaDataSection, h, pure, Except.pure]

/-- The first call of `HsaDataSection` when the assertion on the segment slot
does not fire: one `addSection` on the substrate, with the arguments of the
category and the content of the slot. -/
theorem HsaDataSection_first (asserts : Bool) (B : ElfBuilder) (c : AmdHsaCode) (img : Image)
    (sec : amdgpu_hsa_elf_section_t) (combineSegments : Bool)
    (himg : c.img = some img) (hsec : c.hsaSections sec = none)
    (hseg : asserts = false ∨ (c.hsaSegments (AmdHsaElfSectionSegment sec)
      (combineSegments || !IsAmdHsaElfSectionROData sec)).isSome = true) :
    AmdHsaCode.HsaDataSection asserts B c sec combineSegments =
      .ok ((B.addSection img (hsaDataSectionArgs sec).1 (hsaDataSectionArgs sec).2.1
            (hsaDataSectionArgs sec).2.2 0
            (c.hsaSegments (AmdHsaElfSectionSegment sec)
              (combineSegments || !IsAmdHsaElfSectionROData sec))).1,
        { c with
          img := some (B.addSection img (hsaDataSectionArgs sec).1 (hsaDataSectionArgs sec).2.1
            (hsaDataSectionArgs sec).2.2 0
            (c.hsaSegments (AmdHsaElfSectionSegment sec)
              (combineSegments || !IsAmdHsaElfSectionROData sec))).2,
          dataSections := c.dataSections ++
            [(B.addSection img (hsaDataSectionArgs sec).1 (hsaDataSectionArgs sec).2.1
              (hsaDataSectionArgs sec).2.2 0
              (c.hsaSegments (AmdHsaElfSectionSegment sec)
                (combineSegments || !IsAmdHsaElfSectionROData sec))).1],
          hsaSections := fun s =>
            if s = sec then
              (B.addSection img (hsaDataSectionArgs sec).1 (hsaDataSectionArgs sec).2.1
                (hsaDataSectionArgs sec).2.2 0
                (c.hsaSegments (AmdHsaElfSectionSegment sec)
                  (combineSegments || !IsAmdHsaElfSectionROData sec))).1
            else c.hsaSections s }) := by
  have hass : cAssert asserts (c.hsaSegments (AmdHsaElfSectionSegment sec)
      (combineSegments || !IsAmdHsaElfSectionROData sec)).isSome = .ok () := by
    rcases hseg with h | h
    · simp [cAssert, h]
    · simp [cAssert, h]
  simp only [AmdHsaCode.HsaDataSection, hsec, Option.isNone_none, if_true, AmdHsaCode.HsaSegment,
    hass, bind, Except.bind, pure, Except.pure, AmdHsaCode.AddDataSection, himg, if_pos]

/-- `InitHsaSegment` on an empty slot: one `initSegment` on the substrate. -/
theorem InitHsaSegment_empty (B : ElfBuilder) (c : AmdHsaCode) (img : Image)
    (segment : amdgpu_hsa_elf_segment_t) (writable : Bool)
    (himg : c.img = some img) (h : c.hsaSegments segment writable = none) :
    AmdHsaCode.InitHsaSegment B c segment writable =
      .ok { c with
        img := some (B.initSegment img (PT_LOOS + segment.toNat)
          (if segment = AMDGPU_HSA_SEGMENT_CODE_AGENT
            then (if writable then PF_R ||| PF_W else PF_R) ||| PF_X
            else (if writable then PF_R ||| PF_W else PF_R))).2,
        hsaSegments := fun s w =>
          if s = segment ∧ w = writable then
            (B.initSegment img (PT_LOOS + segment.toNat)
              (if segment = AMDGPU_HSA_SEGMENT_CODE_AGENT
                then (if writable then PF_R ||| PF_W else PF_R) ||| PF_X
                else (if writable then PF_R ||| PF_W else PF_R))).1
          else c.hsaSegments s w } := by
  simp only [AmdHsaCode.InitHsaSegment, h, Option.isNone_none, if_true, himg]

/-- `InitHsaSegment` on an initialised slot does nothing. -/
theorem InitHsaSegment_full (B : ElfBuilder) (c : AmdHsaCode)
    (segment : amdgpu_hsa_elf_segment_t) (writable : Bool) (i : Nat)
    (h : c.hsaSegments segment writable = some i) :
    AmdHsaCode.InitHsaSegment B c segment writable = .ok c := by
  simp [AmdHsaCode.InitHsaSegment, h]

theorem segmentFlags_write (s : amdgpu_hsa_elf_segment_t) (w : Bool) :
    (if s = AMDGPU_HSA_SEGMENT_CODE_AGENT
      then (if w then PF_R ||| PF_W else PF_R) ||| PF_X
      else (if w then PF_R ||| PF_W else PF_R)) &&& PF_W ≠ 0 ↔ w = true := by
  cases s <;> cases w <;> decide

/-- `InitHsaSegment` over the substrate of section 6 keeps the slots sound and
fills the slot it is called for. -/
theorem InitHsaSegment_sound (E : ElfSubstrate) (c : AmdHsaCode) (img : Image)
    (s : amdgpu_hsa_elf_segment_t) (w : Bool) (himg : c.img = some img)
    (hs : SlotsSound c img) :
    ∃ c1 img1 i seg,
      AmdHsaCode.InitHsaSegment (specBuilder E) c s w = .ok c1 ∧ c1.img = some img1 ∧
      c1.hsaSegments s w = some i ∧ img1.segments.get? i = some seg ∧
      seg.type = PT_LOOS + s.toNat ∧ (seg.flags &&& PF_W ≠ 0 ↔ w = true) ∧
      (∀ s1 w1, ¬ (s1 = s ∧ w1 = w) → c1.hsaSegments s1 w1 = c.hsaSegments s1 w1) ∧
      (c.hsaSegments s w ≠ none → c1 = c) ∧
      SlotsSound c1 img1 ∧ c1.hsaSections = c.hsaSections ∧ img1.sections = img.sections ∧
      c1.dataSections = c.dataSections ∧ c1.symbols = c.symbols := by
  cases hslot : c.hsaSegments s w with
  | some i =>
    obtain ⟨seg, h1, h2, h3⟩ := hs s w i hslot
    exact ⟨c, img, i, seg, InitHsaSegment_full _ c s w i hslot, himg, hslot, h1, h2, h3,
      fun _ _ _ => rfl, fun _ => rfl, hs, rfl, rfl, rfl, rfl⟩
  | none =>
    refine ⟨_, _, img.segments.length,
      { type := PT_LOOS + s.toNat,
        flags := if s = AMDGPU_HSA_SEGMENT_CODE_AGENT
          then (if w then PF_R ||| PF_W else PF_R) ||| PF_X
          else (if w then PF_R ||| PF_W else PF_R) },
      InitHsaSegment_empty _ c img s w himg hslot, rfl, ?_, ?_,
      rfl, segmentFlags_write s w, ?_, ?_, ?_, rfl, rfl, rfl, rfl⟩
    · simp [specBuilder, Image.initSegment]
    · simp [specBuilder, Image.initSegment]
    · intro s1 w1 hne
      simp [hne]
    · intro h
      exact absurd rfl h
    · intro s1 w1 i hi
      by_cases hsl : s1 = s ∧ w1 = w
      · obtain ⟨rfl, rfl⟩ := hsl
        simp only [specBuilder, Image.initSegment, and_self, if_true, Option.some.injEq] at hi
        subst hi
        exact ⟨{ type := PT_LOOS + s1.toNat,
                 flags := if s1 = AMDGPU_HSA_SEGMENT_CODE_AGENT
                   then (if w1 then PF_R ||| PF_W else PF_R) ||| PF_X
                   else (if w1 then PF_R ||| PF_W else PF_R) },
          by simp [specBuilder, Image.initSegment], rfl, segmentFlags_write s1 w1⟩
      · simp only [hsl, if_false] at hi
        obtain ⟨seg, h1, h2, h3⟩ := hs s1 w1 i hi
        refine ⟨seg, ?_, h2, h3⟩
        simp only [specBuilder, Image.initSegment]
        rw [List.get?_eq_getElem?] at h1 ⊢
        rw [List.getElem?_append_left (List.getElem?_eq_some_iff.mp h1).1]
        exact h1

/-- The first `HsaDataSection` call over the substrate of section 6, with the
segment `seg` in the slot of the category. -/
theorem HsaDataSection_sound (asserts : Bool) (E : ElfSubstrate) (c : AmdHsaCode) (img : Image)
    (sec : amdgpu_hsa_elf_section_t) (k : Bool) (seg : Nat)
    (himg : c.img = some img) (hsec : c.hsaSections sec = none)
    (hseg : c.hsaSegments (AmdHsaElfSectionSegment sec) (k || !IsAmdHsaElfSectionROData sec) =
      some seg) :
    ∃ c1 img1,
      AmdHsaCode.HsaDataSection asserts (specBuilder E) c sec k =
        .ok (some img.sections.length, c1) ∧
      c1.img = some img1 ∧
      img1.sections = img.sections ++
        [some { Name := (hsaDataSectionArgs sec).1, type := (hsaDataSectionArgs sec).2.1,
                flags := (hsaDataSectionArgs sec).2.2, segment := some seg }] ∧
      img1.segments = img.segments ∧
      c1.dataSections = c.dataSections ++ [some img.sections.length] ∧
      c1.hsaSections sec = some img.sections.length ∧
      (∀ s, s ≠ sec → c1.hsaSections s = c.hsaSections s) ∧
      c1.hsaSegments = c.hsaSegments ∧ c1.dataSegments = c.dataSegments ∧
      c1.symbols = c.symbols := by
  have hfirst := HsaDataSection_first asserts (specBuilder E) c img sec k himg hsec
    (Or.inr (by rw [hseg]; rfl))
  rw [hseg] at hfirst
  refine ⟨_, _, hfirst, rfl, rfl, rfl, rfl, ?_, ?_, rfl, rfl, rfl⟩
  · simp [specBuilder, Image.addSection]
  · intro s hne
    simp [hne]

theorem alignUp_dvd (n : Nat) : 256 ∣ alignUp n 256 := by
  unfold alignUp
  exact Dvd.intro_left _ rfl

theorem alignUp_ge (n : Nat) : n ≤ alignUp n 256 := by
  unfold alignUp
  omega

theorem alignUp_add (m s : Nat) (h : 256 ∣ m) : alignUp (m + s) 256 = m + alignUp s 256 := by
  unfold alignUp
  omega

theorem alignUp_of_dvd (m : Nat) (h : 256 ∣ m) : alignUp m 256 = m := by
  unfold alignUp
  omega

theorem roundedSums_ge (m : Nat) (sizes : List Nat) : ∀ o ∈ roundedSums m sizes, m ≤ o := by
  induction sizes generalizing m with
  | nil => intro o h; cases h
  | cons s rest ih =>
    intro o h
    simp only [roundedSums, List.mem_cons] at h
    rcases h with rfl | h
    · exact Nat.le_refl _
    · have := ih _ o h
      omega

theorem roundedSums_dvd (m : Nat) (sizes : List Nat) (hm : 256 ∣ m) :
    ∀ o ∈ roundedSums m sizes, 256 ∣ o := by
  induction sizes generalizing m with
  | nil => intro o h; cases h
  | cons s rest ih =>
    intro o h
    simp only [roundedSums, List.mem_cons] at h
    rcases h with rfl | h
    · exact hm
    · exact ih _ (Nat.dvd_add hm (alignUp_dvd s)) o h

theorem roundedSums_le (m : Nat) (sizes : List Nat) :
    (roundedSums m sizes).Pairwise (fun a b => a ≤ b) := by
  induction sizes generalizing m with
  | nil => exact List.Pairwise.nil
  | cons s rest ih =>
    simp only [roundedSums, List.pairwise_cons]
    refine ⟨?_, ih _⟩
    intro o h
    have := roundedSums_ge _ _ o h
    omega

theorem roundedSums_lt (m : Nat) (sizes : List Nat) (hpos : ∀ s ∈ sizes, 0 < s) :
    (roundedSums m sizes).Pairwise (fun a b => a < b) := by
  induction sizes generalizing m with
  | nil => exact List.Pairwise.nil
  | cons s rest ih =>
    simp only [roundedSums, List.pairwise_cons]
    refine ⟨?_, ih _ (fun x hx => hpos x (List.mem_cons_of_mem _ hx))⟩
    intro o h
    have := roundedSums_ge _ _ o h
    have hs := hpos s (List.mem_cons_self _ _)
    have := alignUp_ge s
    omega

theorem alignUp_sizeAfter (n : Nat) (sizes : List Nat) :
    alignUp (sizeAfter n sizes) 256 =
      alignUp n 256 + (sizes.map (fun s => alignUp s 256)).sum := by
  induction sizes generalizing n with
  | nil => simp [sizeAfter]
  | cons s rest ih =>
    simp only [sizeAfter, List.map_cons, List.sum_cons]
    rw [ih, alignUp_add _ _ (alignUp_dvd n)]
    omega

theorem sizeAfter_append_last (n : Nat) (init : List Nat) (last : Nat) :
    sizeAfter n (init ++ [last]) =
      alignUp n 256 + (init.map (fun s => alignUp s 256)).sum + last := by
  induction init generalizing n with
  | nil => simp [sizeAfter]
  | cons s rest ih =>
    have h := ih (alignUp n 256 + s)
    rw [alignUp_add _ _ (alignUp_dvd n)] at h
    show sizeAfter (alignUp n 256 + s) (rest ++ [last]) = _
    rw [h]
    simp only [List.map_cons, List.sum_cons]
    omega

theorem Image.symbol_setValue (img : Image) (i value : Nat) (e : ElfSymbol)
    (he : img.symbol i = some e) :
    (img.setValue i value).symbol i = some { e with value := value } ∧
    (∀ j, j ≠ i → (img.setValue i value).symbol j = img.symbol j) ∧
    (img.setValue i value).sections = img.sections ∧
    (img.setValue i value).segments = img.segments ∧
    (img.setValue i value).notes = img.notes ∧
    (img.setValue i value).symtab.length = img.symtab.length := by
  unfold Image.symbol at he
  have hlt : i < img.symtab.length := by
    rw [List.get?_eq_getElem?] at he
    exact (List.getElem?_eq_some_iff.mp he).1
  refine ⟨?_, ?_, ?_, ?_, ?_, ?_⟩
  · have hget : img.symtab[i] = e := by
      rw [List.get?_eq_getElem?] at he
      exact (List.getElem?_eq_some_iff.mp he).2
    simp only [Image.setValue, he, Image.symbol, List.get?_eq_getElem?, List.getElem?_set, hlt,
      if_true]
  · intro j hj
    simp only [Image.setValue, he, Image.symbol, List.get?_eq_getElem?]
    rw [List.getElem?_set_ne (Ne.symm hj)]
  · simp only [Image.setValue, he]
  · simp only [Image.setValue, he]
  · simp only [Image.setValue, he]
  · simp only [Image.setValue, he, List.length_set]

theorem Image.symbol_setSize (img : Image) (i size : Nat) (e : ElfSymbol)
    (he : img.symbol i = some e) :
    (img.setSize i size).symbol i = some { e with size := size } ∧
    (∀ j, j ≠ i → (img.setSize i size).symbol j = img.symbol j) ∧
    (img.setSize i size).sections = img.sections ∧
    (img.setSize i size).segments = img.segments ∧
    (img.setSize i size).notes = img.notes ∧
    (img.setSize i size).symtab.length = img.symtab.length := by
  unfold Image.symbol at he
  have hlt : i < img.symtab.length := by
    rw [List.get?_eq_getElem?] at he
    exact (List.getElem?_eq_some_iff.mp he).1
  refine ⟨?_, ?_, ?_, ?_, ?_, ?_⟩
  · have hget : img.symtab[i] = e := by
      rw [List.get?_eq_getElem?] at he
      exact (List.getElem?_eq_some_iff.mp he).2
    simp only [Image.setSize, he, Image.symbol, List.get?_eq_getElem?, List.getElem?_set, hlt,
      if_true]
  · intro j hj
    simp only [Image.setSize, he, Image.symbol, List.get?_eq_getElem?]
    rw [List.getElem?_set_ne (Ne.symm hj)]
  · simp only [Image.setSize, he]
  · simp only [Image.setSize, he]
  · simp only [Image.setSize, he]
  · simp only [Image.setSize, he, List.length_set]

theorem Image.section_addData (img : Image) (t : Nat) (bytes : List Nat) (sec : Section)
    (hsec : img.section t = some sec) :
    (img.addData t bytes 256).1 = alignUp sec.data.length 256 ∧
    (img.addData t bytes 256).2.section t =
      some { sec with
        data := sec.data ++ List.replicate (alignUp sec.data.length 256 - sec.data.length) 0
          ++ bytes } ∧
    (∀ k, k ≠ t → (img.addData t bytes 256).2.section k = img.section k) ∧
    (img.addData t bytes 256).2.symtab = img.symtab ∧
    (img.addData t bytes 256).2.segments = img.segments ∧
    (img.addData t bytes 256).2.notes = img.notes ∧
    (img.addData t bytes 256).2.sections.length = img.sections.length := by
  have hlt : t < img.sections.length := by
    unfold Image.section at hsec
    rw [List.get?_eq_getElem?] at hsec
    cases h : img.sections[t]? with
    | none => rw [h] at hsec; cases hsec
    | some o => exact (List.getElem?_eq_some_iff.mp h).1
  have hadd : img.addData t bytes 256 =
      (alignUp sec.data.length 256,
        { img with sections := List.set img.sections t (some { sec with
            data := sec.data ++ List.replicate (alignUp sec.data.length 256 - sec.data.length) 0
              ++ bytes }) }) := by
    simp only [Image.addData, hsec]
  rw [hadd]
  refine ⟨rfl, ?_, ?_, rfl, rfl, rfl, ?_⟩
  · simp only [Image.section, List.get?_eq_getElem?, List.getElem?_set, hlt, if_true,
      Option.join]
    rfl
  · intro k hk
    simp only [Image.section, List.get?_eq_getElem?]
    rw [List.getElem?_set_ne (Ne.symm hk)]
  · simp only [List.length_set]

/-- One `AddKernelCode` call over the substrate of section 6, on an object with
a code section and a symbol pointer that designates a symbol with an entry. -/
theorem AddKernelCode_spec (asserts : Bool) (E : ElfSubstrate) (c : AmdHsaCode) (img : Image)
    (t : Nat) (sec : Section) (sym : Nat) (s : Symbol) (e : ElfSymbol) (code : Mem) (size : Nat)
    (himg : c.img = some img) (htext : c.hsatext = some t) (hsec : img.section t = some sec)
    (hsym : c.symbols.get? sym = some s) (he : img.symbol s.elfSym = some e) :
    ∃ img1,
      AmdHsaCode.AddKernelCode asserts (specBuilder E) c (some sym) code size =
        .ok (true, { c with img := some img1 }) ∧
      img1.section t =
        some { sec with
          data := sec.data ++ List.replicate (alignUp sec.data.length 256 - sec.data.length) 0
            ++ readBytes code size } ∧
      (∀ k, k ≠ t → img1.section k = img.section k) ∧
      img1.symbol s.elfSym =
        some { e with value := alignUp sec.data.length 256, size := size } ∧
      (∀ j, j ≠ s.elfSym → img1.symbol j = img.symbol j) ∧
      img1.segments = img.segments ∧ img1.notes = img.notes ∧
      img1.symtab.length = img.symtab.length ∧ img1.sections.length = img.sections.length := by
  obtain ⟨a1, a2, a3, a4, a5, a6, a7⟩ := Image.section_addData img t (readBytes code size) sec hsec
  have he1 : (img.addData t (readBytes code size) 256).2.symbol s.elfSym = some e := by
    simp only [Image.symbol, a4]; exact he
  obtain ⟨v1, v2, v3, v4, v5, v6⟩ := Image.symbol_setValue _ s.elfSym
    (img.addData t (readBytes code size) 256).1 e he1
  obtain ⟨z1, z2, z3, z4, z5, z6⟩ := Image.symbol_setSize _ s.elfSym size _ v1
  refine ⟨((img.addData t (readBytes code size) 256).2.setValue s.elfSym
    (img.addData t (readBytes code size) 256).1).setSize s.elfSym size, ?_, ?_, ?_, ?_, ?_, ?_,
    ?_, ?_, ?_⟩
  · have hsym1 : c.symbols[sym]? = some s := by
      rw [← List.get?_eq_getElem?]; exact hsym
    simp [AmdHsaCode.AddKernelCode, cAssert, AmdHsaCode.HsaText, htext, himg, hsym1, specBuilder,
      bind, Except.bind, pure, Except.pure]
  · simp only [Image.section, z3, v3]
    exact a2
  · intro k hk
    simp only [Image.section, z3, v3]
    exact a3 k hk
  · rw [z1, a1]
  · intro j hj
    rw [z2 j hj, v2 j hj]
    simp only [Image.symbol, a4]
  · rw [z4, v4, a5]
  · rw [z5, v5, a6]
  · rw [z6, v6, a4]
  · rw [z3, v3, a7]

theorem readBytes_length (m : Mem) (n : Nat) : (readBytes m n).length = n := by
  simp [readBytes]

/-- A run of `AddKernelCode` calls over the substrate of section 6: every call
succeeds, the offsets are the running sums, and the code section grows to
`sizeAfter`. -/
theorem addKernelCodes_spec (asserts : Bool) (E : ElfSubstrate) (t : Nat)
    (calls : List (Nat × Mem × Nat)) (c : AmdHsaCode) (img : Image) (sec : Section)
    (himg : c.img = some img) (htext : c.hsatext = some t) (hsec : img.section t = some sec)
    (hsyms : ∀ call ∈ calls, ∃ s, c.symbols.get? call.1 = some s ∧
      (img.symbol s.elfSym).isSome = true) :
    ∃ c1 img1 sec1,
      addKernelCodes asserts (specBuilder E) c calls =
        .ok ((roundedSums (alignUp sec.data.length 256)
          (calls.map (fun call => call.2.2))).map some, c1) ∧
      c1.img = some img1 ∧ c1.hsatext = some t ∧ img1.section t = some sec1 ∧
      sec1.data.length = sizeAfter sec.data.length (calls.map (fun call => call.2.2)) ∧
      c1.symbols = c.symbols := by
  induction calls generalizing c img sec with
  | nil => exact ⟨c, img, sec, rfl, himg, htext, hsec, rfl, rfl⟩
  | cons call rest ih =>
    obtain ⟨s, hs, hres⟩ := hsyms call (List.mem_cons_self _ _)
    obtain ⟨e, he⟩ := Option.isSome_iff_exists.mp hres
    obtain ⟨img1, h1, h2, -, h4, h5, -, -, -, -⟩ :=
      AddKernelCode_spec asserts E c img t sec call.1 s e call.2.1 call.2.2 himg htext hsec hs he
    have hlen : (sec.data ++ List.replicate (alignUp sec.data.length 256 - sec.data.length) 0
        ++ readBytes call.2.1 call.2.2).length = alignUp sec.data.length 256 + call.2.2 := by
      have := alignUp_ge sec.data.length
      simp only [List.length_append, List.length_replicate, readBytes_length]
      omega
    have hsyms1 : ∀ call1 ∈ rest, ∃ s1,
        ({ c with img := some img1 } : AmdHsaCode).symbols.get? call1.1 = some s1 ∧
        (img1.symbol s1.elfSym).isSome = true := by
      intro call1 hc1
      obtain ⟨s1, hs1, hr1⟩ := hsyms call1 (List.mem_cons_of_mem _ hc1)
      refine ⟨s1, hs1, ?_⟩
      by_cases hj : s1.elfSym = s.elfSym
      · rw [hj, h4]; rfl
      · rw [h5 _ hj]; exact hr1
    obtain ⟨c2, img2, sec2, r1, r2, r3, r4, r5, r6⟩ :=
      ih { c with img := some img1 } img1 _ rfl htext h2 hsyms1
    refine ⟨c2, img2, sec2, ?_, r2, r3, r4, ?_, r6⟩
    · have hval : ({ c with img := some img1 } : AmdHsaCode).valueOf call.1 =
          some (alignUp sec.data.length 256) := by
        have hs1 : c.symbols[call.1]? = some s := by
          rw [← List.get?_eq_getElem?]; exact hs
        simp [AmdHsaCode.valueOf, hs1, h4]
      simp only [addKernelCodes, h1, r1, hval, List.map_cons, roundedSums]
      rw [hlen, alignUp_add _ _ (alignUp_dvd _)]
    · rw [r5]
      simp only [List.map_cons, sizeAfter]
      rw [hlen]

/-- The loop of `AddSectionSymbols` only appends to the symbol list. -/
theorem addSectionSymbolsLoop_appends (B : ElfBuilder) (ds : List (Option Nat))
    (st st1 : Image × List Symbol) (h : addSectionSymbolsLoop B ds st = .ok st1) :
    ∃ t, st1.2 = st.2 ++ t := by
  induction ds generalizing st with
  | nil =>
    simp only [addSectionSymbolsLoop, Except.ok.injEq] at h
    exact ⟨[], by rw [← h]; simp⟩
  | cons d rest ih =>
    simp only [addSectionSymbolsLoop] at h
    cases hd : addSectionSymbol B st d with
    | error f => rw [hd] at h; cases h
    | ok st2 =>
      rw [hd] at h
      obtain ⟨t, ht⟩ := ih st2 h
      have h2 : ∃ u, st2.2 = st.2 ++ u := by
        unfold addSectionSymbol at hd
        cases d with
        | none =>
          simp only [Except.ok.injEq] at hd
          exact ⟨[], by rw [← hd]; simp⟩
        | some i =>
          simp only at hd
          cases hs : st.1.section i with
          | none => rw [hs] at hd; cases hd
          | some sec =>
            rw [hs] at hd
            simp only at hd
            split at hd
            · simp only [Except.ok.injEq] at hd
              exact ⟨_, by rw [← hd]⟩
            · simp only [Except.ok.injEq] at hd
              exact ⟨[], by rw [← hd]; simp⟩
      obtain ⟨u, hu⟩ := h2
      exact ⟨u ++ t, by rw [ht, hu, List.append_assoc]⟩

theorem indicesWhere_append_single {α : Type} (P : α → Bool) (l : List α) (x : α) :
    indicesWhere P (l ++ [x]) = indicesWhere P l ++ (if P x then [l.length] else []) := by
  unfold indicesWhere
  rw [List.enum_append]
  simp only [List.filter_append, List.map_append, List.enumFrom_singleton]
  by_cases h : P x = true
  · simp [List.filter_cons, h]
  · simp [List.filter_cons, h]

theorem map_eq_of_key {α β γ : Type} (f : α → γ) (g g1 : α → β) (l l1 : List α)
    (h : l1.map f = l.map f) (hk : ∀ a a1, f a1 = f a → g1 a1 = g a) :
    l1.map g1 = l.map g := by
  induction l generalizing l1 with
  | nil =>
    cases l1 with
    | nil => rfl
    | cons a rest => cases h
  | cons a rest ih =>
    cases l1 with
    | nil => cases h
    | cons a1 rest1 =>
      simp only [List.map_cons, List.cons.injEq] at h ⊢
      exact ⟨hk a a1 h.1, ih rest1 h.2⟩

theorem Image.setValue_types (img : Image) (i value : Nat) :
    (img.setValue i value).symtab.map (fun e => e.type) = img.symtab.map (fun e => e.type) ∧
    (img.setValue i value).notes = img.notes := by
  unfold Image.setValue
  cases h : img.symtab.get? i with
  | none => exact ⟨rfl, rfl⟩
  | some e =>
    refine ⟨?_, rfl⟩
    simp only
    apply List.ext_getElem?
    intro j
    rw [List.get?_eq_getElem?] at h
    simp only [List.getElem?_map, List.getElem?_set]
    by_cases hij : i = j
    · subst hij
      simp only [if_true]
      have hlt := (List.getElem?_eq_some_iff.mp h).1
      simp [hlt, h]
    · simp [hij]

theorem Image.setSize_types (img : Image) (i size : Nat) :
    (img.setSize i size).symtab.map (fun e => e.type) = img.symtab.map (fun e => e.type) ∧
    (img.setSize i size).notes = img.notes := by
  unfold Image.setSize
  cases h : img.symtab.get? i with
  | none => exact ⟨rfl, rfl⟩
  | some e =>
    refine ⟨?_, rfl⟩
    simp only
    apply List.ext_getElem?
    intro j
    rw [List.get?_eq_getElem?] at h
    simp only [List.getElem?_map, List.getElem?_set]
    by_cases hij : i = j
    · subst hij
      simp only [if_true]
      have hlt := (List.getElem?_eq_some_iff.mp h).1
      simp [hlt, h]
    · simp [hij]

theorem Image.addData_symtab (img : Image) (t : Nat) (bytes : List Nat) (align : Nat) :
    (img.addData t bytes align).2.symtab = img.symtab ∧
    (img.addData t bytes align).2.notes = img.notes := by
  unfold Image.addData
  cases img.section t <;> exact ⟨rfl, rfl⟩

/-- A producer call that ingestion reads back keeps the symbols in step with
the symbol table, over the substrate of section 6. -/
theorem runStep_tracks (asserts : Bool) (E : ElfSubstrate) (c c1 : AmdHsaCode)
    (step : ProducerStep) (h : runStep asserts (specBuilder E) c step = .ok c1)
    (hrb : step.ReadBack) (ht : TracksSymtab c) : TracksSymtab c1 := by
  obtain ⟨img, himg, hsyms⟩ := ht
  cases step with
  | addAmdNote type desc desc_size =>
    simp only [runStep, himg, Except.ok.injEq] at h
    rw [← h]
    exact ⟨_, rfl, hsyms⟩
  | addCodeSection segment =>
    simp only [runStep, AmdHsaCode.AddCodeSection, himg, Except.ok.injEq] at h
    rw [← h]
    exact ⟨_, rfl, hsyms⟩
  | addDataSection name type flags segment =>
    simp only [runStep, AmdHsaCode.AddDataSection, himg, Except.ok.injEq] at h
    rw [← h]
    exact ⟨_, rfl, hsyms⟩
  | initHsaSectionSegment sec k =>
    simp only [runStep, AmdHsaCode.InitHsaSectionSegment, AmdHsaCode.InitHsaSegment, himg] at h
    split at h
    · simp only [Except.ok.injEq] at h
      rw [← h]
      exact ⟨_, rfl, hsyms⟩
    · simp only [Except.ok.injEq] at h
      rw [← h]
      exact ⟨img, himg, hsyms⟩
  | hsaDataSection sec k =>
    simp only [runStep, AmdHsaCode.HsaDataSection] at h
    split at h
    · cases ha : cAssert asserts (c.HsaSegment (AmdHsaElfSectionSegment sec)
          (k || !IsAmdHsaElfSectionROData sec)).isSome with
      | error f =>
        simp only [ha, bind, Except.bind, Except.map] at h
        cases h
      | ok u =>
        simp only [ha, bind, Except.bind, Except.map, pure, Except.pure,
          AmdHsaCode.AddDataSection, himg, Except.ok.injEq] at h
        rw [← h]
        exact ⟨_, rfl, hsyms⟩
    · simp only [pure, Except.pure, Except.map, Except.ok.injEq] at h
      rw [← h]
      exact ⟨img, himg, hsyms⟩
  | addExecutableSymbol name type binding other section_ =>
    have hty : isIngestedType type = true := hrb
    simp only [runStep, AmdHsaCode.AddExecutableSymbol, himg, Except.ok.injEq] at h
    rw [← h]
    refine ⟨_, rfl, ?_⟩
    simp only [specBuilder, Image.addSymbol, List.map_append, List.map_cons, List.map_nil,
      hsyms, indicesWhere_append_single, hty, if_true, List.length_map]
    rfl
  | addVariableSymbol name type binding other section_ value size =>
    have hty : isIngestedType type = true := hrb
    simp only [runStep, AmdHsaCode.AddVariableSymbol, himg, Except.ok.injEq] at h
    rw [← h]
    refine ⟨_, rfl, ?_⟩
    simp only [specBuilder, Image.addSymbol, List.map_append, List.map_cons, List.map_nil,
      hsyms, indicesWhere_append_single, hty, if_true, List.length_map]
    rfl
  | addKernelCode sym code size =>
    simp only [runStep, AmdHsaCode.AddKernelCode] at h
    cases ha : cAssert asserts (some sym).isSome with
    | error f =>
      simp only [ha, bind, Except.bind, Except.map] at h
      cases h
    | ok u =>
      simp only [ha, bind, Except.bind, himg] at h
      cases htx : c.HsaText with
      | none =>
        simp only [htx, Except.map] at h
        cases h
      | some text =>
        simp only [htx] at h
        cases hs : (some sym).bind (fun i => c.symbols.get? i) with
        | none =>
          simp only [hs, Except.map] at h
          cases h
        | some s =>
          simp only [hs, pure, Except.pure, Except.map, Except.ok.injEq] at h
          rw [← h]
          refine ⟨_, rfl, ?_⟩
          simp only [specBuilder]
          rw [(Image.setSize_types _ _ _).1, (Image.setValue_types _ _ _).1,
            (Image.addData_symtab _ _ _ _).1]
          exact hsyms
  | addSectionSymbols => exact absurd hrb (by simp [ProducerStep.ReadBack])

theorem runSteps_tracks (asserts : Bool) (E : ElfSubstrate) (steps : List ProducerStep)
    (c c1 : AmdHsaCode) (h : runSteps asserts (specBuilder E) c steps = .ok c1)
    (hrb : ∀ step ∈ steps, step.ReadBack) (ht : TracksSymtab c) : TracksSymtab c1 := by
  induction steps generalizing c with
  | nil =>
    simp only [runSteps, Except.ok.injEq] at h
    rw [← h]
    exact ht
  | cons step rest ih =>
    simp only [runSteps] at h
    cases hs : runStep asserts (specBuilder E) c step with
    | error f => rw [hs] at h; cases h
    | ok c2 =>
      rw [hs] at h
      exact ih c2 h (fun s hs1 => hrb s (List.mem_cons_of_mem _ hs1))
        (runStep_tracks asserts E c c2 step hs (hrb step (List.mem_cons_self _ _)) ht)

theorem InitNew_tracks (E : ElfSubstrate) (b xnack : Bool) :
    TracksSymtab (AmdHsaCode.InitNew (specBuilder E) (AmdHsaCode.construct b) xnack).2 :=
  ⟨_, rfl, rfl⟩

theorem filterMap_variant_fst (l : List ElfSymbol) (k : Nat) :
    ((l.enumFrom k).filterMap
        (fun p => (variantOfType p.2.type).map (fun b => (p.1, b)))).map Prod.fst =
      (((l.map (fun e => e.type)).enumFrom k).filter (fun p => isIngestedType p.2)).map
        Prod.fst := by
  induction l generalizing k with
  | nil => rfl
  | cons e rest ih =>
    simp only [List.enumFrom_cons, List.map_cons, List.filterMap_cons, List.filter_cons,
      isIngestedType]
    cases hv : variantOfType e.type with
    | none =>
      simp only [Option.map_none', Option.isSome_none, Bool.false_eq_true, if_false]
      exact ih (k + 1)
    | some b =>
      simp only [Option.map_some', Option.isSome_some, if_true, List.map_cons]
      rw [ih (k + 1)]
      rfl

/-- The symbols after a successful `PullElf` on an object without symbols wrap
exactly the entries of kernel, object or common type, in table order. -/
theorem PullElf_symbols_of_success (img : Image) (c0 c1 : AmdHsaCode) (h0 : c0.symbols = [])
    (h : AmdHsaCode.PullElf img c0 = (true, c1)) :
    c1.symbols.map Symbol.elfSym =
      indicesWhere isIngestedType (img.symtab.map (fun e => e.type)) := by
  have key : ∀ (test : Segment → Bool) (isData : Section → Bool) (textName : String)
      (body : Nat → ElfSymbol → Pulled),
      (∀ p : Nat × ElfSymbol, (body p.1 p.2).isFail = false →
        (body p.1 p.2).sym?.map (fun s => (s.elfSym, s.IsKernelSymbol)) =
          (variantOfType p.2.type).map (fun k => (p.1, k))) →
      pullSymbols body img.symtab.enum
        (img.sections.enum.foldl (pullSection isData textName)
          (img.segments.enum.foldl (pullSegment test) c0)) = (true, c1) →
      c1.symbols.map Symbol.elfSym =
        indicesWhere isIngestedType (img.symtab.map (fun e => e.type)) := by
    intro test isData textName body hvar hp
    have hsym := (loops_out_symbols test isData textName img c0).2
    rcases pullSymbols_cases body img.symtab.enum
      (img.sections.enum.foldl (pullSection isData textName)
        (img.segments.enum.foldl (pullSegment test) c0)) with
      ⟨hall, heq⟩ | ⟨pre, p, post, -, -, -, heq⟩
    · rw [heq] at hp
      have hc := (Prod.mk.inj hp).2
      rw [← hc]
      simp only [hsym, h0, List.nil_append]
      have h2 := symbols_of_success body img.symtab.enum hall hvar
      have h3 := congrArg (List.map Prod.fst) h2
      rw [List.map_map] at h3
      have h4 : (Prod.fst ∘ fun s : Symbol => (s.elfSym, s.IsKernelSymbol)) = Symbol.elfSym := rfl
      rw [h4] at h3
      rw [h3]
      exact filterMap_variant_fst img.symtab 0
    · rw [heq] at hp
      exact absurd (Prod.mk.inj hp).1 (by simp)
  unfold AmdHsaCode.PullElf at h
  cases hv : AmdHsaCode.GetNoteCodeObjectVersion img with
  | none =>
    rw [hv] at h
    exact absurd (Prod.mk.inj h).1 (by simp)
  | some v =>
    obtain ⟨major, minor⟩ := v
    rw [hv] at h
    simp only at h
    by_cases hm : major ≥ 2
    · simp only [hm, if_true, AmdHsaCode.PullElfV2] at h
      exact key _ _ _ _ (fun p hp => pullSymbolV2_variant img p.1 p.2 hp) h
    · simp only [hm, if_false, AmdHsaCode.PullElfV1] at h
      exact key _ _ _ _ (fun p hp => pullSymbolV1_variant img p.1 p.2 hp) h

/-- A successful entry point is a successful `PullElf` on the attached image. -/
theorem attachAndPull_PullElf (c : AmdHsaCode) (r : Bool × Image) (c1 : AmdHsaCode)
    (h : AmdHsaCode.attachAndPull c r = (true, c1)) :
    AmdHsaCode.PullElf r.2 { c with img := some r.2 } = (true, c1) := by
  unfold AmdHsaCode.attachAndPull at h
  cases hr : r.1 with
  | false =>
    simp only [hr, Bool.not_false, if_true, AmdHsaCode.ElfImageError, Prod.mk.injEq] at h
    exact absurd h.1 (by simp)
  | true =>
    simp only [hr, Bool.not_true, Bool.false_eq_true, if_false] at h
    cases hp : (AmdHsaCode.PullElf r.2 { c with img := some r.2 }).1 with
    | false =>
      simp only [hp, Bool.not_false, if_true, AmdHsaCode.ElfImageError, Prod.mk.injEq] at h
      exact absurd h.1 (by simp)
    | true =>
      simp only [hp, Bool.not_true, Bool.false_eq_true, if_false, Prod.mk.injEq, true_and] at h
      exact Prod.ext hp h

/-- What a symbol reports as name, linkage and size is decided by the name,
binding and size of the entry it wraps. -/
theorem Symbol.view_eq (img img1 : Image) (s s1 : Symbol) (hsame : SameEntries img img1)
    (hs : s1.elfSym = s.elfSym) : Symbol.view img1 s1 = Symbol.view img s := by
  have hget : (img1.symtab.get? s.elfSym).map (fun e => (e.name, e.type, e.binding, e.size)) =
      (img.symtab.get? s.elfSym).map (fun e => (e.name, e.type, e.binding, e.size)) := by
    have := congrArg (fun l => l.get? s.elfSym) hsame.2
    simpa [List.get?_eq_getElem?, List.getElem?_map] using this
  unfold Symbol.view Symbol.Name Symbol.Linkage Symbol.Size Symbol.elfsymOf Image.symbol
  rw [hs]
  cases h1 : img1.symtab.get? s.elfSym with
  | none =>
    cases h0 : img.symtab.get? s.elfSym with
    | none => rfl
    | some e0 => rw [h1, h0] at hget; cases hget
  | some e1 =>
    cases h0 : img.symtab.get? s.elfSym with
    | none => rw [h1, h0] at hget; cases hget
    | some e0 =>
      rw [h1, h0] at hget
      simp only [Option.map_some', Option.some.injEq, Prod.mk.injEq] at hget
      obtain ⟨hn, -, hb, hz⟩ := hget
      simp only [bind, Except.bind, pure, Except.pure, hn, hb, hz]

/-! ## Lemmas on the relocation and initializer operations of the substrate -/

theorem Image.section_lt (img : Image) (k : Nat) (s : Section) (h : img.section k = some s) :
    k < img.sections.length := by
  unfold Image.section at h
  rw [List.get?_eq_getElem?] at h
  cases h1 : img.sections[k]? with
  | none => rw [h1] at h; cases h
  | some o => exact (List.getElem?_eq_some_iff.mp h1).1

theorem Image.section_set_eq (img : Image) (k : Nat) (s s1 : Section)
    (h : img.section k = some s) :
    Image.section { img with sections := List.set img.sections k (some s1) } k = some s1 := by
  have hlt := Image.section_lt img k s h
  simp only [Image.section, List.get?_eq_getElem?, List.getElem?_set, hlt, if_true, Option.join]
  rfl

theorem Image.section_set_ne (img : Image) (k j : Nat) (o : Option Section) (hj : j ≠ k) :
    Image.section { img with sections := List.set img.sections k o } j = img.section j := by
  simp only [Image.section, List.get?_eq_getElem?]
  rw [List.getElem?_set_ne (Ne.symm hj)]

theorem Image.section_append_old (img : Image) (o : Option Section) (k : Nat) (s : Section)
    (h : img.section k = some s) :
    Image.section { img with sections := img.sections ++ [o] } k = some s := by
  have hlt := Image.section_lt img k s h
  simp only [Image.section, List.get?_eq_getElem?] at h ⊢
  rw [List.getElem?_append_left hlt]
  exact h

theorem Image.section_append_new (img : Image) (o : Option Section) :
    Image.section { img with sections := img.sections ++ [o] } img.sections.length = o := by
  simp only [Image.section, List.get?_eq_getElem?]
  rw [List.getElem?_append_right (Nat.le_refl _)]
  simp

theorem Image.section_append_none (img : Image) (o : Option Section) (k : Nat)
    (h : img.section k = none) (hk : k ≠ img.sections.length) :
    Image.section { img with sections := img.sections ++ [o] } k = none := by
  simp only [Image.section, List.get?_eq_getElem?] at h ⊢
  by_cases hlt : k < img.sections.length
  · rw [List.getElem?_append_left hlt]
    exact h
  · have hgt : img.sections.length < k := by omega
    rw [List.getElem?_append_right (by omega)]
    have : k - img.sections.length ≠ 0 := by omega
    cases hd : k - img.sections.length with
    | zero => exact absurd hd this
    | succ n => simp

theorem Image.keepsRelocations_refl (img : Image) : img.KeepsRelocations img := by
  refine ⟨fun k s h => ⟨s, h, rfl, rfl⟩, ?_⟩
  intro k s1 h0 h1
  rw [h0] at h1
  cases h1

theorem Image.keepsRelocations_trans (img img1 img2 : Image)
    (h1 : img.KeepsRelocations img1) (h2 : img1.KeepsRelocations img2) :
    img.KeepsRelocations img2 := by
  refine ⟨?_, ?_⟩
  · intro k s hs
    obtain ⟨s1, a1, a2, a3⟩ := h1.1 k s hs
    obtain ⟨s2, b1, b2, b3⟩ := h2.1 k s1 a1
    exact ⟨s2, b1, b2.trans a2, b3.trans a3⟩
  · intro k s2 h0 hs2
    cases hm : img1.section k with
    | none => exact h2.2 k s2 hm hs2
    | some s1 =>
      obtain ⟨s2', b1, -, b3⟩ := h2.1 k s1 hm
      rw [hs2] at b1
      cases b1
      rw [b3]
      exact h1.2 k s1 h0 hm

theorem Section.sameContent_refl (s : Section) : s.SameContent s := ⟨rfl, rfl, rfl, rfl⟩

theorem Section.sameContent_trans (s2 s1 s : Section) (h2 : s2.SameContent s1)
    (h1 : s1.SameContent s) : s2.SameContent s :=
  ⟨h2.1.trans h1.1, h2.2.1.trans h1.2.1, h2.2.2.1.trans h1.2.2.1, h2.2.2.2.trans h1.2.2.2⟩

theorem Image.keepsData_refl (img : Image) : img.KeepsData img :=
  fun _ s h => ⟨s, h, Section.sameContent_refl s⟩

theorem Image.keepsData_trans (img img1 img2 : Image)
    (h1 : img.KeepsData img1) (h2 : img1.KeepsData img2) : img.KeepsData img2 := by
  intro k s hs
  obtain ⟨s1, a1, a2⟩ := h1 k s hs
  obtain ⟨s2, b1, b2⟩ := h2 k s1 a1
  exact ⟨s2, b1, Section.sameContent_trans s2 s1 s b2 a2⟩

/-- The records of the relocation section of an existing section are kept with
the relocation data of the sections. -/
theorem Image.relocationsOf_of_keeps (img img1 : Image) (sec : Nat)
    (h : img.KeepsRelocations img1) (hsec : (img.section sec).isSome = true) :
    img1.relocationsOf sec = img.relocationsOf sec := by
  cases hs : img.section sec with
  | none => rw [hs] at hsec; cases hsec
  | some s =>
    obtain ⟨s1, a1, a2, -⟩ := h.1 sec s hs
    unfold Image.relocationsOf
    rw [hs, a1]
    simp only [Option.bind, a2]
    cases hr : s.relocationSection with
    | none => rfl
    | some rel =>
      simp only
      cases hrel : img.section rel with
      | some r =>
        obtain ⟨r1, b1, -, b3⟩ := h.1 rel r hrel
        rw [b1]
        exact b3
      | none =>
        cases hrel1 : img1.section rel with
        | none => rfl
        | some r1 => exact h.2 rel r1 hrel hrel1

theorem Image.addSection_keepsRelocations (img : Image) (name : String)
    (type flags addralign : Nat) (segment : Option Nat) :
    img.KeepsRelocations (img.addSection name type flags addralign segment).2 := by
  refine ⟨?_, ?_⟩
  · intro k s hs
    exact ⟨s, Image.section_append_old img _ k s hs, rfl, rfl⟩
  · intro k s1 h0 h1
    by_cases hk : k = img.sections.length
    · subst hk
      have := Image.section_append_new img
        (some { Name := name, type := type, flags := flags, addralign := addralign,
                segment := segment })
      unfold Image.addSection at h1
      rw [this] at h1
      cases h1
      rfl
    · have := Image.section_append_none img
        (some { Name := name, type := type, flags := flags, addralign := addralign,
                segment := segment }) k h0 hk
      unfold Image.addSection at h1
      rw [this] at h1
      cases h1

theorem Image.addSection_keepsData (img : Image) (name : String)
    (type flags addralign : Nat) (segment : Option Nat) :
    img.KeepsData (img.addSection name type flags addralign segment).2 :=
  fun k s hs => ⟨s, Image.section_append_old img _ k s hs, Section.sameContent_refl s⟩

/-- One `addData` with any alignment on an existing section. -/
theorem Image.addData_spec (img : Image) (t : Nat) (bytes : List Nat) (align : Nat)
    (sec : Section) (hsec : img.section t = some sec) :
    (img.addData t bytes align).1 = alignUp sec.data.length align ∧
    (img.addData t bytes align).2.section t =
      some { sec with
        data := sec.data ++ List.replicate (alignUp sec.data.length align - sec.data.length) 0
          ++ bytes } ∧
    (∀ k, k ≠ t → (img.addData t bytes align).2.section k = img.section k) ∧
    (img.addData t bytes align).2.symtab = img.symtab := by
  have hadd : img.addData t bytes align =
      (alignUp sec.data.length align,
        { img with sections := List.set img.sections t (some { sec with
            data := sec.data ++ List.replicate (alignUp sec.data.length align - sec.data.length) 0
              ++ bytes }) }) := by
    simp only [Image.addData, hsec]
  rw [hadd]
  exact ⟨rfl, Image.section_set_eq img t sec _ hsec,
    fun k hk => Image.section_set_ne img t k _ hk, rfl⟩

theorem Image.addData_keepsRelocations (img : Image) (t : Nat) (bytes : List Nat) (align : Nat) :
    img.KeepsRelocations (img.addData t bytes align).2 := by
  cases hsec : img.section t with
  | none =>
    have : img.addData t bytes align = (0, img) := by simp only [Image.addData, hsec]
    rw [this]
    exact Image.keepsRelocations_refl img
  | some sec =>
    obtain ⟨-, a2, a3, -⟩ := Image.addData_spec img t bytes align sec hsec
    refine ⟨?_, ?_⟩
    · intro k s hs
      by_cases hk : k = t
      · subst hk
        rw [hsec] at hs
        cases hs
        exact ⟨_, a2, rfl, rfl⟩
      · exact ⟨s, (a3 k hk).trans hs, rfl, rfl⟩
    · intro k s1 h0 h1
      by_cases hk : k = t
      · subst hk
        rw [hsec] at h0
        cases h0
      · rw [a3 k hk, h0] at h1
        cases h1

theorem Image.addSymbol_section (img : Image) (section_ : Option Nat) (name : String)
    (value size type binding other : Nat) (k : Nat) :
    (img.addSymbol section_ name value size type binding other).2.section k = img.section k :=
  rfl

theorem Image.addSymbol_keepsRelocations (img : Image) (section_ : Option Nat) (name : String)
    (value size type binding other : Nat) :
    img.KeepsRelocations (img.addSymbol section_ name value size type binding other).2 := by
  refine ⟨fun k s h => ⟨s, h, rfl, rfl⟩, ?_⟩
  intro k s1 h0 h1
  rw [Image.addSymbol_section, h0] at h1
  cases h1

/-- One `addRelocation` on an existing relocation section. -/
theorem Image.addRelocation_spec (img : Image) (rel : Nat) (r : Section)
    (type symbol offset addend : Nat) (hrel : img.section rel = some r) :
    ∃ r1,
      (img.addRelocation rel type symbol offset addend).section rel = some r1 ∧
      r1.relocations = r.relocations ++
        [{ type := type, symbol := symbol, offset := offset, addend := addend }] ∧
      r1.relocationSection = r.relocationSection ∧ r1.SameContent r ∧
      (∀ k, k ≠ rel → (img.addRelocation rel type symbol offset addend).section k =
        img.section k) ∧
      (img.addRelocation rel type symbol offset addend).symtab = img.symtab := by
  obtain ⟨r1, hr1⟩ : ∃ r1 : Section, r1 = { r with relocations := r.relocations ++
      [{ type := type, symbol := symbol, offset := offset, addend := addend }] } := ⟨_, rfl⟩
  have h : img.addRelocation rel type symbol offset addend =
      { img with sections := List.set img.sections rel (some r1) } := by
    simp only [Image.addRelocation, hrel, hr1]
  rw [h]
  refine ⟨r1, Image.section_set_eq img rel r r1 hrel, ?_, ?_, ?_,
    fun k hk => Image.section_set_ne img rel k _ hk, rfl⟩
  · rw [hr1]
  · rw [hr1]
  · rw [hr1]
    exact Section.sameContent_refl r

/-- One `relocationSection()` on an existing section whose relocation section,
if it has one, exists. -/
theorem Image.relocationSection_spec (img : Image) (sec : Nat) (s : Section)
    (hsec : img.section sec = some s)
    (hvalid : ∀ rel, s.relocationSection = some rel → (img.section rel).isSome = true) :
    ∃ rel s1 r,
      (img.relocationSection sec).1 = some rel ∧
      (img.relocationSection sec).2.section sec = some s1 ∧
      s1.relocationSection = some rel ∧
      (img.relocationSection sec).2.section rel = some r ∧
      r.relocations = img.relocationsOf sec ∧
      (img.relocationSection sec).2.symtab = img.symtab ∧
      img.KeepsData (img.relocationSection sec).2 ∧
      (s.relocationSection = some rel ∨
        (s.relocationSection = none ∧ rel = img.sections.length)) := by
  cases hr : s.relocationSection with
  | some rel =>
    have h1 : img.relocationSection sec = (some rel, img) := by
      simp only [Image.relocationSection, hsec, hr]
    have hv := hvalid rel hr
    cases hrel : img.section rel with
    | none => rw [hrel] at hv; cases hv
    | some r =>
      rw [h1]
      refine ⟨rel, s, r, rfl, hsec, hr, hrel, ?_, rfl, Image.keepsData_refl img, Or.inl rfl⟩
      simp only [Image.relocationsOf, hsec, Option.bind, hr, hrel]
  | none =>
    have hlt := Image.section_lt img sec s hsec
    obtain ⟨s1, hs1⟩ : ∃ s1 : Section,
        s1 = { s with relocationSection := some img.sections.length } := ⟨_, rfl⟩
    obtain ⟨r0, hr0⟩ : ∃ r0 : Section,
        r0 = { Name := ".rela" ++ s.Name, type := SHT_RELA, flags := 0,
               targetSection := some sec } := ⟨_, rfl⟩
    obtain ⟨imgS, himgS⟩ : ∃ imgS : Image,
        imgS = { img with sections := List.set img.sections sec (some s1) } := ⟨_, rfl⟩
    have h1 : img.relocationSection sec =
        (some img.sections.length, { imgS with sections := imgS.sections ++ [some r0] }) := by
      simp only [Image.relocationSection, hsec, hr, hs1, hr0, himgS]
    have hlen : imgS.sections.length = img.sections.length := by
      rw [himgS]
      exact List.length_set _ _ _
    have hS : imgS.section sec = some s1 := by
      rw [himgS]
      exact Image.section_set_eq img sec s s1 hsec
    have hS1 := Image.section_append_old imgS (some r0) sec s1 hS
    have hL := Image.section_append_new imgS (some r0)
    rw [hlen] at hL
    rw [h1]
    refine ⟨img.sections.length, s1, r0, rfl, hS1, by rw [hs1], hL, ?_, by rw [himgS], ?_,
      Or.inr ⟨rfl, rfl⟩⟩
    · rw [hr0]
      simp only [Image.relocationsOf, hsec, Option.bind, hr]
    · intro k x hx
      by_cases hk : k = sec
      · subst hk
        rw [hsec] at hx
        cases hx
        exact ⟨s1, hS1, by rw [hs1]; exact ⟨rfl, rfl, rfl, rfl⟩⟩
      · have hK : imgS.section k = some x := by
          rw [himgS]
          exact (Image.section_set_ne img sec k _ hk).trans hx
        exact ⟨x, Image.section_append_old imgS (some r0) k x hK, Section.sameContent_refl x⟩

/-- The call chain `relocationSection()->addRelocation(...)` of the substrate of
section 6 on an existing section whose relocation section, if it has one,
exists: one record is appended to the records of that section's relocation
section; the symbol table and the bytes of every section are unchanged. -/
theorem Image.relocate_spec (img : Image) (sec : Nat) (s : Section)
    (type symbol offset addend : Nat) (hsec : img.section sec = some s)
    (hvalid : ∀ rel, s.relocationSection = some rel → (img.section rel).isSome = true) :
    ∃ rel,
      (img.relocationSection sec).1 = some rel ∧
      ((img.relocationSection sec).2.addRelocation rel type symbol offset addend).relocationsOf
          sec =
        img.relocationsOf sec ++
          [{ type := type, symbol := symbol, offset := offset, addend := addend }] ∧
      ((img.relocationSection sec).2.addRelocation rel type symbol offset addend).symtab =
        img.symtab ∧
      img.KeepsData ((img.relocationSection sec).2.addRelocation rel type symbol offset addend) ∧
      (s.relocationSection = some rel ∨
        (s.relocationSection = none ∧ rel = img.sections.length)) := by
  obtain ⟨rel, s1, r, a1, a2, a3, a4, a5, a6, a7, a8⟩ :=
    Image.relocationSection_spec img sec s hsec hvalid
  obtain ⟨r1, b1, b2, b3, b4, b5, b6⟩ :=
    Image.addRelocation_spec (img.relocationSection sec).2 rel r type symbol offset addend a4
  refine ⟨rel, a1, ?_, b6.trans a6, ?_, a8⟩
  · rw [← a5, ← b2]
    by_cases hk : sec = rel
    · subst hk
      rw [a2] at a4
      cases a4
      simp only [Image.relocationsOf, b1, Option.bind, b3, a3]
    · simp only [Image.relocationsOf, b5 sec hk, a2, Option.bind, a3, b1]
  · refine Image.keepsData_trans _ _ _ a7 ?_
    intro k x hx
    by_cases hk : k = rel
    · subst hk
      rw [a4] at hx
      cases hx
      exact ⟨r1, b1, b4⟩
    · exact ⟨x, (b5 k hk).trans hx, Section.sameContent_refl x⟩

/-- The statement `addRelocationAt` over the substrate of section 6, for a symbol
whose entry and section exist. -/
theorem addRelocationAt_spec (E : ElfSubstrate) (img : Image) (sym : Symbol) (e : ElfSymbol)
    (si : Nat) (sec : Section) (rtype symbol destOffset addend : Nat)
    (he : img.symbol sym.elfSym = some e) (hsi : e.section_ = some si)
    (hsec : img.section si = some sec)
    (hvalid : ∀ rel, sec.relocationSection = some rel → (img.section rel).isSome = true) :
    ∃ img1,
      addRelocationAt (specBuilder E) img sym rtype symbol destOffset addend = .ok img1 ∧
      img1.relocationsOf si = img.relocationsOf si ++
        [{ type := rtype, symbol := symbol, offset := (e.value + destOffset) % 2 ^ 64,
           addend := addend }] ∧
      img1.symtab = img.symtab ∧ img.KeepsData img1 := by
  obtain ⟨rel, a1, a2, a3, a4, -⟩ := Image.relocate_spec img si sec rtype symbol
    ((e.value + destOffset) % 2 ^ 64) addend hsec hvalid
  refine ⟨(img.relocationSection si).2.addRelocation rel rtype symbol
    ((e.value + destOffset) % 2 ^ 64) addend, ?_, a2, a3, a4⟩
  have hb1 : (specBuilder E).relocationSection = Image.relocationSection := rfl
  have hb2 : (specBuilder E).addRelocation = Image.addRelocation := rfl
  simp only [addRelocationAt, he, hsi, hb1, hb2, a1]

theorem Image.keepsRelocations_isSome (img img1 : Image) (h : img.KeepsRelocations img1)
    (k : Nat) (hk : (img.section k).isSome = true) : (img1.section k).isSome = true := by
  cases hs : img.section k with
  | none => rw [hs] at hk; cases hk
  | some s =>
    obtain ⟨s1, a1, -⟩ := h.1 k s hs
    rw [a1]
    rfl

theorem Image.symbol_append (img : Image) (i : Nat) (e m : ElfSymbol)
    (he : img.symbol i = some e) :
    Image.symbol { img with symtab := img.symtab ++ [m] } i = some e := by
  unfold Image.symbol at he ⊢
  rw [List.get?_eq_getElem?] at he ⊢
  have hlt := (List.getElem?_eq_some_iff.mp he).1
  rw [List.getElem?_append_left hlt]
  exact he

/-- The three substrate calls of an initializer over the substrate of section
6, once the initializer section `t` exists: the descriptor bytes are appended
to `t` at the next multiple of 8, one metadata symbol with that offset as
value is appended to the symbol table, and one relocation that references it
is appended to the records of the relocation section of the target's section. -/
theorem initializer_spec (E : ElfSubstrate) (img0 : Image) (t : Nat) (st : Section)
    (bytes : List Nat) (s : Symbol) (e : ElfSymbol) (si : Nat) (sec : Section)
    (rtype destOffset : Nat)
    (ht : img0.section t = some st) (he : img0.symbol s.elfSym = some e)
    (hsi : e.section_ = some si) (hsec : img0.section si = some sec)
    (hvalid : ∀ rel, sec.relocationSection = some rel → (img0.section rel).isSome = true) :
    ∃ img3 x,
      addRelocationAt (specBuilder E)
          ((img0.addData t bytes 8).2.addSymbol (some t) "" (img0.addData t bytes 8).1 0
            STT_AMDGPU_HSA_METADATA STB_LOCAL 0).2 s rtype
          ((img0.addData t bytes 8).2.addSymbol (some t) "" (img0.addData t bytes 8).1 0
            STT_AMDGPU_HSA_METADATA STB_LOCAL 0).1 destOffset 0 = .ok img3 ∧
      img3.section t = some x ∧ x.Name = st.Name ∧ x.type = st.type ∧ x.flags = st.flags ∧
      x.data = st.data ++ List.replicate (alignUp st.data.length 8 - st.data.length) 0 ++ bytes ∧
      img3.symtab = img0.symtab ++
        [{ name := "", type := STT_AMDGPU_HSA_METADATA, binding := STB_LOCAL,
           value := alignUp st.data.length 8, size := 0, section_ := some t, other := 0 }] ∧
      img3.relocationsOf si = img0.relocationsOf si ++
        [{ type := rtype, symbol := img0.symtab.length,
           offset := (e.value + destOffset) % 2 ^ 64, addend := 0 }] := by
  obtain ⟨a1, a2, a3, a4⟩ := Image.addData_spec img0 t bytes 8 st ht
  have hkeep : img0.KeepsRelocations
      ((img0.addData t bytes 8).2.addSymbol (some t) "" (img0.addData t bytes 8).1 0
        STT_AMDGPU_HSA_METADATA STB_LOCAL 0).2 :=
    Image.keepsRelocations_trans _ _ _ (Image.addData_keepsRelocations img0 t bytes 8)
      (Image.addSymbol_keepsRelocations _ _ _ _ _ _ _ _)
  obtain ⟨sec1, b1, b2, -⟩ := hkeep.1 si sec hsec
  have hsym : ((img0.addData t bytes 8).2.addSymbol (some t) "" (img0.addData t bytes 8).1 0
      STT_AMDGPU_HSA_METADATA STB_LOCAL 0).2.symtab = img0.symtab ++
        [{ name := "", type := STT_AMDGPU_HSA_METADATA, binding := STB_LOCAL,
           value := alignUp st.data.length 8, size := 0, section_ := some t, other := 0 }] := by
    simp only [Image.addSymbol, a4, a1]
  have hidx : ((img0.addData t bytes 8).2.addSymbol (some t) "" (img0.addData t bytes 8).1 0
      STT_AMDGPU_HSA_METADATA STB_LOCAL 0).1 = img0.symtab.length := by
    simp only [Image.addSymbol, a4]
  have he1 : ((img0.addData t bytes 8).2.addSymbol (some t) "" (img0.addData t bytes 8).1 0
      STT_AMDGPU_HSA_METADATA STB_LOCAL 0).2.symbol s.elfSym = some e := by
    have h0 : (img0.addData t bytes 8).2.symbol s.elfSym = some e := by
      simp only [Image.symbol, a4]
      exact he
    exact Image.symbol_append _ _ _ _ h0
  obtain ⟨img3, c1, c2, c3, c4⟩ := addRelocationAt_spec E _ s e si sec1 rtype
    ((img0.addData t bytes 8).2.addSymbol (some t) "" (img0.addData t bytes 8).1 0
      STT_AMDGPU_HSA_METADATA STB_LOCAL 0).1 destOffset 0 he1 hsi b1
    (fun rel hrel => Image.keepsRelocations_isSome _ _ hkeep rel (hvalid rel (b2 ▸ hrel)))
  have ht1 : ((img0.addData t bytes 8).2.addSymbol (some t) "" (img0.addData t bytes 8).1 0
      STT_AMDGPU_HSA_METADATA STB_LOCAL 0).2.section t = _ := a2
  obtain ⟨x, d1, d2, d3, d4, d5⟩ := c4 t _ ht1
  refine ⟨img3, x, c1, d1, d2, d3, d4, d5, c3.trans hsym, ?_⟩
  rw [c2, Image.relocationsOf_of_keeps img0 _ si hkeep (by rw [hsec]; rfl), hidx]

theorem Image.section_length_none (img : Image) : img.section img.sections.length = none := by
  simp [Image.section]

theorem Image.bytesOf_new (img : Image) : img.bytesOf img.sections.length = [] := by
  simp [Image.bytesOf, Image.dataOf, Image.section_length_none]

theorem Image.bytesOf_some (img : Image) (t : Nat) (st : Section) (h : img.section t = some st) :
    img.bytesOf t = st.data := by
  simp [Image.bytesOf, Image.dataOf, h]

/-- The image-level effect of an initializer over the substrate of section 6:
the initializer section is created by `addSection` when none is cached, then
the three calls of `initializer_spec` follow. -/
theorem initializer_added (E : ElfSubstrate) (img : Image) (cached : Option Nat)
    (name : String) (entsize : Nat) (bytes : List Nat) (s : Symbol) (e : ElfSymbol) (si : Nat)
    (sec : Section) (rtype destOffset : Nat)
    (he : img.symbol s.elfSym = some e) (hsi : e.section_ = some si)
    (hsec : img.section si = some sec)
    (hvalid : ∀ rel, sec.relocationSection = some rel → (img.section rel).isSome = true)
    (hinit : ∀ t, cached = some t → (img.section t).isSome = true) :
    ∃ img0 t img3,
      (match cached with
        | some t0 => img0 = img ∧ t = t0
        | none => img0 = (img.addSection name SHT_PROGBITS SHF_MERGE entsize none).2 ∧
            t = img.sections.length) ∧
      addRelocationAt (specBuilder E)
          ((img0.addData t bytes 8).2.addSymbol (some t) "" (img0.addData t bytes 8).1 0
            STT_AMDGPU_HSA_METADATA STB_LOCAL 0).2 s rtype
          ((img0.addData t bytes 8).2.addSymbol (some t) "" (img0.addData t bytes 8).1 0
            STT_AMDGPU_HSA_METADATA STB_LOCAL 0).1 destOffset 0 = .ok img3 ∧
      InitializerAdded img img3 cached t name bytes rtype si
        ((e.value + destOffset) % 2 ^ 64) := by
  cases cached with
  | some t =>
    have hv := hinit t rfl
    cases ht : img.section t with
    | none => rw [ht] at hv; cases hv
    | some st =>
      obtain ⟨img3, x, a1, a2, -, -, -, a6, a7, a8⟩ := initializer_spec E img t st bytes s e si
        sec rtype destOffset ht he hsi hsec hvalid
      refine ⟨img, t, img3, ⟨rfl, rfl⟩, a1, rfl, ⟨x, a2, ?_, ?_⟩, ?_, a8⟩
      · rw [Image.bytesOf_some img t st ht]
        exact a6
      · intro h
        cases h
      · rw [Image.bytesOf_some img t st ht]
        exact a7
  | none =>
    obtain ⟨st, hst⟩ : ∃ st : Section,
        st = { Name := name, type := SHT_PROGBITS, flags := SHF_MERGE, addralign := entsize,
               segment := none } := ⟨_, rfl⟩
    have hnew : (img.addSection name SHT_PROGBITS SHF_MERGE entsize none).2.section
        img.sections.length = some st := by
      rw [hst]
      exact Image.section_append_new img _
    have hkeep := Image.addSection_keepsRelocations img name SHT_PROGBITS SHF_MERGE entsize none
    have hsec0 := Image.section_append_old img (some st) si sec hsec
    rw [hst] at hsec0
    obtain ⟨img3, x, a1, a2, a3, a4, a5, a6, a7, a8⟩ := initializer_spec E
      (img.addSection name SHT_PROGBITS SHF_MERGE entsize none).2 img.sections.length st bytes
      s e si sec rtype destOffset hnew he hsi hsec0
      (fun rel hrel => Image.keepsRelocations_isSome _ _ hkeep rel (hvalid rel hrel))
    refine ⟨_, _, img3, ⟨rfl, rfl⟩, a1, rfl, ⟨x, a2, ?_, ?_⟩, ?_, ?_⟩
    · rw [Image.bytesOf_new]
      rw [a6, hst]
    · intro _
      rw [a3, a4, a5, hst]
      exact ⟨rfl, rfl, rfl⟩
    · rw [Image.bytesOf_new]
      rw [a7, hst]
      rfl
    · rw [a8, Image.relocationsOf_of_keeps img _ si hkeep (by rw [hsec]; rfl)]
      rfl

/-- One `AddImageInitializer` call over the substrate of section 6. -/
theorem AddImageInitializer_spec (E : ElfSubstrate) (c : AmdHsaCode) (img : Image)
    (image destOffset : Nat) (desc : Mem) (s : Symbol) (e : ElfSymbol) (si : Nat) (sec : Section)
    (himg : c.img = some img) (hsym : c.symbols.get? image = some s)
    (he : img.symbol s.elfSym = some e) (hsi : e.section_ = some si)
    (hsec : img.section si = some sec)
    (hvalid : ∀ rel, sec.relocationSection = some rel → (img.section rel).isSome = true)
    (hinit : ∀ t, c.imageInit = some t → (img.section t).isSome = true) :
    ∃ c1 img1 t,
      AmdHsaCode.AddImageInitializer (specBuilder E) c (some image) destOffset desc = .ok c1 ∧
      c1.img = some img1 ∧ c1.imageInit = some t ∧
      InitializerAdded img img1 c.imageInit t ".hsaimage_imageinit"
        (readBytes desc sizeof_image_descriptor_t) R_AMDGPU_INIT_IMAGE si
        ((e.value + destOffset) % 2 ^ 64) ∧
      c1.symbols = c.symbols ∧ c1.dataSections = c.dataSections ∧
      c1.relocationSections = c.relocationSections ∧ c1.samplerInit = c.samplerInit := by
  have hs : c.symbols[image]? = some s := by
    rw [← List.get?_eq_getElem?]; exact hsym
  obtain ⟨img0, t, img3, h1, h2, h3⟩ := initializer_added E img c.imageInit
    ".hsaimage_imageinit" sizeof_image_descriptor_t
    (readBytes desc sizeof_image_descriptor_t) s e si sec
    R_AMDGPU_INIT_IMAGE destOffset he hsi hsec hvalid hinit
  have hb1 : (specBuilder E).addSection = Image.addSection := rfl
  have hb2 : (specBuilder E).addData = Image.addData := rfl
  have hb3 : (specBuilder E).addSymbol = Image.addSymbol := rfl
  cases hc : c.imageInit with
  | some t0 =>
    rw [hc] at h1
    simp only at h1
    obtain ⟨e1, e2⟩ := h1
    subst e1
    subst e2
    refine ⟨{ c with img := some img3 }, img3, t, ?_, rfl, hc, hc ▸ h3, rfl, rfl, rfl, rfl⟩
    simp only [AmdHsaCode.AddImageInitializer, AmdHsaCode.ImageInitSection, hc, himg,
      Option.isNone_some, Bool.false_eq_true, if_false, hb2, hb3, Option.bind,
      List.get?_eq_getElem?, hs, h2]
  | none =>
    rw [hc] at h1
    simp only at h1
    obtain ⟨e1, e2⟩ := h1
    subst e1
    subst e2
    refine ⟨{ c with img := some img3, imageInit := some img.sections.length }, img3,
      img.sections.length, ?_, rfl, rfl, hc ▸ h3, rfl, rfl, rfl, rfl⟩
    have ha : (img.addSection ".hsaimage_imageinit" SHT_PROGBITS SHF_MERGE
        sizeof_image_descriptor_t none).1 = some img.sections.length := rfl
    simp only [AmdHsaCode.AddImageInitializer, AmdHsaCode.ImageInitSection, hc, himg,
      Option.isNone_none, Option.isNone_some, Bool.false_eq_true, if_true, if_false, hb1, hb2,
      hb3, ha, Option.bind, List.get?_eq_getElem?, hs, h2]

/-- One `AddSamplerInitializer` call over the substrate of section 6. -/
theorem AddSamplerInitializer_spec (E : ElfSubstrate) (c : AmdHsaCode) (img : Image)
    (sampler destOffset : Nat) (desc : Mem) (s : Symbol) (e : ElfSymbol) (si : Nat) (sec : Section)
    (himg : c.img = some img) (hsym : c.symbols.get? sampler = some s)
    (he : img.symbol s.elfSym = some e) (hsi : e.section_ = some si)
    (hsec : img.section si = some sec)
    (hvalid : ∀ rel, sec.relocationSection = some rel → (img.section rel).isSome = true)
    (hinit : ∀ t, c.samplerInit = some t → (img.section t).isSome = true) :
    ∃ c1 img1 t,
      AmdHsaCode.AddSamplerInitializer (specBuilder E) c (some sampler) destOffset desc = .ok c1 ∧
      c1.img = some img1 ∧ c1.samplerInit = some t ∧
      InitializerAdded img img1 c.samplerInit t ".hsaimage_samplerinit"
        (readBytes desc sizeof_sampler_descriptor_t) R_AMDGPU_INIT_SAMPLER si
        ((e.value + destOffset) % 2 ^ 64) ∧
      c1.symbols = c.symbols ∧ c1.dataSections = c.dataSections ∧
      c1.relocationSections = c.relocationSections ∧ c1.imageInit = c.imageInit := by
  have hs : c.symbols[sampler]? = some s := by
    rw [← List.get?_eq_getElem?]; exact hsym
  obtain ⟨img0, t, img3, h1, h2, h3⟩ := initializer_added E img c.samplerInit
    ".hsaimage_samplerinit" sizeof_sampler_descriptor_t
    (readBytes desc sizeof_sampler_descriptor_t) s e si sec
    R_AMDGPU_INIT_SAMPLER destOffset he hsi hsec hvalid hinit
  have hb1 : (specBuilder E).addSection = Image.addSection := rfl
  have hb2 : (specBuilder E).addData = Image.addData := rfl
  have hb3 : (specBuilder E).addSymbol = Image.addSymbol := rfl
  cases hc : c.samplerInit with
  | some t0 =>
    rw [hc] at h1
    simp only at h1
    obtain ⟨e1, e2⟩ := h1
    subst e1
    subst e2
    refine ⟨{ c with img := some img3 }, img3, t, ?_, rfl, hc, hc ▸ h3, rfl, rfl, rfl, rfl⟩
    simp only [AmdHsaCode.AddSamplerInitializer, AmdHsaCode.SamplerInitSection, hc, himg,
      Option.isNone_some, Bool.false_eq_true, if_false, hb2, hb3, Option.bind,
      List.get?_eq_getElem?, hs, h2]
  | none =>
    rw [hc] at h1
    simp only at h1
    obtain ⟨e1, e2⟩ := h1
    subst e1
    subst e2
    refine ⟨{ c with img := some img3, samplerInit := some img.sections.length }, img3,
      img.sections.length, ?_, rfl, rfl, hc ▸ h3, rfl, rfl, rfl, rfl⟩
    have ha : (img.addSection ".hsaimage_samplerinit" SHT_PROGBITS SHF_MERGE
        sizeof_sampler_descriptor_t none).1 = some img.sections.length := rfl
    simp only [AmdHsaCode.AddSamplerInitializer, AmdHsaCode.SamplerInitSection, hc, himg,
      Option.isNone_none, Option.isNone_some, Bool.false_eq_true, if_true, if_false, hb1, hb2,
      hb3, ha, Option.bind, List.get?_eq_getElem?, hs, h2]

/-! ## Lemmas for the revised statements -/

/-- The result of the V2 switch body on a kernel-type entry that passes: the
symbol built from the record read at the value minus the section address. -/
theorem pullSymbolV2_passes (img : Image) (i : Nat) (e : ElfSymbol)
    (hk : e.type = STT_AMDGPU_HSA_KERNEL) (h : (pullSymbolV2 img i e).isFail = false) :
    ∃ sec r, img.sectionOf e = some sec ∧ sec.getData (sub64 e.value sec.addr) = some r ∧
      pullSymbolV2 img i e = .sym (.kernel (KernelSymbol.construct i (some r)) true) := by
  unfold pullSymbolV2 at h ⊢
  simp only [hk, if_true] at h ⊢
  cases hs : img.sectionOf e with
  | none => simp [hs, Pulled.isFail] at h
  | some sec =>
    simp only [hs] at h ⊢
    by_cases hf : sec.flags &&& (SHF_ALLOC ||| SHF_EXECINSTR) = 0
    · simp [hf, Pulled.isFail] at h
    · simp only [hf, if_false] at h ⊢
      cases hd : sec.getData (sub64 e.value sec.addr) with
      | none => simp [hd, Pulled.isFail] at h
      | some akc => exact ⟨sec, akc, rfl, hd, rfl⟩

/-- The result of the V1 switch body on a kernel-type entry that passes: the
symbol built from the record read at the value. -/
theorem pullSymbolV1_passes (img : Image) (i : Nat) (e : ElfSymbol)
    (hk : e.type = STT_AMDGPU_HSA_KERNEL) (h : (pullSymbolV1 img i e).isFail = false) :
    ∃ sec r, img.sectionOf e = some sec ∧ sec.getData e.value = some r ∧
      pullSymbolV1 img i e = .sym (.kernel (KernelSymbol.construct i (some r)) false) := by
  unfold pullSymbolV1 at h ⊢
  simp only [hk, if_true] at h ⊢
  cases hs : img.sectionOf e with
  | none => simp [hs, Pulled.isFail] at h
  | some sec =>
    simp only [hs] at h ⊢
    by_cases hf : sec.flags &&& (SHF_AMDGPU_HSA_AGENT ||| SHF_AMDGPU_HSA_CODE ||| SHF_EXECINSTR) = 0
    · simp [hf, Pulled.isFail] at h
    · simp only [hf, if_false] at h ⊢
      cases hd : sec.getData e.value with
      | none => simp [hd, Pulled.isFail] at h
      | some akc => exact ⟨sec, akc, rfl, hd, rfl⟩

theorem sub64_of_le (a b : Nat) (ha : a < 2 ^ 64) (hle : b ≤ a) : sub64 a b = a - b := by
  unfold sub64
  have hb : b < 2 ^ 64 := Nat.lt_of_le_of_lt hle ha
  rw [Nat.mod_eq_of_lt ha, Nat.mod_eq_of_lt hb]
  have h1 : a + 2 ^ 64 - b = (a - b) + 2 ^ 64 := by omega
  rw [h1, Nat.add_mod_right]
  exact Nat.mod_eq_of_lt (by omega)

/-- For an entry whose section, if it is of kernel type, has address 0, the two
switch bodies that pass yield the same symbol up to its class. -/
theorem pullSymbol_same_at_zero (img : Image) (i : Nat) (e : ElfSymbol)
    (h0 : e.type = STT_AMDGPU_HSA_KERNEL →
      e.value < 2 ^ 64 ∧ ∀ sec, img.sectionOf e = some sec → sec.addr = 0)
    (h1 : (pullSymbolV1 img i e).isFail = false) (h2 : (pullSymbolV2 img i e).isFail = false) :
    (pullSymbolV2 img i e).sym?.map (Symbol.asDialect false) =
      (pullSymbolV1 img i e).sym?.map (Symbol.asDialect false) := by
  by_cases hk : e.type = STT_AMDGPU_HSA_KERNEL
  · obtain ⟨sec1, r1, a1, a2, a3⟩ := pullSymbolV1_passes img i e hk h1
    obtain ⟨sec2, r2, b1, b2, b3⟩ := pullSymbolV2_passes img i e hk h2
    rw [a1] at b1
    cases b1
    obtain ⟨hv, haddr⟩ := h0 hk
    have hz := haddr sec1 a1
    rw [sub64_of_le _ _ hv (by omega), hz, Nat.sub_zero, a2] at b2
    cases b2
    rw [a3, b3]
    rfl
  · unfold pullSymbolV1 pullSymbolV2
    simp only [hk, if_false]
    by_cases ho : e.type = STT_OBJECT ∨ e.type = STT_COMMON
    · simp only [ho, if_true]
      rfl
    · simp only [ho, if_false]

theorem mem_enum_of_symbol (img : Image) (i : Nat) (e : ElfSymbol)
    (h : img.symbol i = some e) : (i, e) ∈ img.symtab.enum := by
  unfold Image.symbol at h
  rw [List.get?_eq_getElem?] at h
  exact List.mk_mem_enum_iff_getElem?.mpr h

/-- A symbol loop that fails stops at the first rejected entry, with the
symbols of the entries before it appended. -/
theorem pullSymbols_partial (body : Nat → ElfSymbol → Pulled) (R : ElfSymbol → Prop)
    (symtab : List ElfSymbol) (c0 : AmdHsaCode)
    (hR : ∀ i e, (body i e).isFail = true ↔ R e)
    (hvar : ∀ p : Nat × ElfSymbol, (body p.1 p.2).isFail = false →
      (body p.1 p.2).sym?.map (fun s => (s.elfSym, s.IsKernelSymbol)) =
        (variantOfType p.2.type).map (fun k => (p.1, k)))
    (hfail : (pullSymbols body symtab.enum c0).1 = false) :
    ∃ n e, symtab.get? n = some e ∧ R e ∧
      (∀ k x, k < n → symtab.get? k = some x → ¬ R x) ∧
      (pullSymbols body symtab.enum c0).2.symbols.map (fun s => (s.elfSym, s.IsKernelSymbol)) =
        c0.symbols.map (fun s => (s.elfSym, s.IsKernelSymbol)) ++
          (symtab.enum.take n).filterMap
            (fun p => (variantOfType p.2.type).map (fun k => (p.1, k))) := by
  rcases pullSymbols_cases body symtab.enum c0 with ⟨-, heq⟩ | ⟨pre, p, post, hl, hpre, hp, heq⟩
  · rw [heq] at hfail
    cases hfail
  · have htake : symtab.enum.take pre.length = pre := by
      rw [hl]
      exact List.take_left' rfl
    have hat : symtab.enum[pre.length]? = some p := by
      rw [hl, List.getElem?_append_right (Nat.le_refl _)]
      simp
    rw [List.getElem?_enum] at hat
    cases hsn : symtab[pre.length]? with
    | none => rw [hsn] at hat; cases hat
    | some e =>
      rw [hsn] at hat
      simp only [Option.map_some', Option.some.injEq] at hat
      refine ⟨pre.length, e, by rw [List.get?_eq_getElem?]; exact hsn, ?_, ?_, ?_⟩
      · have := (hR p.1 p.2).mp hp
        rw [← hat] at this
        exact this
      · intro k x hk hx hrx
        rw [List.get?_eq_getElem?] at hx
        have hmem : (k, x) ∈ pre := by
          have h1 : symtab.enum[k]? = some (k, x) := by
            rw [List.getElem?_enum, hx]
            rfl
          rw [hl, List.getElem?_append_left hk] at h1
          exact List.mem_iff_getElem?.mpr ⟨k, h1⟩
        have := (hR k x).mpr hrx
        rw [hpre (k, x) hmem] at this
        cases this
      · rw [heq, htake]
        simp only [List.map_append]
        rw [symbols_of_success body pre hpre hvar]

/-- The shared tail of the entry points, when the load succeeded, the version
note is present and the call still fails: the failure comes from a kernel
symbol and leaves what `PartialIngestion` describes. -/
theorem attachAndPull_partial (c : AmdHsaCode) (r : Bool × Image) (major minor : Nat)
    (hr : r.1 = true) (hv : AmdHsaCode.GetNoteCodeObjectVersion r.2 = some (major, minor))
    (hfail : (AmdHsaCode.attachAndPull c r).1 = false) :
    PartialIngestion c r.2 major (AmdHsaCode.attachAndPull c r).2 := by
  obtain ⟨ok, img⟩ := r
  simp only at hr hv
  subst hr
  unfold AmdHsaCode.attachAndPull at hfail ⊢
  simp only [Bool.not_true, Bool.false_eq_true, if_false] at hfail ⊢
  have hpf : (AmdHsaCode.PullElf img { c with img := some img }).1 = false := by
    cases hp : (AmdHsaCode.PullElf img { c with img := some img }).1 with
    | false => rfl
    | true =>
      rw [hp] at hfail
      simp at hfail
  rw [hpf]
  simp only [Bool.not_false, if_true, AmdHsaCode.ElfImageError]
  unfold PartialIngestion dialectLoadType dialectDataSection dialectTextName KernelRejected
  unfold AmdHsaCode.PullElf at hpf ⊢
  rw [hv] at hpf ⊢
  simp only at hpf ⊢
  by_cases hm : major ≥ 2
  · simp only [hm, if_true] at hpf ⊢
    unfold AmdHsaCode.PullElfV2 at hpf ⊢
    simp only at hpf ⊢
    obtain ⟨h1, h2, h3, h4⟩ := pull_registries isLoadTypeV2 isDataSectionV2 ".text"
      (pullSymbolV2 img) img { c with img := some img }
    obtain ⟨n, e, a1, a2, a3, a4⟩ := pullSymbols_partial (pullSymbolV2 img)
      (KernelRejectedV2 img) img.symtab _ (pullSymbolV2_isFail img)
      (fun p hp => pullSymbolV2_variant img p.1 p.2 hp) hpf
    rw [(loops_out_symbols isLoadTypeV2 isDataSectionV2 ".text" img
      { c with img := some img }).2] at a4
    exact ⟨h1, h2, h3, h4, n, e, a1, a2, a3, a4⟩
  · simp only [hm, if_false] at hpf ⊢
    unfold AmdHsaCode.PullElfV1 at hpf ⊢
    simp only at hpf ⊢
    obtain ⟨h1, h2, h3, h4⟩ := pull_registries isLoadTypeV1 isDataSectionV1 ".hsatext"
      (pullSymbolV1 img) img { c with img := some img }
    obtain ⟨n, e, a1, a2, a3, a4⟩ := pullSymbols_partial (pullSymbolV1 img)
      (KernelRejectedV1 img) img.symtab _ (pullSymbolV1_isFail img)
      (fun p hp => pullSymbolV1_variant img p.1 p.2 hp) hpf
    rw [(loops_out_symbols isLoadTypeV1 isDataSectionV1 ".hsatext" img
      { c with img := some img }).2] at a4
    exact ⟨h1, h2, h3, h4, n, e, a1, a2, a3, a4⟩

theorem alignUp_ge_of_pos (n a : Nat) (h : 0 < a) : n ≤ alignUp n a := by
  unfold alignUp
  have h1 := Nat.div_add_mod (n + a - 1) a
  have h2 := Nat.mod_lt (n + a - 1) h
  rw [Nat.mul_comm] at h1
  generalize (n + a - 1) / a * a = m at h1 ⊢
  omega

/-- The substrate of section 6 as modelled in `specBuilder` meets `AppendsAligned`. -/
theorem specBuilder_appendsAligned (E : ElfSubstrate) : AppendsAligned (specBuilder E) := by
  refine ⟨?_, ?_, ?_, ?_⟩
  · intro img t bytes align sec ha hsec
    obtain ⟨a1, a2, -, a4⟩ := Image.addData_spec img t bytes align sec hsec
    have hge := alignUp_ge_of_pos sec.data.length align ha
    refine ⟨a1, a4, _, a2, ?_, ?_⟩
    · simp only [List.length_append, List.length_replicate]
      omega
    · have := alignUp_ge_of_pos (alignUp sec.data.length align + bytes.length) align ha
      simp only [List.length_append, List.length_replicate]
      omega
  · intro img t align sec _ hsec
    show Image.nextDataOffset img t align = _
    simp only [Image.nextDataOffset, hsec]
  · intro img i value e he
    obtain ⟨a1, a2, a3, -⟩ := Image.symbol_setValue img i value e he
    exact ⟨a1, a2, a3⟩
  · intro img i size e he
    obtain ⟨a1, a2, a3, -⟩ := Image.symbol_setSize img i size e he
    exact ⟨a1, a2, a3⟩

/-- The substrate that pads behind the bytes meets `AppendsAligned` as well. -/
theorem paddingBuilder_appendsAligned (E : ElfSubstrate) : AppendsAligned (paddingBuilder E) := by
  refine ⟨?_, ?_, ?_, ?_⟩
  · intro img t bytes align sec ha hsec
    obtain ⟨s1, hs1⟩ : ∃ s1 : Section,
        s1 = { sec with data := sec.data ++
          List.replicate (alignUp sec.data.length align - sec.data.length) 0 ++ bytes ++
          List.replicate (alignUp (alignUp sec.data.length align + bytes.length) align -
            (alignUp sec.data.length align + bytes.length)) 0 } := ⟨_, rfl⟩
    have hadd : (paddingBuilder E).addData img t bytes align =
        (alignUp sec.data.length align,
          { img with sections := List.set img.sections t (some s1) }) := by
      show Image.addDataPadded img t bytes align = _
      simp only [Image.addDataPadded, hsec, hs1]
    have hge := alignUp_ge_of_pos sec.data.length align ha
    have hge2 := alignUp_ge_of_pos (alignUp sec.data.length align + bytes.length) align ha
    rw [hadd]
    refine ⟨rfl, rfl, s1, Image.section_set_eq img t sec s1 hsec, ?_, ?_⟩
    · rw [hs1]
      simp only [List.length_append, List.length_replicate]
      omega
    · rw [hs1]
      simp only [List.length_append, List.length_replicate]
      omega
  · intro img t align sec _ hsec
    show Image.nextDataOffset img t align = _
    simp only [Image.nextDataOffset, hsec]
  · intro img i value e he
    obtain ⟨a1, a2, a3, -⟩ := Image.symbol_setValue img i value e he
    exact ⟨a1, a2, a3⟩
  · intro img i size e he
    obtain ⟨a1, a2, a3, -⟩ := Image.symbol_setSize img i size e he
    exact ⟨a1, a2, a3⟩

/-- The substrate `paddingBuilder` pads behind an append. -/
theorem paddingBuilder_padsBehind (E : ElfSubstrate) : PadsBehind (paddingBuilder E) := by
  intro img t bytes align sec sec1 _ hsec h1
  obtain ⟨s1, hs1⟩ : ∃ s1 : Section,
      s1 = { sec with data := sec.data ++
        List.replicate (alignUp sec.data.length align - sec.data.length) 0 ++ bytes ++
        List.replicate (alignUp (alignUp sec.data.length align + bytes.length) align -
          (alignUp sec.data.length align + bytes.length)) 0 } := ⟨_, rfl⟩
  have hadd : (paddingBuilder E).addData img t bytes align =
      (alignUp sec.data.length align,
        { img with sections := List.set img.sections t (some s1) }) := by
    show Image.addDataPadded img t bytes align = _
    simp only [Image.addDataPadded, hsec, hs1]
  rw [hadd, Image.section_set_eq img t sec s1 hsec] at h1
  cases h1
  have hge := alignUp_ge_of_pos sec.data.length align (by assumption)
  have hge2 := alignUp_ge_of_pos (alignUp sec.data.length align + bytes.length) align
    (by assumption)
  rw [hs1]
  simp only [List.length_append, List.length_replicate]
  omega

theorem Image.section_of_sections (img img1 : Image) (h : img1.sections = img.sections)
    (k : Nat) : img1.section k = img.section k := by
  unfold Image.section
  rw [h]

theorem Image.symbol_of_symtab (img img1 : Image) (h : img1.symtab = img.symtab)
    (k : Nat) : img1.symbol k = img.symbol k := by
  unfold Image.symbol
  rw [h]

/-- One `AddKernelCode` call over a substrate that meets `AppendsAligned`. -/
theorem AddKernelCode_aligned (asserts : Bool) (B : ElfBuilder) (hB : AppendsAligned B)
    (c : AmdHsaCode) (img : Image) (t : Nat) (sec : Section) (sym : Nat) (s : Symbol)
    (e : ElfSymbol) (code : Mem) (size : Nat)
    (himg : c.img = some img) (htext : c.hsatext = some t) (hsec : img.section t = some sec)
    (hsym : c.symbols.get? sym = some s) (he : img.symbol s.elfSym = some e) :
    ∃ img1 sec1,
      AmdHsaCode.AddKernelCode asserts B c (some sym) code size =
        .ok (true, { c with img := some img1 }) ∧
      img1.section t = some sec1 ∧
      alignUp sec.data.length 256 + size ≤ sec1.data.length ∧
      sec1.data.length ≤ alignUp (alignUp sec.data.length 256 + size) 256 ∧
      img1.symbol s.elfSym =
        some { e with value := alignUp sec.data.length 256, size := size } ∧
      (∀ j, j ≠ s.elfSym → img1.symbol j = img.symbol j) ∧
      (PadsBehind B →
        sec1.data.length = alignUp (alignUp sec.data.length 256 + size) 256) := by
  obtain ⟨hadd, -, hval, hsize⟩ := hB
  obtain ⟨a1, a2, sec1, a3, a4, a5⟩ := hadd img t (readBytes code size) 256 sec (by decide) hsec
  rw [readBytes_length] at a4 a5
  have he1 : (B.addData img t (readBytes code size) 256).2.symbol s.elfSym = some e :=
    (Image.symbol_of_symtab _ _ a2 _).trans he
  obtain ⟨v1, v2, v3⟩ := hval _ s.elfSym (B.addData img t (readBytes code size) 256).1 e he1
  obtain ⟨z1, z2, z3⟩ := hsize _ s.elfSym size _ v1
  have hs1 : c.symbols[sym]? = some s := by
    rw [← List.get?_eq_getElem?]; exact hsym
  refine ⟨B.setSize (B.setValue (B.addData img t (readBytes code size) 256).2 s.elfSym
    (B.addData img t (readBytes code size) 256).1) s.elfSym size, sec1, ?_, ?_, a4, a5, ?_, ?_,
    ?_⟩
  · simp [AmdHsaCode.AddKernelCode, cAssert, AmdHsaCode.HsaText, htext, himg, hs1, bind,
      Except.bind, pure, Except.pure]
  · rw [Image.section_of_sections _ _ z3, Image.section_of_sections _ _ v3]
    exact a3
  · rw [z1, a1]
  · intro j hj
    rw [z2 j hj, v2 j hj]
    exact Image.symbol_of_symtab _ _ a2 j
  · intro hp
    have := hp img t (readBytes code size) 256 sec sec1 (by decide) hsec a3
    rwa [readBytes_length] at this

/-- A run of `AddKernelCode` calls over a substrate that meets `AppendsAligned`:
every call succeeds, the offsets are the running sums, the next offset is the
first one plus the sum of the rounded byte counts, and the section ends at or
behind the bytes of the last call. -/
theorem addKernelCodes_aligned (asserts : Bool) (B : ElfBuilder) (hB : AppendsAligned B)
    (t : Nat) (calls : List (Nat × Mem × Nat)) (c : AmdHsaCode) (img : Image) (sec : Section)
    (himg : c.img = some img) (htext : c.hsatext = some t) (hsec : img.section t = some sec)
    (hsyms : ∀ call ∈ calls, ∃ s, c.symbols.get? call.1 = some s ∧
      (img.symbol s.elfSym).isSome = true) :
    ∃ c1 img1 sec1,
      addKernelCodes asserts B c calls =
        .ok ((roundedSums (alignUp sec.data.length 256)
          (calls.map (fun call => call.2.2))).map some, c1) ∧
      c1.img = some img1 ∧ c1.hsatext = some t ∧ img1.section t = some sec1 ∧
      c1.symbols = c.symbols ∧
      alignUp sec1.data.length 256 =
        alignUp sec.data.length 256 +
          ((calls.map (fun call => call.2.2)).map (fun s => alignUp s 256)).sum ∧
      (∀ init last, calls.map (fun call => call.2.2) = init ++ [last] →
        alignUp sec.data.length 256 + (init.map (fun s => alignUp s 256)).sum + last ≤
          sec1.data.length) ∧
      (PadsBehind B → (calls = [] → 256 ∣ sec.data.length) → 256 ∣ sec1.data.length) := by
  induction calls generalizing c img sec with
  | nil =>
    refine ⟨c, img, sec, rfl, himg, htext, hsec, rfl, by simp, ?_, fun _ h => h rfl⟩
    intro init last h
    cases init <;> simp at h
  | cons call rest ih =>
    obtain ⟨s, hs, hres⟩ := hsyms call (List.mem_cons_self _ _)
    obtain ⟨e, he⟩ := Option.isSome_iff_exists.mp hres
    obtain ⟨img1, sec1, h1, h2, h3, h4, h5, h6, h7⟩ :=
      AddKernelCode_aligned asserts B hB c img t sec call.1 s e call.2.1 call.2.2 himg htext
        hsec hs he
    have hnext : alignUp sec1.data.length 256 =
        alignUp sec.data.length 256 + alignUp call.2.2 256 := by
      have hd := alignUp_dvd sec.data.length
      have ha := alignUp_add (alignUp sec.data.length 256) call.2.2 hd
      rw [ha] at h4
      have hge := alignUp_ge sec1.data.length
      unfold alignUp at h3 h4 hd ha hge ⊢
      omega
    have hsyms1 : ∀ call1 ∈ rest, ∃ s1,
        ({ c with img := some img1 } : AmdHsaCode).symbols.get? call1.1 = some s1 ∧
        (img1.symbol s1.elfSym).isSome = true := by
      intro call1 hc1
      obtain ⟨s1, hs1, hr1⟩ := hsyms call1 (List.mem_cons_of_mem _ hc1)
      refine ⟨s1, hs1, ?_⟩
      by_cases hj : s1.elfSym = s.elfSym
      · rw [hj, h5]; rfl
      · rw [h6 _ hj]; exact hr1
    obtain ⟨c2, img2, sec2, r1, r2, r3, r4, r5, r6, r7, r8⟩ :=
      ih { c with img := some img1 } img1 sec1 rfl htext h2 hsyms1
    refine ⟨c2, img2, sec2, ?_, r2, r3, r4, r5, ?_, ?_,
      fun hp _ => r8 hp (fun _ => by rw [h7 hp]; exact alignUp_dvd _)⟩
    · have hval : ({ c with img := some img1 } : AmdHsaCode).valueOf call.1 =
          some (alignUp sec.data.length 256) := by
        have hs1 : c.symbols[call.1]? = some s := by
          rw [← List.get?_eq_getElem?]; exact hs
        simp [AmdHsaCode.valueOf, hs1, h5]
      simp only [addKernelCodes, h1, r1, hval, List.map_cons, roundedSums]
      rw [hnext]
    · rw [r6, hnext]
      simp only [List.map_cons, List.sum_cons]
      omega
    · intro init last hsz
      cases init with
      | nil =>
        simp only [List.map_cons, List.nil_append, List.cons.injEq] at hsz
        obtain ⟨hl, hrest⟩ := hsz
        have hnil : rest = [] := by
          cases rest with
          | nil => rfl
          | cons a b => simp at hrest
        subst hnil
        simp only [addKernelCodes, Except.ok.injEq, Prod.mk.injEq] at r1
        have hc2 : c2 = { c with img := some img1 } := r1.2.symm
        rw [hc2] at r2
        simp only [Option.some.injEq] at r2
        rw [← r2, h2] at r4
        simp only [Option.some.injEq] at r4
        rw [← r4, ← hl]
        simp only [List.map_nil, List.sum_nil, Nat.add_zero]
        exact h3
      | cons a init1 =>
        simp only [List.map_cons, List.cons_append, List.cons.injEq] at hsz
        obtain ⟨hl, hrest⟩ := hsz
        have := r7 init1 last hrest
        rw [hnext] at this
        simp only [List.map_cons, List.sum_cons, ← hl]
        omega

/-! ## C1: version dispatch -/

/-- C1. `PullElf` dispatches on the object-version note only. When the image
has no version note (no note of vendor "AMD" with the version tag, so that the
note accessor fails), `PullElf` returns failure and no classification has run:
the symbol list, the three section and segment lists and the cached code
section are what they were. When the accessor yields (major, minor), the result
and effect of `PullElf` are those of `PullElfV2` if major >= 2 and those of
`PullElfV1` if major < 2. -/
theorem C1_PullElf_dispatch (img : Image) (c : AmdHsaCode) :
    ((∀ n ∈ img.notes, ¬ (n.name = "AMD" ∧ n.type = NT_AMDGPU_HSA_CODE_OBJECT_VERSION)) →
      AmdHsaCode.GetNoteCodeObjectVersion img = none) ∧
    (AmdHsaCode.GetNoteCodeObjectVersion img = none →
      (AmdHsaCode.PullElf img c).1 = false ∧
      (AmdHsaCode.PullElf img c).2.symbols = c.symbols ∧
      (AmdHsaCode.PullElf img c).2.dataSegments = c.dataSegments ∧
      (AmdHsaCode.PullElf img c).2.dataSections = c.dataSections ∧
      (AmdHsaCode.PullElf img c).2.relocationSections = c.relocationSections ∧
      (AmdHsaCode.PullElf img c).2.hsatext = c.hsatext) ∧
    (∀ major minor, AmdHsaCode.GetNoteCodeObjectVersion img = some (major, minor) →
      (2 ≤ major → AmdHsaCode.PullElf img c = AmdHsaCode.PullElfV2 img c) ∧
      (major < 2 → AmdHsaCode.PullElf img c = AmdHsaCode.PullElfV1 img c)) := by
  refine ⟨?_, ?_, ?_⟩
  · intro hno
    have hfind : img.notes.find?
        (fun n => n.name == "AMD" && n.type == NT_AMDGPU_HSA_CODE_OBJECT_VERSION) = none := by
      rw [List.find?_eq_none]
      intro n hn hp
      apply hno n hn
      simpa using hp
    simp [AmdHsaCode.GetNoteCodeObjectVersion, GetAmdNote, hfind]
  · intro h
    simp [AmdHsaCode.PullElf, h]
  · intro major minor h
    constructor
    · intro hm
      simp [AmdHsaCode.PullElf, h, hm]
    · intro hm
      have : ¬ (2 ≤ major) := by omega
      simp [AmdHsaCode.PullElf, h, this]

/-- C1 at the V2 sample image (major 2), at the V1 sample image (major 1) and
at an image without notes. -/
theorem C1_PullElf_dispatch_witness :
    AmdHsaCode.PullElf sampleImageV2 (AmdHsaCode.construct false) =
      AmdHsaCode.PullElfV2 sampleImageV2 (AmdHsaCode.construct false) ∧
    AmdHsaCode.PullElf sampleImageV1 (AmdHsaCode.construct false) =
      AmdHsaCode.PullElfV1 sampleImageV1 (AmdHsaCode.construct false) ∧
    (AmdHsaCode.PullElf { sampleImageV1 with notes := [] } (AmdHsaCode.construct false)).1 =
      false ∧
    (AmdHsaCode.PullElf { sampleImageV1 with notes := [] }
      (AmdHsaCode.construct false)).2.symbols = (AmdHsaCode.construct false).symbols :=
  ⟨((C1_PullElf_dispatch sampleImageV2 (AmdHsaCode.construct false)).2.2 2 1 (by decide)).1
      (by decide),
   ((C1_PullElf_dispatch sampleImageV1 (AmdHsaCode.construct false)).2.2 1 0 (by decide)).2
      (by decide),
   ((C1_PullElf_dispatch { sampleImageV1 with notes := [] } (AmdHsaCode.construct false)).2.1
      ((C1_PullElf_dispatch { sampleImageV1 with notes := [] }
        (AmdHsaCode.construct false)).1 (by intro n hn; cases hn))).1,
   ((C1_PullElf_dispatch { sampleImageV1 with notes := [] } (AmdHsaCode.construct false)).2.1
      ((C1_PullElf_dispatch { sampleImageV1 with notes := [] }
        (AmdHsaCode.construct false)).1 (by intro n hn; cases hn))).2.1⟩

/-! ## C2: a failed ingestion is not rolled back -/

/-- Fails as stated (C2): loading the sample image whose last kernel entry has
no section returns failure, yet the object, fresh before the call, now holds
two symbols, a data segment, two data sections, a relocation section and a
cached code section. -/
theorem C2_counterexample :
    (AmdHsaCode.LoadFromFile (sampleSubstrate sampleImageBadKernel)
      (AmdHsaCode.construct false) "kernel.co").1 = false ∧
    (AmdHsaCode.LoadFromFile (sampleSubstrate sampleImageBadKernel)
      (AmdHsaCode.construct false) "kernel.co").2.symbols.length = 2 ∧
    (AmdHsaCode.LoadFromFile (sampleSubstrate sampleImageBadKernel)
      (AmdHsaCode.construct false) "kernel.co").2.dataSegments = [0] ∧
    (AmdHsaCode.LoadFromFile (sampleSubstrate sampleImageBadKernel)
      (AmdHsaCode.construct false) "kernel.co").2.dataSections = [some 1, some 2] ∧
    (AmdHsaCode.LoadFromFile (sampleSubstrate sampleImageBadKernel)
      (AmdHsaCode.construct false) "kernel.co").2.relocationSections = [3] ∧
    (AmdHsaCode.LoadFromFile (sampleSubstrate sampleImageBadKernel)
      (AmdHsaCode.construct false) "kernel.co").2.hsatext = some 1 ∧
    (AmdHsaCode.construct false).symbols = [] ∧
    (AmdHsaCode.construct false).dataSegments = [] ∧
    (AmdHsaCode.construct false).dataSections = [] ∧
    (AmdHsaCode.construct false).relocationSections = [] ∧
    (AmdHsaCode.construct false).hsatext = none := by
  decide

/-- C2, amended. A failed ingestion is not rolled back. For each of
`LoadFromFile`, `InitFromBuffer` and `InitAsBuffer` that returns failure: when
the substrate load failed or the version note is absent, the symbol list, the
data-segment, data-section and relocation-section lists and the cached code
section are exactly what they were before the call, and in every case each of
the four lists still starts with the entries it had before the call. When the
load succeeded and the version note is present, the failure comes from a kernel
symbol and everything classified before it stays: the three registries are
their old content followed by every segment and section of the image that the
dialect classifies, the cached code section is the last section with the
dialect's code-section name, and the symbol list is its old content followed
by the symbols of all entries before the first rejected kernel entry. -/
theorem C2_failure_not_rolled_back (E : ElfSubstrate) (c : AmdHsaCode) :
    (∀ filename, (AmdHsaCode.LoadFromFile E c filename).1 = false →
      FailureLeaves c (E.loadFromFile (AmdHsaCode.imageOrNew E c) filename)
        (AmdHsaCode.LoadFromFile E c filename).2 ∧
      ∀ major minor, (E.loadFromFile (AmdHsaCode.imageOrNew E c) filename).1 = true →
        AmdHsaCode.GetNoteCodeObjectVersion
          (E.loadFromFile (AmdHsaCode.imageOrNew E c) filename).2 = some (major, minor) →
        PartialIngestion c (E.loadFromFile (AmdHsaCode.imageOrNew E c) filename).2 major
          (AmdHsaCode.LoadFromFile E c filename).2) ∧
    (∀ buffer size, (AmdHsaCode.InitFromBuffer E c buffer size).1 = false →
      FailureLeaves c (E.initFromBuffer (AmdHsaCode.imageOrNew E c) buffer size)
        (AmdHsaCode.InitFromBuffer E c buffer size).2 ∧
      ∀ major minor, (E.initFromBuffer (AmdHsaCode.imageOrNew E c) buffer size).1 = true →
        AmdHsaCode.GetNoteCodeObjectVersion
          (E.initFromBuffer (AmdHsaCode.imageOrNew E c) buffer size).2 = some (major, minor) →
        PartialIngestion c (E.initFromBuffer (AmdHsaCode.imageOrNew E c) buffer size).2 major
          (AmdHsaCode.InitFromBuffer E c buffer size).2) ∧
    (∀ buffer size, (AmdHsaCode.InitAsBuffer E c buffer size).1 = false →
      FailureLeaves c (E.initAsBuffer (AmdHsaCode.imageOrNew E c) buffer size)
        (AmdHsaCode.InitAsBuffer E c buffer size).2 ∧
      ∀ major minor, (E.initAsBuffer (AmdHsaCode.imageOrNew E c) buffer size).1 = true →
        AmdHsaCode.GetNoteCodeObjectVersion
          (E.initAsBuffer (AmdHsaCode.imageOrNew E c) buffer size).2 = some (major, minor) →
        PartialIngestion c (E.initAsBuffer (AmdHsaCode.imageOrNew E c) buffer size).2 major
          (AmdHsaCode.InitAsBuffer E c buffer size).2) :=
  ⟨fun _ hf => ⟨attachAndPull_leaves c _,
      fun major minor hr hv => attachAndPull_partial c _ major minor hr hv hf⟩,
   fun _ _ hf => ⟨attachAndPull_leaves c _,
      fun major minor hr hv => attachAndPull_partial c _ major minor hr hv hf⟩,
   fun _ _ hf => ⟨attachAndPull_leaves c _,
      fun major minor hr hv => attachAndPull_partial c _ major minor hr hv hf⟩⟩

/-- C2, amended, at the failing load of the counterexample: the V1 sample
image followed by a kernel entry without section, which is the first rejected
entry, at index 3. -/
theorem C2_failure_not_rolled_back_witness :
    (AmdHsaCode.LoadFromFile (sampleSubstrate sampleImageBadKernel)
      (AmdHsaCode.construct false) "kernel.co").1 = false ∧
    FailureLeaves (AmdHsaCode.construct false)
      ((sampleSubstrate sampleImageBadKernel).loadFromFile
        (AmdHsaCode.imageOrNew (sampleSubstrate sampleImageBadKernel)
          (AmdHsaCode.construct false)) "kernel.co")
      (AmdHsaCode.LoadFromFile (sampleSubstrate sampleImageBadKernel)
        (AmdHsaCode.construct false) "kernel.co").2 ∧
    PartialIngestion (AmdHsaCode.construct false) sampleImageBadKernel 1
      (AmdHsaCode.LoadFromFile (sampleSubstrate sampleImageBadKernel)
        (AmdHsaCode.construct false) "kernel.co").2 :=
  ⟨by decide,
   ((C2_failure_not_rolled_back (sampleSubstrate sampleImageBadKernel)
      (AmdHsaCode.construct false)).1 "kernel.co" (by decide)).1,
   ((C2_failure_not_rolled_back (sampleSubstrate sampleImageBadKernel)
      (AmdHsaCode.construct false)).1 "kernel.co" (by decide)).2 1 0 rfl (by decide)⟩

/-! ## C3: the V1 classification filter -/

/-- C3. After a successful `PullElfV1` on a fresh code object: `dataSegments`
holds, in index order, exactly the segments whose type is one of the four
AMDGPU HSA load types; `dataSections` holds, in index order, exactly the
non-null sections of type PROGBITS or NOBITS whose flags carry at least one of
the agent, global, readonly, code bits; `relocationSections` holds exactly the
non-null sections of type RELA; and when some section is named ".hsatext" the
cached code section is a section with that name. -/
theorem C3_PullElfV1_filter (img : Image) (b : Bool) (c' : AmdHsaCode)
    (h : AmdHsaCode.PullElfV1 img (AmdHsaCode.construct b) = (true, c')) :
    c'.dataSegments =
      indicesWhere (fun s => decide (s.type = PT_AMDGPU_HSA_LOAD_GLOBAL_PROGRAM ∨
        s.type = PT_AMDGPU_HSA_LOAD_GLOBAL_AGENT ∨ s.type = PT_AMDGPU_HSA_LOAD_READONLY_AGENT ∨
        s.type = PT_AMDGPU_HSA_LOAD_CODE_AGENT)) img.segments ∧
    c'.dataSections =
      (indicesWhere (onSection (fun sec => decide (
        (sec.type = SHT_PROGBITS ∨ sec.type = SHT_NOBITS) ∧
        (sec.flags &&& SHF_AMDGPU_HSA_AGENT ≠ 0 ∨ sec.flags &&& SHF_AMDGPU_HSA_GLOBAL ≠ 0 ∨
          sec.flags &&& SHF_AMDGPU_HSA_READONLY ≠ 0 ∨ sec.flags &&& SHF_AMDGPU_HSA_CODE ≠ 0))))
        img.sections).map some ∧
    c'.relocationSections =
      indicesWhere (onSection (fun sec => decide (sec.type = SHT_RELA))) img.sections ∧
    ((∃ i sec, img.section i = some sec ∧ sec.Name = ".hsatext") →
      ∃ i sec, c'.hsatext = some i ∧ img.section i = some sec ∧ sec.Name = ".hsatext") := by
  obtain ⟨h1, h2, h3, h4⟩ := pull_registries isLoadTypeV1 isDataSectionV1 ".hsatext"
    (pullSymbolV1 img) img (AmdHsaCode.construct b)
  have hc : (AmdHsaCode.PullElfV1 img (AmdHsaCode.construct b)).2 = c' := by rw [h]
  unfold AmdHsaCode.PullElfV1 at hc
  simp only [hc] at h1 h2 h3 h4
  refine ⟨?_, ?_, ?_, ?_⟩
  · rw [h1, isLoadTypeV1_eq]; simp [AmdHsaCode.construct]
  · rw [h2, isDataSectionV1_eq]; simp [AmdHsaCode.construct]
  · rw [h3, relaV1_eq]; simp [AmdHsaCode.construct]
  · intro hex
    rw [h4]
    exact lastNamed_section ".hsatext" img _ hex

/-- C3 at the V1 sample image. -/
theorem C3_PullElfV1_filter_witness :
    (AmdHsaCode.PullElfV1 sampleImageV1 (AmdHsaCode.construct false)).1 = true ∧
    (AmdHsaCode.PullElfV1 sampleImageV1 (AmdHsaCode.construct false)).2.dataSegments =
      indicesWhere (fun s => decide (s.type = PT_AMDGPU_HSA_LOAD_GLOBAL_PROGRAM ∨
        s.type = PT_AMDGPU_HSA_LOAD_GLOBAL_AGENT ∨ s.type = PT_AMDGPU_HSA_LOAD_READONLY_AGENT ∨
        s.type = PT_AMDGPU_HSA_LOAD_CODE_AGENT)) sampleImageV1.segments ∧
    (AmdHsaCode.PullElfV1 sampleImageV1 (AmdHsaCode.construct false)).2.relocationSections =
      indicesWhere (onSection (fun sec => decide (sec.type = SHT_RELA))) sampleImageV1.sections :=
  ⟨by decide,
   (C3_PullElfV1_filter sampleImageV1 false
    (AmdHsaCode.PullElfV1 sampleImageV1 (AmdHsaCode.construct false)).2
    (Prod.ext (by decide) rfl)).1,
   (C3_PullElfV1_filter sampleImageV1 false
    (AmdHsaCode.PullElfV1 sampleImageV1 (AmdHsaCode.construct false)).2
    (Prod.ext (by decide) rfl)).2.2.1⟩

/-! ## C4: the V2 classification filter -/

/-- C4. After a successful `PullElfV2` on a fresh code object: `dataSegments`
holds, in index order, exactly the segments of type PT_LOAD; `dataSections`
holds, in index order, exactly the non-null sections of type PROGBITS or NOBITS
that do not carry the executable flag, whatever AMDGPU HSA flag bits they have;
and when some section is named ".text" the cached code section is a section
with that name. -/
theorem C4_PullElfV2_filter (img : Image) (b : Bool) (c' : AmdHsaCode)
    (h : AmdHsaCode.PullElfV2 img (AmdHsaCode.construct b) = (true, c')) :
    c'.dataSegments = indicesWhere (fun s => decide (s.type = PT_LOAD)) img.segments ∧
    c'.dataSections =
      (indicesWhere (onSection (fun sec => decide (
        (sec.type = SHT_PROGBITS ∨ sec.type = SHT_NOBITS) ∧ sec.flags &&& SHF_EXECINSTR = 0)))
        img.sections).map some ∧
    ((∃ i sec, img.section i = some sec ∧ sec.Name = ".text") →
      ∃ i sec, c'.hsatext = some i ∧ img.section i = some sec ∧ sec.Name = ".text") := by
  obtain ⟨h1, h2, -, h4⟩ := pull_registries isLoadTypeV2 isDataSectionV2 ".text"
    (pullSymbolV2 img) img (AmdHsaCode.construct b)
  have hc : (AmdHsaCode.PullElfV2 img (AmdHsaCode.construct b)).2 = c' := by rw [h]
  unfold AmdHsaCode.PullElfV2 at hc
  simp only [hc] at h1 h2 h4
  have hload : isLoadTypeV2 = fun s => decide (s.type = PT_LOAD) := by
    funext s
    unfold isLoadTypeV2
    rw [Bool.eq_iff_iff]
    simp
  refine ⟨?_, ?_, ?_⟩
  · rw [h1, hload]; simp [AmdHsaCode.construct]
  · rw [h2, isDataSectionV2_eq]; simp [AmdHsaCode.construct]
  · intro hex
    rw [h4]
    exact lastNamed_section ".text" img _ hex

/-- C4 at the V2 sample image. -/
theorem C4_PullElfV2_filter_witness :
    (AmdHsaCode.PullElfV2 sampleImageV2 (AmdHsaCode.construct false)).1 = true ∧
    (AmdHsaCode.PullElfV2 sampleImageV2 (AmdHsaCode.construct false)).2.dataSegments =
      indicesWhere (fun s => decide (s.type = PT_LOAD)) sampleImageV2.segments :=
  ⟨by decide,
   (C4_PullElfV2_filter sampleImageV2 false
    (AmdHsaCode.PullElfV2 sampleImageV2 (AmdHsaCode.construct false)).2
    (Prod.ext (by decide) rfl)).1⟩

/-! ## C5: the symbol list -/

/-- C5. For both dialects, after a successful ingestion of a fresh code object
the symbol list is exactly the order-preserving subsequence of the image's
symbol table made of the kernel-type entries, which become kernel symbols, and
of the object-type and common-type entries, which become variable symbols.
An entry of any other type never appears in the list and never makes ingestion
fail: ingestion succeeds as soon as no kernel-type entry is rejected. -/
theorem C5_symbol_list (img : Image) (b : Bool) :
    (∀ c', AmdHsaCode.PullElfV1 img (AmdHsaCode.construct b) = (true, c') →
      c'.symbols.map (fun s => (s.elfSym, s.IsKernelSymbol)) =
        img.symtab.enum.filterMap (fun p => (variantOfType p.2.type).map (fun k => (p.1, k)))) ∧
    (∀ c', AmdHsaCode.PullElfV2 img (AmdHsaCode.construct b) = (true, c') →
      c'.symbols.map (fun s => (s.elfSym, s.IsKernelSymbol)) =
        img.symtab.enum.filterMap (fun p => (variantOfType p.2.type).map (fun k => (p.1, k)))) ∧
    ((∀ e ∈ img.symtab, ¬ KernelRejectedV1 img e) →
      (AmdHsaCode.PullElfV1 img (AmdHsaCode.construct b)).1 = true) ∧
    ((∀ e ∈ img.symtab, ¬ KernelRejectedV2 img e) →
      (AmdHsaCode.PullElfV2 img (AmdHsaCode.construct b)).1 = true) := by
  refine ⟨?_, ?_, ?_, ?_⟩
  · intro c' h
    unfold AmdHsaCode.PullElfV1 at h
    simp only at h
    have hsym := (loops_out_symbols isLoadTypeV1 isDataSectionV1 ".hsatext" img
      (AmdHsaCode.construct b)).2
    rcases pullSymbols_cases (pullSymbolV1 img) img.symtab.enum
      (img.sections.enum.foldl (pullSection isDataSectionV1 ".hsatext")
        (img.segments.enum.foldl (pullSegment isLoadTypeV1) (AmdHsaCode.construct b))) with
      ⟨hall, heq⟩ | ⟨pre, p, post, -, -, -, heq⟩
    · rw [heq] at h
      have hc := (Prod.mk.inj h).2
      rw [← hc]
      simp only [hsym]
      simp only [AmdHsaCode.construct, List.nil_append]
      exact symbols_of_success (pullSymbolV1 img) img.symtab.enum hall
        (fun p hp => pullSymbolV1_variant img p.1 p.2 hp)
    · rw [heq] at h
      exact absurd (Prod.mk.inj h).1 (by simp)
  · intro c' h
    unfold AmdHsaCode.PullElfV2 at h
    simp only at h
    have hsym := (loops_out_symbols isLoadTypeV2 isDataSectionV2 ".text" img
      (AmdHsaCode.construct b)).2
    rcases pullSymbols_cases (pullSymbolV2 img) img.symtab.enum
      (img.sections.enum.foldl (pullSection isDataSectionV2 ".text")
        (img.segments.enum.foldl (pullSegment isLoadTypeV2) (AmdHsaCode.construct b))) with
      ⟨hall, heq⟩ | ⟨pre, p, post, -, -, -, heq⟩
    · rw [heq] at h
      have hc := (Prod.mk.inj h).2
      rw [← hc]
      simp only [hsym]
      simp only [AmdHsaCode.construct, List.nil_append]
      exact symbols_of_success (pullSymbolV2 img) img.symtab.enum hall
        (fun p hp => pullSymbolV2_variant img p.1 p.2 hp)
    · rw [heq] at h
      exact absurd (Prod.mk.inj h).1 (by simp)
  · intro hno
    unfold AmdHsaCode.PullElfV1
    simp only
    rcases pullSymbols_cases (pullSymbolV1 img) img.symtab.enum
      (img.sections.enum.foldl (pullSection isDataSectionV1 ".hsatext")
        (img.segments.enum.foldl (pullSegment isLoadTypeV1) (AmdHsaCode.construct b))) with
      ⟨-, heq⟩ | ⟨pre, p, post, hl, -, hp, -⟩
    · rw [heq]
    · have hmem : p ∈ img.symtab.enum := by rw [hl]; simp
      exact absurd ((pullSymbolV1_isFail img p.1 p.2).mp hp)
        (hno p.2 (snd_mem_of_mem_enum _ _ hmem))
  · intro hno
    unfold AmdHsaCode.PullElfV2
    simp only
    rcases pullSymbols_cases (pullSymbolV2 img) img.symtab.enum
      (img.sections.enum.foldl (pullSection isDataSectionV2 ".text")
        (img.segments.enum.foldl (pullSegment isLoadTypeV2) (AmdHsaCode.construct b))) with
      ⟨-, heq⟩ | ⟨pre, p, post, hl, -, hp, -⟩
    · rw [heq]
    · have hmem : p ∈ img.symtab.enum := by rw [hl]; simp
      exact absurd ((pullSymbolV2_isFail img p.1 p.2).mp hp)
        (hno p.2 (snd_mem_of_mem_enum _ _ hmem))

/-- C5 at the two sample images: entry 1, of function type, is left out. -/
theorem C5_symbol_list_witness :
    (AmdHsaCode.PullElfV1 sampleImageV1 (AmdHsaCode.construct false)).2.symbols.map
        (fun s => (s.elfSym, s.IsKernelSymbol)) = [(0, true), (2, false)] ∧
    (AmdHsaCode.PullElfV2 sampleImageV2 (AmdHsaCode.construct false)).2.symbols.map
        (fun s => (s.elfSym, s.IsKernelSymbol)) = [(0, true), (2, false)] :=
  ⟨((C5_symbol_list sampleImageV1 false).1 _ (Prod.ext (by decide) rfl)).trans (by decide),
   ((C5_symbol_list sampleImageV2 false).2.1 _ (Prod.ext (by decide) rfl)).trans (by decide)⟩

/-! ## C6: the V1 failure condition -/

/-- C6. `PullElfV1` fails if and only if some kernel-type symbol of the table
has no section, or has a section carrying none of the agent, code, executable
flags, or cannot have its kernel-code record read from that section at the
symbol's value; and on failure the text appended to the diagnostic output is
one of the three messages followed by the name of the first such symbol in
table order. -/
theorem C6_PullElfV1_failure (img : Image) (c : AmdHsaCode) :
    ((AmdHsaCode.PullElfV1 img c).1 = false ↔ ∃ e ∈ img.symtab, KernelRejectedV1 img e) ∧
    ((AmdHsaCode.PullElfV1 img c).1 = false →
      ∃ pre e post, img.symtab = pre ++ e :: post ∧ (∀ x ∈ pre, ¬ KernelRejectedV1 img x) ∧
        KernelRejectedV1 img e ∧
        ∃ m ∈ ["Failed to find section for symbol ", "Invalid code section for symbol ",
            "Failed to get AMD Kernel Code for symbol "],
          (AmdHsaCode.PullElfV1 img c).2.out = c.out ++ (m ++ e.name ++ "\n")) := by
  have hout := (loops_out_symbols isLoadTypeV1 isDataSectionV1 ".hsatext" img c).1
  have key := pullSymbols_cases (pullSymbolV1 img) img.symtab.enum
      (img.sections.enum.foldl (pullSection isDataSectionV1 ".hsatext")
        (img.segments.enum.foldl (pullSegment isLoadTypeV1) c))
  unfold AmdHsaCode.PullElfV1
  simp only
  rcases key with ⟨hall, heq⟩ | ⟨pre, p, post, hl, hpre, hp, heq⟩
  · rw [heq]
    refine ⟨⟨fun h => absurd h (by simp), ?_⟩, fun h => absurd h (by simp)⟩
    rintro ⟨e, he, hrej⟩
    obtain ⟨q, hq, rfl⟩ := exists_mem_enum _ e he
    have := (pullSymbolV1_isFail img q.1 q.2).mpr hrej
    rw [hall q hq] at this
    cases this
  · rw [heq]
    have hmem : p ∈ img.symtab.enum := by rw [hl]; simp
    have hrej := (pullSymbolV1_isFail img p.1 p.2).mp hp
    have hsplit : img.symtab = pre.map Prod.snd ++ p.2 :: post.map Prod.snd := by
      have := congrArg (List.map Prod.snd) hl
      rw [List.enum_map_snd] at this
      simpa using this
    refine ⟨⟨fun _ => ⟨p.2, snd_mem_of_mem_enum _ _ hmem, hrej⟩, fun _ => rfl⟩, fun _ => ?_⟩
    refine ⟨pre.map Prod.snd, p.2, post.map Prod.snd, hsplit, ?_, hrej, ?_⟩
    · intro x hx hrx
      obtain ⟨q, hq, rfl⟩ := List.mem_map.mp hx
      have := (pullSymbolV1_isFail img q.1 q.2).mpr hrx
      rw [hpre q hq] at this
      cases this
    · obtain ⟨m, hm, hmsg⟩ := pullSymbolV1_msg img p.1 p.2 hp
      exact ⟨m, hm, by simp only [hout, hmsg]⟩

/-- C6 at the sample image whose last kernel entry has no section. -/
theorem C6_PullElfV1_failure_witness :
    (AmdHsaCode.PullElfV1 sampleImageBadKernel (AmdHsaCode.construct false)).1 = false ∧
    ∃ pre e post, sampleImageBadKernel.symtab = pre ++ e :: post ∧
      (∀ x ∈ pre, ¬ KernelRejectedV1 sampleImageBadKernel x) ∧
      KernelRejectedV1 sampleImageBadKernel e ∧
      ∃ m ∈ ["Failed to find section for symbol ", "Invalid code section for symbol ",
          "Failed to get AMD Kernel Code for symbol "],
        (AmdHsaCode.PullElfV1 sampleImageBadKernel (AmdHsaCode.construct false)).2.out =
          (AmdHsaCode.construct false).out ++ (m ++ e.name ++ "\n") :=
  ⟨by decide,
   (C6_PullElfV1_failure sampleImageBadKernel (AmdHsaCode.construct false)).2 (by decide)⟩

/-! ## C7: machine identity -/

/-- Fails as stated (C7): an image whose machine identity is `EM_NONE` is
ingested successfully by all three entry points. -/
theorem C7_counterexample :
    sampleImageNoMachine.Machine ≠ EM_AMDGPU ∧
    (AmdHsaCode.LoadFromFile (sampleSubstrate sampleImageNoMachine)
      (AmdHsaCode.construct false) "kernel.co").1 = true ∧
    (AmdHsaCode.InitFromBuffer (sampleSubstrate sampleImageNoMachine)
      (AmdHsaCode.construct false) 4096 512).1 = true ∧
    (AmdHsaCode.InitAsBuffer (sampleSubstrate sampleImageNoMachine)
      (AmdHsaCode.construct false) 4096 512).1 = true := by
  decide

/-- C7, amended. For every image whose machine identity is not AMDGPU,
`Validate` fails; ingestion does not read the machine identity: `PullElf`
treats the image exactly as the same image with the AMDGPU identity, and each
entry point succeeds precisely when the substrate load and `PullElf` succeed. -/
theorem C7_machine_checked_by_Validate (img : Image) (c : AmdHsaCode)
    (h : img.Machine ≠ EM_AMDGPU) :
    (AmdHsaCode.Validate img c).1 = false ∧
    AmdHsaCode.PullElf img c = AmdHsaCode.PullElf { img with Machine := EM_AMDGPU } c ∧
    (∀ E filename, E.loadFromFile (AmdHsaCode.imageOrNew E c) filename = (true, img) →
      (AmdHsaCode.LoadFromFile E c filename).1 =
        (AmdHsaCode.PullElf img { c with img := some img }).1) ∧
    (∀ E buffer size, E.initFromBuffer (AmdHsaCode.imageOrNew E c) buffer size = (true, img) →
      (AmdHsaCode.InitFromBuffer E c buffer size).1 =
        (AmdHsaCode.PullElf img { c with img := some img }).1) ∧
    (∀ E buffer size, E.initAsBuffer (AmdHsaCode.imageOrNew E c) buffer size = (true, img) →
      (AmdHsaCode.InitAsBuffer E c buffer size).1 =
        (AmdHsaCode.PullElf img { c with img := some img }).1) := by
  have htail : (AmdHsaCode.attachAndPull c (true, img)).1 =
      (AmdHsaCode.PullElf img { c with img := some img }).1 := by
    unfold AmdHsaCode.attachAndPull
    cases hp : (AmdHsaCode.PullElf img { c with img := some img }).1 <;>
      simp [hp, AmdHsaCode.ElfImageError]
  refine ⟨?_, rfl, ?_, ?_, ?_⟩
  · unfold AmdHsaCode.Validate
    cases img.Validate <;> simp [AmdHsaCode.ElfImageError, h]
  · intro E filename hE
    unfold AmdHsaCode.LoadFromFile
    rw [hE, htail]
  · intro E buffer size hE
    unfold AmdHsaCode.InitFromBuffer
    rw [hE, htail]
  · intro E buffer size hE
    unfold AmdHsaCode.InitAsBuffer
    rw [hE, htail]

/-- C7, amended, at the sample image with machine identity `EM_NONE`. -/
theorem C7_machine_checked_by_Validate_witness :
    sampleImageNoMachine.Machine ≠ EM_AMDGPU ∧
    (AmdHsaCode.Validate sampleImageNoMachine (AmdHsaCode.construct false)).1 = false :=
  ⟨by decide,
   (C7_machine_checked_by_Validate sampleImageNoMachine (AmdHsaCode.construct false)
      (by decide)).1⟩

/-! ## C8: mangling and demangling -/

/-- Fails as stated (C8). `MangleSymbolName` joins module and symbol with the
separator "::", while `GetInfo` cuts the raw name at a single ':'. The module
"a:b" is non-empty and neither it nor the symbol "c" contains "::"; the
MODULE-linkage symbol with the raw name `MangleSymbolName("a:b", "c")`, which is
"a:b::c", reports the module name length 2 and the module name "a", not "a:b".
Likewise neither "m" nor "c:d" contains "::", and the symbol with the raw name
`MangleSymbolName("m", "c:d")` reports the name "d", not "c:d". Both calls
return success, with assertions on. -/
theorem C8_counterexample :
    AmdHsaCode.MangleSymbolName "a:b" "c" = "a:b::c" ∧
    ¬ ("::".toList <:+: "a:b".toList) ∧ ¬ ("::".toList <:+: "c".toList) ∧
    (Symbol.callGetInfo true sampleImageColons (.variable { elfsym := 0 } false)
        HSA_CODE_SYMBOL_INFO_MODULE_NAME_LENGTH (fun _ => 255)).map
        (fun r => (r.1, read32 r.2)) = .ok (HSA_STATUS_SUCCESS, 2) ∧
    (Symbol.callGetInfo true sampleImageColons (.variable { elfsym := 0 } false)
        HSA_CODE_SYMBOL_INFO_MODULE_NAME (fun _ => 255)).map
        (fun r => (r.1, readBytes r.2 2)) = .ok (HSA_STATUS_SUCCESS, bytesOf "a" ++ [0]) ∧
    bytesOf "a:b" ++ [0] = [97, 58, 98, 0] ∧
    AmdHsaCode.MangleSymbolName "m" "c:d" = "m::c:d" ∧
    ¬ ("::".toList <:+: "m".toList) ∧ ¬ ("::".toList <:+: "c:d".toList) ∧
    (Symbol.callGetInfo true sampleImageColons (.variable { elfsym := 1 } false)
        HSA_CODE_SYMBOL_INFO_NAME (fun _ => 255)).map
        (fun r => (r.1, readBytes r.2 2)) = .ok (HSA_STATUS_SUCCESS, bytesOf "d" ++ [0]) ∧
    bytesOf "c:d" ++ [0] = [99, 58, 100, 0] :=
  ⟨by decide, by decide, by decide, rfl, rfl, by decide, by decide, by decide, by decide, rfl,
    by decide⟩

/-- C8, amended. Mangling is invertible for strings free of the character ':'
that `GetInfo` searches for. For a non-empty module string `m` and a symbol
string `s`, neither containing a ':', a MODULE-linkage symbol whose raw name
is `MangleSymbolName(m, s)` reports the name `s` under NAME and the module name
`m` under MODULE_NAME, each as the string's bytes followed by a NUL; for the
empty module `MangleSymbolName("", s) = s`, and a PROGRAM-linkage symbol whose
raw name is `s` reports the name `s`. -/
theorem C8_mangling_invertible (asserts : Bool) (img : Image) (sym : Symbol) (e : ElfSymbol)
    (m s : String) (value : Mem)
    (hsym : img.symbol sym.elfSym = some e) (hm : m ≠ "")
    (hmc : ':' ∉ m.toList) (hsc : ':' ∉ s.toList) :
    (e.binding ≠ STB_GLOBAL → e.name = AmdHsaCode.MangleSymbolName m s →
      (∃ v, Symbol.callGetInfo asserts img sym HSA_CODE_SYMBOL_INFO_NAME value =
          .ok (HSA_STATUS_SUCCESS, v) ∧
        readBytes v (s.length + 1) = bytesOf s ++ [0]) ∧
      (∃ v, Symbol.callGetInfo asserts img sym HSA_CODE_SYMBOL_INFO_MODULE_NAME value =
          .ok (HSA_STATUS_SUCCESS, v) ∧
        readBytes v (m.length + 1) = bytesOf m ++ [0])) ∧
    AmdHsaCode.MangleSymbolName "" s = s ∧
    (e.binding = STB_GLOBAL → e.name = s →
      ∃ v, Symbol.callGetInfo asserts img sym HSA_CODE_SYMBOL_INFO_NAME value =
          .ok (HSA_STATUS_SUCCESS, v) ∧
        readBytes v (s.length + 1) = bytesOf s ++ [0]) := by
  have hbase : ∀ a, a = HSA_CODE_SYMBOL_INFO_NAME ∨ a = HSA_CODE_SYMBOL_INFO_MODULE_NAME →
      Symbol.callGetInfo asserts img sym a value = Symbol.GetInfo asserts img sym a value := by
    intro a ha
    cases sym <;> rcases ha with rfl | rfl <;>
      simp [Symbol.callGetInfo, KernelSymbol.GetInfo, VariableSymbol.GetInfo]
  refine ⟨?_, by simp [AmdHsaCode.MangleSymbolName], ?_⟩
  · intro hb hname
    have hname2 : e.name = m ++ "::" ++ s := by
      rw [hname]; simp [AmdHsaCode.MangleSymbolName, hm]
    constructor
    · refine ⟨memcpy (memset value 0 (s.length + 1)) (bytesOf s) s.length, ?_, ?_⟩
      · rw [hbase _ (Or.inl rfl)]
        simp [Symbol.GetInfo, Symbol.Name, Symbol.elfsymOf, Symbol.Linkage, hsym, hb, hname2,
          rfind_mangled m s hsc, substrAfter_mangled, cAssert, bind, Except.bind, pure,
          Except.pure]
      · have := readBytes_cstring value (bytesOf s)
        rwa [bytesOf_length] at this
    · refine ⟨storeByte (memcpy (memset value 0 (m.length + 1)) (bytesOf m) m.length)
        (m.length + 1) 0, ?_, ?_⟩
      · rw [hbase _ (Or.inr rfl)]
        simp [Symbol.GetInfo, Symbol.Name, Symbol.elfsymOf, Symbol.Linkage, hsym, hb, hname2,
          find_mangled m s hmc, substrBefore_mangled, cAssert, bind, Except.bind, pure,
          Except.pure]
      · rw [readBytes_storeByte _ _ _ _ (Nat.le_refl _)]
        have := readBytes_cstring value (bytesOf m)
        rwa [bytesOf_length] at this
  · intro hb hname
    refine ⟨memcpy (memset value 0 (s.length + 1)) (bytesOf s) s.length, ?_, ?_⟩
    · rw [hbase _ (Or.inl rfl)]
      simp [Symbol.GetInfo, Symbol.Name, Symbol.elfsymOf, Symbol.Linkage, hsym, hb, hname,
        rfind_none s hsc, cAssert, bind, Except.bind, pure, Except.pure]
    · have := readBytes_cstring value (bytesOf s)
      rwa [bytesOf_length] at this

/-- C8, amended, at the module-linkage variable "mod::var" of the V1 sample image. -/
theorem C8_mangling_invertible_witness :
    (∃ v, Symbol.callGetInfo true sampleImageV1 (.variable { elfsym := 2 } false)
        HSA_CODE_SYMBOL_INFO_NAME (fun _ => 120) = .ok (HSA_STATUS_SUCCESS, v) ∧
      readBytes v ("var".length + 1) = bytesOf "var" ++ [0]) ∧
    (∃ v, Symbol.callGetInfo true sampleImageV1 (.variable { elfsym := 2 } false)
        HSA_CODE_SYMBOL_INFO_MODULE_NAME (fun _ => 120) = .ok (HSA_STATUS_SUCCESS, v) ∧
      readBytes v ("mod".length + 1) = bytesOf "mod" ++ [0]) :=
  (C8_mangling_invertible true sampleImageV1 (.variable { elfsym := 2 } false)
    { name := "mod::var", type := STT_OBJECT, binding := 0, size := 4, section_ := some 2 }
    "mod" "var" (fun _ => 120) (by decide) (by decide) (by decide) (by decide)).1
    (by decide) (by decide)

/-! ## C9: attributes of the other variant -/

/-- C9. `GetInfo` rejects attributes of the other variant: for every kernel
symbol of the image and each of the five VARIABLE attributes, and for every
variable symbol of the image and each of the five KERNEL attributes, the call
returns the invalid-argument status and the destination memory is unchanged. -/
theorem C9_GetInfo_rejects_other_variant (asserts : Bool) (img : Image) (value : Mem) :
    (∀ (k : KernelSymbol) (v2 : Bool) (e : ElfSymbol) (a : hsa_code_symbol_info_t),
      img.symbol k.elfsym = some e →
      a ∈ [HSA_CODE_SYMBOL_INFO_VARIABLE_ALLOCATION, HSA_CODE_SYMBOL_INFO_VARIABLE_SEGMENT,
        HSA_CODE_SYMBOL_INFO_VARIABLE_ALIGNMENT, HSA_CODE_SYMBOL_INFO_VARIABLE_SIZE,
        HSA_CODE_SYMBOL_INFO_VARIABLE_IS_CONST] →
      Symbol.callGetInfo asserts img (.kernel k v2) a value =
        .ok (HSA_STATUS_ERROR_INVALID_ARGUMENT, value)) ∧
    (∀ (v : VariableSymbol) (v2 : Bool) (e : ElfSymbol) (a : hsa_code_symbol_info_t),
      img.symbol v.elfsym = some e →
      a ∈ [HSA_CODE_SYMBOL_INFO_KERNEL_KERNARG_SEGMENT_SIZE,
        HSA_CODE_SYMBOL_INFO_KERNEL_KERNARG_SEGMENT_ALIGNMENT,
        HSA_CODE_SYMBOL_INFO_KERNEL_GROUP_SEGMENT_SIZE,
        HSA_CODE_SYMBOL_INFO_KERNEL_PRIVATE_SEGMENT_SIZE,
        HSA_CODE_SYMBOL_INFO_KERNEL_DYNAMIC_CALLSTACK] →
      Symbol.callGetInfo asserts img (.variable v v2) a value =
        .ok (HSA_STATUS_ERROR_INVALID_ARGUMENT, value)) := by
  constructor
  · intro k v2 e a he ha
    simp only [List.mem_cons, List.mem_singleton, List.not_mem_nil, or_false] at ha
    rcases ha with rfl | rfl | rfl | rfl | rfl <;>
      simp [Symbol.callGetInfo, KernelSymbol.GetInfo, Symbol.GetInfo, Symbol.Name,
        Symbol.elfsymOf, Symbol.elfSym, he, bind, Except.bind, pure, Except.pure]
  · intro v v2 e a he ha
    simp only [List.mem_cons, List.mem_singleton, List.not_mem_nil, or_false] at ha
    rcases ha with rfl | rfl | rfl | rfl | rfl <;>
      simp [Symbol.callGetInfo, VariableSymbol.GetInfo, Symbol.GetInfo, Symbol.Name,
        Symbol.elfsymOf, Symbol.elfSym, he, bind, Except.bind, pure, Except.pure]

/-- C9 at the V1 sample image: KERNEL_GROUP_SEGMENT_SIZE asked of the variable
symbol, and VARIABLE_SIZE asked of a kernel symbol. -/
theorem C9_GetInfo_rejects_other_variant_witness :
    Symbol.callGetInfo true sampleImageV1 (.variable { elfsym := 2 } false)
        HSA_CODE_SYMBOL_INFO_KERNEL_GROUP_SEGMENT_SIZE (fun _ => 120) =
      .ok (HSA_STATUS_ERROR_INVALID_ARGUMENT, fun _ => 120) ∧
    Symbol.callGetInfo true sampleImageV1
        (.kernel (KernelSymbol.construct 0 (some sampleAkc)) false)
        HSA_CODE_SYMBOL_INFO_VARIABLE_SIZE (fun _ => 120) =
      .ok (HSA_STATUS_ERROR_INVALID_ARGUMENT, fun _ => 120) :=
  ⟨(C9_GetInfo_rejects_other_variant true sampleImageV1 (fun _ => 120)).2
      { elfsym := 2 } false
      { name := "mod::var", type := STT_OBJECT, binding := 0, size := 4, section_ := some 2 }
      HSA_CODE_SYMBOL_INFO_KERNEL_GROUP_SEGMENT_SIZE (by decide) (by decide),
   (C9_GetInfo_rejects_other_variant true sampleImageV1 (fun _ => 120)).1
      (KernelSymbol.construct 0 (some sampleAkc)) false
      { name := "&main", type := STT_AMDGPU_HSA_KERNEL, binding := STB_GLOBAL,
        section_ := some 1 }
      HSA_CODE_SYMBOL_INFO_VARIABLE_SIZE (by decide) (by decide)⟩

/-! ## C10: module name of a program-linkage symbol -/

/-- Fails as stated (C10): the variable "var" of the V2 sample image has global
binding, hence PROGRAM linkage; `GetInfo(MODULE_NAME)` on a destination filled
with the byte 120 returns success and the destination still starts with 120,
not with the NUL of an empty string. -/
theorem C10_counterexample :
    Symbol.Linkage sampleImageV2 (.variable { elfsym := 2 } true) =
      .ok hsa_symbol_linkage_t.HSA_SYMBOL_LINKAGE_PROGRAM ∧
    ∃ v, Symbol.callGetInfo false sampleImageV2 (.variable { elfsym := 2 } true)
        HSA_CODE_SYMBOL_INFO_MODULE_NAME (fun _ => 120) = .ok (HSA_STATUS_SUCCESS, v) ∧
      v 0 = 120 ∧ v 0 ≠ 0 :=
  ⟨rfl, fun _ => 120, rfl, rfl, by decide⟩

/-- C10, amended. For every PROGRAM-linkage symbol the module name is empty in
the sense that `GetInfo(MODULE_NAME_LENGTH)` succeeds and stores the length 0;
`GetInfo(MODULE_NAME)` succeeds and writes nothing, so the destination keeps
whatever it held before. -/
theorem C10_program_module_name (asserts : Bool) (img : Image) (sym : Symbol) (e : ElfSymbol)
    (value : Mem) (hsym : img.symbol sym.elfSym = some e) (hb : e.binding = STB_GLOBAL) :
    Symbol.callGetInfo asserts img sym HSA_CODE_SYMBOL_INFO_MODULE_NAME value =
      .ok (HSA_STATUS_SUCCESS, value) ∧
    Symbol.callGetInfo asserts img sym HSA_CODE_SYMBOL_INFO_MODULE_NAME_LENGTH value =
      .ok (HSA_STATUS_SUCCESS, store32 value 0) ∧
    read32 (store32 value 0) = 0 := by
  refine ⟨?_, ?_, ?_⟩
  · cases sym <;>
      simp [Symbol.callGetInfo, KernelSymbol.GetInfo, VariableSymbol.GetInfo, Symbol.GetInfo,
        Symbol.Name, Symbol.elfsymOf, Symbol.Linkage, hsym, hb, bind, Except.bind, pure,
        Except.pure]
  · cases sym <;>
      simp [Symbol.callGetInfo, KernelSymbol.GetInfo, VariableSymbol.GetInfo, Symbol.GetInfo,
        Symbol.Name, Symbol.elfsymOf, Symbol.Linkage, hsym, hb, bind, Except.bind, pure,
        Except.pure]
  · simp [read32, store32]

/-- C10, amended, at the program-linkage variable of the V2 sample image. -/
theorem C10_program_module_name_witness :
    Symbol.callGetInfo false sampleImageV2 (.variable { elfsym := 2 } true)
        HSA_CODE_SYMBOL_INFO_MODULE_NAME (fun _ => 120) =
      .ok (HSA_STATUS_SUCCESS, fun _ => 120) :=
  (C10_program_module_name false sampleImageV2 (.variable { elfsym := 2 } true)
    { name := "var", type := STT_COMMON, binding := STB_GLOBAL, size := 4, section_ := some 2 }
    (fun _ => 120) (by decide) (by decide)).1

/-! ## C11: names that break the mangling convention -/

/-- Fails as stated (C12): the kernel of the sample image is ingested from a
record with `kernarg_segment_alignment = 32`; `GetInfo` for the kernarg
alignment returns success with a 32-bit value, which cannot be 2 to the
power 32. -/
theorem C12_counterexample :
    (AmdHsaCode.PullElfV1 sampleImageWideAlign (AmdHsaCode.construct false)).2.symbols =
      [.kernel (KernelSymbol.construct 0
        (some { sampleAkc with kernarg_segment_alignment := 32 })) false] ∧
    ∃ v, Symbol.callGetInfo false sampleImageWideAlign
        (.kernel (KernelSymbol.construct 0
          (some { sampleAkc with kernarg_segment_alignment := 32 })) false)
        HSA_CODE_SYMBOL_INFO_KERNEL_KERNARG_SEGMENT_ALIGNMENT (fun _ => 120) =
          .ok (HSA_STATUS_SUCCESS, v) ∧
      read32 v ≠ 2 ^ 32 :=
  ⟨by decide, _, rfl, by decide⟩

/-- C12, amended. Every kernel symbol in the list after ingestion was built by
the constructor from the kernel-code record `r` read from the symbol's section
(at the symbol's value for V1, at the value minus the section address for V2).
For such a symbol, whatever the state of the image and the build mode,
`GetInfo` answers: kernarg segment size = `r.kernarg_segment_byte_size`
reduced to 32 bits; kernarg alignment = 2 to the power
`r.kernarg_segment_alignment` provided that exponent is below 32; group and
private segment sizes = the record's 32-bit fields; dynamic callstack = bit 20
(IS_DYNAMIC_CALLSTACK) of `r.kernel_code_properties`. A later ingestion leaves
the symbols already in the list in place. -/
theorem C12_kernel_attributes (img : Image) (b : Bool) :
    (∀ s ∈ (AmdHsaCode.PullElfV1 img (AmdHsaCode.construct b)).2.symbols,
      s.IsKernelSymbol = true →
      ∃ i e sec r, img.symbol i = some e ∧ img.sectionOf e = some sec ∧
        sec.getData e.value = some r ∧
        s = .kernel (KernelSymbol.construct i (some r)) false) ∧
    (∀ s ∈ (AmdHsaCode.PullElfV2 img (AmdHsaCode.construct b)).2.symbols,
      s.IsKernelSymbol = true →
      ∃ i e sec r, img.symbol i = some e ∧ img.sectionOf e = some sec ∧
        sec.getData (sub64 e.value sec.addr) = some r ∧
        s = .kernel (KernelSymbol.construct i (some r)) true) ∧
    (∀ (asserts : Bool) (img' : Image) (i : Nat) (v2 : Bool) (r : AmdKernelCode) (value : Mem),
      r.kernarg_segment_alignment < 32 →
      r.workgroup_group_segment_byte_size < 2 ^ 32 →
      r.workitem_private_segment_byte_size < 2 ^ 32 →
      Symbol.callGetInfo asserts img' (.kernel (KernelSymbol.construct i (some r)) v2)
          HSA_CODE_SYMBOL_INFO_KERNEL_KERNARG_SEGMENT_SIZE value =
        .ok (HSA_STATUS_SUCCESS, store32 value (r.kernarg_segment_byte_size % 2 ^ 32)) ∧
      Symbol.callGetInfo asserts img' (.kernel (KernelSymbol.construct i (some r)) v2)
          HSA_CODE_SYMBOL_INFO_KERNEL_KERNARG_SEGMENT_ALIGNMENT value =
        .ok (HSA_STATUS_SUCCESS, store32 value (2 ^ r.kernarg_segment_alignment)) ∧
      read32 (store32 value (2 ^ r.kernarg_segment_alignment)) =
        2 ^ r.kernarg_segment_alignment ∧
      Symbol.callGetInfo asserts img' (.kernel (KernelSymbol.construct i (some r)) v2)
          HSA_CODE_SYMBOL_INFO_KERNEL_GROUP_SEGMENT_SIZE value =
        .ok (HSA_STATUS_SUCCESS, store32 value r.workgroup_group_segment_byte_size) ∧
      Symbol.callGetInfo asserts img' (.kernel (KernelSymbol.construct i (some r)) v2)
          HSA_CODE_SYMBOL_INFO_KERNEL_PRIVATE_SEGMENT_SIZE value =
        .ok (HSA_STATUS_SUCCESS, store32 value r.workitem_private_segment_byte_size) ∧
      Symbol.callGetInfo asserts img' (.kernel (KernelSymbol.construct i (some r)) v2)
          HSA_CODE_SYMBOL_INFO_KERNEL_DYNAMIC_CALLSTACK value =
        .ok (HSA_STATUS_SUCCESS, storeBool value (r.kernel_code_properties.testBit 20))) ∧
    (∀ (img' : Image) (c : AmdHsaCode),
      ∃ t, (AmdHsaCode.PullElf img' c).2.symbols = c.symbols ++ t) := by
  refine ⟨?_, ?_, ?_, fun img' c => (PullElf_appends img' c).1⟩
  · intro s hs hk
    unfold AmdHsaCode.PullElfV1 at hs
    simp only at hs
    rcases pullSymbols_mem _ _ _ s hs with h | ⟨p, hp, hbody⟩
    · rw [(loops_out_symbols isLoadTypeV1 isDataSectionV1 ".hsatext" img
        (AmdHsaCode.construct b)).2] at h
      simp [AmdHsaCode.construct] at h
    · obtain ⟨sec, r, h1, h2, h3⟩ := pullSymbolV1_kernel img p.1 p.2 s hbody hk
      refine ⟨p.1, p.2, sec, r, ?_, h1, h2, h3⟩
      have := List.mem_enum_iff_getElem?.mp hp
      simpa [Image.symbol] using this
  · intro s hs hk
    unfold AmdHsaCode.PullElfV2 at hs
    simp only at hs
    rcases pullSymbols_mem _ _ _ s hs with h | ⟨p, hp, hbody⟩
    · rw [(loops_out_symbols isLoadTypeV2 isDataSectionV2 ".text" img
        (AmdHsaCode.construct b)).2] at h
      simp [AmdHsaCode.construct] at h
    · obtain ⟨sec, r, h1, h2, h3⟩ := pullSymbolV2_kernel img p.1 p.2 s hbody hk
      refine ⟨p.1, p.2, sec, r, ?_, h1, h2, h3⟩
      have := List.mem_enum_iff_getElem?.mp hp
      simpa [Image.symbol] using this
  · intro asserts img' i v2 r value ha hg hp
    have hpow : 2 ^ r.kernarg_segment_alignment < 2 ^ 32 :=
      Nat.pow_lt_pow_right (by norm_num) ha
    have hal : 1 <<< r.kernarg_segment_alignment % 2 ^ 32 = 2 ^ r.kernarg_segment_alignment := by
      rw [Nat.one_shiftLeft, Nat.mod_eq_of_lt hpow]
    have hdyn : decide (isDynamicCallstackBits r.kernel_code_properties ≠ 0) =
        r.kernel_code_properties.testBit 20 := by
      rw [Bool.eq_iff_iff, decide_eq_true_eq]
      exact isDynamicCallstackBits_ne_zero _
    refine ⟨?_, ?_, ?_, ?_, ?_, ?_⟩
    · simp [Symbol.callGetInfo, KernelSymbol.GetInfo, KernelSymbol.construct, pure, Except.pure]
    · simp only [Symbol.callGetInfo, KernelSymbol.GetInfo, KernelSymbol.construct, pure,
        Except.pure, hal]
    · rw [read32_store32, Nat.mod_eq_of_lt hpow]
    · simp only [Symbol.callGetInfo, KernelSymbol.GetInfo, KernelSymbol.construct, pure,
        Except.pure, Nat.mod_eq_of_lt hg]
    · simp only [Symbol.callGetInfo, KernelSymbol.GetInfo, KernelSymbol.construct, pure,
        Except.pure, Nat.mod_eq_of_lt hp]
    · simp only [Symbol.callGetInfo, KernelSymbol.GetInfo, KernelSymbol.construct, pure,
        Except.pure, hdyn]

/-- C12, amended, at the kernel of the V1 sample image: its record has kernarg
size 24, alignment exponent 4, group size 64, private size 8. -/
theorem C12_kernel_attributes_witness :
    (∃ i e sec r, sampleImageV1.symbol i = some e ∧ sampleImageV1.sectionOf e = some sec ∧
      sec.getData e.value = some r ∧
      Symbol.kernel (KernelSymbol.construct 0 (some sampleAkc)) false =
        .kernel (KernelSymbol.construct i (some r)) false) ∧
    Symbol.callGetInfo true sampleImageV1
        (.kernel (KernelSymbol.construct 0 (some sampleAkc)) false)
        HSA_CODE_SYMBOL_INFO_KERNEL_KERNARG_SEGMENT_ALIGNMENT (fun _ => 120) =
      .ok (HSA_STATUS_SUCCESS, store32 (fun _ => 120) (2 ^ 4)) :=
  ⟨(C12_kernel_attributes sampleImageV1 false).1
      (.kernel (KernelSymbol.construct 0 (some sampleAkc)) false) (by decide) rfl,
   ((C12_kernel_attributes sampleImageV1 false).2.2.1 true sampleImageV1 0 false sampleAkc
      (fun _ => 120) (by decide) (by decide) (by decide)).2.1⟩

/-! ## C13: the ISA note -/

/-- Evaluates the code for C13 at `AddNoteIsa("AMD", "gfx900", 9, 0, 0)` on an
object without notes. The payload handed to the note area has 26 bytes: the
16-byte header, "AMD" with its NUL, and "gfx900" without its NUL, whereas the
header and both NUL-terminated strings take 27 bytes. The NUL of "gfx900" is
stored at index 26 of the buffer, outside the 26 bytes allocated (the byte
there was 170 before), and `GetNoteIsa` has to read index 26, outside the
payload, to delimit the architecture name. -/
theorem C13_AddNoteIsa_payload_short :
    (AmdHsaCode.AddNoteIsa (fun _ => 170) { Machine := EM_AMDGPU } "AMD" "gfx900" 9 0 0).notes =
      [{ name := "AMD", type := NT_AMDGPU_HSA_ISA,
         desc := [4, 0, 7, 0, 9, 0, 0, 0, 0, 0, 0, 0, 0, 0, 0, 0, 65, 77, 68, 0,
           103, 102, 120, 57, 48, 48] }] ∧
    AmdHsaCode.AddNoteIsa.size "AMD" "gfx900" = 26 ∧
    offsetof_vendor_and_architecture_name + ("AMD".length + 1) + ("gfx900".length + 1) = 27 ∧
    AmdHsaCode.AddNoteIsa.desc (fun _ => 170) "AMD" "gfx900" 9 0 0 26 = 0 ∧
    AmdHsaCode.GetNoteIsa
        (AmdHsaCode.AddNoteIsa (fun _ => 170) { Machine := EM_AMDGPU } "AMD" "gfx900" 9 0 0) =
      .error Fault.badPointer :=
  ⟨by decide, by decide, by decide, by decide, rfl⟩

/-! ## C14: the version note -/

/-- C14. Version note round trip: for 32-bit integers major and minor,
`AddNoteCodeObjectVersion(major, minor)` on an object with no version note,
followed by `GetNoteCodeObjectVersion`, returns success with exactly
(major, minor), and the string overload returns the decimal digits of major,
a dot, and the decimal digits of minor. -/
theorem C14_version_round_trip (img : Image) (major minor : Nat)
    (hM : major < 2 ^ 32) (hm : minor < 2 ^ 32)
    (hno : LacksNote img NT_AMDGPU_HSA_CODE_OBJECT_VERSION) :
    AmdHsaCode.GetNoteCodeObjectVersion (AmdHsaCode.AddNoteCodeObjectVersion img major minor) =
      some (major, minor) ∧
    AmdHsaCode.GetNoteCodeObjectVersionString
        (AmdHsaCode.AddNoteCodeObjectVersion img major minor) =
      some ((Nat.toDigits 10 major).asString ++ "." ++ (Nat.toDigits 10 minor).asString) := by
  have hget : ∀ k, k ≤ 8 →
      GetAmdNote (AmdHsaCode.AddNoteCodeObjectVersion img major minor)
        NT_AMDGPU_HSA_CODE_OBJECT_VERSION k =
      some (readBytes (store32At (store32At (fun _ => 0) 0 major) 4 minor) 8) := by
    intro k hk
    exact GetAmdNote_AddAmdNote img _ k _ 8 hno hk
  obtain ⟨h0, h4⟩ := le32_version_desc major minor hM hm
  constructor
  · simp only [AmdHsaCode.GetNoteCodeObjectVersion, hget 8 (Nat.le_refl _), h0, h4]
  · simp only [AmdHsaCode.GetNoteCodeObjectVersionString, sizeof_note_code_object_version_t,
      hget 8 (Nat.le_refl _), h0, h4, to_string, Nat.repr]

/-- C14 at the pair (2, 1) on an object without notes. -/
theorem C14_version_round_trip_witness :
    AmdHsaCode.GetNoteCodeObjectVersion
        (AmdHsaCode.AddNoteCodeObjectVersion { Machine := EM_AMDGPU } 2 1) = some (2, 1) ∧
    AmdHsaCode.GetNoteCodeObjectVersionString
        (AmdHsaCode.AddNoteCodeObjectVersion { Machine := EM_AMDGPU } 2 1) =
      some ((Nat.toDigits 10 2).asString ++ "." ++ (Nat.toDigits 10 1).asString) ∧
    (Nat.toDigits 10 2).asString ++ "." ++ (Nat.toDigits 10 1).asString = "2.1" :=
  ⟨(C14_version_round_trip { Machine := EM_AMDGPU } 2 1 (by decide) (by decide)
      (by intro n hn; cases hn)).1,
   (C14_version_round_trip { Machine := EM_AMDGPU } 2 1 (by decide) (by decide)
      (by intro n hn; cases hn)).2,
   by decide⟩

/-! ## C15: absent notes -/

/-- C15. An absent note is reported as not found and never replaced by a
default. For a code object lacking the version, ISA, HSAIL, producer or
producer-options note, the matching accessor returns false and produces no
output (both overloads for the version and ISA notes), and
`AmdHsaCode::GetInfo` for VERSION, ISA, MACHINE_MODEL, PROFILE or
DEFAULT_FLOAT_ROUNDING_MODE returns the invalid-code-object status and leaves
the destination memory unchanged. -/
theorem C15_absent_note (asserts : Bool) (img : Image) (value : Mem) :
    (LacksNote img NT_AMDGPU_HSA_CODE_OBJECT_VERSION →
      AmdHsaCode.GetNoteCodeObjectVersion img = none ∧
      AmdHsaCode.GetNoteCodeObjectVersionString img = none ∧
      AmdHsaCode.GetInfo asserts img HSA_CODE_OBJECT_INFO_VERSION value =
        .ok (HSA_STATUS_ERROR_INVALID_CODE_OBJECT, value)) ∧
    (LacksNote img NT_AMDGPU_HSA_ISA →
      AmdHsaCode.GetNoteIsa img = .ok none ∧
      AmdHsaCode.GetNoteIsaString img = .ok none ∧
      AmdHsaCode.GetInfo asserts img HSA_CODE_OBJECT_INFO_ISA value =
        .ok (HSA_STATUS_ERROR_INVALID_CODE_OBJECT, value)) ∧
    (LacksNote img NT_AMDGPU_HSA_HSAIL →
      AmdHsaCode.GetNoteHsail img = none ∧
      AmdHsaCode.GetInfo asserts img HSA_CODE_OBJECT_INFO_MACHINE_MODEL value =
        .ok (HSA_STATUS_ERROR_INVALID_CODE_OBJECT, value) ∧
      AmdHsaCode.GetInfo asserts img HSA_CODE_OBJECT_INFO_PROFILE value =
        .ok (HSA_STATUS_ERROR_INVALID_CODE_OBJECT, value) ∧
      AmdHsaCode.GetInfo asserts img HSA_CODE_OBJECT_INFO_DEFAULT_FLOAT_ROUNDING_MODE value =
        .ok (HSA_STATUS_ERROR_INVALID_CODE_OBJECT, value)) ∧
    (LacksNote img NT_AMDGPU_HSA_PRODUCER → AmdHsaCode.GetNoteProducer img = .ok none) ∧
    (LacksNote img NT_AMDGPU_HSA_PRODUCER_OPTIONS →
      AmdHsaCode.GetNoteProducerOptions img = .ok none) := by
  refine ⟨?_, ?_, ?_, ?_, ?_⟩
  · intro h
    have h8 := GetAmdNote_absent img _ 8 h
    have hs := GetAmdNote_absent img _ sizeof_note_code_object_version_t h
    have hstr : AmdHsaCode.GetNoteCodeObjectVersionString img = none := by
      simp only [AmdHsaCode.GetNoteCodeObjectVersionString, hs]
    refine ⟨?_, hstr, ?_⟩
    · simp only [AmdHsaCode.GetNoteCodeObjectVersion, h8]
    · simp only [AmdHsaCode.GetInfo, hstr, pure, Except.pure]
  · intro h
    have hs := GetAmdNote_absent img _ sizeof_note_isa_t h
    have hisa : AmdHsaCode.GetNoteIsa img = .ok none := by
      simp only [AmdHsaCode.GetNoteIsa, hs]
    have hstr : AmdHsaCode.GetNoteIsaString img = .ok none := by
      simp only [AmdHsaCode.GetNoteIsaString, hisa, bind, Except.bind, pure, Except.pure]
    refine ⟨hisa, hstr, ?_⟩
    simp only [AmdHsaCode.GetInfo, hstr, bind, Except.bind, pure, Except.pure]
  · intro h
    have hs := GetAmdNote_absent img _ sizeof_note_hsail_t h
    have hh : AmdHsaCode.GetNoteHsail img = none := by
      simp only [AmdHsaCode.GetNoteHsail, hs]
    refine ⟨hh, ?_, ?_, ?_⟩ <;> simp only [AmdHsaCode.GetInfo, hh, pure, Except.pure]
  · intro h
    simp only [AmdHsaCode.GetNoteProducer, GetAmdNote_absent img _ sizeof_note_producer_t h]
  · intro h
    simp only [AmdHsaCode.GetNoteProducerOptions,
      GetAmdNote_absent img _ sizeof_note_producer_options_t h]

/-- C15 at the V1 sample image, which carries a version note only: ISA and
PROFILE are refused and the destination keeps its bytes. -/
theorem C15_absent_note_witness :
    AmdHsaCode.GetInfo true sampleImageV1 HSA_CODE_OBJECT_INFO_ISA (fun _ => 120) =
      .ok (HSA_STATUS_ERROR_INVALID_CODE_OBJECT, fun _ => 120) ∧
    AmdHsaCode.GetInfo true sampleImageV1 HSA_CODE_OBJECT_INFO_PROFILE (fun _ => 120) =
      .ok (HSA_STATUS_ERROR_INVALID_CODE_OBJECT, fun _ => 120) ∧
    AmdHsaCode.GetNoteProducer sampleImageV1 = .ok none :=
  ⟨((C15_absent_note true sampleImageV1 (fun _ => 120)).2.1 (by unfold LacksNote; decide)).2.2,
   ((C15_absent_note true sampleImageV1 (fun _ => 120)).2.2.1
      (by unfold LacksNote; decide)).2.2.1,
   (C15_absent_note true sampleImageV1 (fun _ => 120)).2.2.2.1 (by unfold LacksNote; decide)⟩

/-! ## C16: bounded string attributes -/

/-- C16. Bounded string attributes: for a code object carrying the needed note,
`GetInfo(VERSION)` and `GetInfo(ISA)` return success and write exactly the 64
bytes at the destination: the first min(63, n) bytes of the n-byte version or
ISA string, then zero bytes up to index 63, and nothing from index 64 on. So
the result is NUL-terminated, holds at most 63 data bytes, and is the full
string followed by a NUL whenever n <= 63. -/
theorem C16_bounded_string_attributes (asserts : Bool) (img : Image) (value : Mem) :
    (∀ s, AmdHsaCode.GetNoteCodeObjectVersionString img = some s →
      ∃ v, AmdHsaCode.GetInfo asserts img HSA_CODE_OBJECT_INFO_VERSION value =
          .ok (HSA_STATUS_SUCCESS, v) ∧
        IsBoundedString64 value v s ∧ v 63 = 0 ∧
        (s.length ≤ 63 → readBytes v (s.length + 1) = bytesOf s ++ [0])) ∧
    (∀ s, AmdHsaCode.GetNoteIsaString img = .ok (some s) →
      ∃ v, AmdHsaCode.GetInfo asserts img HSA_CODE_OBJECT_INFO_ISA value =
          .ok (HSA_STATUS_SUCCESS, v) ∧
        IsBoundedString64 value v s ∧ v 63 = 0 ∧
        (s.length ≤ 63 → readBytes v (s.length + 1) = bytesOf s ++ [0])) := by
  constructor
  · intro s hs
    refine ⟨storeString64 value s, ?_, storeString64_bounded value s,
      (IsBoundedString64.terminated value _ s (storeString64_bounded value s)).1,
      (IsBoundedString64.terminated value _ s (storeString64_bounded value s)).2⟩
    simp only [AmdHsaCode.GetInfo, hs, pure, Except.pure]
  · intro s hs
    refine ⟨storeString64 value s, ?_, storeString64_bounded value s,
      (IsBoundedString64.terminated value _ s (storeString64_bounded value s)).1,
      (IsBoundedString64.terminated value _ s (storeString64_bounded value s)).2⟩
    simp only [AmdHsaCode.GetInfo, hs, bind, Except.bind, pure, Except.pure]

/-- C16 at the V2 sample image, whose version string is "2.1", and at the image
with a well-formed ISA note, whose ISA string is "AMD:gfx900:9:0:0". -/
theorem C16_bounded_string_attributes_witness :
    (∃ v, AmdHsaCode.GetInfo true sampleImageV2 HSA_CODE_OBJECT_INFO_VERSION (fun _ => 120) =
        .ok (HSA_STATUS_SUCCESS, v) ∧
      IsBoundedString64 (fun _ => 120) v "2.1" ∧ v 63 = 0 ∧
      ("2.1".length ≤ 63 → readBytes v ("2.1".length + 1) = bytesOf "2.1" ++ [0])) ∧
    (∃ v, AmdHsaCode.GetInfo true sampleImageIsa HSA_CODE_OBJECT_INFO_ISA (fun _ => 120) =
        .ok (HSA_STATUS_SUCCESS, v) ∧
      IsBoundedString64 (fun _ => 120) v "AMD:gfx900:9:0:0" ∧ v 63 = 0 ∧
      ("AMD:gfx900:9:0:0".length ≤ 63 →
        readBytes v ("AMD:gfx900:9:0:0".length + 1) = bytesOf "AMD:gfx900:9:0:0" ++ [0])) :=
  ⟨(C16_bounded_string_attributes true sampleImageV2 (fun _ => 120)).1 "2.1" (by decide),
   (C16_bounded_string_attributes true sampleImageIsa (fun _ => 120)).2 "AMD:gfx900:9:0:0"
      rfl⟩

/-! ## C17: lookup by mangled name -/

/-- C17. `GetSymbol(module, name)` matches by mangled name. On a code object
whose symbols all resolve in the image, with `mname` the mangled name of the
module (or of the empty string for a null module) and the symbol name: either
some symbol has raw name `mname`, and then `GetSymbol` returns success with the
handle of the first such symbol in list order, which is the symbol `FindSymbol`
returns for `mname`; or no symbol has that raw name, and then `GetSymbol`
returns the invalid-symbol-name status, leaves `*s` alone, and `FindSymbol`
returns null. Hence the invalid-symbol-name status is returned exactly when no
symbol in the list has that raw name. -/
theorem C17_GetSymbol_by_mangled_name (img : Image) (c : AmdHsaCode)
    (module_name : Option String) (symbol_name : String) (s : Nat)
    (hres : ∀ sym ∈ c.symbols, (img.symbol sym.elfSym).isSome = true) :
    ((∃ i sym, c.symbols[i]? = some sym ∧
        sym.Name img = .ok (AmdHsaCode.MangleSymbolName (module_name.getD "") symbol_name) ∧
        (∀ j symj, j < i → c.symbols[j]? = some symj →
          symj.Name img ≠ .ok (AmdHsaCode.MangleSymbolName (module_name.getD "") symbol_name)) ∧
        AmdHsaCode.GetSymbol img c module_name symbol_name s = .ok (HSA_STATUS_SUCCESS, i) ∧
        AmdHsaCode.FindSymbol img c
          (AmdHsaCode.MangleSymbolName (module_name.getD "") symbol_name) = .ok (some i)) ∨
      ((∀ sym ∈ c.symbols,
          sym.Name img ≠ .ok (AmdHsaCode.MangleSymbolName (module_name.getD "") symbol_name)) ∧
        AmdHsaCode.GetSymbol img c module_name symbol_name s =
          .ok (HSA_STATUS_ERROR_INVALID_SYMBOL_NAME, s) ∧
        AmdHsaCode.FindSymbol img c
          (AmdHsaCode.MangleSymbolName (module_name.getD "") symbol_name) = .ok none)) ∧
    ((∃ s', AmdHsaCode.GetSymbol img c module_name symbol_name s =
        .ok (HSA_STATUS_ERROR_INVALID_SYMBOL_NAME, s')) ↔
      ∀ sym ∈ c.symbols,
        sym.Name img ≠ .ok (AmdHsaCode.MangleSymbolName (module_name.getD "") symbol_name)) := by
  have hres' : ∀ sym ∈ c.symbols, ∃ n, sym.Name img = .ok n := by
    intro sym hsym
    obtain ⟨e, he⟩ := Option.isSome_iff_exists.mp (hres sym hsym)
    exact ⟨e.name, Symbol.Name_of_resolves img sym e he⟩
  have hm : (match module_name with
      | some m => m
      | none => "") = module_name.getD "" := by
    cases module_name <;> rfl
  have key := symbolLoops_spec img
    (AmdHsaCode.MangleSymbolName (module_name.getD "") symbol_name) s c.symbols 0 hres'
  have hG : AmdHsaCode.GetSymbol img c module_name symbol_name s =
      getSymbolLoop img (AmdHsaCode.MangleSymbolName (module_name.getD "") symbol_name) s
        (c.symbols.enumFrom 0) := by
    simp only [AmdHsaCode.GetSymbol, hm, List.enum]
  have hF : AmdHsaCode.FindSymbol img c
      (AmdHsaCode.MangleSymbolName (module_name.getD "") symbol_name) =
      findSymbolLoop img (AmdHsaCode.MangleSymbolName (module_name.getD "") symbol_name)
        (c.symbols.enumFrom 0) := rfl
  rw [hG, hF]
  simp only [Nat.zero_add] at key
  refine ⟨key, ?_⟩
  rcases key with ⟨i, sym, hi, hname, -, hg, -⟩ | ⟨hnone, hg, -⟩
  · constructor
    · rintro ⟨s', hs'⟩
      rw [hg] at hs'
      cases hs'
    · intro hno
      exact absurd hname (hno sym (List.mem_iff_getElem?.mpr ⟨i, hi⟩))
  · exact ⟨fun _ => hnone, fun _ => ⟨s, hg⟩⟩

/-- C17 at the symbols ingested from the V1 sample image: ("mod", "var") finds
the symbol in slot 1, and an unknown name is refused. -/
theorem C17_GetSymbol_by_mangled_name_witness :
    ((∃ i sym, (AmdHsaCode.PullElfV1 sampleImageV1 (AmdHsaCode.construct false)).2.symbols[i]? =
          some sym ∧
        sym.Name sampleImageV1 =
          .ok (AmdHsaCode.MangleSymbolName ((some "mod").getD "") "var") ∧
        (∀ j symj, j < i →
          (AmdHsaCode.PullElfV1 sampleImageV1 (AmdHsaCode.construct false)).2.symbols[j]? =
            some symj →
          symj.Name sampleImageV1 ≠
            .ok (AmdHsaCode.MangleSymbolName ((some "mod").getD "") "var")) ∧
        AmdHsaCode.GetSymbol sampleImageV1
          (AmdHsaCode.PullElfV1 sampleImageV1 (AmdHsaCode.construct false)).2
          (some "mod") "var" 99 = .ok (HSA_STATUS_SUCCESS, i) ∧
        AmdHsaCode.FindSymbol sampleImageV1
          (AmdHsaCode.PullElfV1 sampleImageV1 (AmdHsaCode.construct false)).2
          (AmdHsaCode.MangleSymbolName ((some "mod").getD "") "var") = .ok (some i)) ∨
      ((∀ sym ∈ (AmdHsaCode.PullElfV1 sampleImageV1 (AmdHsaCode.construct false)).2.symbols,
          sym.Name sampleImageV1 ≠
            .ok (AmdHsaCode.MangleSymbolName ((some "mod").getD "") "var")) ∧
        AmdHsaCode.GetSymbol sampleImageV1
          (AmdHsaCode.PullElfV1 sampleImageV1 (AmdHsaCode.construct false)).2
          (some "mod") "var" 99 = .ok (HSA_STATUS_ERROR_INVALID_SYMBOL_NAME, 99) ∧
        AmdHsaCode.FindSymbol sampleImageV1
          (AmdHsaCode.PullElfV1 sampleImageV1 (AmdHsaCode.construct false)).2
          (AmdHsaCode.MangleSymbolName ((some "mod").getD "") "var") = .ok none)) ∧
    AmdHsaCode.GetSymbol sampleImageV1
        (AmdHsaCode.PullElfV1 sampleImageV1 (AmdHsaCode.construct false)).2
        (some "mod") "var" 99 = .ok (HSA_STATUS_SUCCESS, 1) :=
  ⟨(C17_GetSymbol_by_mangled_name sampleImageV1
      (AmdHsaCode.PullElfV1 sampleImageV1 (AmdHsaCode.construct false)).2 (some "mod") "var" 99
      (by decide)).1,
   rfl⟩

/-! ## C18: iteration with short circuit -/

/-- C18. `IterateSymbols` calls the callback on the symbols in list order, once
each, up to and including the first symbol for which the callback returns a
non-success status, then returns that status without calling the callback on
any later symbol; it returns success if the callback succeeded on every symbol,
the empty list included. With `f` the first slot whose call does not succeed,
the call returns the status of that call and leaves behind `data` the state
after the calls on slots `0, …, f` and no other; when every call succeeds it
returns success and leaves the state after the calls on all slots. -/
theorem C18_IterateSymbols_short_circuit {σ : Type} (c : AmdHsaCode) (code_object : Nat)
    (callback : Nat → Nat → σ → hsa_status_t × σ) (data : σ) :
    (∀ f, f < c.symbols.length →
      (∀ j, j < f → statusOfCall code_object callback data j = HSA_STATUS_SUCCESS) →
      statusOfCall code_object callback data f ≠ HSA_STATUS_SUCCESS →
      AmdHsaCode.IterateSymbols c code_object callback data =
        (statusOfCall code_object callback data f,
          stateAfterCalls code_object callback data (f + 1))) ∧
    ((∀ j, j < c.symbols.length →
        statusOfCall code_object callback data j = HSA_STATUS_SUCCESS) →
      AmdHsaCode.IterateSymbols c code_object callback data =
        (HSA_STATUS_SUCCESS, stateAfterCalls code_object callback data c.symbols.length)) ∧
    (c.symbols = [] →
      AmdHsaCode.IterateSymbols c code_object callback data = (HSA_STATUS_SUCCESS, data)) := by
  have key := iterateSymbolsLoop_spec code_object callback c.symbols 0 data
  simp only [Nat.zero_add, ← stateAfterCalls_eq_stateFrom] at key
  refine ⟨key.1, key.2, ?_⟩
  intro hnil
  simp only [AmdHsaCode.IterateSymbols, hnil]
  rfl

/-- C18 at the symbols ingested from the V1 sample image, with a callback that
fails on the first symbol: the failure is returned and the second symbol is
never visited; a callback that fails on neither visits both and succeeds. -/
theorem C18_IterateSymbols_short_circuit_witness :
    AmdHsaCode.IterateSymbols
        (AmdHsaCode.PullElfV1 sampleImageV1 (AmdHsaCode.construct false)).2 4096
        (sampleCallback 0) [] = (HSA_STATUS_ERROR, [0]) ∧
    AmdHsaCode.IterateSymbols
        (AmdHsaCode.PullElfV1 sampleImageV1 (AmdHsaCode.construct false)).2 4096
        (sampleCallback 7) [] = (HSA_STATUS_SUCCESS, [0, 1]) :=
  ⟨(C18_IterateSymbols_short_circuit
      (AmdHsaCode.PullElfV1 sampleImageV1 (AmdHsaCode.construct false)).2 4096
      (sampleCallback 0) []).1 0 (by decide) (fun j hj => absurd hj (Nat.not_lt_zero j))
      (by decide),
   (C18_IterateSymbols_short_circuit
      (AmdHsaCode.PullElfV1 sampleImageV1 (AmdHsaCode.construct false)).2 4096
      (sampleCallback 7) []).2.1 (by decide)⟩

/-! ## C19: cache resolve -/

/-- C19. Cache resolve, sequentially, for every handle `h` not yet cached. If
ingestion of the buffer `h` denotes succeeds, `FromHandle(h)` returns the code
object built by it and stores it under `h`, leaving every other entry as it
was; after any further run of `FromHandle` calls with no eviction, `FromHandle(h)`
returns that same object and leaves the map alone whatever the substrate would
answer, so ingestion is not run again. If ingestion fails, `FromHandle(h)`
returns null with the map unchanged, and a later `FromHandle(h)` runs ingestion
again: it returns the object of that later ingestion when it succeeds. -/
theorem C19_FromHandle_cache (E : ElfSubstrate) (d : Bool) (m : AmdHsaCodeManager) (h : Nat)
    (hmiss : m.codeMap h = none) :
    ((AmdHsaCode.InitAsBuffer E (AmdHsaCode.construct d) h 0).1 = true →
      (AmdHsaCodeManager.FromHandle E d m h).1 =
        some (AmdHsaCode.InitAsBuffer E (AmdHsaCode.construct d) h 0).2 ∧
      (AmdHsaCodeManager.FromHandle E d m h).2.codeMap h =
        some (AmdHsaCode.InitAsBuffer E (AmdHsaCode.construct d) h 0).2 ∧
      (∀ h', h' ≠ h → (AmdHsaCodeManager.FromHandle E d m h).2.codeMap h' = m.codeMap h') ∧
      (∀ (Es : Nat → ElfSubstrate) (hs : List Nat) (E' : ElfSubstrate),
        AmdHsaCodeManager.FromHandle E' d
            (resolveAll Es d (AmdHsaCodeManager.FromHandle E d m h).2 hs) h =
          (some (AmdHsaCode.InitAsBuffer E (AmdHsaCode.construct d) h 0).2,
            resolveAll Es d (AmdHsaCodeManager.FromHandle E d m h).2 hs))) ∧
    ((AmdHsaCode.InitAsBuffer E (AmdHsaCode.construct d) h 0).1 = false →
      AmdHsaCodeManager.FromHandle E d m h = (none, m) ∧
      (∀ E' : ElfSubstrate,
        (AmdHsaCode.InitAsBuffer E' (AmdHsaCode.construct d) h 0).1 = true →
        (AmdHsaCodeManager.FromHandle E' d (AmdHsaCodeManager.FromHandle E d m h).2 h).1 =
          some (AmdHsaCode.InitAsBuffer E' (AmdHsaCode.construct d) h 0).2) ∧
      (∀ E' : ElfSubstrate,
        (AmdHsaCode.InitAsBuffer E' (AmdHsaCode.construct d) h 0).1 = false →
        (AmdHsaCodeManager.FromHandle E' d (AmdHsaCodeManager.FromHandle E d m h).2 h).1 =
          none)) := by
  constructor
  · intro hok
    have hstored : (AmdHsaCodeManager.FromHandle E d m h).2.codeMap h =
        some (AmdHsaCode.InitAsBuffer E (AmdHsaCode.construct d) h 0).2 := by
      simp [AmdHsaCodeManager.FromHandle, hmiss, hok]
    refine ⟨?_, hstored, ?_, ?_⟩
    · simp [AmdHsaCodeManager.FromHandle, hmiss, hok]
    · intro h' hne
      simp [AmdHsaCodeManager.FromHandle, hmiss, hok, hne]
    · intro Es hs E'
      exact FromHandle_hit E' d _ h _ (resolveAll_keeps Es d _ hs h _ hstored)
  · intro hfail
    have hsame : AmdHsaCodeManager.FromHandle E d m h = (none, m) := by
      simp [AmdHsaCodeManager.FromHandle, hmiss, hfail]
    refine ⟨hsame, ?_, ?_⟩
    · intro E' hok
      rw [hsame]
      simp [AmdHsaCodeManager.FromHandle, hmiss, hok]
    · intro E' hbad
      rw [hsame]
      simp [AmdHsaCodeManager.FromHandle, hmiss, hbad]

/-- C19 at the empty cache and handle 4096: with the V1 sample image behind the
handle the object is built and stored; a later resolve answers from the cache
even over a substrate whose loads all fail. -/
theorem C19_FromHandle_cache_witness :
    emptyManager.codeMap 4096 = none ∧
    (AmdHsaCode.InitAsBuffer (sampleSubstrate sampleImageV1) (AmdHsaCode.construct true)
      4096 0).1 = true ∧
    AmdHsaCodeManager.FromHandle failingSubstrate true
        (resolveAll (fun _ => failingSubstrate) true
          (AmdHsaCodeManager.FromHandle (sampleSubstrate sampleImageV1) true
            emptyManager 4096).2 [8192]) 4096 =
      (some (AmdHsaCode.InitAsBuffer (sampleSubstrate sampleImageV1)
          (AmdHsaCode.construct true) 4096 0).2,
        resolveAll (fun _ => failingSubstrate) true
          (AmdHsaCodeManager.FromHandle (sampleSubstrate sampleImageV1) true
            emptyManager 4096).2 [8192]) ∧
    AmdHsaCodeManager.FromHandle failingSubstrate true emptyManager 4096 =
      (none, emptyManager) :=
  ⟨rfl, by decide,
   ((C19_FromHandle_cache (sampleSubstrate sampleImageV1) true emptyManager 4096 rfl).1
      (by decide)).2.2.2 (fun _ => failingSubstrate) [8192] failingSubstrate,
   ((C19_FromHandle_cache failingSubstrate true emptyManager 4096 rfl).2 (by decide)).1⟩

/-! ## C20: cache evict -/

/-- C20. Cache evict: for every handle `h`, `Destroy(h)` returns success;
afterwards `h` is not in the map and every other entry is unchanged; if `h` was
not cached, the map is unchanged altogether. -/
theorem C20_Destroy_evicts (m : AmdHsaCodeManager) (h : Nat) :
    (AmdHsaCodeManager.Destroy m h).1 = true ∧
    (AmdHsaCodeManager.Destroy m h).2.codeMap h = none ∧
    (∀ h', h' ≠ h → (AmdHsaCodeManager.Destroy m h).2.codeMap h' = m.codeMap h') ∧
    (m.codeMap h = none → (AmdHsaCodeManager.Destroy m h).2 = m) := by
  unfold AmdHsaCodeManager.Destroy
  cases hm : m.codeMap h with
  | none => exact ⟨rfl, hm, fun _ _ => rfl, fun _ => rfl⟩
  | some code =>
    refine ⟨rfl, ?_, ?_, ?_⟩
    · simp
    · intro h' hne
      simp [hne]
    · intro hc
      cases hc

/-- C20 on a cache holding the V1 sample under handle 4096: evicting 4096
succeeds and unmaps it; evicting the absent handle 8192 succeeds and keeps the
entry of 4096. -/
theorem C20_Destroy_evicts_witness :
    (AmdHsaCodeManager.Destroy
      (AmdHsaCodeManager.FromHandle (sampleSubstrate sampleImageV1) true emptyManager 4096).2
      4096).1 = true ∧
    (AmdHsaCodeManager.Destroy
      (AmdHsaCodeManager.FromHandle (sampleSubstrate sampleImageV1) true emptyManager 4096).2
      4096).2.codeMap 4096 = none ∧
    (AmdHsaCodeManager.Destroy
      (AmdHsaCodeManager.FromHandle (sampleSubstrate sampleImageV1) true emptyManager 4096).2
      8192).2 =
      (AmdHsaCodeManager.FromHandle (sampleSubstrate sampleImageV1) true emptyManager 4096).2 :=
  ⟨(C20_Destroy_evicts _ 4096).1, (C20_Destroy_evicts _ 4096).2.1,
   (C20_Destroy_evicts
      (AmdHsaCodeManager.FromHandle (sampleSubstrate sampleImageV1) true emptyManager 4096).2
      8192).2.2.2 rfl⟩

/-! ## C22: InitNew on an initialised object -/

/-- C22. `InitNew` fails if the object is already initialised. On a code object
that has an image attached, `InitNew(xnack)` returns false and leaves the
object, hence its image and all registries, as it was; an earlier `InitNew`,
`LoadFromFile`, `InitFromBuffer`, `InitAsBuffer`, or `InitAsHandle` on a
non-null handle, leaves an image attached. On a fresh object `InitNew` asks the
substrate for a new image with machine `EM_AMDGPU` and header flags that
contain the XNACK bit exactly when `xnack` is true, attaches the image the
substrate made, returns the substrate's verdict and leaves the registries
alone; with a substrate that gives the image the identity it is asked for, the
attached image has the AMDGPU machine identity and its flags contain the XNACK
bit exactly when `xnack` is true. -/
theorem C22_InitNew_once (B : ElfBuilder) (c : AmdHsaCode) (xnack : Bool) :
    (c.img.isSome = true → AmdHsaCode.InitNew B c xnack = (false, c)) ∧
    ((AmdHsaCode.InitNew B c xnack).2.img.isSome = true ∧
      (∀ filename, (AmdHsaCode.LoadFromFile B.toElfSubstrate c filename).2.img.isSome = true) ∧
      (∀ buffer size,
        (AmdHsaCode.InitFromBuffer B.toElfSubstrate c buffer size).2.img.isSome = true) ∧
      (∀ buffer size,
        (AmdHsaCode.InitAsBuffer B.toElfSubstrate c buffer size).2.img.isSome = true) ∧
      (∀ handle, handle ≠ 0 →
        (AmdHsaCode.InitAsHandle B.toElfSubstrate c handle).2.img.isSome = true)) ∧
    (c.img = none →
      ∃ flags, (flags &&& EF_AMDGPU_XNACK ≠ 0 ↔ xnack = true) ∧
        (AmdHsaCode.InitNew B c xnack).1 =
          (B.initNew B.NewElf64Image EM_AMDGPU ET_EXEC ELFOSABI_AMDGPU_HSA
            ELFABIVERSION_AMDGPU_HSA flags).1 ∧
        (AmdHsaCode.InitNew B c xnack).2.img =
          some (B.initNew B.NewElf64Image EM_AMDGPU ET_EXEC ELFOSABI_AMDGPU_HSA
            ELFABIVERSION_AMDGPU_HSA flags).2 ∧
        (AmdHsaCode.InitNew B c xnack).2.symbols = c.symbols ∧
        (AmdHsaCode.InitNew B c xnack).2.dataSegments = c.dataSegments ∧
        (AmdHsaCode.InitNew B c xnack).2.dataSections = c.dataSections ∧
        (AmdHsaCode.InitNew B c xnack).2.relocationSections = c.relocationSections ∧
        ((∀ i m t o a f, (B.initNew i m t o a f).1 = true →
            (B.initNew i m t o a f).2.Machine = m ∧ (B.initNew i m t o a f).2.e_flags = f) →
          (AmdHsaCode.InitNew B c xnack).1 = true →
          ∃ img, (AmdHsaCode.InitNew B c xnack).2.img = some img ∧ img.Machine = EM_AMDGPU ∧
            (img.e_flags &&& EF_AMDGPU_XNACK ≠ 0 ↔ xnack = true))) := by
  refine ⟨?_, ⟨?_, ?_, ?_, ?_, ?_⟩, ?_⟩
  · intro h
    obtain ⟨img, himg⟩ := Option.isSome_iff_exists.mp h
    simp only [AmdHsaCode.InitNew, himg]
  · cases hc : c.img with
    | none => rw [InitNew_fresh B c xnack hc]; rfl
    | some img => simp [AmdHsaCode.InitNew, hc]
  · intro filename
    simp only [AmdHsaCode.LoadFromFile, attachAndPull_img, Option.isSome_some]
  · intro buffer size
    simp only [AmdHsaCode.InitFromBuffer, attachAndPull_img, Option.isSome_some]
  · intro buffer size
    simp only [AmdHsaCode.InitAsBuffer, attachAndPull_img, Option.isSome_some]
  · intro handle hne
    simp only [AmdHsaCode.InitAsHandle, hne, if_false, AmdHsaCode.InitAsBuffer,
      attachAndPull_img, Option.isSome_some]
  · intro hc
    refine ⟨if xnack then 0 ||| EF_AMDGPU_XNACK else 0, ?_, ?_⟩
    · cases xnack <;> simp [EF_AMDGPU_XNACK]
    · rw [InitNew_fresh B c xnack hc]
      refine ⟨rfl, rfl, rfl, rfl, rfl, rfl, ?_⟩
      intro hB hok
      obtain ⟨hm, hf⟩ := hB _ _ _ _ _ _ hok
      refine ⟨_, rfl, hm, ?_⟩
      rw [hf]
      cases xnack <;> simp [EF_AMDGPU_XNACK]

/-- C22 at a fresh object over the substrate of section 6, with and without
XNACK, and at the object `InitNew` has just initialised. -/
theorem C22_InitNew_once_witness :
    (∃ img, (AmdHsaCode.InitNew (specBuilder failingSubstrate) (AmdHsaCode.construct false)
        true).2.img = some img ∧ img.Machine = EM_AMDGPU ∧
      (img.e_flags &&& EF_AMDGPU_XNACK ≠ 0 ↔ true = true)) ∧
    AmdHsaCode.InitNew (specBuilder failingSubstrate)
        (AmdHsaCode.InitNew (specBuilder failingSubstrate) (AmdHsaCode.construct false) true).2
        false =
      (false,
        (AmdHsaCode.InitNew (specBuilder failingSubstrate) (AmdHsaCode.construct false) true).2) :=
  ⟨by
    obtain ⟨flags, -, -, -, -, -, -, -, h⟩ :=
      (C22_InitNew_once (specBuilder failingSubstrate) (AmdHsaCode.construct false) true).2.2 rfl
    exact h (fun i m t o a f _ => ⟨rfl, rfl⟩) rfl,
   (C22_InitNew_once (specBuilder failingSubstrate)
      (AmdHsaCode.InitNew (specBuilder failingSubstrate) (AmdHsaCode.construct false) true).2
      false).1 rfl⟩

/-! ## C23: HsaDataSection, get or create -/

/-- Fails as stated (C23): on a new object no segment slot is initialised.
Built with assertions, the first `HsaDataSection` call for the category
DATA_GLOBAL_PROGRAM aborts at `assert(segment)`; built without, it creates the
section ".hsadata_global_program" with no owning segment and creates no
segment: the segment table of the image stays empty. -/
theorem C23_counterexample :
    AmdHsaCode.HsaDataSection true sampleBuilder sampleNew AMDGPU_HSA_DATA_GLOBAL_PROGRAM false =
      .error Fault.assertFailed ∧
    (AmdHsaCode.HsaDataSection false sampleBuilder sampleNew AMDGPU_HSA_DATA_GLOBAL_PROGRAM
        false).map (fun r => (r.1, r.2.img.map (fun i =>
          (i.segments, i.sections.map (Option.map (fun s => (s.Name, s.segment))))))) =
      .ok (some 0, some ([], [some (".hsadata_global_program", none)])) :=
  ⟨rfl, rfl⟩

/-- C23, amended. `HsaDataSection` is a get-or-create accessor for the section
only; the owning segment has to be in its slot already (the code asserts it),
put there by `InitHsaSectionSegment`. Over the substrate of section 6, for every
category and every value of `combineSegments`: on an object with an image, no
cached section for the category and the segment `seg` in the slot of the
category, the first call creates one section, at the end of the section table,
with the category's name, type and flags and `seg` as owning segment, creates
no segment, appends the section to the data-section list, caches and returns
it; every later call for the category, on this or any later state that still
caches the section and over any substrate, returns the same section and leaves
the object as it is. -/
theorem C23_HsaDataSection_get_or_create (asserts : Bool) (E : ElfSubstrate) (c : AmdHsaCode)
    (img : Image) (sec : amdgpu_hsa_elf_section_t) (combineSegments : Bool) (seg : Nat)
    (himg : c.img = some img) (hsec : c.hsaSections sec = none)
    (hseg : c.hsaSegments (AmdHsaElfSectionSegment sec)
      (combineSegments || !IsAmdHsaElfSectionROData sec) = some seg) :
    (∃ c1 img1,
      AmdHsaCode.HsaDataSection asserts (specBuilder E) c sec combineSegments =
        .ok (some img.sections.length, c1) ∧
      c1.img = some img1 ∧
      img1.sections = img.sections ++
        [some { Name := (hsaDataSectionArgs sec).1, type := (hsaDataSectionArgs sec).2.1,
                flags := (hsaDataSectionArgs sec).2.2, segment := some seg }] ∧
      img1.segments = img.segments ∧
      c1.dataSections = c.dataSections ++ [some img.sections.length] ∧
      c1.hsaSections sec = some img.sections.length ∧
      c1.hsaSegments = c.hsaSegments ∧ c1.dataSegments = c.dataSegments ∧
      c1.symbols = c.symbols ∧
      ∀ asserts1 combineSegments1,
        AmdHsaCode.HsaDataSection asserts1 (specBuilder E) c1 sec combineSegments1 =
          .ok (some img.sections.length, c1)) ∧
    (∀ (asserts2 : Bool) (B : ElfBuilder) (c2 : AmdHsaCode) (combineSegments2 : Bool) (p : Nat),
      c2.hsaSections sec = some p →
      AmdHsaCode.HsaDataSection asserts2 B c2 sec combineSegments2 = .ok (some p, c2)) := by
  refine ⟨?_, fun asserts2 B c2 k p h => HsaDataSection_cached asserts2 B c2 sec k p h⟩
  obtain ⟨c1, img1, h1, h2, h3, h4, h5, h6, -, h8, h9, h10⟩ :=
    HsaDataSection_sound asserts E c img sec combineSegments seg himg hsec hseg
  exact ⟨c1, img1, h1, h2, h3, h4, h5, h6, h8, h9, h10,
    fun a k => HsaDataSection_cached a _ c1 sec k _ h6⟩

/-- C23, amended, on a new object after `InitHsaSectionSegment` for the
category RODATA_GLOBAL_AGENT with split segments: the slot holds segment 0 and
the first call creates section 0 anchored to it. -/
theorem C23_HsaDataSection_get_or_create_witness :
    ∃ c0 c1 img1,
      AmdHsaCode.InitHsaSectionSegment sampleBuilder sampleNew AMDGPU_HSA_RODATA_GLOBAL_AGENT
        false = .ok c0 ∧
      AmdHsaCode.HsaDataSection true sampleBuilder c0 AMDGPU_HSA_RODATA_GLOBAL_AGENT false =
        .ok (some 0, c1) ∧
      c1.img = some img1 ∧
      img1.sections =
        [some { Name := ".hsarodata_global_agent", type := SHT_PROGBITS,
                flags := SHF_ALLOC ||| SHF_AMDGPU_HSA_GLOBAL ||| SHF_AMDGPU_HSA_AGENT,
                segment := some 0 }] ∧
      c1.dataSections = [some 0] :=
  match (C23_HsaDataSection_get_or_create true failingSubstrate
      { sampleNew with
        img := some { Machine := EM_AMDGPU, type := ET_EXEC, os_abi := ELFOSABI_AMDGPU_HSA,
                      segments := [{ type := PT_LOOS + 1, flags := PF_R }] },
        hsaSegments := fun s w =>
          if s = AMDGPU_HSA_SEGMENT_GLOBAL_AGENT ∧ w = false then some 0 else none }
      { Machine := EM_AMDGPU, type := ET_EXEC, os_abi := ELFOSABI_AMDGPU_HSA,
        segments := [{ type := PT_LOOS + 1, flags := PF_R }] }
      AMDGPU_HSA_RODATA_GLOBAL_AGENT false 0 rfl rfl rfl).1 with
  | ⟨c1, img1, h1, h2, h3, _, h5, _⟩ => ⟨_, c1, img1, rfl, h1, h2, h3, h5⟩

/-! ## C24: combineSegments decides sharing -/

/-- C24. `combineSegments` decides sharing. Take a read-only-data category `ro`
and a writable category `rw` of the same segment class, on an object with
sound segment slots and no cached section for either, over the substrate of
section 6. After `InitHsaSectionSegment(ro, k)`, `InitHsaSectionSegment(rw, k)`,
`HsaDataSection(ro, k)` and `HsaDataSection(rw, k)` the two sections exist and
are anchored to the segments `i` and `j`. With `k = true` both are the segment
held in the writable slot of the class. With `k = false`, `i` is the segment
in the non-writable slot, `j` the one in the writable slot, and they are two
distinct segments, the first without and the second with write permission.
In both cases the slot `InitHsaSectionSegment` fills is the one whose segment
`HsaDataSection` hands to the section, and no slot besides these is changed. -/
theorem C24_combineSegments_sharing (asserts : Bool) (E : ElfSubstrate) (c : AmdHsaCode)
    (img : Image) (ro rw : amdgpu_hsa_elf_section_t) (k : Bool)
    (himg : c.img = some img) (hsound : SlotsSound c img)
    (hro : IsAmdHsaElfSectionROData ro = true) (hrw : IsAmdHsaElfSectionROData rw = false)
    (hclass : AmdHsaElfSectionSegment ro = AmdHsaElfSectionSegment rw)
    (hsro : c.hsaSections ro = none) (hsrw : c.hsaSections rw = none) :
    ∃ c1 c2 c3 c4 img4 pro prw sro srw i j segi segj,
      AmdHsaCode.InitHsaSectionSegment (specBuilder E) c ro k = .ok c1 ∧
      AmdHsaCode.InitHsaSectionSegment (specBuilder E) c1 rw k = .ok c2 ∧
      AmdHsaCode.HsaDataSection asserts (specBuilder E) c2 ro k = .ok (some pro, c3) ∧
      AmdHsaCode.HsaDataSection asserts (specBuilder E) c3 rw k = .ok (some prw, c4) ∧
      c4.img = some img4 ∧ img4.section pro = some sro ∧ img4.section prw = some srw ∧
      sro.Name = (hsaDataSectionArgs ro).1 ∧ srw.Name = (hsaDataSectionArgs rw).1 ∧
      sro.segment = some i ∧ srw.segment = some j ∧
      img4.segments.get? i = some segi ∧ img4.segments.get? j = some segj ∧
      (segi.flags &&& PF_W ≠ 0 ↔ k = true) ∧ segj.flags &&& PF_W ≠ 0 ∧
      c4.hsaSegments (AmdHsaElfSectionSegment ro) k = some i ∧
      c4.hsaSegments (AmdHsaElfSectionSegment rw) true = some j ∧
      (k = true → i = j) ∧ (k = false → i ≠ j) ∧
      (∀ s w, ¬ (s = AmdHsaElfSectionSegment ro ∧ (w = k ∨ w = true)) →
        c4.hsaSegments s w = c.hsaSegments s w) := by
  have hne : ro ≠ rw := by
    intro e
    rw [e, hrw] at hro
    cases hro
  have hkro : (k || !IsAmdHsaElfSectionROData ro) = k := by simp [hro]
  have hkrw : (k || !IsAmdHsaElfSectionROData rw) = true := by simp [hrw]
  obtain ⟨c1, img1, i1, seg1, e1, himg1, hslot1, -, -, -, hoth1, -, hsound1, hsec1, hsects1, -, -⟩ :=
    InitHsaSegment_sound E c img (AmdHsaElfSectionSegment ro) k himg hsound
  obtain ⟨c2, img2, j, segj0, e2, himg2, hslot2, -, -, -, hoth2, -, hsound2, hsec2, -, -, -⟩ :=
    InitHsaSegment_sound E c1 img1 (AmdHsaElfSectionSegment rw) true himg1 hsound1
  have hslot_ro : c2.hsaSegments (AmdHsaElfSectionSegment ro) k = some (if k then j else i1) := by
    cases k with
    | true => simpa [hclass] using hslot2
    | false =>
      rw [hoth2 _ _ (by simp)]
      simpa using hslot1
  obtain ⟨c3, img3, e3, himg3, hsects3, hsegs3, -, hc3ro, hc3oth, hsg3, -, -⟩ :=
    HsaDataSection_sound asserts E c2 img2 ro k (if k then j else i1) himg2
      (by rw [hsec2, hsec1]; exact hsro) (by rw [hkro]; exact hslot_ro)
  obtain ⟨c4, img4, e4, himg4, hsects4, hsegs4, -, -, -, hsg4, -, -⟩ :=
    HsaDataSection_sound asserts E c3 img3 rw k j himg3
      (by rw [hc3oth rw (Ne.symm hne), hsec2, hsec1]; exact hsrw)
      (by rw [hsg3, hkrw]; exact hslot2)
  obtain ⟨segi, hgi, -, hwi⟩ := hsound2 _ _ _ hslot_ro
  obtain ⟨segj, hgj, -, hwj⟩ := hsound2 _ _ _ hslot2
  have hlen3 : img3.sections.length = img2.sections.length + 1 := by
    rw [hsects3]; simp
  have e1' : AmdHsaCode.InitHsaSectionSegment (specBuilder E) c ro k = .ok c1 := by
    simp only [AmdHsaCode.InitHsaSectionSegment, hkro]; exact e1
  have e2' : AmdHsaCode.InitHsaSectionSegment (specBuilder E) c1 rw k = .ok c2 := by
    simp only [AmdHsaCode.InitHsaSectionSegment, hkrw]; exact e2
  refine ⟨c1, c2, c3, c4, img4, img2.sections.length, img3.sections.length,
    { Name := (hsaDataSectionArgs ro).1, type := (hsaDataSectionArgs ro).2.1,
      flags := (hsaDataSectionArgs ro).2.2, segment := some (if k then j else i1) },
    { Name := (hsaDataSectionArgs rw).1, type := (hsaDataSectionArgs rw).2.1,
      flags := (hsaDataSectionArgs rw).2.2, segment := some j },
    (if k then j else i1), j, segi, segj, e1', e2', e3, e4, himg4, ?_, ?_, rfl, rfl, rfl, rfl,
    ?_, ?_, hwi, ?_, ?_, ?_, ?_, ?_, ?_⟩
  · simp only [Image.section, hsects4, hsects3, List.get?_eq_getElem?]
    rw [List.getElem?_append_left (by simp), List.getElem?_append_right (Nat.le_refl _)]
    simp
  · simp only [Image.section, hsects4, List.get?_eq_getElem?]
    rw [List.getElem?_append_right (Nat.le_refl _)]
    simp
  · rw [hsegs4, hsegs3]; exact hgi
  · rw [hsegs4, hsegs3]; exact hgj
  · exact hwj.mpr rfl
  · rw [hsg4, hsg3]; exact hslot_ro
  · rw [hsg4, hsg3]; exact hslot2
  · intro hk
    simp [hk]
  · intro hk
    subst hk
    intro hij
    simp only [Bool.false_eq_true, if_false] at hij hgi
    rw [hij, hgj] at hgi
    have hseg : segj = segi := Option.some.inj hgi
    rw [hseg] at hwj
    have := hwi.mp (hwj.mpr rfl)
    cases this
  · intro s w hsw
    rw [hsg4, hsg3]
    have h2 : c2.hsaSegments s w = c1.hsaSegments s w := by
      apply hoth2
      rintro ⟨hs, hw⟩
      exact hsw ⟨hs.trans hclass.symm, Or.inr hw⟩
    have h1 : c1.hsaSegments s w = c.hsaSegments s w := by
      apply hoth1
      rintro ⟨hs, hw⟩
      exact hsw ⟨hs, Or.inl hw⟩
    rw [h2, h1]

/-- C24 on a new object, whose slots are all empty, for the categories
RODATA_GLOBAL_PROGRAM and DATA_GLOBAL_PROGRAM with split segments. -/
theorem C24_combineSegments_sharing_witness :
    ∃ c1 c2 c3 c4 img4 pro prw sro srw i j segi segj,
      AmdHsaCode.InitHsaSectionSegment (specBuilder failingSubstrate) sampleNew
        AMDGPU_HSA_RODATA_GLOBAL_PROGRAM false = .ok c1 ∧
      AmdHsaCode.InitHsaSectionSegment (specBuilder failingSubstrate) c1
        AMDGPU_HSA_DATA_GLOBAL_PROGRAM false = .ok c2 ∧
      AmdHsaCode.HsaDataSection true (specBuilder failingSubstrate) c2
        AMDGPU_HSA_RODATA_GLOBAL_PROGRAM false = .ok (some pro, c3) ∧
      AmdHsaCode.HsaDataSection true (specBuilder failingSubstrate) c3
        AMDGPU_HSA_DATA_GLOBAL_PROGRAM false = .ok (some prw, c4) ∧
      c4.img = some img4 ∧ img4.section pro = some sro ∧ img4.section prw = some srw ∧
      sro.Name = (hsaDataSectionArgs AMDGPU_HSA_RODATA_GLOBAL_PROGRAM).1 ∧
      srw.Name = (hsaDataSectionArgs AMDGPU_HSA_DATA_GLOBAL_PROGRAM).1 ∧
      sro.segment = some i ∧ srw.segment = some j ∧
      img4.segments.get? i = some segi ∧ img4.segments.get? j = some segj ∧
      (segi.flags &&& PF_W ≠ 0 ↔ false = true) ∧ segj.flags &&& PF_W ≠ 0 ∧
      c4.hsaSegments (AmdHsaElfSectionSegment AMDGPU_HSA_RODATA_GLOBAL_PROGRAM) false = some i ∧
      c4.hsaSegments (AmdHsaElfSectionSegment AMDGPU_HSA_DATA_GLOBAL_PROGRAM) true = some j ∧
      (false = true → i = j) ∧ (false = false → i ≠ j) ∧
      (∀ s w, ¬ (s = AmdHsaElfSectionSegment AMDGPU_HSA_RODATA_GLOBAL_PROGRAM ∧
          (w = false ∨ w = true)) →
        c4.hsaSegments s w = sampleNew.hsaSegments s w) :=
  C24_combineSegments_sharing true failingSubstrate sampleNew
    { Machine := EM_AMDGPU, type := ET_EXEC, os_abi := ELFOSABI_AMDGPU_HSA }
    AMDGPU_HSA_RODATA_GLOBAL_PROGRAM AMDGPU_HSA_DATA_GLOBAL_PROGRAM false rfl
    (fun s w i h => by cases h) rfl rfl rfl rfl rfl

/-! ## C25: offsets of appended kernel code -/

set_option maxRecDepth 16384 in
/-- Fails as stated (C25). Two `AddKernelCode` calls with 0 bytes on the empty
code section of the sample object assign offset 0 to both symbols, and after
an append of 4 bytes two appends of 0 bytes both get offset 256: the offsets
are not strictly increasing. This is so on the substrate that pads in front of
the bytes it appends and on the one that pads behind them. -/
theorem C25_counterexample :
    (addKernelCodes true sampleBuilder sampleKernels
        [(0, fun _ => 0, 0), (1, fun _ => 0, 0)]).map (fun r => r.1) =
      .ok [some 0, some 0] ∧
    (addKernelCodes true (paddingBuilder failingSubstrate) sampleKernels
        [(0, fun _ => 0, 0), (1, fun _ => 0, 0)]).map (fun r => r.1) =
      .ok [some 0, some 0] ∧
    (addKernelCodes true sampleBuilder sampleKernels
        [(0, fun _ => 0, 4), (1, fun _ => 0, 0), (0, fun _ => 0, 0)]).map (fun r => r.1) =
      .ok [some 0, some 256, some 256] ∧
    (addKernelCodes true (paddingBuilder failingSubstrate) sampleKernels
        [(0, fun _ => 0, 4), (1, fun _ => 0, 0), (0, fun _ => 0, 0)]).map (fun r => r.1) =
      .ok [some 0, some 256, some 256] :=
  ⟨rfl, rfl, rfl, rfl⟩

/-- C25, amended. For every substrate whose `addData` writes at the next offset
that honours the alignment (`AppendsAligned`), and every sequence of
`AddKernelCode` calls with byte counts s1..sK on an object with a code section
and symbols that have an entry: every call succeeds and the offsets assigned
are the running sums that start at the section size rounded up to 256 and add
each byte count rounded up to 256. They are multiples of 256 and never
decrease, and they increase strictly when every byte count is positive. After
the K appends `NextKernelCodeOffset()` is the first offset plus the sum of the
K byte counts each rounded up to 256. The size of the code section is at least
the first offset plus the first K - 1 rounded byte counts plus the last byte
count, and at most that sum with the last byte count rounded up as well; on a
substrate that pads behind an append (`PadsBehind`) it is, after at least one
append, the first offset plus the sum of the K rounded byte counts. -/
theorem C25_append_only_offsets (asserts : Bool) (B : ElfBuilder) (c : AmdHsaCode)
    (img : Image) (t : Nat) (sec : Section) (calls : List (Nat × Mem × Nat))
    (hB : AppendsAligned B)
    (himg : c.img = some img) (htext : c.hsatext = some t) (hsec : img.section t = some sec)
    (hsyms : ∀ call ∈ calls, ∃ s, c.symbols.get? call.1 = some s ∧
      (img.symbol s.elfSym).isSome = true) :
    ∃ c1,
      addKernelCodes asserts B c calls =
        .ok ((roundedSums (alignUp sec.data.length 256)
          (calls.map (fun call => call.2.2))).map some, c1) ∧
      (∀ o ∈ roundedSums (alignUp sec.data.length 256) (calls.map (fun call => call.2.2)),
        256 ∣ o) ∧
      (roundedSums (alignUp sec.data.length 256) (calls.map (fun call => call.2.2))).Pairwise
        (fun a b => a ≤ b) ∧
      ((∀ call ∈ calls, 0 < call.2.2) →
        (roundedSums (alignUp sec.data.length 256) (calls.map (fun call => call.2.2))).Pairwise
          (fun a b => a < b)) ∧
      AmdHsaCode.NextKernelCodeOffset B c1 =
        .ok (alignUp sec.data.length 256 +
          ((calls.map (fun call => call.2.2)).map (fun s => alignUp s 256)).sum) ∧
      (∀ init last, calls.map (fun call => call.2.2) = init ++ [last] →
        ∃ n, c1.codeSize = some n ∧
          alignUp sec.data.length 256 + (init.map (fun s => alignUp s 256)).sum + last ≤ n ∧
          n ≤ alignUp sec.data.length 256 + (init.map (fun s => alignUp s 256)).sum +
            alignUp last 256) ∧
      (PadsBehind B → calls ≠ [] →
        c1.codeSize = some (alignUp sec.data.length 256 +
          ((calls.map (fun call => call.2.2)).map (fun s => alignUp s 256)).sum)) := by
  obtain ⟨c1, img1, sec1, h1, h2, h3, h4, -, h6, h7, h8⟩ :=
    addKernelCodes_aligned asserts B hB t calls c img sec himg htext hsec hsyms
  refine ⟨c1, h1, roundedSums_dvd _ _ (alignUp_dvd _), roundedSums_le _ _, ?_, ?_, ?_, ?_⟩
  · intro hpos
    apply roundedSums_lt
    intro s hs
    obtain ⟨call, hc, rfl⟩ := List.mem_map.mp hs
    exact hpos call hc
  · simp only [AmdHsaCode.NextKernelCodeOffset, AmdHsaCode.HsaText, h3, h2]
    rw [hB.2.1 img1 t 256 sec1 (by decide) h4, h6]
  · intro init last hsz
    refine ⟨sec1.data.length, ?_, h7 init last hsz, ?_⟩
    · simp only [AmdHsaCode.codeSize, AmdHsaCode.codeData, h2, h3, h4, Option.map_some']
    · have hge := alignUp_ge sec1.data.length
      rw [h6, hsz] at hge
      simp only [List.map_append, List.map_cons, List.map_nil, List.sum_append, List.sum_cons,
        List.sum_nil, Nat.add_zero] at hge
      omega
  · intro hp hne
    have hd := h8 hp (fun h => absurd h hne)
    rw [← h6, alignUp_of_dvd _ hd]
    simp only [AmdHsaCode.codeSize, AmdHsaCode.codeData, h2, h3, h4, Option.map_some']

set_option maxRecDepth 16384 in
/-- C25, amended, at three appends of 4, 300 and 1 bytes to the empty code
section of the sample object, on both substrates: the offsets are 0, 256 and
768 and the next offset is 1024; the section then holds 769 bytes on the
substrate that pads in front of an append and 1024 on the one that pads behind
it. -/
theorem C25_append_only_offsets_witness :
    (∃ c1,
      addKernelCodes true (specBuilder failingSubstrate) sampleKernels
          [(0, fun _ => 0, 4), (1, fun _ => 0, 300), (0, fun _ => 0, 1)] =
        .ok ([some 0, some 256, some 768], c1) ∧
      AmdHsaCode.NextKernelCodeOffset (specBuilder failingSubstrate) c1 = .ok 1024 ∧
      ∃ n, c1.codeSize = some n ∧ 769 ≤ n ∧ n ≤ 1024) ∧
    (∃ c1,
      addKernelCodes true (paddingBuilder failingSubstrate) sampleKernels
          [(0, fun _ => 0, 4), (1, fun _ => 0, 300), (0, fun _ => 0, 1)] =
        .ok ([some 0, some 256, some 768], c1) ∧
      AmdHsaCode.NextKernelCodeOffset (paddingBuilder failingSubstrate) c1 = .ok 1024 ∧
      c1.codeSize = some 1024) ∧
    (addKernelCodes true (specBuilder failingSubstrate) sampleKernels
        [(0, fun _ => 0, 4), (1, fun _ => 0, 300), (0, fun _ => 0, 1)]).map
        (fun r => r.2.codeSize) = .ok (some 769) ∧
    (addKernelCodes true (paddingBuilder failingSubstrate) sampleKernels
        [(0, fun _ => 0, 4), (1, fun _ => 0, 300), (0, fun _ => 0, 1)]).map
        (fun r => r.2.codeSize) = .ok (some 1024) :=
  ⟨match C25_append_only_offsets true (specBuilder failingSubstrate) sampleKernels
      sampleKernelsImage 0 sampleCodeSection
      [(0, fun _ => 0, 4), (1, fun _ => 0, 300), (0, fun _ => 0, 1)]
      (specBuilder_appendsAligned failingSubstrate) rfl rfl rfl (by decide) with
    | ⟨c1, h1, _, _, _, h5, h6, _⟩ => ⟨c1, h1, h5, h6 [4, 300] 1 rfl⟩,
   match C25_append_only_offsets true (paddingBuilder failingSubstrate) sampleKernels
      sampleKernelsImage 0 sampleCodeSection
      [(0, fun _ => 0, 4), (1, fun _ => 0, 300), (0, fun _ => 0, 1)]
      (paddingBuilder_appendsAligned failingSubstrate) rfl rfl rfl (by decide) with
    | ⟨c1, h1, _, _, _, h5, _, h7⟩ =>
      ⟨c1, h1, h5, h7 (paddingBuilder_padsBehind failingSubstrate) (List.cons_ne_nil _ _)⟩,
   rfl, rfl⟩

/-! ## C26: AddKernelCode back-patches the symbol -/

/-- C26. `AddKernelCode` back-patches the symbol. Over the substrate of section
6, on an object with a code section, for every symbol with an entry and every
byte string of length `size`: the call returns true; afterwards the symbol's
value is the offset at which the bytes were appended, a multiple of 256 (the
section size before the call rounded up), the bytes stand at that offset behind
the old content of the section, and the symbol's size is `size`; the symbol
list is the same and every other symbol-table entry is unchanged, as are the
name, type, binding and section of the patched one. In particular, after
`InitNew(false)`, `AddCodeSection()`, `AddExecutableSymbol("foo", kernel type,
global binding, 0, code section)` and `AddKernelCode(sym, 4 zero bytes)`,
`FindSymbol("foo")` returns that same symbol, with `Size()` 4 and section
offset 0. -/
theorem C26_AddKernelCode_back_patches (asserts : Bool) (E : ElfSubstrate) (c : AmdHsaCode)
    (img : Image) (t : Nat) (sec : Section) (sym : Nat) (s : Symbol) (e : ElfSymbol)
    (code : Mem) (size : Nat)
    (himg : c.img = some img) (htext : c.hsatext = some t) (hsec : img.section t = some sec)
    (hsym : c.symbols.get? sym = some s) (he : img.symbol s.elfSym = some e) :
    (∃ c1 img1,
      AmdHsaCode.AddKernelCode asserts (specBuilder E) c (some sym) code size = .ok (true, c1) ∧
      c1.img = some img1 ∧
      c1.valueOf sym = some (alignUp sec.data.length 256) ∧
      256 ∣ alignUp sec.data.length 256 ∧
      c1.sizeOf sym = some size ∧
      c1.codeData.map (fun d => d.take sec.data.length) = some sec.data ∧
      c1.codeData.map (fun d => (d.drop (alignUp sec.data.length 256)).take size) =
        some (readBytes code size) ∧
      c1.codeSize = some (alignUp sec.data.length 256 + size) ∧
      c1.symbols = c.symbols ∧
      (∀ j, j ≠ s.elfSym → img1.symbol j = img.symbol j) ∧
      img1.symbol s.elfSym =
        some { e with value := alignUp sec.data.length 256, size := size }) ∧
    (sampleMinimal.1 = some 0 ∧
      ∃ c3 img3 s3,
        AmdHsaCode.AddKernelCode true sampleBuilder sampleMinimal.2 sampleMinimal.1
          (fun _ => 0) 4 = .ok (true, c3) ∧
        c3.img = some img3 ∧
        AmdHsaCode.FindSymbol img3 c3 "foo" = .ok sampleMinimal.1 ∧
        c3.symbols.get? 0 = some s3 ∧
        Symbol.Size img3 s3 = .ok 4 ∧ Symbol.SectionOffset img3 s3 = .ok 0) := by
  constructor
  · obtain ⟨img1, h1, h2, -, h4, h5, -, -, -, -⟩ :=
      AddKernelCode_spec asserts E c img t sec sym s e code size himg htext hsec hsym he
    have hs1 : c.symbols[sym]? = some s := by
      rw [← List.get?_eq_getElem?]; exact hsym
    have hge := alignUp_ge sec.data.length
    refine ⟨{ c with img := some img1 }, img1, h1, rfl, ?_, alignUp_dvd _, ?_, ?_, ?_, ?_, rfl,
      h5, h4⟩
    · simp [AmdHsaCode.valueOf, hs1, h4]
    · simp [AmdHsaCode.sizeOf, hs1, h4]
    · simp [AmdHsaCode.codeData, htext, h2, List.append_assoc]
    · simp only [AmdHsaCode.codeData, htext, h2, Option.map_some', Option.some.injEq]
      rw [List.drop_append_of_le_length (by simp; omega)]
      rw [List.drop_of_length_le (by simp; omega)]
      simp [readBytes_length]
    · simp only [AmdHsaCode.codeSize, AmdHsaCode.codeData, htext, h2, Option.map_some',
        List.length_append, List.length_replicate, readBytes_length, Option.some.injEq]
      omega
  · exact ⟨rfl, _, _, _, rfl, rfl, rfl, rfl, rfl, rfl⟩

/-- C26 at the second symbol of the sample object, with the 3 bytes 1, 2, 3 of
code: value 0, size 3, and the first symbol untouched. -/
theorem C26_AddKernelCode_back_patches_witness :
    ∃ c1 img1,
      AmdHsaCode.AddKernelCode true (specBuilder failingSubstrate) sampleKernels (some 1)
        (fun i => i + 1) 3 = .ok (true, c1) ∧
      c1.img = some img1 ∧ c1.valueOf 1 = some 0 ∧ c1.sizeOf 1 = some 3 ∧
      c1.codeData.map (fun d => (d.drop 0).take 3) = some [1, 2, 3] ∧
      c1.codeSize = some 3 ∧ img1.symbol 0 = sampleKernelsImage.symbol 0 :=
  match (C26_AddKernelCode_back_patches true failingSubstrate sampleKernels sampleKernelsImage 0
      sampleCodeSection 1 (.kernel (KernelSymbol.construct 1 none) false)
      { name := "bar", type := STT_AMDGPU_HSA_KERNEL, binding := STB_GLOBAL, section_ := some 0 }
      (fun i => i + 1) 3 rfl rfl rfl rfl rfl).1 with
  | ⟨c1, img1, h1, h2, h3, _, h5, _, h7, h8, _, h10, _⟩ =>
    ⟨c1, img1, h1, h2, h3, h5, h7, h8, h10 0 (by decide)⟩

/-! ## C27: producer operations after Freeze -/

/-- Fails as stated (C27). The minimal object is frozen on a substrate that
refuses every change once frozen, and `Freeze()` returned true. Even so
`AddKernelCode` reports success; `AddExecutableSymbol` and `AddVariableSymbol`
return a new symbol and the symbol list grows from one to two entries;
`AddCodeSection` and `AddDataSection` append a null entry to the data-section
list; `AddSectionSymbols` appends a symbol to the symbol list. -/
theorem C27_counterexample :
    (AmdHsaCode.Freeze strictBuilder sampleMinimal.2).map (fun r => r.1) = .ok true ∧
    sampleFrozen.symbols.length = 1 ∧ sampleFrozen.dataSections = [some 0] ∧
    (AmdHsaCode.AddKernelCode true strictBuilder sampleFrozen (some 0) (fun _ => 0) 4).map
        (fun r => r.1) = .ok true ∧
    (AmdHsaCode.AddExecutableSymbol strictBuilder sampleFrozen "late" STT_AMDGPU_HSA_KERNEL
        STB_GLOBAL 0 none).1 = some 1 ∧
    (AmdHsaCode.AddExecutableSymbol strictBuilder sampleFrozen "late" STT_AMDGPU_HSA_KERNEL
        STB_GLOBAL 0 none).2.symbols.length = 2 ∧
    (AmdHsaCode.AddVariableSymbol strictBuilder sampleFrozen "late" STT_OBJECT
        STB_GLOBAL 0 (some 0) 0 4).2.symbols.length = 2 ∧
    (AmdHsaCode.AddCodeSection strictBuilder sampleFrozen none).2.dataSections =
      [some 0, none] ∧
    (AmdHsaCode.AddDataSection strictBuilder sampleFrozen ".hsadata_global_program" SHT_PROGBITS
        (SHF_ALLOC ||| SHF_WRITE ||| SHF_AMDGPU_HSA_GLOBAL) none).2.dataSections =
      [some 0, none] ∧
    (AmdHsaCode.AddSectionSymbols strictBuilder sampleFrozen).map (fun c => c.symbols.length) =
      .ok 2 :=
  ⟨rfl, by decide, by decide, rfl, by decide, by decide, by decide, by decide, by decide, rfl⟩

/-- C27, amended. The code object keeps no record of `Freeze()`, and no
producer mutation looks for one: what happens after `Freeze()` is what happens
before it. For every substrate and every code object on which `Freeze()` has
succeeded: `Freeze()` left the symbol list, the three registries and the
cached code section as they were and an image attached; afterwards
`AddKernelCode` returns true whenever it returns, and keeps the symbol list
and the data-section list; `AddCodeSection` and `AddDataSection` append the
section pointer the substrate returns, null included, to the data-section
list and return it; `AddExecutableSymbol` and `AddVariableSymbol` append one
symbol to the symbol list and return it; `AddSectionSymbols` keeps the old
symbols at the head of the symbol list. -/
theorem C27_Freeze_not_recorded (B : ElfBuilder) (c c1 : AmdHsaCode)
    (h : AmdHsaCode.Freeze B c = .ok (true, c1)) :
    (c1.symbols = c.symbols ∧ c1.dataSegments = c.dataSegments ∧
      c1.dataSections = c.dataSections ∧ c1.relocationSections = c.relocationSections ∧
      c1.hsatext = c.hsatext ∧ c1.img.isSome = true) ∧
    (∀ asserts sym code size r,
      AmdHsaCode.AddKernelCode asserts B c1 sym code size = .ok r →
      r.1 = true ∧ r.2.symbols = c1.symbols ∧ r.2.dataSections = c1.dataSections) ∧
    (∀ segment,
      (AmdHsaCode.AddCodeSection B c1 segment).2.dataSections =
        c1.dataSections ++ [(AmdHsaCode.AddCodeSection B c1 segment).1]) ∧
    (∀ name type flags segment,
      (AmdHsaCode.AddDataSection B c1 name type flags segment).2.dataSections =
        c1.dataSections ++ [(AmdHsaCode.AddDataSection B c1 name type flags segment).1]) ∧
    (∀ name type binding other section_,
      (AmdHsaCode.AddExecutableSymbol B c1 name type binding other section_).1 =
        some c1.symbols.length ∧
      ∃ s, (AmdHsaCode.AddExecutableSymbol B c1 name type binding other section_).2.symbols =
        c1.symbols ++ [s]) ∧
    (∀ name type binding other section_ value size,
      (AmdHsaCode.AddVariableSymbol B c1 name type binding other section_ value size).1 =
        some c1.symbols.length ∧
      ∃ s, (AmdHsaCode.AddVariableSymbol B c1 name type binding other section_ value
        size).2.symbols = c1.symbols ++ [s]) ∧
    (∀ c2, AmdHsaCode.AddSectionSymbols B c1 = .ok c2 →
      ∃ t, c2.symbols = c1.symbols ++ t) := by
  unfold AmdHsaCode.Freeze at h
  cases hc : c.img with
  | none => rw [hc] at h; cases h
  | some img =>
    rw [hc] at h
    simp only at h
    by_cases hf : (B.Freeze img).1 = true
    · simp only [hf, if_true, Except.ok.injEq, Prod.mk.injEq, true_and] at h
      have himg1 : c1.img = some (B.Freeze img).2 := by rw [← h]
      refine ⟨⟨by rw [← h], by rw [← h], by rw [← h], by rw [← h], by rw [← h],
        by rw [himg1]; rfl⟩, ?_, ?_, ?_, ?_, ?_, ?_⟩
      · intro asserts sym code size r hr
        unfold AmdHsaCode.AddKernelCode at hr
        cases ha : cAssert asserts sym.isSome with
        | error f => rw [ha] at hr; cases hr
        | ok u =>
          rw [ha] at hr
          simp only [bind, Except.bind, himg1] at hr
          cases ht : c1.HsaText with
          | none => rw [ht] at hr; cases hr
          | some text =>
            rw [ht] at hr
            simp only at hr
            cases hs : sym.bind (fun i => c1.symbols.get? i) with
            | none => rw [hs] at hr; cases hr
            | some s =>
              rw [hs] at hr
              simp only [pure, Except.pure, Except.ok.injEq] at hr
              rw [← hr]
              exact ⟨rfl, rfl, rfl⟩
      · intro segment
        simp only [AmdHsaCode.AddCodeSection, himg1]
      · intro name type flags segment
        simp only [AmdHsaCode.AddDataSection, himg1]
      · intro name type binding other section_
        simp only [AmdHsaCode.AddExecutableSymbol, himg1]
        exact ⟨trivial, _, rfl⟩
      · intro name type binding other section_ value size
        simp only [AmdHsaCode.AddVariableSymbol, himg1]
        exact ⟨trivial, _, rfl⟩
      · intro c2 h2
        simp only [AmdHsaCode.AddSectionSymbols, himg1] at h2
        cases hl : addSectionSymbolsLoop B c1.dataSections ((B.Freeze img).2, c1.symbols) with
        | error f => rw [hl] at h2; cases h2
        | ok st =>
          rw [hl] at h2
          simp only [Except.ok.injEq] at h2
          obtain ⟨t, ht⟩ := addSectionSymbolsLoop_appends B _ _ _ hl
          exact ⟨t, by rw [← h2]; exact ht⟩
    · have hff : (B.Freeze img).1 = false := by
        cases hb : (B.Freeze img).1
        · rfl
        · exact absurd hb hf
      rw [hff] at h
      simp only [Bool.false_eq_true, if_false, AmdHsaCode.ElfImageError, Except.ok.injEq,
        Prod.mk.injEq] at h
      exact absurd h.1 (by simp)

/-- C27, amended, at the minimal object frozen on the substrate that refuses
changes once frozen. -/
theorem C27_Freeze_not_recorded_witness :
    AmdHsaCode.Freeze strictBuilder sampleMinimal.2 = .ok (true, sampleFrozen) ∧
    (AmdHsaCode.AddExecutableSymbol strictBuilder sampleFrozen "late" STT_AMDGPU_HSA_KERNEL
        STB_GLOBAL 0 none).1 = some sampleFrozen.symbols.length ∧
    (AmdHsaCode.AddCodeSection strictBuilder sampleFrozen none).2.dataSections =
      sampleFrozen.dataSections ++ [(AmdHsaCode.AddCodeSection strictBuilder sampleFrozen none).1] :=
  ⟨rfl,
   ((C27_Freeze_not_recorded strictBuilder sampleMinimal.2 sampleFrozen rfl).2.2.2.2.1
      "late" STT_AMDGPU_HSA_KERNEL STB_GLOBAL 0 none).1,
   (C27_Freeze_not_recorded strictBuilder sampleMinimal.2 sampleFrozen rfl).2.2.1 none⟩

/-! ## C28: the registry invariant -/

/-- Fails as stated (C29). A new object gets a version note, a data section, a
variable "x" and the section symbols, and is frozen; its model has two
symbols, "x" and "__hsa_section.hsadata_global_program". Ingestion of the same
image into a fresh object succeeds and yields one symbol, "x": the entry of
section type that `AddSectionSymbols` made is skipped. -/
theorem C29_counterexample :
    runSteps true sampleBuilder sampleNew sampleSteps =
      .ok { sampleBuilt with img := some sampleBuiltImage } ∧
    (AmdHsaCode.Freeze sampleBuilder { sampleBuilt with img := some sampleBuiltImage }).map
      (fun r => (r.1, r.2.img.map (fun i => i.symtab))) =
        .ok (true, some sampleBuiltImage.symtab) ∧
    sampleBuilt.symbols.length = 2 ∧
    sampleBuilt.symbols.map (Symbol.view sampleBuiltImage) =
      [.ok ("x", .HSA_SYMBOL_LINKAGE_PROGRAM, 4),
       .ok ("__hsa_section.hsadata_global_program", .HSA_SYMBOL_LINKAGE_MODULE, 0)] ∧
    (AmdHsaCode.InitAsBuffer (sampleSubstrate sampleBuiltImage) (AmdHsaCode.construct false)
      4096 0).1 = true ∧
    (AmdHsaCode.InitAsBuffer (sampleSubstrate sampleBuiltImage) (AmdHsaCode.construct false)
      4096 0).2.symbols.length = 1 ∧
    (AmdHsaCode.InitAsBuffer (sampleSubstrate sampleBuiltImage) (AmdHsaCode.construct false)
      4096 0).2.symbols.map (Symbol.view sampleBuiltImage) =
      [.ok ("x", .HSA_SYMBOL_LINKAGE_PROGRAM, 4)] :=
  ⟨rfl, rfl, by decide, rfl, by decide, by decide, rfl⟩

/-- C29, amended. Whole-object round trip for the symbols ingestion reads back.
Take a code object built over the substrate of section 6 by `InitNew` followed
by producer calls (notes, sections, segments, symbols, `AddKernelCode`) in
which every symbol is added with kernel, object or common type and
`AddSectionSymbols` is not called; let `img` be its image and let the image
the substrate makes of the serialised buffer keep the note area and the name,
type, binding and size of every symbol-table entry. If re-ingestion of that
buffer into a fresh object succeeds, the new model has the same number of
symbols, which report the same names, linkages and sizes in the same order,
and every note lookup gives the same payload. -/
theorem C29_round_trip (asserts : Bool) (E E1 : ElfSubstrate) (b0 xnack b : Bool)
    (steps : List ProducerStep) (c c1 : AmdHsaCode) (img : Image) (buffer size : Nat)
    (hbuilt : runSteps asserts (specBuilder E)
      (AmdHsaCode.InitNew (specBuilder E) (AmdHsaCode.construct b0) xnack).2 steps = .ok c)
    (hrb : ∀ step ∈ steps, step.ReadBack)
    (himg : c.img = some img)
    (hsame : SameEntries img (E1.initAsBuffer E1.NewElf64Image buffer size).2)
    (hpull : AmdHsaCode.InitAsBuffer E1 (AmdHsaCode.construct b) buffer size = (true, c1)) :
    c1.img = some (E1.initAsBuffer E1.NewElf64Image buffer size).2 ∧
    c1.symbols.length = c.symbols.length ∧
    c1.symbols.map (Symbol.view (E1.initAsBuffer E1.NewElf64Image buffer size).2) =
      c.symbols.map (Symbol.view img) ∧
    (E1.initAsBuffer E1.NewElf64Image buffer size).2.notes = img.notes ∧
    (∀ t k, GetAmdNote (E1.initAsBuffer E1.NewElf64Image buffer size).2 t k =
      GetAmdNote img t k) := by
  have htr := runSteps_tracks asserts E steps _ c hbuilt hrb (InitNew_tracks E b0 xnack)
  obtain ⟨img0, himg0, hsyms⟩ := htr
  rw [himg] at himg0
  have hi : img0 = img := (Option.some.inj himg0).symm
  subst hi
  have hp := attachAndPull_PullElf _ _ c1 hpull
  have himg1 : c1.img = some (E1.initAsBuffer E1.NewElf64Image buffer size).2 := by
    have := attachAndPull_img (AmdHsaCode.construct b)
      (E1.initAsBuffer (AmdHsaCode.imageOrNew E1 (AmdHsaCode.construct b)) buffer size)
    unfold AmdHsaCode.InitAsBuffer at hpull
    rw [hpull] at this
    exact this
  have hs1 := PullElf_symbols_of_success _ _ c1 rfl hp
  have htypes : (E1.initAsBuffer E1.NewElf64Image buffer size).2.symtab.map (fun e => e.type) =
      img0.symtab.map (fun e => e.type) := by
    have := congrArg (List.map (fun q : String × Nat × Nat × Nat => q.2.1)) hsame.2
    simpa [List.map_map, Function.comp_def] using this
  have hidx : c1.symbols.map Symbol.elfSym = c.symbols.map Symbol.elfSym := by
    rw [hsyms, ← htypes]
    exact hs1
  refine ⟨himg1, ?_, ?_, hsame.1, ?_⟩
  · have := congrArg List.length hidx
    simpa using this
  · exact map_eq_of_key Symbol.elfSym _ _ _ _ hidx
      (fun s s1 hs => Symbol.view_eq img0 _ s s1 hsame hs)
  · intro t k
    unfold GetAmdNote
    rw [hsame.1]

/-- C29, amended, at a new object with a version note, a data section and the
variable "x", re-ingested from a buffer that holds its image. -/
theorem C29_round_trip_witness :
    (AmdHsaCode.InitAsBuffer (sampleSubstrate sampleRoundTripImage) (AmdHsaCode.construct false)
      4096 0).2.symbols.length = sampleRoundTrip.symbols.length ∧
    (AmdHsaCode.InitAsBuffer (sampleSubstrate sampleRoundTripImage) (AmdHsaCode.construct false)
      4096 0).2.symbols.map (Symbol.view sampleRoundTripImage) =
      sampleRoundTrip.symbols.map (Symbol.view sampleRoundTripImage) ∧
    sampleRoundTrip.symbols.map (Symbol.view sampleRoundTripImage) =
      [.ok ("x", .HSA_SYMBOL_LINKAGE_PROGRAM, 4)] :=
  ⟨(C29_round_trip true failingSubstrate (sampleSubstrate sampleRoundTripImage) false false
      false (sampleSteps.take 3) sampleRoundTrip
      (AmdHsaCode.InitAsBuffer (sampleSubstrate sampleRoundTripImage) (AmdHsaCode.construct false)
        4096 0).2
      sampleRoundTripImage 4096 0 rfl
      (by
        intro step hstep
        simp only [sampleSteps, List.take, List.mem_cons, List.mem_singleton] at hstep
        rcases hstep with rfl | rfl | rfl | h
        · trivial
        · trivial
        · exact (rfl : isIngestedType STT_OBJECT = true)
        · cases h)
      rfl ⟨rfl, rfl⟩ (Prod.ext (by decide) rfl)).2.1,
   (C29_round_trip true failingSubstrate (sampleSubstrate sampleRoundTripImage) false false
      false (sampleSteps.take 3) sampleRoundTrip
      (AmdHsaCode.InitAsBuffer (sampleSubstrate sampleRoundTripImage) (AmdHsaCode.construct false)
        4096 0).2
      sampleRoundTripImage 4096 0 rfl
      (by
        intro step hstep
        simp only [sampleSteps, List.take, List.mem_cons, List.mem_singleton] at hstep
        rcases hstep with rfl | rfl | rfl | h
        · trivial
        · trivial
        · exact (rfl : isIngestedType STT_OBJECT = true)
        · cases h)
      rfl ⟨rfl, rfl⟩ (Prod.ext (by decide) rfl)).2.2.1,
   rfl⟩

/-! ## C30: derived symbol attributes -/

/-- C30. Derived symbol attributes. For every symbol with an entry `e`: linkage
is PROGRAM exactly when the binding of `e` is global and MODULE otherwise; the
symbol is a declaration exactly when the type of `e` is common and a
definition otherwise; `GetInfo` returns success and stores these values for
LINKAGE and IS_DEFINITION. For every variable symbol whose entry has the
section `sec`: allocation is AGENT exactly when the flags of `sec` carry the
agent bit and PROGRAM otherwise; the storage segment is READONLY exactly when
they carry the readonly bit and GLOBAL otherwise; `GetInfo` returns success and
stores these values for VARIABLE_ALLOCATION and VARIABLE_SEGMENT. -/
theorem C30_derived_attributes (asserts : Bool) (img : Image) (sym : Symbol) (e : ElfSymbol)
    (value : Mem) (he : img.symbol sym.elfSym = some e) :
    ((Symbol.Linkage img sym = .ok .HSA_SYMBOL_LINKAGE_PROGRAM ↔ e.binding = STB_GLOBAL) ∧
      (Symbol.Linkage img sym = .ok .HSA_SYMBOL_LINKAGE_MODULE ↔ e.binding ≠ STB_GLOBAL) ∧
      (Symbol.IsDeclaration img sym = .ok true ↔ e.type = STT_COMMON) ∧
      (Symbol.IsDeclaration img sym = .ok false ↔ e.type ≠ STT_COMMON) ∧
      (Symbol.IsDefinition img sym = .ok true ↔ e.type ≠ STT_COMMON) ∧
      (Symbol.IsDefinition img sym = .ok false ↔ e.type = STT_COMMON) ∧
      Symbol.callGetInfo asserts img sym HSA_CODE_SYMBOL_INFO_LINKAGE value =
        (Symbol.Linkage img sym).map (fun l => (HSA_STATUS_SUCCESS, store32 value l.toNat)) ∧
      Symbol.callGetInfo asserts img sym HSA_CODE_SYMBOL_INFO_IS_DEFINITION value =
        (Symbol.IsDefinition img sym).map (fun d => (HSA_STATUS_SUCCESS, storeBool value d))) ∧
    (∀ sec, sym.IsVariableSymbol = true → img.sectionOf e = some sec →
      (Symbol.Allocation img sym = .ok .HSA_VARIABLE_ALLOCATION_AGENT ↔
        sec.flags &&& SHF_AMDGPU_HSA_AGENT ≠ 0) ∧
      (Symbol.Allocation img sym = .ok .HSA_VARIABLE_ALLOCATION_PROGRAM ↔
        sec.flags &&& SHF_AMDGPU_HSA_AGENT = 0) ∧
      (Symbol.Segment img sym = .ok .HSA_VARIABLE_SEGMENT_READONLY ↔
        sec.flags &&& SHF_AMDGPU_HSA_READONLY ≠ 0) ∧
      (Symbol.Segment img sym = .ok .HSA_VARIABLE_SEGMENT_GLOBAL ↔
        sec.flags &&& SHF_AMDGPU_HSA_READONLY = 0) ∧
      Symbol.callGetInfo asserts img sym HSA_CODE_SYMBOL_INFO_VARIABLE_ALLOCATION value =
        (Symbol.Allocation img sym).map (fun a => (HSA_STATUS_SUCCESS, store32 value a.toNat)) ∧
      Symbol.callGetInfo asserts img sym HSA_CODE_SYMBOL_INFO_VARIABLE_SEGMENT value =
        (Symbol.Segment img sym).map (fun g => (HSA_STATUS_SUCCESS, store32 value g.toNat))) := by
  have hlink : Symbol.Linkage img sym =
      .ok (if e.binding = STB_GLOBAL then .HSA_SYMBOL_LINKAGE_PROGRAM
        else .HSA_SYMBOL_LINKAGE_MODULE) := by
    simp [Symbol.Linkage, Symbol.elfsymOf, he, bind, Except.bind, pure, Except.pure]
  have hdecl : Symbol.IsDeclaration img sym = .ok (e.type == STT_COMMON) := by
    simp [Symbol.IsDeclaration, Symbol.elfsymOf, he, bind, Except.bind, pure, Except.pure]
  have hdef : Symbol.IsDefinition img sym = .ok (!(e.type == STT_COMMON)) := by
    simp [Symbol.IsDefinition, hdecl, bind, Except.bind, pure, Except.pure]
  have hname : Symbol.Name img sym = .ok e.name := Symbol.Name_of_resolves img sym e he
  constructor
  · refine ⟨?_, ?_, ?_, ?_, ?_, ?_, ?_, ?_⟩
    · rw [hlink]; by_cases h : e.binding = STB_GLOBAL <;> simp [h]
    · rw [hlink]; by_cases h : e.binding = STB_GLOBAL <;> simp [h]
    · rw [hdecl]; by_cases h : e.type = STT_COMMON <;> simp [h]
    · rw [hdecl]; by_cases h : e.type = STT_COMMON <;> simp [h]
    · rw [hdef]; by_cases h : e.type = STT_COMMON <;> simp [h]
    · rw [hdef]; by_cases h : e.type = STT_COMMON <;> simp [h]
    · rw [hlink]
      cases sym <;>
        simp [Symbol.callGetInfo, KernelSymbol.GetInfo, VariableSymbol.GetInfo, Symbol.GetInfo,
          hname, hlink, bind, Except.bind, pure, Except.pure, Except.map]
    · rw [hdef]
      cases sym <;>
        simp [Symbol.callGetInfo, KernelSymbol.GetInfo, VariableSymbol.GetInfo, Symbol.GetInfo,
          hname, hdef, bind, Except.bind, pure, Except.pure, Except.map]
  · intro sec hvar hsec
    have hso : Symbol.sectionOf img sym = .ok sec := by
      simp [Symbol.sectionOf, Symbol.elfsymOf, he, hsec, bind, Except.bind]
    have hagent : Symbol.IsAgent img sym = .ok (sec.flags &&& SHF_AMDGPU_HSA_AGENT != 0) := by
      simp [Symbol.IsAgent, hso, bind, Except.bind, pure, Except.pure]
    have halloc : Symbol.Allocation img sym =
        .ok (if (sec.flags &&& SHF_AMDGPU_HSA_AGENT != 0) = true
          then .HSA_VARIABLE_ALLOCATION_AGENT else .HSA_VARIABLE_ALLOCATION_PROGRAM) := by
      simp [Symbol.Allocation, hagent, bind, Except.bind, pure, Except.pure]
    have hseg : Symbol.Segment img sym =
        .ok (if (sec.flags &&& SHF_AMDGPU_HSA_READONLY != 0) = true
          then .HSA_VARIABLE_SEGMENT_READONLY else .HSA_VARIABLE_SEGMENT_GLOBAL) := by
      simp [Symbol.Segment, hso, bind, Except.bind, pure, Except.pure]
    refine ⟨?_, ?_, ?_, ?_, ?_, ?_⟩
    · rw [halloc]; by_cases h : sec.flags &&& SHF_AMDGPU_HSA_AGENT = 0 <;> simp [h]
    · rw [halloc]; by_cases h : sec.flags &&& SHF_AMDGPU_HSA_AGENT = 0 <;> simp [h]
    · rw [hseg]; by_cases h : sec.flags &&& SHF_AMDGPU_HSA_READONLY = 0 <;> simp [h]
    · rw [hseg]; by_cases h : sec.flags &&& SHF_AMDGPU_HSA_READONLY = 0 <;> simp [h]
    · rcases sym with ⟨k, v2⟩ | ⟨v, v2⟩
      · cases hvar
      · rw [halloc]
        simp [Symbol.callGetInfo, VariableSymbol.GetInfo, halloc, bind, Except.bind, pure,
          Except.pure, Except.map]
    · rcases sym with ⟨k, v2⟩ | ⟨v, v2⟩
      · cases hvar
      · rw [hseg]
        simp [Symbol.callGetInfo, VariableSymbol.GetInfo, hseg, bind, Except.bind, pure,
          Except.pure, Except.map]

/-- C30 at the module-linkage variable of the V1 sample image, whose section
carries the global flag only: MODULE linkage, a definition, PROGRAM allocation,
GLOBAL segment. -/
theorem C30_derived_attributes_witness :
    Symbol.Linkage sampleImageV1 (.variable { elfsym := 2 } false) =
      .ok .HSA_SYMBOL_LINKAGE_MODULE ∧
    Symbol.IsDefinition sampleImageV1 (.variable { elfsym := 2 } false) = .ok true ∧
    Symbol.Allocation sampleImageV1 (.variable { elfsym := 2 } false) =
      .ok .HSA_VARIABLE_ALLOCATION_PROGRAM ∧
    Symbol.Segment sampleImageV1 (.variable { elfsym := 2 } false) =
      .ok .HSA_VARIABLE_SEGMENT_GLOBAL :=
  ⟨(C30_derived_attributes true sampleImageV1 (.variable { elfsym := 2 } false)
      { name := "mod::var", type := STT_OBJECT, binding := 0, size := 4, section_ := some 2 }
      (fun _ => 0) rfl).1.2.1.mpr (by decide),
   (C30_derived_attributes true sampleImageV1 (.variable { elfsym := 2 } false)
      { name := "mod::var", type := STT_OBJECT, binding := 0, size := 4, section_ := some 2 }
      (fun _ => 0) rfl).1.2.2.2.2.1.mpr (by decide),
   ((C30_derived_attributes true sampleImageV1 (.variable { elfsym := 2 } false)
      { name := "mod::var", type := STT_OBJECT, binding := 0, size := 4, section_ := some 2 }
      (fun _ => 0) rfl).2
      { Name := ".hsadata_global_program", type := SHT_PROGBITS,
        flags := SHF_ALLOC ||| SHF_WRITE ||| SHF_AMDGPU_HSA_GLOBAL } rfl rfl).2.1.mpr (by decide),
   ((C30_derived_attributes true sampleImageV1 (.variable { elfsym := 2 } false)
      { name := "mod::var", type := STT_OBJECT, binding := 0, size := 4, section_ := some 2 }
      (fun _ => 0) rfl).2
      { Name := ".hsadata_global_program", type := SHT_PROGBITS,
        flags := SHF_ALLOC ||| SHF_WRITE ||| SHF_AMDGPU_HSA_GLOBAL } rfl rfl).2.2.2.1.mpr
      (by decide)⟩

/-! ## C31: V2 reads kernel-code records section-relative -/

/-- C31. V2 kernel-code records are read section-relative. For every image and
every code object: when `PullElfV2` succeeds, every entry of kernel type at an
index `i` of the symbol table has a section, the kernel-code record was read
from that section at the 64-bit difference of the entry's value and the
section's address, and the kernel symbol built from that record for index `i`
is in the symbol list; when `PullElfV1` succeeds the same holds with the
record read at the entry's value. A kernel-type entry whose record cannot be
read at that offset makes `PullElfV2`, respectively `PullElfV1`, fail. The
difference is value minus address when the address does not exceed the value;
so on an image whose kernel-type entries have sections with address 0, when
both dialects succeed they yield the same symbols, built from the same
records, up to the class (V1 or V2) of the symbol objects. -/
theorem C31_kernel_code_offset (img : Image) (c : AmdHsaCode) :
    ((AmdHsaCode.PullElfV2 img c).1 = true →
      ∀ i e, img.symbol i = some e → e.type = STT_AMDGPU_HSA_KERNEL →
        ∃ sec r, img.sectionOf e = some sec ∧
          sec.getData (sub64 e.value sec.addr) = some r ∧
          Symbol.kernel (KernelSymbol.construct i (some r)) true ∈
            (AmdHsaCode.PullElfV2 img c).2.symbols) ∧
    ((AmdHsaCode.PullElfV1 img c).1 = true →
      ∀ i e, img.symbol i = some e → e.type = STT_AMDGPU_HSA_KERNEL →
        ∃ sec r, img.sectionOf e = some sec ∧ sec.getData e.value = some r ∧
          Symbol.kernel (KernelSymbol.construct i (some r)) false ∈
            (AmdHsaCode.PullElfV1 img c).2.symbols) ∧
    (∀ e ∈ img.symtab, e.type = STT_AMDGPU_HSA_KERNEL →
      ∀ sec, img.sectionOf e = some sec → sec.getData (sub64 e.value sec.addr) = none →
        (AmdHsaCode.PullElfV2 img c).1 = false) ∧
    (∀ e ∈ img.symtab, e.type = STT_AMDGPU_HSA_KERNEL →
      ∀ sec, img.sectionOf e = some sec → sec.getData e.value = none →
        (AmdHsaCode.PullElfV1 img c).1 = false) ∧
    (∀ (e : ElfSymbol) (sec : Section), e.value < 2 ^ 64 → sec.addr ≤ e.value →
      sub64 e.value sec.addr = e.value - sec.addr) ∧
    ((∀ e ∈ img.symtab, e.type = STT_AMDGPU_HSA_KERNEL →
        e.value < 2 ^ 64 ∧ ∀ sec, img.sectionOf e = some sec → sec.addr = 0) →
      (AmdHsaCode.PullElfV1 img c).1 = true → (AmdHsaCode.PullElfV2 img c).1 = true →
      (AmdHsaCode.PullElfV2 img c).2.symbols.map (Symbol.asDialect false) =
        (AmdHsaCode.PullElfV1 img c).2.symbols.map (Symbol.asDialect false)) := by
  have hsym1 := (loops_out_symbols isLoadTypeV1 isDataSectionV1 ".hsatext" img c).2
  have hsym2 := (loops_out_symbols isLoadTypeV2 isDataSectionV2 ".text" img c).2
  have key1 := pullSymbols_cases (pullSymbolV1 img) img.symtab.enum
    (img.sections.enum.foldl (pullSection isDataSectionV1 ".hsatext")
      (img.segments.enum.foldl (pullSegment isLoadTypeV1) c))
  have key2 := pullSymbols_cases (pullSymbolV2 img) img.symtab.enum
    (img.sections.enum.foldl (pullSection isDataSectionV2 ".text")
      (img.segments.enum.foldl (pullSegment isLoadTypeV2) c))
  unfold AmdHsaCode.PullElfV1 AmdHsaCode.PullElfV2
  simp only
  refine ⟨?_, ?_, ?_, ?_, fun e sec hv hle => sub64_of_le _ _ hv hle, ?_⟩
  · intro hok i e he hk
    rcases key2 with ⟨hall, heq⟩ | ⟨pre, p, post, -, -, -, heq⟩
    · have hmem := mem_enum_of_symbol img i e he
      obtain ⟨sec, r, a1, a2, a3⟩ := pullSymbolV2_passes img i e hk (hall (i, e) hmem)
      refine ⟨sec, r, a1, a2, ?_⟩
      rw [heq]
      refine List.mem_append_right _ (List.mem_filterMap.mpr ⟨(i, e), hmem, ?_⟩)
      simp only [a3, Pulled.sym?]
    · rw [heq] at hok
      cases hok
  · intro hok i e he hk
    rcases key1 with ⟨hall, heq⟩ | ⟨pre, p, post, -, -, -, heq⟩
    · have hmem := mem_enum_of_symbol img i e he
      obtain ⟨sec, r, a1, a2, a3⟩ := pullSymbolV1_passes img i e hk (hall (i, e) hmem)
      refine ⟨sec, r, a1, a2, ?_⟩
      rw [heq]
      refine List.mem_append_right _ (List.mem_filterMap.mpr ⟨(i, e), hmem, ?_⟩)
      simp only [a3, Pulled.sym?]
    · rw [heq] at hok
      cases hok
  · intro e he hk sec hsec hd
    rcases key2 with ⟨hall, -⟩ | ⟨pre, p, post, -, -, -, heq⟩
    · obtain ⟨q, hq, rfl⟩ := exists_mem_enum _ e he
      have := (pullSymbolV2_isFail img q.1 q.2).mpr ⟨hk, Or.inr ⟨sec, hsec, Or.inr hd⟩⟩
      rw [hall q hq] at this
      cases this
    · rw [heq]
  · intro e he hk sec hsec hd
    rcases key1 with ⟨hall, -⟩ | ⟨pre, p, post, -, -, -, heq⟩
    · obtain ⟨q, hq, rfl⟩ := exists_mem_enum _ e he
      have := (pullSymbolV1_isFail img q.1 q.2).mpr ⟨hk, Or.inr ⟨sec, hsec, Or.inr hd⟩⟩
      rw [hall q hq] at this
      cases this
    · rw [heq]
  · intro h0 hok1 hok2
    rcases key1 with ⟨hall1, heq1⟩ | ⟨pre, p, post, -, -, -, heq1⟩
    · rcases key2 with ⟨hall2, heq2⟩ | ⟨pre, p, post, -, -, -, heq2⟩
      · rw [heq1, heq2]
        simp only [hsym1, hsym2, List.map_append, List.map_filterMap]
        congr 1
        apply List.filterMap_congr
        intro p hp
        exact pullSymbol_same_at_zero img p.1 p.2
          (h0 p.2 (snd_mem_of_mem_enum _ _ hp)) (hall1 p hp) (hall2 p hp)
      · rw [heq2] at hok2
        cases hok2
    · rw [heq1] at hok1
      cases hok1

/-- C31 at the two sample images. The kernel of the V2 image has value 256 in a
section with address 256: its record is read at offset 0. The sections of the
V1 image have address 0: both dialects succeed on it and yield the same
symbols up to their class. -/
theorem C31_kernel_code_offset_witness :
    (∃ sec r,
      sampleImageV2.sectionOf
          { name := "main", type := STT_AMDGPU_HSA_KERNEL, binding := STB_GLOBAL, value := 256,
            section_ := some 1 } = some sec ∧
      sec.getData (sub64 256 sec.addr) = some r ∧
      Symbol.kernel (KernelSymbol.construct 0 (some r)) true ∈
        (AmdHsaCode.PullElfV2 sampleImageV2 (AmdHsaCode.construct false)).2.symbols) ∧
    sub64 256 256 = 256 - 256 ∧
    (AmdHsaCode.PullElfV2 sampleImageV1 (AmdHsaCode.construct false)).2.symbols.map
        (Symbol.asDialect false) =
      (AmdHsaCode.PullElfV1 sampleImageV1 (AmdHsaCode.construct false)).2.symbols.map
        (Symbol.asDialect false) :=
  ⟨(C31_kernel_code_offset sampleImageV2 (AmdHsaCode.construct false)).1 (by decide) 0
      { name := "main", type := STT_AMDGPU_HSA_KERNEL, binding := STB_GLOBAL, value := 256,
        section_ := some 1 } rfl rfl,
   (C31_kernel_code_offset sampleImageV2 (AmdHsaCode.construct false)).2.2.2.2.1
      { name := "main", type := STT_AMDGPU_HSA_KERNEL, binding := STB_GLOBAL, value := 256,
        section_ := some 1 }
      { Name := ".text", type := SHT_PROGBITS, flags := SHF_ALLOC ||| SHF_EXECINSTR,
        addr := 256 } (by decide) (by decide),
   (C31_kernel_code_offset sampleImageV1 (AmdHsaCode.construct false)).2.2.2.2.2
      (by decide) (by decide) (by decide)⟩

/-! ## C32: AddInitVarWithAddress -/

/-- C32. `AddInitVarWithAddress` appends exactly one relocation. Over the
substrate of section 6, for symbols `dest` and `addrOf` of the code object such
that the entry of `dest` and its section exist (and the relocation section of
that section, if it has one): the call returns, and afterwards the records of
the relocation section of `dest`'s section are the records it had before
followed by one record whose type is `R_AMDGPU_64` when `large` is true and
`R_AMDGPU_32_LOW` otherwise, whose symbol is the entry of `addrOf`, whose
offset is the 64-bit sum of `dest`'s value and `destOffset` (the sum itself
when it is below 2^64) and whose addend is `addrAddend`. The symbol table and
the name, type, flags and bytes of every section are unchanged. For every
substrate, a call that returns leaves the symbol list, the data-section list,
the relocation-section list and the data-segment list of the code object
unchanged. -/
theorem C32_AddInitVarWithAddress (E : ElfSubstrate) (c : AmdHsaCode) (img : Image)
    (large : Bool) (dest destOffset addrOf addrAddend : Nat) (d a : Symbol) (e : ElfSymbol)
    (si : Nat) (sec : Section)
    (himg : c.img = some img) (hdest : c.symbols.get? dest = some d)
    (haddr : c.symbols.get? addrOf = some a) (he : img.symbol d.elfSym = some e)
    (hsi : e.section_ = some si) (hsec : img.section si = some sec)
    (hvalid : ∀ rel, sec.relocationSection = some rel → (img.section rel).isSome = true) :
    (∃ c1 img1,
      AmdHsaCode.AddInitVarWithAddress (specBuilder E) c large (some dest) destOffset
        (some addrOf) addrAddend = .ok c1 ∧
      c1.img = some img1 ∧
      img1.relocationsOf si = img.relocationsOf si ++
        [{ type := if large then R_AMDGPU_64 else R_AMDGPU_32_LOW, symbol := a.elfSym,
           offset := (e.value + destOffset) % 2 ^ 64, addend := addrAddend }] ∧
      (e.value + destOffset < 2 ^ 64 → (e.value + destOffset) % 2 ^ 64 = e.value + destOffset) ∧
      img1.symtab = img.symtab ∧ img.KeepsData img1) ∧
    (∀ (B : ElfBuilder) (c1 : AmdHsaCode),
      AmdHsaCode.AddInitVarWithAddress B c large (some dest) destOffset (some addrOf)
        addrAddend = .ok c1 →
      c1.symbols = c.symbols ∧ c1.dataSections = c.dataSections ∧
      c1.relocationSections = c.relocationSections ∧ c1.dataSegments = c.dataSegments) := by
  have hd : c.symbols[dest]? = some d := by
    rw [← List.get?_eq_getElem?]; exact hdest
  have ha : c.symbols[addrOf]? = some a := by
    rw [← List.get?_eq_getElem?]; exact haddr
  constructor
  · obtain ⟨img1, h1, h2, h3, h4⟩ := addRelocationAt_spec E img d e si sec
      (if large then R_AMDGPU_64 else R_AMDGPU_32_LOW) a.elfSym destOffset addrAddend
      he hsi hsec hvalid
    refine ⟨{ c with img := some img1 }, img1, ?_, rfl, h2, Nat.mod_eq_of_lt, h3, h4⟩
    simp only [AmdHsaCode.AddInitVarWithAddress, himg, Option.bind, List.get?_eq_getElem?, hd,
      ha, h1]
  · intro B c1 h
    simp only [AmdHsaCode.AddInitVarWithAddress, himg, Option.bind, List.get?_eq_getElem?, hd,
      ha] at h
    split at h
    · cases h
    · cases h
      exact ⟨rfl, rfl, rfl, rfl⟩

/-- C32 at the two variables of the sample object: the 64-bit address of "y"
plus 16 initialises "x" at offset 4. -/
theorem C32_AddInitVarWithAddress_witness :
    ∃ c1 img1,
      AmdHsaCode.AddInitVarWithAddress (specBuilder failingSubstrate) sampleVariables true
        (some 0) 4 (some 1) 16 = .ok c1 ∧
      c1.img = some img1 ∧
      img1.relocationsOf 0 =
        [{ type := R_AMDGPU_64, symbol := 1, offset := 4, addend := 16 }] ∧
      img1.symtab = sampleVariablesImage.symtab :=
  match (C32_AddInitVarWithAddress failingSubstrate sampleVariables sampleVariablesImage true
      0 4 1 16 (.variable { elfsym := 0 } false) (.variable { elfsym := 1 } false)
      { name := "x", type := STT_OBJECT, binding := STB_GLOBAL, value := 0, size := 8,
        section_ := some 0 }
      0 sampleDataSection rfl rfl rfl rfl rfl rfl (by intro rel h; cases h)).1 with
  | ⟨c1, img1, h1, h2, h3, _, h5, _⟩ => ⟨c1, img1, h1, h2, h3, h5⟩

/-! ## C33: the image and sampler initializers -/

/-- C33. `AddImageInitializer` and `AddSamplerInitializer`. Over the substrate
of section 6, for a target symbol of the code object whose entry and section
exist (and the relocation section of that section and the cached initializer
section, if there are any), each of the two calls returns, and afterwards:
the initializer section is the one the code object had cached for that kind,
or, when it had none, a new section (`.hsaimage_imageinit` or
`.hsaimage_samplerinit`), which is cached from then on; the descriptor, 40
bytes for an image and 8 for a sampler, stands in that section behind its old
bytes at the next multiple of 8; the symbol table has one more entry, a local
symbol of metadata type with the empty name whose value is that offset; and the
relocation section of the target's section has one more record, of type
`R_AMDGPU_INIT_IMAGE` or `R_AMDGPU_INIT_SAMPLER`, that references the new entry,
with the 64-bit sum of the target's value and `destOffset` as offset (the sum
itself when it is below 2^64) and addend 0. The symbol list of the code object
is the same. -/
theorem C33_initializers (E : ElfSubstrate) (c : AmdHsaCode) (img : Image)
    (target destOffset : Nat) (desc : Mem) (s : Symbol) (e : ElfSymbol) (si : Nat)
    (sec : Section)
    (himg : c.img = some img) (hsym : c.symbols.get? target = some s)
    (he : img.symbol s.elfSym = some e) (hsi : e.section_ = some si)
    (hsec : img.section si = some sec)
    (hvalid : ∀ rel, sec.relocationSection = some rel → (img.section rel).isSome = true)
    (himage : ∀ t, c.imageInit = some t → (img.section t).isSome = true)
    (hsampler : ∀ t, c.samplerInit = some t → (img.section t).isSome = true) :
    (∃ c1 img1 t,
      AmdHsaCode.AddImageInitializer (specBuilder E) c (some target) destOffset desc = .ok c1 ∧
      c1.img = some img1 ∧ c1.imageInit = some t ∧
      InitializerAdded img img1 c.imageInit t ".hsaimage_imageinit"
        (readBytes desc sizeof_image_descriptor_t) R_AMDGPU_INIT_IMAGE si
        ((e.value + destOffset) % 2 ^ 64) ∧
      c1.symbols = c.symbols) ∧
    (∃ c1 img1 t,
      AmdHsaCode.AddSamplerInitializer (specBuilder E) c (some target) destOffset desc = .ok c1 ∧
      c1.img = some img1 ∧ c1.samplerInit = some t ∧
      InitializerAdded img img1 c.samplerInit t ".hsaimage_samplerinit"
        (readBytes desc sizeof_sampler_descriptor_t) R_AMDGPU_INIT_SAMPLER si
        ((e.value + destOffset) % 2 ^ 64) ∧
      c1.symbols = c.symbols) ∧
    (readBytes desc sizeof_image_descriptor_t).length = 40 ∧
    (readBytes desc sizeof_sampler_descriptor_t).length = 8 ∧
    (e.value + destOffset < 2 ^ 64 → (e.value + destOffset) % 2 ^ 64 = e.value + destOffset) := by
  refine ⟨?_, ?_, readBytes_length _ _, readBytes_length _ _, Nat.mod_eq_of_lt⟩
  · obtain ⟨c1, img1, t, h1, h2, h3, h4, h5, -⟩ := AddImageInitializer_spec E c img target
      destOffset desc s e si sec himg hsym he hsi hsec hvalid himage
    exact ⟨c1, img1, t, h1, h2, h3, h4, h5⟩
  · obtain ⟨c1, img1, t, h1, h2, h3, h4, h5, -⟩ := AddSamplerInitializer_spec E c img target
      destOffset desc s e si sec himg hsym he hsi hsec hvalid hsampler
    exact ⟨c1, img1, t, h1, h2, h3, h4, h5⟩

/-- C33 at the sample object with two variables. The first image initializer,
on "x", creates the initializer section 1 and the metadata symbol 2; a second
one, on "y" at offset 4, uses section 1 again, writes its descriptor at offset
40, and its record follows the first one; a sampler initializer on the same
object creates the sampler section. -/
theorem C33_initializers_witness :
    (∃ c1 img1,
      AmdHsaCode.AddImageInitializer (specBuilder failingSubstrate) sampleVariables (some 0) 0
        (fun i => i + 1) = .ok c1 ∧
      c1.img = some img1 ∧ c1.imageInit = some 1 ∧
      img1.relocationsOf 0 =
        [{ type := R_AMDGPU_INIT_IMAGE, symbol := 2, offset := 0, addend := 0 }] ∧
      c1.symbols = sampleVariables.symbols) ∧
    (∃ c2 img2,
      AmdHsaCode.AddImageInitializer (specBuilder failingSubstrate) sampleInitialized (some 1) 4
        (fun i => i) = .ok c2 ∧
      c2.img = some img2 ∧ c2.imageInit = some 1 ∧
      img2.symtab = sampleInitializedImage.symtab ++
        [{ name := "", type := STT_AMDGPU_HSA_METADATA, binding := STB_LOCAL, value := 40,
           size := 0, section_ := some 1 }] ∧
      img2.relocationsOf 0 =
        [{ type := R_AMDGPU_INIT_IMAGE, symbol := 2, offset := 0, addend := 0 },
         { type := R_AMDGPU_INIT_IMAGE, symbol := 3, offset := 12, addend := 0 }]) ∧
    (∃ c3 img3,
      AmdHsaCode.AddSamplerInitializer (specBuilder failingSubstrate) sampleInitialized (some 1)
        4 (fun i => i) = .ok c3 ∧
      c3.img = some img3 ∧ c3.samplerInit = some 3 ∧
      img3.relocationsOf 0 =
        [{ type := R_AMDGPU_INIT_IMAGE, symbol := 2, offset := 0, addend := 0 },
         { type := R_AMDGPU_INIT_SAMPLER, symbol := 3, offset := 12, addend := 0 }]) := by
  refine ⟨?_, ?_, ?_⟩
  · obtain ⟨c1, img1, t, h1, h2, h3, ⟨ht, -, -, hrel⟩, h5⟩ :=
      (C33_initializers failingSubstrate sampleVariables sampleVariablesImage 0 0
        (fun i => i + 1) (.variable { elfsym := 0 } false)
        { name := "x", type := STT_OBJECT, binding := STB_GLOBAL, value := 0, size := 8,
          section_ := some 0 }
        0 sampleDataSection rfl rfl rfl rfl rfl (by intro rel h; cases h)
        (by intro t h; cases h) (by intro t h; cases h)).1
    have ht1 : t = 1 := ht
    subst ht1
    exact ⟨c1, img1, h1, h2, h3, hrel, h5⟩
  · obtain ⟨c2, img2, t, h1, h2, h3, ⟨ht, -, hsym, hrel⟩, -⟩ :=
      (C33_initializers failingSubstrate sampleInitialized sampleInitializedImage 1 4
        (fun i => i) (.variable { elfsym := 1 } false)
        { name := "y", type := STT_OBJECT, binding := STB_GLOBAL, value := 8, size := 4,
          section_ := some 0 }
        0 { sampleDataSection with relocationSection := some 2 } rfl rfl rfl rfl rfl
        (by intro rel h; cases h; rfl) (by intro t h; cases h; rfl)
        (by intro t h; cases h)).1
    have ht1 : t = 1 := ht
    subst ht1
    exact ⟨c2, img2, h1, h2, h3, hsym, hrel⟩
  · obtain ⟨c3, img3, t, h1, h2, h3, ⟨ht, -, -, hrel⟩, -⟩ :=
      (C33_initializers failingSubstrate sampleInitialized sampleInitializedImage 1 4
        (fun i => i) (.variable { elfsym := 1 } false)
        { name := "y", type := STT_OBJECT, binding := STB_GLOBAL, value := 8, size := 4,
          section_ := some 0 }
        0 { sampleDataSection with relocationSection := some 2 } rfl rfl rfl rfl rfl
        (by intro rel h; cases h; rfl) (by intro t h; cases h; rfl)
        (by intro t h; cases h)).2.1
    have ht1 : t = 3 := ht
    subst ht1
    exact ⟨c3, img3, h1, h2, h3, hrel⟩

/-! ## C34: the module name and its announced length -/

/-- Evaluates the code for C34 at the module-linkage variable "mod::var" of the
V1 sample image, for every content of the destination. `MODULE_NAME_LENGTH`
reports 4. `MODULE_NAME` stores "mod" and a NUL in the bytes 0 to 3 and a
second NUL in the byte at index 4, the first byte behind the announced length;
on a destination filled with 255 that byte changes from 255 to 0. The bytes
from index 5 on are left as they were. `NAME`, which has no such store, leaves
the byte at index 4 as it was. -/
theorem C34_module_name_writes_past_length (value : Mem) :
    (Symbol.callGetInfo true sampleImageV1 (.variable { elfsym := 2 } false)
        HSA_CODE_SYMBOL_INFO_MODULE_NAME_LENGTH value).map (fun r => (r.1, read32 r.2)) =
      .ok (HSA_STATUS_SUCCESS, 4) ∧
    (Symbol.callGetInfo true sampleImageV1 (.variable { elfsym := 2 } false)
        HSA_CODE_SYMBOL_INFO_MODULE_NAME value).map (fun r => (r.1, readBytes r.2 5)) =
      .ok (HSA_STATUS_SUCCESS, [109, 111, 100, 0, 0]) ∧
    (Symbol.callGetInfo true sampleImageV1 (.variable { elfsym := 2 } false)
        HSA_CODE_SYMBOL_INFO_MODULE_NAME (fun _ => 255)).map (fun r => (r.2 4, (fun _ => 255) 4)) =
      .ok (0, 255) ∧
    (∀ i, 5 ≤ i →
      (Symbol.callGetInfo true sampleImageV1 (.variable { elfsym := 2 } false)
        HSA_CODE_SYMBOL_INFO_MODULE_NAME value).map (fun r => r.2 i) = .ok (value i)) ∧
    (Symbol.callGetInfo true sampleImageV1 (.variable { elfsym := 2 } false)
        HSA_CODE_SYMBOL_INFO_NAME value).map (fun r => (readBytes r.2 4, r.2 4)) =
      .ok ([118, 97, 114, 0], value 4) := by
  refine ⟨rfl, rfl, rfl, ?_, rfl⟩
  intro i hi
  have h : Symbol.callGetInfo true sampleImageV1 (.variable { elfsym := 2 } false)
      HSA_CODE_SYMBOL_INFO_MODULE_NAME value =
      .ok (HSA_STATUS_SUCCESS,
        storeByte (memcpy (memset value 0 4) (bytesOf "mod") 3) 4 0) := rfl
  rw [h]
  simp only [Except.map, storeByte, memcpy, memset]
  have h4 : ¬ i = 4 := by omega
  have h3 : ¬ i < 3 := by omega
  have h5 : ¬ i < 4 := by omega
  simp only [h4, h3, h5, if_false]

/-! ## C35: constness and the write flag -/

/-- Evaluates the code for C35. `IsConst()` is true exactly when the flags of
the symbol's section carry the write flag, and `GetInfo(VARIABLE_IS_CONST)`
stores that value. On the sample image the variable "ro" in the section
without the write flag reports false and the variable "rw" in the writable
section reports true. -/
theorem C35_IsConst_is_writable :
    (∀ img sym, Symbol.IsConst img sym =
      (Symbol.sectionOf img sym).map (fun sec => sec.flags &&& SHF_WRITE != 0)) ∧
    (∀ asserts img v v2 value,
      Symbol.callGetInfo asserts img (.variable v v2)
          HSA_CODE_SYMBOL_INFO_VARIABLE_IS_CONST value =
        (Symbol.IsConst img (.variable v v2)).map
          (fun b => (HSA_STATUS_SUCCESS, storeBool value b))) ∧
    (Symbol.sectionOf sampleImageConst (.variable { elfsym := 0 } false)).map
        (fun sec => sec.flags &&& SHF_WRITE) = .ok 0 ∧
    Symbol.IsConst sampleImageConst (.variable { elfsym := 0 } false) = .ok false ∧
    (Symbol.callGetInfo true sampleImageConst (.variable { elfsym := 0 } false)
        HSA_CODE_SYMBOL_INFO_VARIABLE_IS_CONST (fun _ => 255)).map (fun r => (r.1, r.2 0)) =
      .ok (HSA_STATUS_SUCCESS, 0) ∧
    (Symbol.sectionOf sampleImageConst (.variable { elfsym := 1 } false)).map
        (fun sec => sec.flags &&& SHF_WRITE) = .ok SHF_WRITE ∧
    Symbol.IsConst sampleImageConst (.variable { elfsym := 1 } false) = .ok true ∧
    (Symbol.callGetInfo true sampleImageConst (.variable { elfsym := 1 } false)
        HSA_CODE_SYMBOL_INFO_VARIABLE_IS_CONST (fun _ => 255)).map (fun r => (r.1, r.2 0)) =
      .ok (HSA_STATUS_SUCCESS, 1) := by
  refine ⟨?_, ?_, rfl, rfl, rfl, rfl, rfl, rfl⟩
  · intro img sym
    unfold Symbol.IsConst
    cases h : Symbol.sectionOf img sym with
    | error f => rfl
    | ok sec => rfl
  · intro asserts img v v2 value
    unfold Symbol.callGetInfo VariableSymbol.GetInfo
    cases h : Symbol.IsConst img (.variable v v2) with
    | error f => simp [h, bind, Except.bind, Except.map]
    | ok b => simp [h, bind, Except.bind, pure, Except.pure, Except.map]

/-! ## C36: the result of PrintToFile -/

/-- Evaluates the code for C36. For every file system and every dump,
`PrintToFile` returns the fail state of the stream after `Print` when the file
opened, and false when it did not: true exactly when the file opened and the
stream failed while the dump was written. On a file that opens and a dump
written without a stream error it returns false; on a dump during which the
stream fails it returns true. -/
theorem C36_PrintToFile_returns_fail_state :
    (∀ (ofstream : String → OStream) (Print : OStream → OStream) (filename : String),
      AmdHsaCode.PrintToFile ofstream Print filename =
        (!(ofstream filename).fail && (Print (ofstream filename)).fail)) ∧
    (sampleOfstream "dump.txt").fail = false ∧
    (samplePrint (sampleOfstream "dump.txt")) = { fail := false, text := "dump\n" } ∧
    AmdHsaCode.PrintToFile sampleOfstream samplePrint "dump.txt" = false ∧
    (samplePrintFailing (sampleOfstream "dump.txt")).fail = true ∧
    AmdHsaCode.PrintToFile sampleOfstream samplePrintFailing "dump.txt" = true := by
  refine ⟨?_, rfl, rfl, rfl, rfl, rfl⟩
  intro ofstream Print filename
  unfold AmdHsaCode.PrintToFile
  cases h : (ofstream filename).fail <;> simp [h]

/-! ## C37: kernel symbols of the producer path -/

/-- C37. Kernel symbols created on the producer path carry no kernel-code
attributes. On an object with an image, for every substrate,
`AddExecutableSymbol` returns the position of a new kernel symbol at the end of
the symbol list; over every image `GetInfo` on that symbol returns success and
stores 0 for kernarg segment size, kernarg alignment, group segment size and
private segment size and false for dynamic callstack. Every `AddKernelCode`
on it that returns leaves the symbol in place, so the answers stay the same,
whatever the bytes are; over the substrate of section 6, on an object with a
code section, `AddKernelCode` on it returns true. -/
theorem C37_producer_kernel_attributes (asserts : Bool) (B : ElfBuilder) (E : ElfSubstrate)
    (c : AmdHsaCode) (img : Image) (name : String) (type binding other : Nat)
    (section_ : Option Nat) (himg : c.img = some img) :
    ∃ s,
      (AmdHsaCode.AddExecutableSymbol B c name type binding other section_).1 =
        some c.symbols.length ∧
      (AmdHsaCode.AddExecutableSymbol B c name type binding other section_).2.symbols =
        c.symbols ++ [s] ∧
      s.IsKernelSymbol = true ∧
      (∀ (img1 : Image) (value : Mem),
        Symbol.callGetInfo asserts img1 s HSA_CODE_SYMBOL_INFO_KERNEL_KERNARG_SEGMENT_SIZE value =
          .ok (HSA_STATUS_SUCCESS, store32 value 0) ∧
        Symbol.callGetInfo asserts img1 s
            HSA_CODE_SYMBOL_INFO_KERNEL_KERNARG_SEGMENT_ALIGNMENT value =
          .ok (HSA_STATUS_SUCCESS, store32 value 0) ∧
        Symbol.callGetInfo asserts img1 s HSA_CODE_SYMBOL_INFO_KERNEL_GROUP_SEGMENT_SIZE value =
          .ok (HSA_STATUS_SUCCESS, store32 value 0) ∧
        Symbol.callGetInfo asserts img1 s HSA_CODE_SYMBOL_INFO_KERNEL_PRIVATE_SEGMENT_SIZE value =
          .ok (HSA_STATUS_SUCCESS, store32 value 0) ∧
        Symbol.callGetInfo asserts img1 s HSA_CODE_SYMBOL_INFO_KERNEL_DYNAMIC_CALLSTACK value =
          .ok (HSA_STATUS_SUCCESS, storeBool value false)) ∧
      (∀ (code : Mem) (size : Nat) (r : Bool × AmdHsaCode),
        AmdHsaCode.AddKernelCode asserts B
            (AmdHsaCode.AddExecutableSymbol B c name type binding other section_).2
            (AmdHsaCode.AddExecutableSymbol B c name type binding other section_).1 code size =
          .ok r →
        r.2.symbols.get? c.symbols.length = some s) ∧
      (∀ (t : Nat) (sec : Section) (code : Mem) (size : Nat),
        c.hsatext = some t → img.section t = some sec →
        ∃ c2,
          AmdHsaCode.AddKernelCode asserts (specBuilder E)
              (AmdHsaCode.AddExecutableSymbol (specBuilder E) c name type binding other
                section_).2
              (AmdHsaCode.AddExecutableSymbol (specBuilder E) c name type binding other
                section_).1 code size = .ok (true, c2) ∧
          c2.symbols.get? c.symbols.length =
            some (.kernel (KernelSymbol.construct img.symtab.length none) false)) := by
  have hadd : ∀ B : ElfBuilder,
      AmdHsaCode.AddExecutableSymbol B c name type binding other section_ =
        (some c.symbols.length,
          { c with
            img := some (B.addSymbol img (if section_.isNone then c.HsaText else section_)
              name 0 0 type binding other).2,
            symbols := c.symbols ++ [.kernel (KernelSymbol.construct
              (B.addSymbol img (if section_.isNone then c.HsaText else section_)
                name 0 0 type binding other).1 none) false] }) := by
    intro B
    unfold AmdHsaCode.AddExecutableSymbol
    rw [himg]
  refine ⟨.kernel (KernelSymbol.construct
    (B.addSymbol img (if section_.isNone then c.HsaText else section_)
      name 0 0 type binding other).1 none) false, ?_, ?_, rfl, ?_, ?_, ?_⟩
  · rw [hadd B]
  · rw [hadd B]
  · intro img1 value
    exact ⟨rfl, rfl, rfl, rfl, rfl⟩
  · intro code size r h
    rw [hadd B] at h
    unfold AmdHsaCode.AddKernelCode at h
    simp only [cAssert, Option.isSome_some, Bool.not_true, Bool.and_false, Bool.false_eq_true,
      if_false, bind, Except.bind, pure, Except.pure] at h
    split at h
    · split at h
      · cases h
      · cases h
        simp
    · cases h
  · intro t sec code size ht hsec
    rw [hadd (specBuilder E)]
    have hs : (specBuilder E).addSymbol = Image.addSymbol := rfl
    rw [hs]
    obtain ⟨img1, h1, -⟩ := AddKernelCode_spec asserts E
      { c with
        img := some (img.addSymbol (if section_.isNone then c.HsaText else section_)
          name 0 0 type binding other).2,
        symbols := c.symbols ++ [.kernel (KernelSymbol.construct
          (img.addSymbol (if section_.isNone then c.HsaText else section_)
            name 0 0 type binding other).1 none) false] }
      (img.addSymbol (if section_.isNone then c.HsaText else section_)
        name 0 0 type binding other).2 t sec c.symbols.length
      (.kernel (KernelSymbol.construct img.symtab.length none) false)
      { name := name, type := type, binding := binding, value := 0, size := 0,
        section_ := (if section_.isNone then c.HsaText else section_), other := other }
      code size rfl ht hsec (by simp [Image.addSymbol])
      (by simp [Image.addSymbol, Image.symbol, Symbol.elfSym, KernelSymbol.construct])
    refine ⟨_, h1, ?_⟩
    simp [Image.addSymbol]

/-- C37 at the symbol "foo" added to a new object with a code section, and at
`AddKernelCode` with 4 bytes of code on it. -/
theorem C37_producer_kernel_attributes_witness :
    ∃ s c2,
      (AmdHsaCode.AddExecutableSymbol sampleBuilder sampleCode "foo" STT_AMDGPU_HSA_KERNEL
        STB_GLOBAL 0 (some 0)).2.symbols = sampleCode.symbols ++ [s] ∧
      Symbol.callGetInfo true sampleCodeImage s
          HSA_CODE_SYMBOL_INFO_KERNEL_KERNARG_SEGMENT_SIZE (fun _ => 255) =
        .ok (HSA_STATUS_SUCCESS, store32 (fun _ => 255) 0) ∧
      Symbol.callGetInfo true sampleCodeImage s
          HSA_CODE_SYMBOL_INFO_KERNEL_DYNAMIC_CALLSTACK (fun _ => 255) =
        .ok (HSA_STATUS_SUCCESS, storeBool (fun _ => 255) false) ∧
      AmdHsaCode.AddKernelCode true (specBuilder failingSubstrate)
          (AmdHsaCode.AddExecutableSymbol (specBuilder failingSubstrate) sampleCode "foo"
            STT_AMDGPU_HSA_KERNEL STB_GLOBAL 0 (some 0)).2
          (AmdHsaCode.AddExecutableSymbol (specBuilder failingSubstrate) sampleCode "foo"
            STT_AMDGPU_HSA_KERNEL STB_GLOBAL 0 (some 0)).1 (fun i => i + 1) 4 = .ok (true, c2) ∧
      c2.symbols.get? sampleCode.symbols.length =
        some (.kernel (KernelSymbol.construct sampleCodeImage.symtab.length none) false) :=
  match C37_producer_kernel_attributes true sampleBuilder failingSubstrate sampleCode
      sampleCodeImage "foo" STT_AMDGPU_HSA_KERNEL STB_GLOBAL 0 (some 0) rfl with
  | ⟨s, _, h2, _, h4, _, h6⟩ =>
    match h6 0 sampleCodeSection (fun i => i + 1) 4 rfl rfl with
    | ⟨c2, h7, h8⟩ =>
      ⟨s, c2, h2, (h4 sampleCodeImage (fun _ => 255)).1,
        (h4 sampleCodeImage (fun _ => 255)).2.2.2.2, h7, h8⟩

/-! ## C38: the size of a variable in 32 bits -/

/-- C38. `GetInfo(VARIABLE_SIZE)` reports the symbol's size reduced to 32 bits.
For every variable symbol whose entry has the size `n`, the call returns
success and stores `n mod 2^32` as a 32-bit scalar: the destination then reads
`n mod 2^32` and its bytes from index 4 on are unchanged. The stored value
equals `n` exactly when `n < 2^32`; `Size()` itself is `n`. -/
theorem C38_variable_size_32 (asserts : Bool) (img : Image) (v : VariableSymbol) (v2 : Bool)
    (e : ElfSymbol) (value : Mem) (he : img.symbol v.elfsym = some e) :
    Symbol.Size img (.variable v v2) = .ok e.size ∧
    Symbol.callGetInfo asserts img (.variable v v2) HSA_CODE_SYMBOL_INFO_VARIABLE_SIZE value =
      .ok (HSA_STATUS_SUCCESS, store32 value (e.size % 2 ^ 32)) ∧
    read32 (store32 value (e.size % 2 ^ 32)) = e.size % 2 ^ 32 ∧
    (∀ i, 4 ≤ i → store32 value (e.size % 2 ^ 32) i = value i) ∧
    (e.size % 2 ^ 32 = e.size ↔ e.size < 2 ^ 32) := by
  have hsize : Symbol.Size img (.variable v v2) = .ok e.size := by
    simp [Symbol.Size, Symbol.elfsymOf, Symbol.elfSym, he, bind, Except.bind, pure, Except.pure]
  refine ⟨hsize, ?_, ?_, ?_, ?_⟩
  · simp [Symbol.callGetInfo, VariableSymbol.GetInfo, hsize, bind, Except.bind, pure, Except.pure]
  · rw [read32_store32, Nat.mod_mod]
  · intro i hi
    have h : ¬ i < 4 := by omega
    simp only [store32, h, if_false]
  · constructor
    · intro h
      rw [← h]
      exact Nat.mod_lt _ (by decide)
    · intro h
      exact Nat.mod_eq_of_lt h

/-- C38 at a variable of size 2^32 + 4: the call stores 4. -/
theorem C38_variable_size_32_witness :
    Symbol.Size sampleImageBigVariable (.variable { elfsym := 0 } false) = .ok 4294967300 ∧
    Symbol.callGetInfo true sampleImageBigVariable (.variable { elfsym := 0 } false)
        HSA_CODE_SYMBOL_INFO_VARIABLE_SIZE (fun _ => 255) =
      .ok (HSA_STATUS_SUCCESS, store32 (fun _ => 255) (4294967300 % 2 ^ 32)) ∧
    read32 (store32 (fun _ => 255) (4294967300 % 2 ^ 32)) = 4 :=
  ⟨(C38_variable_size_32 true sampleImageBigVariable { elfsym := 0 } false
      { name := "big", type := STT_OBJECT, binding := STB_GLOBAL, size := 4294967300,
        section_ := some 0 } (fun _ => 255) rfl).1,
   (C38_variable_size_32 true sampleImageBigVariable { elfsym := 0 } false
      { name := "big", type := STT_OBJECT, binding := STB_GLOBAL, size := 4294967300,
        section_ := some 0 } (fun _ => 255) rfl).2.1,
   (C38_variable_size_32 true sampleImageBigVariable { elfsym := 0 } false
      { name := "big", type := STT_OBJECT, binding := STB_GLOBAL, size := 4294967300,
        section_ := some 0 } (fun _ => 255) rfl).2.2.1⟩

end amd.hsa.code
